import Mathlib

/-!
# TWHG level creator: the play simulation of `script.js`

A shallow embedding of the real-time play simulation (`updatePlay`, `moveAxis`,
the path helpers and `die` / `win`) of `src/script.js`, followed by theorems
about it.

Numbers are JavaScript doubles in the source; here they are real numbers
(exact arithmetic), so `Math.hypot a b` is `Real.sqrt (a^2 + b^2)`,
`Math.SQRT2` is `Real.sqrt 2` and `Math.floor` is `Int.floor`.  Definitions that
compare or divide reals are therefore not executable; the discrete parts
(key resolution, door lookup, tile lookup) are.

The mutable globals of the script are gathered in two records: `Level` (what
the session reads but never writes) and `Play` (what a tick may write).
-/

set_option autoImplicit false
set_option maxHeartbeats 4000000

noncomputable section

namespace TWHG

/-! ## Constants (script.js 17-26) -/

def TILE : ℝ := 32
def PLAYER_SIZE : ℝ := 22
def COIN_RADIUS : ℝ := 7
def ENEMY_RADIUS : ℝ := 12

def TILE_EMPTY : ℕ := 0
def TILE_WALL : ℕ := 1
def TILE_GOAL : ℕ := 2
def TILE_ICE : ℕ := 3
def TILE_CHECKPOINT : ℕ := 4

/-! ## Data model -/

/-- A grid cell `{gx, gy}` (used for `playerSpawn` and `checkpointPos`). -/
structure Cell where
  gx : ℤ
  gy : ℤ
deriving DecidableEq

/-- A pixel point `{px, py}`. -/
structure Pt where
  px : ℝ
  py : ℝ

/-- The object `player = {x, y}`. -/
structure Player where
  x : ℝ
  y : ℝ

/-- A coin `{gx, gy}`. -/
structure Coin where
  gx : ℤ
  gy : ℤ
deriving DecidableEq

/-- An authored key `{id, gx, gy}` (the colour is display only). -/
structure Key where
  id : ℕ
  gx : ℤ
  gy : ℤ
deriving DecidableEq

/-- A runtime key of `playKeys`: the authored key plus `px`, `py`, `collected`. -/
structure PlayKey where
  id : ℕ
  gx : ℤ
  gy : ℤ
  px : ℝ
  py : ℝ
  collected : Bool

/-- An authored door `{id, gx, gy, keyId}`; `keyId` is `null` or a key id. -/
structure Door where
  id : ℕ
  gx : ℤ
  gy : ℤ
  keyId : Option ℕ
deriving DecidableEq

/-- A runtime door of `playDoors`: the authored door plus the flag `open`
(named `isOpen` here, `open` being reserved). -/
structure PlayDoor where
  id : ℕ
  gx : ℤ
  gy : ℤ
  keyId : Option ℕ
  isOpen : Bool
deriving DecidableEq

/-- An authored enemy.  The script keeps the fields of both motion kinds on
every enemy object; `isOrbit` stands for `type === 'orbit'`. -/
structure Enemy where
  isOrbit : Bool
  x1 : ℝ
  y1 : ℝ
  x2 : ℝ
  y2 : ℝ
  keyframes : List Pt
  phase : ℝ
  forward : Bool
  duration : ℝ
  loopMode : Bool
  cx : ℝ
  cy : ℝ
  radius : ℝ
  orbitDuration : ℝ
  startAngle : ℝ
  clockwise : Bool

/-- A runtime enemy of `playEnemies`: the authored enemy (`...en`) plus the
runtime fields.  An orbit enemy uses `angle`, `angularSpeed`; a linear one uses
`t`, `dir`, `speed`, `len`. -/
structure PlayEnemy where
  en : Enemy
  px : ℝ
  py : ℝ
  angle : ℝ
  angularSpeed : ℝ
  t : ℝ
  dir : ℝ
  speed : ℝ
  len : ℝ

/-- What a session reads and never writes: the editor globals `COLS`, `ROWS`,
`grid`, `playerSpawn`, `coins`, `keys`, `doors`, `enemies`, `currentTimeLimit`,
`currentPlayerSpeed`.  `grid gy gx` is `grid[gy][gx]`; the script reads it only
after `inBounds(gx, gy)`. -/
structure Level where
  COLS : ℕ
  ROWS : ℕ
  grid : ℤ → ℤ → ℕ
  playerSpawn : Cell
  coins : List Coin
  keys : List Key
  doors : List Door
  enemies : List Enemy
  currentTimeLimit : ℝ
  currentPlayerSpeed : ℝ

/-- The mutable play globals of the script (section PLAY STATE, lines 180-193)
together with `playMode`, `animFrameId` (`none` for `null`), the text of the
`hud-msg` element and whether the win overlay is shown.  `player` is never
`null` once a session has been built, so it is a plain record here. -/
structure Play where
  player : Player
  playerVx : ℝ
  playerVy : ℝ
  playerOnIce : Bool
  iceLockedVx : ℝ
  iceLockedVy : ℝ
  playerDying : Bool
  deathCooldown : ℝ
  playCoins : List Coin
  playEnemies : List PlayEnemy
  playDoors : List PlayDoor
  playKeys : List PlayKey
  deaths : ℕ
  collectedKeyIds : List ℕ
  playTimer : ℝ
  checkpointPos : Option Cell
  playMode : Bool
  animFrameId : Option ℕ
  hudMsg : String
  winOverlay : Bool

/-! ## Helpers (script.js 204-205) and path helpers (283-306) -/

/-- `Math.hypot(a, b)`. -/
def hypot (a b : ℝ) : ℝ := Real.sqrt (a ^ 2 + b ^ 2)

/-- `Math.SQRT2`. -/
def SQRT2 : ℝ := Real.sqrt 2

/-- `tileCenter(gx, gy)`. -/
def tileCenter (gx gy : ℤ) : Pt :=
  { px := (gx : ℝ) * TILE + TILE / 2, py := (gy : ℝ) * TILE + TILE / 2 }

/-- `inBounds(gx, gy)`. -/
def inBounds (L : Level) (gx gy : ℤ) : Prop :=
  gx ≥ 0 ∧ gx < (L.COLS : ℤ) ∧ gy ≥ 0 ∧ gy < (L.ROWS : ℤ)

instance (L : Level) (gx gy : ℤ) : Decidable (inBounds L gx gy) := by
  unfold inBounds; infer_instance

/-- `getWaypoints(en)`: `[A, keyframes..., B]`. -/
def getWaypoints (en : Enemy) : List Pt :=
  ({ px := en.x1, py := en.y1 } : Pt) :: (en.keyframes ++ [({ px := en.x2, py := en.y2 } : Pt)])

/-- The loop of `totalPathLength`: the sum of the consecutive waypoint
distances. -/
def pathLength : List Pt → ℝ
  | a :: b :: rest => hypot (b.px - a.px) (b.py - a.py) + pathLength (b :: rest)
  | _ => 0

/-- `totalPathLength(en)`. -/
def totalPathLength (en : Enemy) : ℝ := pathLength (getWaypoints en)

/-- The loop of `positionAlongPath` from segment `wps[i-1] -> wps[i]` on, with
`dist` the distance still to walk.  A segment is the last one exactly when
nothing follows it (`i === wps.length-1`).  `fallback` is the value returned
after the loop, `{px: en.x2, py: en.y2}`. -/
def walkPath (fallback : Pt) : List Pt → ℝ → Pt
  | a :: b :: rest, dist =>
    let seg := hypot (b.px - a.px) (b.py - a.py)
    if dist ≤ seg ∨ rest.isEmpty = true then
      let f := if seg > 0 then min (dist / seg) 1 else 0
      { px := a.px + (b.px - a.px) * f, py := a.py + (b.py - a.py) * f }
    else walkPath fallback (b :: rest) (dist - seg)
  | _, _ => fallback

/-- `positionAlongPath(en, t)`. -/
def positionAlongPath (en : Enemy) (t : ℝ) : Pt :=
  let total := totalPathLength en
  if total < 1 then { px := en.x1, py := en.y1 }
  else walkPath { px := en.x2, py := en.y2 } (getWaypoints en) (t * total)

/-- The JavaScript remainder `a % b` on numbers: `a - b * trunc(a / b)`, the
sign following the dividend. -/
def jsRem (a b : ℝ) : ℝ :=
  a - b * (if a / b ≥ 0 then (⌊a / b⌋ : ℝ) else (⌈a / b⌉ : ℝ))

/-! ## Collision resolver: `moveAxis` (script.js 1484-1495) -/

/-- The four probe points of `moveAxis`, in the order of the array
`corners`, for a candidate centre `(nx, ny)` and `h = PLAYER_SIZE/2 - 1`. -/
def corners (nx ny : ℝ) : List Pt :=
  let h := PLAYER_SIZE / 2 - 1
  [{ px := nx - h, py := ny - h }, { px := nx + h, py := ny - h },
   { px := nx - h, py := ny + h }, { px := nx + h, py := ny + h }]

/-- The callback of `playDoors.find`: `d.gx === gx && d.gy === gy`. -/
def doorHere (gx gy : ℤ) (d : PlayDoor) : Bool := decide (d.gx = gx) && decide (d.gy = gy)

/-- The body of the loop of `moveAxis` for one corner: true when the corner
makes `moveAxis` return the old position (its cell is out of bounds, a wall, or
the first door found in it is not open). -/
def cornerBlocked (L : Level) (playDoors : List PlayDoor) (c : Pt) : Prop :=
  let gx := ⌊c.px / TILE⌋
  let gy := ⌊c.py / TILE⌋
  if ¬ inBounds L gx gy then True
  else if L.grid gy gx = TILE_WALL then True
  else
    match playDoors.find? (doorHere gx gy) with
    | some pd => pd.isOpen = false
    | none => False

instance (L : Level) (playDoors : List PlayDoor) (c : Pt) :
    Decidable (cornerBlocked L playDoors c) := Classical.dec _

/-- `moveAxis(cx, cy, dx, dy)`: the candidate position when no corner is
blocked, the old position as soon as one is. -/
def moveAxis (L : Level) (playDoors : List PlayDoor) (cx cy dx dy : ℝ) : Player :=
  let nx := cx + dx
  let ny := cy + dy
  if ∃ c ∈ corners nx ny, cornerBlocked L playDoors c then { x := cx, y := cy }
  else { x := nx, y := ny }

/-! ## Death and win (script.js 1419-1423, 1442-1451) -/

/-- The synchronous part of `die()`: `deaths++; playerDying = true` and the
skull written to `hud-msg`.  The respawn runs later, from a timer. -/
def die (s : Play) : Play :=
  { s with deaths := s.deaths + 1, playerDying := true, hudMsg := "☠" }

/-- `win()`: the frame request is cancelled, play mode is left and the win
overlay is shown. -/
def win (s : Play) : Play :=
  { s with animFrameId := none, playMode := false, winOverlay := true }

/-! ## One simulation tick: `updatePlay` (script.js 1271-1412)

`keysDown` is the key table (a missing entry is `false`).  The tick is cut
into the phases of the source, each a function of its own. -/

/-- The horizontal input of lines 1304-1306 and 1329-1331: `-1` for left, then
`1` for right, written over it. -/
def inputX (keysDown : String → Bool) : ℝ :=
  let ix : ℝ := if keysDown "ArrowLeft" || keysDown "a" || keysDown "A" then -1 else 0
  if keysDown "ArrowRight" || keysDown "d" || keysDown "D" then 1 else ix

/-- The vertical input of lines 1307-1308 and 1332-1333. -/
def inputY (keysDown : String → Bool) : ℝ :=
  let iy : ℝ := if keysDown "ArrowUp" || keysDown "w" || keysDown "W" then -1 else 0
  if keysDown "ArrowDown" || keysDown "s" || keysDown "S" then 1 else iy

/-- Lines 1286-1289: is the tile that contains the player an ice tile
(`nowOnIce`)?  Out of bounds counts as `TILE_EMPTY`. -/
def nowOnIce (L : Level) (player : Player) : Prop :=
  let pgx := ⌊player.x / TILE⌋
  let pgy := ⌊player.y / TILE⌋
  (if inBounds L pgx pgy then L.grid pgy pgx else TILE_EMPTY) = TILE_ICE

instance (L : Level) (player : Player) : Decidable (nowOnIce L player) := by
  unfold nowOnIce; infer_instance

/-- Lines 1294-1322, the ice entry / exit switch. -/
def iceStep (L : Level) (keysDown : String → Bool) (s : Play) : Play :=
  if nowOnIce L s.player ∧ s.playerOnIce = false then
    let speed := hypot s.playerVx s.playerVy
    if speed > 5 then
      { s with playerOnIce := true, iceLockedVx := s.playerVx, iceLockedVy := s.playerVy }
    else
      let ix := inputX keysDown
      let iy := inputY keysDown
      if ix ≠ 0 ∨ iy ≠ 0 then
        let f : ℝ := if ix ≠ 0 ∧ iy ≠ 0 then 1 / SQRT2 else 1
        { s with playerOnIce := true,
                 iceLockedVx := ix * f * L.currentPlayerSpeed,
                 iceLockedVy := iy * f * L.currentPlayerSpeed }
      else
        { s with playerOnIce := true, iceLockedVx := 0, iceLockedVy := 0 }
  else if ¬ nowOnIce L s.player ∧ s.playerOnIce = true then
    { s with playerOnIce := false, playerVx := 0, playerVy := 0 }
  else s

/-- Lines 1325-1337, the velocity of this tick. -/
def velocityStep (L : Level) (keysDown : String → Bool) (s : Play) : Play :=
  if s.playerOnIce = true then
    { s with playerVx := s.iceLockedVx, playerVy := s.iceLockedVy }
  else
    let ix := inputX keysDown
    let iy := inputY keysDown
    let f : ℝ := if ix ≠ 0 ∧ iy ≠ 0 then 1 / SQRT2 else 1
    { s with playerVx := ix * f * L.currentPlayerSpeed,
             playerVy := iy * f * L.currentPlayerSpeed }

/-- Lines 1340-1354: the X move, the Y move from the new X, the ice decay of
a blocked axis, and the final clamp of the position. -/
def moveStep (L : Level) (dt : ℝ) (s : Play) : Play :=
  let half := PLAYER_SIZE / 2
  let dx := s.playerVx * dt
  let dy := s.playerVy * dt
  let newX := (moveAxis L s.playDoors s.player.x s.player.y dx 0).x
  let newY := (moveAxis L s.playDoors newX s.player.y 0 dy).y
  let lockedVx := if s.playerOnIce = true ∧ newX = s.player.x ∧ dx ≠ 0 then 0 else s.iceLockedVx
  let lockedVy := if s.playerOnIce = true ∧ newY = s.player.y ∧ dy ≠ 0 then 0 else s.iceLockedVy
  let onIce := if s.playerOnIce = true ∧ lockedVx = 0 ∧ lockedVy = 0 then false else s.playerOnIce
  { s with iceLockedVx := lockedVx, iceLockedVy := lockedVy, playerOnIce := onIce,
           player := { x := max half (min ((L.COLS : ℝ) * TILE - half) newX),
                       y := max half (min ((L.ROWS : ℝ) * TILE - half) newY) } }

/-- Lines 1357-1373, the advance of one enemy: an orbit enemy turns by
`angularSpeed*dt`; a linear enemy with `len < 1` is skipped; otherwise `t`
advances (loop mode: remainder by `len`; bounce mode: clamp and flip at the two
ends) and the position is read from `positionAlongPath(en, t/len)`. -/
def advanceEnemy (dt : ℝ) (e : PlayEnemy) : PlayEnemy :=
  if e.en.isOrbit = true then
    let angle := e.angle + e.angularSpeed * dt
    { e with angle := angle,
             px := e.en.cx + Real.cos angle * e.en.radius,
             py := e.en.cy + Real.sin angle * e.en.radius }
  else if e.len < 1 then e
  else
    let moved : ℝ × ℝ :=
      if e.en.loopMode = true then (jsRem (e.t + e.speed * dt) e.len, e.dir)
      else
        let t1 := e.t + e.speed * dt * e.dir
        let hi : ℝ × ℝ := if t1 ≥ e.len then (e.len, -1) else (t1, e.dir)
        if hi.1 ≤ 0 then (0, 1) else hi
    let pos := positionAlongPath e.en (moved.1 / e.len)
    { e with t := moved.1, dir := moved.2, px := pos.px, py := pos.py }

/-- Lines 1357-1373: every enemy advances. -/
def enemyStep (dt : ℝ) (s : Play) : Play :=
  { s with playEnemies := s.playEnemies.map (advanceEnemy dt) }

/-- The callback of the coin filter (lines 1377-1378): the coin is kept when
its centre is farther than `COIN_RADIUS + half - 3` from the player. -/
def coinKept (p : Player) (coin : Coin) : Prop :=
  let c := tileCenter coin.gx coin.gy
  hypot (p.x - c.px) (p.y - c.py) > COIN_RADIUS + PLAYER_SIZE / 2 - 3

instance (p : Player) (coin : Coin) : Decidable (coinKept p coin) := by
  unfold coinKept; infer_instance

/-- Lines 1376-1379: `playCoins = playCoins.filter(...)`. -/
def coinStep (s : Play) : Play :=
  { s with playCoins := s.playCoins.filter (fun coin => decide (coinKept s.player coin)) }

/-- The two tests of the key loop (lines 1383-1384): the key is not collected
yet and is nearer than `TILE/2 + 4`. -/
def keyHit (p : Player) (k : PlayKey) : Prop :=
  k.collected = false ∧ hypot (p.x - k.px) (p.y - k.py) < TILE / 2 + 4

instance (p : Player) (k : PlayKey) : Decidable (keyHit p k) := by
  unfold keyHit; infer_instance

/-- `collectedKeyIds.add(id)` on a set kept as a list. -/
def setAdd (ids : List ℕ) (id : ℕ) : List ℕ := if id ∈ ids then ids else ids ++ [id]

/-- Line 1386: `for (const d of playDoors) if (d.keyId === k.id) d.open = true`. -/
def openDoors (id : ℕ) (ds : List PlayDoor) : List PlayDoor :=
  ds.map (fun d => if d.keyId = some id then { d with isOpen := true } else d)

/-- One round of the key loop on everything but the key itself (lines
1385-1387). -/
def keyEffect (p : Player) (s : Play) (k : PlayKey) : Play :=
  if keyHit p k then
    { s with collectedKeyIds := setAdd s.collectedKeyIds k.id,
             playDoors := openDoors k.id s.playDoors,
             hudMsg := "🔑 Key collected!" }
  else s

/-- Lines 1382-1389, the key loop: every key that is hit is marked collected,
and the rounds of the loop act in order on the id set, the doors and the
message.  The player does not move during the loop. -/
def keyStep (s : Play) : Play :=
  let p := s.player
  let s1 := s.playKeys.foldl (keyEffect p) s
  { s1 with playKeys :=
      s.playKeys.map (fun k => if keyHit p k then { k with collected := true } else k) }

/-- Line 1394: `!checkpointPos || checkpointPos.gx !== cpgx || checkpointPos.gy !== cpgy`. -/
def otherCell : Option Cell → ℤ → ℤ → Bool
  | none, _, _ => true
  | some cp, cpgx, cpgy => decide (cp.gx ≠ cpgx) || decide (cp.gy ≠ cpgy)

/-- Lines 1392-1398, the checkpoint test on the cell of the moved player. -/
def checkpointStep (L : Level) (s : Play) : Play :=
  let cpgx := ⌊s.player.x / TILE⌋
  let cpgy := ⌊s.player.y / TILE⌋
  if inBounds L cpgx cpgy ∧ L.grid cpgy cpgx = TILE_CHECKPOINT then
    if otherCell s.checkpointPos cpgx cpgy = true then
      { s with checkpointPos := some { gx := cpgx, gy := cpgy }, hudMsg := "🏁 Checkpoint!" }
    else s
  else s

/-- The test of the enemy loop (line 1404) holds for some enemy. -/
def enemyHit (s : Play) : Prop :=
  ∃ en ∈ s.playEnemies,
    hypot (s.player.x - en.px) (s.player.y - en.py) < ENEMY_RADIUS + PLAYER_SIZE / 2 - 3

instance (s : Play) : Decidable (enemyHit s) := Classical.dec _

/-- Line 1409, the goal test; `pgx`, `pgy` are the cell computed at line 1287,
before the move. -/
def goalStep (L : Level) (pgx pgy : ℤ) (s : Play) : Play :=
  if inBounds L pgx pgy ∧ L.grid pgy pgx = TILE_GOAL ∧ s.playCoins.length = 0 then win s
  else s

/-- Lines 1400-1409: the invulnerability countdown or the enemy test, then the
goal test. -/
def contactStep (L : Level) (dt : ℝ) (pgx pgy : ℤ) (s : Play) : Play :=
  if s.deathCooldown > 0 then
    goalStep L pgx pgy { s with deathCooldown := s.deathCooldown - dt }
  else if enemyHit s then die s
  else goalStep L pgx pgy s

/-- The part of the tick that follows the timer (lines 1285-1409). -/
def playStep (L : Level) (keysDown : String → Bool) (dt : ℝ) (s : Play) : Play :=
  let pgx := ⌊s.player.x / TILE⌋
  let pgy := ⌊s.player.y / TILE⌋
  contactStep L dt pgx pgy
    (checkpointStep L (keyStep (coinStep (enemyStep dt
      (moveStep L dt (velocityStep L keysDown (iceStep L keysDown s)))))))

/-- Lines 1276-1280: the time limit is set and used up. -/
def timeUp (L : Level) (s : Play) : Prop :=
  L.currentTimeLimit > 0 ∧ L.currentTimeLimit - s.playTimer ≤ 0

instance (L : Level) (s : Play) : Decidable (timeUp L s) := by
  unfold timeUp; infer_instance

/-- `updatePlay(dt)`: nothing while dying; else the timer advances, a used-up
time limit kills, and otherwise the tick runs. -/
def updatePlay (L : Level) (keysDown : String → Bool) (dt : ℝ) (s : Play) : Play :=
  if s.playerDying = true then s
  else
    let s1 := { s with playTimer := s.playTimer + dt }
    if timeUp L s1 then die s1
    else playStep L keysDown dt s1

/-- The state in which the tick moves the player: the timer advanced, the ice
switch and the velocity of the tick done. -/
def beforeMove (L : Level) (keysDown : String → Bool) (dt : ℝ) (s : Play) : Play :=
  velocityStep L keysDown (iceStep L keysDown { s with playTimer := s.playTimer + dt })

/-- The tick reaches the move: the player is not dying and the time limit does
not end the tick. -/
def reachesMove (L : Level) (dt : ℝ) (s : Play) : Prop :=
  s.playerDying = false ∧ ¬ timeUp L { s with playTimer := s.playTimer + dt }

/-- A run of ticks, each with its own key table and frame time. -/
def runTicks (L : Level) : List ((String → Bool) × ℝ) → Play → Play
  | [], s => s
  | t :: rest, s => runTicks L rest (updatePlay L t.1 t.2 s)

/-! ## Building and rebuilding the session (script.js 1224-1259, 1424-1439) -/

/-- The JavaScript `x || d` on numbers: `d` when `x` is `0` (or missing),
else `x`. -/
def jsOr (x d : ℝ) : ℝ := if x = 0 then d else x

/-- Line 1226: a runtime key, uncollected, placed at the centre of its cell. -/
def buildKey (k : Key) : PlayKey :=
  let c := tileCenter k.gx k.gy
  { id := k.id, gx := k.gx, gy := k.gy, px := c.px, py := c.py, collected := false }

/-- Line 1227: a runtime door, closed. -/
def buildDoor (d : Door) : PlayDoor :=
  { id := d.id, gx := d.gx, gy := d.gy, keyId := d.keyId, isOpen := false }

/-- Lines 1231-1242: the runtime state of one enemy.  The fields that the
script leaves undefined for a motion kind (`t`, `dir`, `speed`, `len` of an
orbit enemy; `angle`, `angularSpeed` of a linear one) are `0` here. -/
def buildEnemy (en : Enemy) : PlayEnemy :=
  if en.isOrbit = true then
    let a := jsOr en.startAngle 0 * Real.pi / 180
    let angularSpeed :=
      (2 * Real.pi) / jsOr en.orbitDuration 4 * (if en.clockwise = true then 1 else -1)
    { en := en, angle := a, angularSpeed := angularSpeed,
      px := en.cx + Real.cos a * en.radius, py := en.cy + Real.sin a * en.radius,
      t := 0, dir := 0, speed := 0, len := 0 }
  else
    let len := totalPathLength en
    let sp := positionAlongPath en (jsOr en.phase 0)
    let speed := if len > 0 then len / jsOr en.duration 3 else 60
    let dir : ℝ := if en.forward = true then 1 else -1
    { en := en, px := sp.px, py := sp.py, t := jsOr en.phase 0 * len, dir := dir,
      speed := speed, len := len, angle := 0, angularSpeed := 0 }

/-- `resetPlayerPos()`: the player at the centre of the checkpoint cell, or of
the spawn cell when no checkpoint is stored, at rest and off the ice lock; the
message is cleared. -/
def resetPlayerPos (L : Level) (s : Play) : Play :=
  let spawn := s.checkpointPos.getD L.playerSpawn
  let c := tileCenter spawn.gx spawn.gy
  { s with player := { x := c.px, y := c.py }, playerVx := 0, playerVy := 0,
           playerOnIce := false, iceLockedVx := 0, iceLockedVy := 0, hudMsg := "" }

/-- `buildPlayState()`: coins, keys, doors and enemies are rebuilt from the
level, the checkpoint is forgotten, and the player is put back by
`resetPlayerPos`.  `deaths`, `playTimer`, `playMode` and `animFrameId` are not
written.  (The script also empties the key table, which is an input of a tick
here.) -/
def buildPlayState (L : Level) (s : Play) : Play :=
  resetPlayerPos L
    { s with playCoins := L.coins,
             playKeys := L.keys.map buildKey,
             playDoors := L.doors.map buildDoor,
             collectedKeyIds := [], checkpointPos := none,
             playerVx := 0, playerVy := 0, playerOnIce := false,
             iceLockedVx := 0, iceLockedVy := 0,
             playerDying := false, deathCooldown := 0,
             playEnemies := L.enemies.map buildEnemy }

/-- `resetPlayState()`, the manual restart (key `r`). -/
def resetPlayState (L : Level) (s : Play) : Play :=
  let cp := s.checkpointPos
  let d := s.deaths
  let t := s.playTimer
  let s1 := { buildPlayState L s with checkpointPos := cp, deaths := d, playTimer := t }
  match cp with
  | some c => { s1 with player := { x := (tileCenter c.gx c.gy).px, y := (tileCenter c.gx c.gy).py } }
  | none => s1

/-- The respawn step of `die()`, the body of its timer callback (lines
1424-1439): nothing when play mode has been left; else the rebuild, with
checkpoint, death count and timer put back, the player at the checkpoint or the
spawn cell, and the invulnerability countdown at 0.6. -/
def respawn (L : Level) (s : Play) : Play :=
  if s.playMode = false then s
  else
    let spawn := s.checkpointPos.getD L.playerSpawn
    let c := tileCenter spawn.gx spawn.gy
    let s1 := { s with playerDying := false, player := { x := c.px, y := c.py },
                       playerVx := 0, playerVy := 0, playerOnIce := false,
                       iceLockedVx := 0, iceLockedVy := 0, deathCooldown := 0.6 }
    let cp := s1.checkpointPos
    let d := s1.deaths
    let t := s1.playTimer
    let s2 := { buildPlayState L s1 with checkpointPos := cp, deaths := d, playTimer := t }
    let c2 := tileCenter (cp.getD L.playerSpawn).gx (cp.getD L.playerSpawn).gy
    { s2 with player := { x := c2.px, y := c2.py }, deathCooldown := 0.6, hudMsg := "" }

/-! ## The frame scheduler (script.js 1264-1269, 1442-1444, 1465-1470)

The host keeps the frames requested by `requestAnimationFrame` and not yet run
or cancelled.  A requested frame carries one of the two callbacks of the
script. -/

/-- The two frame callbacks: `ts => {lastTime = ts; gameLoop(ts);}` and
`gameLoop`. -/
inductive FrameCallback where
  | first
  | loop
deriving DecidableEq

/-- The play globals together with the host side of the loop: the key table,
`lastTime`, the requested frames (oldest first) and the last frame id handed
out. -/
structure Host where
  play : Play
  keysDown : String → Bool
  lastTime : ℝ
  frames : List (ℕ × FrameCallback)
  lastId : ℕ

/-- `animFrameId = requestAnimationFrame(cb)`: a fresh positive id is handed
out, the frame is queued, and the id is stored in `animFrameId`. -/
def requestFrame (cb : FrameCallback) (h : Host) : Host :=
  { h with frames := h.frames ++ [(h.lastId + 1, cb)], lastId := h.lastId + 1,
           play := { h.play with animFrameId := some (h.lastId + 1) } }

/-- `cancelAnimationFrame(id)`: the frame of that id, if still queued, is
dropped; `null` cancels nothing. -/
def cancelFrame (id : Option ℕ) (h : Host) : Host :=
  match id with
  | none => h
  | some i => { h with frames := h.frames.filter (fun f => decide (f.1 ≠ i)) }

/-- `gameLoop(ts)`: nothing outside play mode; else one tick with the clamped
frame time, and the next frame is requested.  A `win()` inside the tick has
cancelled the frame `animFrameId` and left play mode before that request. -/
def gameLoop (L : Level) (ts : ℝ) (h : Host) : Host :=
  if h.play.playMode = false then h
  else
    let dt := min ((ts - h.lastTime) / 1000) 0.05
    let p := updatePlay L h.keysDown dt h.play
    let h1 := { h with lastTime := ts, play := p }
    let h2 := if p.playMode = false then cancelFrame h.play.animFrameId h1 else h1
    requestFrame FrameCallback.loop h2

/-- One queued callback is run at the time `ts`. -/
def runCallback (L : Level) (ts : ℝ) (cb : FrameCallback) (h : Host) : Host :=
  match cb with
  | FrameCallback.first => gameLoop L ts { h with lastTime := ts }
  | FrameCallback.loop => gameLoop L ts h

/-- One animation frame at the time `ts`: the frames queued when it starts are
run in order, each one leaving the queue as it runs, unless it has been
cancelled meanwhile. -/
def runFrame (L : Level) (ts : ℝ) (h : Host) : Host :=
  h.frames.foldl
    (fun acc f =>
      if f ∈ acc.frames then
        runCallback L ts f.2 { acc with frames := acc.frames.filter (fun g => decide (g.1 ≠ f.1)) }
      else acc)
    h

/-- The click handler of `btn-win-retry` (lines 1465-1470): the overlay is
hidden, deaths and timer are zeroed, play mode is entered, the session is
built, and a first frame is requested when `animFrameId` is `null`. -/
def winRetry (L : Level) (h : Host) : Host :=
  let p := buildPlayState L
    { h.play with winOverlay := false, deaths := 0, playTimer := 0, playMode := true }
  let h1 := { h with play := p, keysDown := fun _ => false }
  if p.animFrameId = none then requestFrame FrameCallback.first h1 else h1

/-- The enemy advance of a run of ticks with the frame times `dts`. -/
def advanceTicks : List ℝ → PlayEnemy → PlayEnemy
  | [], e => e
  | dt :: rest, e => advanceTicks rest (advanceEnemy dt e)

/-! ## Concrete levels and states

A 4 x 3 level (128 x 96 pixels) without walls, its one ice tile at cell
`(1, 1)`, the configured speed 120 and no time limit. -/

/-- No key is held. -/
def noKeys : String → Bool := fun _ => false

/-- Only the right arrow is held. -/
def rightKey : String → Bool := fun key => decide (key = "ArrowRight")

/-- The demo level. -/
def demoLevel : Level :=
  { COLS := 4, ROWS := 3,
    grid := fun gy gx => if gy = 1 ∧ gx = 1 then TILE_ICE else TILE_EMPTY,
    playerSpawn := { gx := 0, gy := 0 },
    coins := [], keys := [], doors := [], enemies := [],
    currentTimeLimit := 0, currentPlayerSpeed := 120 }

/-- A playing state of the demo level: the player at rest at `(x, y)`, off the
ice lock, nothing else in the level. -/
def demoPlay (x y : ℝ) : Play :=
  { player := { x := x, y := y }, playerVx := 0, playerVy := 0,
    playerOnIce := false, iceLockedVx := 0, iceLockedVy := 0,
    playerDying := false, deathCooldown := 0,
    playCoins := [], playEnemies := [], playDoors := [], playKeys := [],
    deaths := 0, collectedKeyIds := [], playTimer := 0, checkpointPos := none,
    playMode := true, animFrameId := some 1, hudMsg := "", winOverlay := false }

/-- Two doors in the cell `(2, 2)`: the first one open, the second one closed. -/
def twoDoors : List PlayDoor :=
  [{ id := 1, gx := 2, gy := 2, keyId := some 7, isOpen := true },
   { id := 2, gx := 2, gy := 2, keyId := none, isOpen := false }]

/-- One closed door in the cell `(3, 2)`. -/
def oneDoor : List PlayDoor :=
  [{ id := 1, gx := 3, gy := 2, keyId := none, isOpen := false }]

/-- The player at `(48, 80)`, in the cell `(1, 2)`, left of the two doors; the
key 7 of the open door has been collected. -/
def doorPlay : Play :=
  { demoPlay 48 80 with
      playDoors := twoDoors,
      playKeys := [{ id := 7, gx := 0, gy := 0, px := 16, py := 16, collected := true }],
      collectedKeyIds := [7] }

/-- The player at `(48, 80)` with one closed door two cells to its right. -/
def oneDoorPlay : Play := { demoPlay 48 80 with playDoors := oneDoor }

/-- The player on the ice tile, ice-locked, sliding right at 120. -/
def icePlay : Play :=
  { demoPlay 48 48 with playerOnIce := true, iceLockedVx := 120, playerVx := 120 }

/-- The player just past the ice tile, in the cell `(2, 1)`, still ice-locked
from the previous tick. -/
def slidPlay : Play :=
  { demoPlay 80 48 with playerOnIce := true, iceLockedVx := 120, playerVx := 120 }

/-- The player at `(68, 80)` and a key in the cell `(1, 2)`, whose centre
`(48, 80)` is at distance exactly 20. -/
def keyPlay : Play :=
  { demoPlay 68 80 with
      playKeys := [{ id := 7, gx := 1, gy := 2, px := 48, py := 80, collected := false }] }

/-- The player at `(48, 80)`, on the centre of the cell `(1, 2)` that holds a
coin, and a second coin in the cell `(3, 0)`. -/
def coinPlay : Play :=
  { demoPlay 48 80 with playCoins := [{ gx := 1, gy := 2 }, { gx := 3, gy := 0 }] }

/-- The demo level with a wall tile in the cell `(2, 1)`, right of the ice
tile. -/
def wallLevel : Level :=
  { demoLevel with
      grid := fun gy gx => if gy = 1 ∧ gx = 2 then TILE_WALL else demoLevel.grid gy gx }

/-- The player on the ice tile at `(53, 48)`, ice-locked, sliding right at 120
towards the wall of `wallLevel`. -/
def wallSlidePlay : Play :=
  { demoPlay 53 48 with playerOnIce := true, iceLockedVx := 120, playerVx := 120 }

/-- The demo level with a time limit of 10 seconds. -/
def timedLevel : Level := { demoLevel with currentTimeLimit := 10 }

/-- A state of `timedLevel` just after a respawn with the time used up: the
timer at 10, one death, the invulnerability countdown at 0.6. -/
def timedPlay : Play :=
  { demoPlay 48 80 with playTimer := 10, deaths := 1, deathCooldown := 0.6 }

/-- The demo level without its ice tile, with a goal tile in the cell `(2, 2)`
and a checkpoint tile in the cell `(2, 0)`. -/
def tourLevel : Level :=
  { demoLevel with
      grid := fun gy gx =>
        if gy = 2 ∧ gx = 2 then TILE_GOAL
        else if gy = 0 ∧ gx = 2 then TILE_CHECKPOINT else TILE_EMPTY }

/-- An enemy as the editor places it in the cell `(1, 2)`: a linear enemy whose
path starts and ends at the centre `(48, 80)` of the cell. -/
def stillEnemy : Enemy :=
  { isOrbit := false, x1 := 48, y1 := 80, x2 := 48, y2 := 80, keyframes := [],
    phase := 0, forward := true, duration := 3, loopMode := false,
    cx := 48, cy := 80, radius := 96, orbitDuration := 4, startAngle := 0, clockwise := true }

/-- The player at rest at `(68, 80)`, at distance exactly 20 from the enemy
`stillEnemy`. -/
def enemyPlay : Play := { demoPlay 68 80 with playEnemies := [buildEnemy stillEnemy] }

/-- The player of `enemyPlay` inside its invulnerability window. -/
def shieldPlay : Play := { enemyPlay with deathCooldown := 0.6 }

/-- The player at `(48, 80)` on a key of id 7, with a door linked to that key
and a door linked to no key, both closed. -/
def keyDoorPlay : Play :=
  { demoPlay 48 80 with
      playKeys := [{ id := 7, gx := 1, gy := 2, px := 48, py := 80, collected := false }],
      playDoors := [{ id := 1, gx := 3, gy := 2, keyId := some 7, isOpen := false },
                    { id := 2, gx := 3, gy := 0, keyId := none, isOpen := false }] }

/-- A dying player of `tourLevel`, three deaths and seven seconds into the
session, with the checkpoint of the cell `(2, 0)` stored. -/
def dyingPlay : Play :=
  { demoPlay 100 30 with
      playerDying := true, deaths := 3, playTimer := 7,
      checkpointPos := some { gx := 2, gy := 0 }, playerVx := 120 }

/-- A linear enemy patrolling the segment from `(16, 16)` to `(112, 16)`, of
length 96, in bounce mode with duration 3. -/
def patrolEnemy : Enemy :=
  { isOrbit := false, x1 := 16, y1 := 16, x2 := 112, y2 := 16, keyframes := [],
    phase := 0, forward := true, duration := 3, loopMode := false,
    cx := 16, cy := 16, radius := 96, orbitDuration := 4, startAngle := 0, clockwise := true }

/-- The enemy `patrolEnemy` in loop mode. -/
def loopEnemy : Enemy := { patrolEnemy with loopMode := true }

/-- An orbit enemy around `(64, 48)` with radius 32. -/
def orbitEnemy : Enemy :=
  { patrolEnemy with isOrbit := true, cx := 64, cy := 48, radius := 32 }

/-- The runtime state of `patrolEnemy` at session start: at `A`, `t = 0`,
direction `+1`, speed `96 / 3`. -/
def patrolRun : PlayEnemy :=
  { en := patrolEnemy, px := 16, py := 16, angle := 0, angularSpeed := 0,
    t := 0, dir := 1, speed := 96 / 3, len := 96 }

/-- The runtime state of `loopEnemy` at session start. -/
def loopRun : PlayEnemy := { patrolRun with en := loopEnemy }

/-- The right arrow and the up arrow are held. -/
def upRightKey : String → Bool :=
  fun key => decide (key = "ArrowRight") || decide (key = "ArrowUp")

/-- A level of 4 x 3 cells without ice, with wall tiles in the cells `(2, 0)`
and `(2, 1)`, speed 120, no time limit. -/
def slideLevel : Level :=
  { demoLevel with
      grid := fun gy gx => if gx = 2 ∧ (gy = 0 ∨ gy = 1) then TILE_WALL else TILE_EMPTY }

/-- A host state of `tourLevel` in play: the player at `(70, 80)` on the goal
tile, no coin left, the right arrow held, and the frame 1 queued with the
`gameLoop` callback, its id stored in `animFrameId`. -/
def goalHost : Host :=
  { play := demoPlay 70 80, keysDown := rightKey, lastTime := 0,
    frames := [(1, FrameCallback.loop)], lastId := 1 }

/-- The host after the frame at `ts = 50` in which the win is detected. -/
def wonHost : Host := runFrame tourLevel 50 goalHost

/-- The host one frame later, at `ts = 66`, the win overlay still shown. -/
def idleHost : Host := runFrame tourLevel 66 wonHost

/-- The host after the retry button is clicked on the win overlay. -/
def retryHost : Host := winRetry tourLevel idleHost

/-- The right arrow and the down arrow are held. -/
def downRightKey : String → Bool :=
  fun key => decide (key = "ArrowRight") || decide (key = "ArrowDown")

/-- Only the left arrow is held. -/
def leftKey : String → Bool := fun key => decide (key = "ArrowLeft")

/-- A level of 4 x 3 cells with the player speed 6: an ice tile in the cell
`(1, 1)`, wall tiles right of it, in `(2, 1)`, and below it, in `(1, 2)`. -/
def cornerLevel : Level :=
  { demoLevel with
      grid := fun gy gx =>
        if gy = 1 ∧ gx = 1 then TILE_ICE
        else if (gy = 1 ∧ gx = 2) ∨ (gy = 2 ∧ gx = 1) then TILE_WALL else TILE_EMPTY,
      currentPlayerSpeed := 6 }

/-- The player at rest at `(53.9, 53.7)` on the ice tile of `cornerLevel`, the
ice flag off. -/
def cornerStart : Play := demoPlay (539 / 10) (537 / 10)

/-- The state after one tick of `1/20` from `cornerStart` with right and down
held: the player has slid into the wall on its right. -/
def cornerSlid : Play := updatePlay cornerLevel downRightKey (1 / 20) cornerStart

/-- The state one tick later: the player has slid into the wall below it. -/
def cornerStopped : Play := updatePlay cornerLevel noKeys (1 / 20) cornerSlid

/-! ## Vocabulary of the statements -/

/-- The part of the state that describes the motion of the player. -/
def motion (s : Play) : Player × ℝ × ℝ × Bool × ℝ × ℝ :=
  (s.player, s.playerVx, s.playerVy, s.playerOnIce, s.iceLockedVx, s.iceLockedVy)

/-- The part of the state that holds the coins, the keys and the doors. -/
def items (s : Play) : List Coin × List PlayKey × List PlayDoor × List ℕ :=
  (s.playCoins, s.playKeys, s.playDoors, s.collectedKeyIds)

/-- Every door of `ds'` stands in the cell of a door of `ds` that is closed
whenever it is: going from `ds` to `ds'` closes no cell. -/
def moreOpen (ds ds' : List PlayDoor) : Prop :=
  ∀ e ∈ ds', ∃ d ∈ ds, d.gx = e.gx ∧ d.gy = e.gy ∧ (e.isOpen = false → d.isOpen = false)

/-- The X displacement of the tick is rejected: `moveAxis(x, y, vx*dt, 0)`
meets a blocked corner. -/
def xRejected (L : Level) (dt : ℝ) (m : Play) : Prop :=
  ∃ c ∈ corners (m.player.x + m.playerVx * dt) (m.player.y + 0), cornerBlocked L m.playDoors c

/-- The Y displacement of the tick is rejected: `moveAxis(newX, y, 0, vy*dt)`
meets a blocked corner, `newX` being the outcome of the X move. -/
def yRejected (L : Level) (dt : ℝ) (m : Play) : Prop :=
  ∃ c ∈ corners ((moveAxis L m.playDoors m.player.x m.player.y (m.playerVx * dt) 0).x + 0)
      (m.player.y + m.playerVy * dt), cornerBlocked L m.playDoors c

/-- The cell `(gx, gy)` lets the player in: it is inside the grid, is not a
wall tile, and no door that stands in it is closed. -/
def cellFree (L : Level) (playDoors : List PlayDoor) (gx gy : ℤ) : Prop :=
  inBounds L gx gy ∧ L.grid gy gx ≠ TILE_WALL ∧
    ¬ ∃ d ∈ playDoors, d.gx = gx ∧ d.gy = gy ∧ d.isOpen = false

/-- The collision square of centre `(x, y)` and half-size `PLAYER_SIZE/2 - 1 = 10`
lies inside the grid and meets no wall cell and no closed-door cell: every one
of its points falls in a free cell. -/
def squareClear (L : Level) (playDoors : List PlayDoor) (x y : ℝ) : Prop :=
  ∀ px py : ℝ, |px - x| ≤ 10 → |py - y| ≤ 10 → cellFree L playDoors ⌊px / 32⌋ ⌊py / 32⌋

/-- The four corners `(nx ± 10, ny ± 10)` of the collision square all fall in
free cells. -/
def cornersFree (L : Level) (playDoors : List PlayDoor) (nx ny : ℝ) : Prop :=
  cellFree L playDoors ⌊(nx - 10) / 32⌋ ⌊(ny - 10) / 32⌋ ∧
  cellFree L playDoors ⌊(nx + 10) / 32⌋ ⌊(ny - 10) / 32⌋ ∧
  cellFree L playDoors ⌊(nx - 10) / 32⌋ ⌊(ny + 10) / 32⌋ ∧
  cellFree L playDoors ⌊(nx + 10) / 32⌋ ⌊(ny + 10) / 32⌋

/-- At most one door per cell. -/
def oneDoorPerCell (playDoors : List PlayDoor) : Prop :=
  playDoors.Pairwise (fun d e => ¬ (d.gx = e.gx ∧ d.gy = e.gy))

/-- No direction key is held in the key table. -/
def noDirection (keysDown : String → Bool) : Prop := inputX keysDown = 0 ∧ inputY keysDown = 0

/-- The velocity that the held keys and the configured speed give (lines
1329-1336). -/
def inputVelocity (L : Level) (keysDown : String → Bool) : ℝ × ℝ :=
  let f : ℝ := if inputX keysDown ≠ 0 ∧ inputY keysDown ≠ 0 then 1 / Real.sqrt 2 else 1
  (inputX keysDown * f * L.currentPlayerSpeed, inputY keysDown * f * L.currentPlayerSpeed)

/-- The vector that the ice entry locks (lines 1297-1316): the velocity carried
from the previous tick when its magnitude exceeds 5, else the velocity of the
held keys when a direction is held, else zero. -/
def entryLock (L : Level) (keysDown : String → Bool) (s : Play) : ℝ × ℝ :=
  if hypot s.playerVx s.playerVy > 5 then (s.playerVx, s.playerVy)
  else if inputX keysDown ≠ 0 ∨ inputY keysDown ≠ 0 then inputVelocity L keysDown
  else (0, 0)

/-- The player is at rest: off the ice lock, with zero velocity, at a position
that the final clamp of a tick leaves where it is. -/
def atRest (L : Level) (s : Play) : Prop :=
  s.playerOnIce = false ∧ s.playerVx = 0 ∧ s.playerVy = 0 ∧
  max (PLAYER_SIZE / 2) (min ((L.COLS : ℝ) * TILE - PLAYER_SIZE / 2) s.player.x) = s.player.x ∧
  max (PLAYER_SIZE / 2) (min ((L.ROWS : ℝ) * TILE - PLAYER_SIZE / 2) s.player.y) = s.player.y

/-- Some key of `ks` that the player at `p` collects in this tick is the key
that the door `d` is linked to. -/
def linkedKeyHit (p : Player) (ks : List PlayKey) (d : PlayDoor) : Prop :=
  ∃ k ∈ ks, keyHit p k ∧ d.keyId = some k.id

instance (p : Player) (ks : List PlayKey) (d : PlayDoor) : Decidable (linkedKeyHit p ks d) :=
  Classical.dec _

/-- The state in which the tick runs its checkpoint test: after the move, the
enemy advance, the coin filter and the key loop. -/
def beforeCheckpoint (L : Level) (keysDown : String → Bool) (dt : ℝ) (s : Play) : Play :=
  keyStep (coinStep (enemyStep dt (moveStep L dt (beforeMove L keysDown dt s))))

/-- The state in which the tick runs its enemy test and its goal test. -/
def beforeContact (L : Level) (keysDown : String → Bool) (dt : ℝ) (s : Play) : Play :=
  checkpointStep L (beforeCheckpoint L keysDown dt s)

/-- The part of the state that only `die`, `win` and the countdown write
during a tick. -/
def session (s : Play) : ℕ × Bool × ℝ × ℝ × Bool × Option ℕ × Bool :=
  (s.deaths, s.playerDying, s.deathCooldown, s.playTimer, s.playMode, s.animFrameId,
    s.winOverlay)

/-- The runtime position of the enemy lies on the circle of its centre and
radius: `(px - cx)^2 + (py - cy)^2 = radius^2`. -/
def onCircle (e : PlayEnemy) : Prop :=
  (e.px - e.en.cx) ^ 2 + (e.py - e.en.cy) ^ 2 = e.en.radius ^ 2

/-- The point `p` lies on one of the segments of the path `wps`: it is
`u + f (v - u)` for two consecutive waypoints `u`, `v` and some `f` in
`[0, 1]`. -/
def onPath (wps : List Pt) (p : Pt) : Prop :=
  ∃ u v : Pt, ∃ f : ℝ, (u, v) ∈ wps.zip wps.tail ∧ 0 ≤ f ∧ f ≤ 1 ∧
    p.px = u.px + (v.px - u.px) * f ∧ p.py = u.py + (v.py - u.py) * f

/-- The position before the final clamp (lines 1341-1342): `newX` from the X
move, `newY` from the Y move that starts at `newX`. -/
def preClamp (L : Level) (dt : ℝ) (m : Play) : Player :=
  let newX := (moveAxis L m.playDoors m.player.x m.player.y (m.playerVx * dt) 0).x
  let newY := (moveAxis L m.playDoors newX m.player.y 0 (m.playerVy * dt)).y
  { x := newX, y := newY }

/-- The final clamp of the position (lines 1353-1354). -/
def clampPlayer (L : Level) (p : Player) : Player :=
  { x := max (PLAYER_SIZE / 2) (min ((L.COLS : ℝ) * TILE - PLAYER_SIZE / 2) p.x),
    y := max (PLAYER_SIZE / 2) (min ((L.ROWS : ℝ) * TILE - PLAYER_SIZE / 2) p.y) }

/-- The position lies inside the bounds of the final clamp. -/
def insideClamp (L : Level) (p : Player) : Prop :=
  (PLAYER_SIZE / 2 ≤ p.x ∧ p.x ≤ (L.COLS : ℝ) * TILE - PLAYER_SIZE / 2) ∧
  (PLAYER_SIZE / 2 ≤ p.y ∧ p.y ≤ (L.ROWS : ℝ) * TILE - PLAYER_SIZE / 2)

/-- The Y displacement from `(x, y)` is admissible: `moveAxis(x, y, 0, vy*dt)`
meets no blocked corner. -/
def yAdmissible (L : Level) (dt : ℝ) (m : Play) : Prop :=
  ¬ ∃ c ∈ corners (m.player.x + 0) (m.player.y + m.playerVy * dt), cornerBlocked L m.playDoors c

/-- One death cycle: a tick, then the respawn callback that the timer of
`die()` runs. -/
def deathCycle (L : Level) (c : (String → Bool) × ℝ) (s : Play) : Play :=
  respawn L (updatePlay L c.1 c.2 s)

/-- A run of death cycles, each with its own key table and frame time. -/
def deathCycles (L : Level) : List ((String → Bool) × ℝ) → Play → Play
  | [], s => s
  | c :: rest, s => deathCycles L rest (deathCycle L c s)

/-- The centre of the cell where the player respawns: the checkpoint, or the
spawn cell when no checkpoint is stored (`checkpointPos || playerSpawn`). -/
def respawnPoint (L : Level) (s : Play) : Player :=
  { x := (tileCenter (s.checkpointPos.getD L.playerSpawn).gx
            (s.checkpointPos.getD L.playerSpawn).gy).px,
    y := (tileCenter (s.checkpointPos.getD L.playerSpawn).gx
            (s.checkpointPos.getD L.playerSpawn).gy).py }

/-- The vector `(a, b)` is not zero and each of its non-zero components exceeds
5 in absolute value. -/
def fastComponents (a b : ℝ) : Prop :=
  (a ≠ 0 ∨ b ≠ 0) ∧ (a ≠ 0 → 5 < |a|) ∧ (b ≠ 0 → 5 < |b|)

/-- The slide of the player is fast in each of its components: of the locked
vector while the ice flag is on, of the velocity of the last tick while it is
off. -/
def fastSlide (s : Play) : Prop :=
  (s.playerOnIce = true ∧ fastComponents s.iceLockedVx s.iceLockedVy) ∨
  (s.playerOnIce = false ∧ fastComponents s.playerVx s.playerVy)

/-- Every tick of the run starts with the player on an ice tile. -/
def staysOnIce (L : Level) : List ((String → Bool) × ℝ) → Play → Prop
  | [], _ => True
  | t :: rest, s => nowOnIce L s.player ∧ staysOnIce L rest (updatePlay L t.1 t.2 s)

/-- The distance between two points of the plane. -/
def distance (x y x' y' : ℝ) : ℝ := Real.sqrt ((x - x') ^ 2 + (y - y') ^ 2)

/-- Some enemy of the list is nearer than `ENEMY_RADIUS + PLAYER_SIZE/2 - 3 = 20`
to the point `(x, y)`. -/
def enemyNear (x y : ℝ) (es : List PlayEnemy) : Prop :=
  ∃ en ∈ es, distance x y en.px en.py < 20

/-- The cell of the grid that contains the player is a tile of the kind
`tile`. -/
def onTile (L : Level) (p : Player) (tile : ℕ) : Prop :=
  inBounds L ⌊p.x / 32⌋ ⌊p.y / 32⌋ ∧ L.grid ⌊p.y / 32⌋ ⌊p.x / 32⌋ = tile

end TWHG

end

namespace TWHG

/-! ## Frame lemmas: what each phase leaves alone -/

/-- Frame lemmas of the phases of the tick, and the blocking test of
`moveAxis`.  The conjuncts, in order: `foldl_keyEffect_motion`,
`foldl_keyEffect_playCoins`, `motion_keyStep`, `playCoins_keyStep`,
`motion_checkpointStep`, `motion_goalStep`, `motion_contactStep`,
`motion_playStep`. -/
theorem phase_frames :
    (∀ (p : Player) (ks : List PlayKey) (s : Play),
      motion (ks.foldl (keyEffect p) s) = motion s) ∧
    (∀ (p : Player) (ks : List PlayKey) (s : Play),
      (ks.foldl (keyEffect p) s).playCoins = s.playCoins) ∧
    (∀ (s : Play),
      motion (keyStep s) = motion s) ∧
    (∀ (s : Play),
      (keyStep s).playCoins = s.playCoins) ∧
    (∀ (L : Level) (s : Play),
      motion (checkpointStep L s) = motion s) ∧
    (∀ (L : Level) (pgx pgy : ℤ) (s : Play),
      motion (goalStep L pgx pgy s) = motion s) ∧
    (∀ (L : Level) (dt : ℝ) (pgx pgy : ℤ) (s : Play),
      motion (contactStep L dt pgx pgy s) = motion s) ∧
    (∀ (L : Level) (keysDown : String → Bool) (dt : ℝ) (s : Play),
      motion (playStep L keysDown dt s)
        = motion (moveStep L dt (velocityStep L keysDown (iceStep L keysDown s)))) := by
  have foldl_keyEffect_motion : ∀ (p : Player) (ks : List PlayKey) (s : Play),
      motion (ks.foldl (keyEffect p) s) = motion s := by
    intro p ks s
    induction ks generalizing s with
    | nil => rfl
    | cons k ks ih =>
      rw [List.foldl_cons, ih]
      unfold keyEffect
      split_ifs <;> rfl
  have foldl_keyEffect_playCoins : ∀ (p : Player) (ks : List PlayKey) (s : Play),
      (ks.foldl (keyEffect p) s).playCoins = s.playCoins := by
    intro p ks s
    induction ks generalizing s with
    | nil => rfl
    | cons k ks ih =>
      rw [List.foldl_cons, ih]
      unfold keyEffect
      split_ifs <;> rfl
  have motion_keyStep : ∀ (s : Play),
      motion (keyStep s) = motion s := by
    intro s
    have h := foldl_keyEffect_motion s.player s.playKeys s
    simpa [keyStep, motion] using h
  have playCoins_keyStep : ∀ (s : Play),
      (keyStep s).playCoins = s.playCoins := by
    intro s
    have h := foldl_keyEffect_playCoins s.player s.playKeys s
    simpa [keyStep] using h
  have motion_checkpointStep : ∀ (L : Level) (s : Play),
      motion (checkpointStep L s) = motion s := by
    intro L s
    unfold checkpointStep
    dsimp only
    split_ifs <;> rfl
  have motion_goalStep : ∀ (L : Level) (pgx pgy : ℤ) (s : Play),
      motion (goalStep L pgx pgy s) = motion s := by
    intro L pgx pgy s
    unfold goalStep
    split_ifs <;> rfl
  have motion_contactStep : ∀ (L : Level) (dt : ℝ) (pgx pgy : ℤ) (s : Play),
      motion (contactStep L dt pgx pgy s) = motion s := by
    intro L dt pgx pgy s
    unfold contactStep
    split_ifs
    · rw [motion_goalStep]; rfl
    · rfl
    · rw [motion_goalStep]
  have motion_playStep : ∀ (L : Level) (keysDown : String → Bool) (dt : ℝ) (s : Play),
      motion (playStep L keysDown dt s)
        = motion (moveStep L dt (velocityStep L keysDown (iceStep L keysDown s))) := by
    intro L keysDown dt s
    unfold playStep
    dsimp only
    rw [motion_contactStep, motion_checkpointStep, motion_keyStep]
    rfl
  exact ⟨foldl_keyEffect_motion, foldl_keyEffect_playCoins, motion_keyStep, playCoins_keyStep,
    motion_checkpointStep, motion_goalStep, motion_contactStep, motion_playStep⟩

/-- Frame lemmas of the phases of the tick, and the blocking test of
`moveAxis`.  The conjuncts, in order: `updatePlay_of_reachesMove`,
`motion_updatePlay`, `doorHere_iff`, `cornerBlocked_iff`,
`exists_corner_blocked_iff`, `moveAxis_of_free`, `moveAxis_of_not_free`. -/
theorem phase_frames_b :
    (∀ (L : Level) (keysDown : String → Bool) (dt : ℝ) (s : Play) (_ : reachesMove L dt s),
      updatePlay L keysDown dt s
        = playStep L keysDown dt { s with playTimer := s.playTimer + dt }) ∧
    (∀ (L : Level) (keysDown : String → Bool) (dt : ℝ) (s : Play) (_ : reachesMove L dt s),
      motion (updatePlay L keysDown dt s) = motion (moveStep L dt (beforeMove L keysDown dt s))) ∧
    (∀ (gx gy : ℤ) (d : PlayDoor),
      doorHere gx gy d = true ↔ d.gx = gx ∧ d.gy = gy) ∧
    (∀ (L : Level) (ds : List PlayDoor) (_ : oneDoorPerCell ds) (c : Pt),
      cornerBlocked L ds c ↔ ¬ cellFree L ds ⌊c.px / 32⌋ ⌊c.py / 32⌋) ∧
    (∀ (L : Level) (ds : List PlayDoor) (_ : oneDoorPerCell ds) (nx ny : ℝ),
      (∃ c ∈ corners nx ny, cornerBlocked L ds c) ↔ ¬ cornersFree L ds nx ny) ∧
    (∀ (L : Level) (ds : List PlayDoor) (_ : oneDoorPerCell ds) (cx cy dx dy : ℝ)
      (_ : cornersFree L ds (cx + dx) (cy + dy)),
      moveAxis L ds cx cy dx dy = { x := cx + dx, y := cy + dy }) ∧
    (∀ (L : Level) (ds : List PlayDoor) (_ : oneDoorPerCell ds) (cx cy dx dy : ℝ)
      (_ : ¬ cornersFree L ds (cx + dx) (cy + dy)),
      moveAxis L ds cx cy dx dy = { x := cx, y := cy }) := by
  have motion_playStep := phase_frames.2.2.2.2.2.2.2
  have updatePlay_of_reachesMove : ∀ (L : Level) (keysDown : String → Bool) (dt : ℝ) (s : Play)
      (h : reachesMove L dt s),
      updatePlay L keysDown dt s
        = playStep L keysDown dt { s with playTimer := s.playTimer + dt } := by
    intro L keysDown dt s h
    unfold updatePlay
    rw [if_neg (by simp [h.1])]
    dsimp only
    rw [if_neg h.2]
  have motion_updatePlay : ∀ (L : Level) (keysDown : String → Bool) (dt : ℝ) (s : Play)
      (h : reachesMove L dt s),
      motion (updatePlay L keysDown dt s) = motion (moveStep L dt (beforeMove L keysDown dt s)) := by
    intro L keysDown dt s h
    rw [updatePlay_of_reachesMove L keysDown dt s h, motion_playStep]
    rfl
  have doorHere_iff : ∀ (gx gy : ℤ) (d : PlayDoor),
      doorHere gx gy d = true ↔ d.gx = gx ∧ d.gy = gy := by
    intro gx gy d
    simp [doorHere]
  -- With at most one door per cell, a corner is blocked exactly when its cell
  -- is not free.
  have cornerBlocked_iff : ∀ (L : Level) (ds : List PlayDoor) (h : oneDoorPerCell ds) (c : Pt),
      cornerBlocked L ds c ↔ ¬ cellFree L ds ⌊c.px / 32⌋ ⌊c.py / 32⌋ := by
    intro L ds h c
    unfold cornerBlocked cellFree TILE
    dsimp only
    by_cases hb : inBounds L ⌊c.px / 32⌋ ⌊c.py / 32⌋
    · by_cases hw : L.grid ⌊c.py / 32⌋ ⌊c.px / 32⌋ = TILE_WALL
      · simp [hb, hw]
      · rw [if_neg (not_not.mpr hb), if_neg hw]
        cases hf : ds.find? (doorHere ⌊c.px / 32⌋ ⌊c.py / 32⌋) with
        | none =>
          rw [List.find?_eq_none] at hf
          simp only [hb, hw, ne_eq, not_false_eq_true, true_and, not_not, false_iff, not_exists,
            not_and]
          intro d hd hx hy
          exact absurd ((doorHere_iff _ _ d).mpr ⟨hx, hy⟩) (hf d hd)
        | some pd =>
          have hmem := List.mem_of_find?_eq_some hf
          have hpd := (doorHere_iff _ _ pd).mp (List.find?_some hf)
          simp only [hb, hw, ne_eq, not_false_eq_true, true_and, not_not]
          constructor
          · intro ho
            exact ⟨pd, hmem, hpd.1, hpd.2, ho⟩
          · rintro ⟨d, hd, hx, hy, ho⟩
            by_cases hdp : d = pd
            · rw [← hdp]; exact ho
            · have hsym : Symmetric (fun d e : PlayDoor => ¬ (d.gx = e.gx ∧ d.gy = e.gy)) := by
                intro a b hab hba
                exact hab ⟨hba.1.symm, hba.2.symm⟩
              exact absurd ⟨hx.trans hpd.1.symm, hy.trans hpd.2.symm⟩
                (List.Pairwise.forall hsym h hd hmem hdp)
    · simp [hb]
  have exists_corner_blocked_iff : ∀ (L : Level) (ds : List PlayDoor) (h : oneDoorPerCell ds)
      (nx ny : ℝ),
      (∃ c ∈ corners nx ny, cornerBlocked L ds c) ↔ ¬ cornersFree L ds nx ny := by
    intro L ds h nx ny
    have e : PLAYER_SIZE / 2 - 1 = 10 := by unfold PLAYER_SIZE; norm_num
    simp only [corners, e, List.mem_cons, List.mem_singleton, exists_eq_or_imp, exists_eq_left,
      List.not_mem_nil, false_and, exists_false, or_false, cornerBlocked_iff L ds h, cornersFree]
    tauto
  have moveAxis_of_free : ∀ (L : Level) (ds : List PlayDoor) (h : oneDoorPerCell ds)
      (cx cy dx dy : ℝ) (hf : cornersFree L ds (cx + dx) (cy + dy)),
      moveAxis L ds cx cy dx dy = { x := cx + dx, y := cy + dy } := by
    intro L ds h cx cy dx dy hf
    unfold moveAxis
    dsimp only
    rw [if_neg ((exists_corner_blocked_iff L ds h _ _).not.mpr (not_not.mpr hf))]
  have moveAxis_of_not_free : ∀ (L : Level) (ds : List PlayDoor) (h : oneDoorPerCell ds)
      (cx cy dx dy : ℝ) (hf : ¬ cornersFree L ds (cx + dx) (cy + dy)),
      moveAxis L ds cx cy dx dy = { x := cx, y := cy } := by
    intro L ds h cx cy dx dy hf
    unfold moveAxis
    dsimp only
    rw [if_pos ((exists_corner_blocked_iff L ds h _ _).mpr hf)]
  exact ⟨updatePlay_of_reachesMove, motion_updatePlay, doorHere_iff, cornerBlocked_iff,
    exists_corner_blocked_iff, moveAxis_of_free, moveAxis_of_not_free⟩

/-- C2: `moveAxis` is all-or-nothing and fails closed.  With at most one door
per cell, it returns exactly `(cx+dx, cy+dy)` when the four corners
`(cx+dx ± 10, cy+dy ± 10)` all fall in cells that are inside the grid, are not
walls and hold no closed door, and exactly `(cx, cy)` otherwise; in particular
a corner that falls outside the grid gives `(cx, cy)`, not an error. -/
theorem moveAxis_all_or_nothing (L : Level) (ds : List PlayDoor) (cx cy dx dy : ℝ)
    (h : oneDoorPerCell ds) :
    (cornersFree L ds (cx + dx) (cy + dy) →
        moveAxis L ds cx cy dx dy = { x := cx + dx, y := cy + dy }) ∧
    (¬ cornersFree L ds (cx + dx) (cy + dy) →
        moveAxis L ds cx cy dx dy = { x := cx, y := cy }) ∧
    ((¬ inBounds L ⌊(cx + dx - 10) / 32⌋ ⌊(cy + dy - 10) / 32⌋ ∨
      ¬ inBounds L ⌊(cx + dx + 10) / 32⌋ ⌊(cy + dy - 10) / 32⌋ ∨
      ¬ inBounds L ⌊(cx + dx - 10) / 32⌋ ⌊(cy + dy + 10) / 32⌋ ∨
      ¬ inBounds L ⌊(cx + dx + 10) / 32⌋ ⌊(cy + dy + 10) / 32⌋) →
        moveAxis L ds cx cy dx dy = { x := cx, y := cy }) := by
  have moveAxis_of_free := phase_frames_b.2.2.2.2.2.1
  have moveAxis_of_not_free := phase_frames_b.2.2.2.2.2.2
  refine ⟨moveAxis_of_free L ds h cx cy dx dy, moveAxis_of_not_free L ds h cx cy dx dy,
    fun hb => moveAxis_of_not_free L ds h cx cy dx dy ?_⟩
  intro hf
  unfold cornersFree cellFree at hf
  tauto

/-! ## The collision square and its corners -/

/-- The collision square, its corners and the blocking test of `moveAxis`.  The
conjuncts, in order: `floor_mem_ends`, `squareClear_of_cornersFree`,
`cornersFree_of_squareClear`, `squareClear_bounds`, `clamp_same_column`,
`squareClear_clamp`, `squareClear_moveAxis_x`. -/
theorem collision_square_lemmas :
    (∀ (x px : ℝ) (_ : |px - x| ≤ 10),
      ⌊px / 32⌋ = ⌊(x - 10) / 32⌋ ∨ ⌊px / 32⌋ = ⌊(x + 10) / 32⌋) ∧
    (∀ (L : Level) (ds : List PlayDoor) (x y : ℝ) (_ : cornersFree L ds x y),
      squareClear L ds x y) ∧
    (∀ (L : Level) (ds : List PlayDoor) (x y : ℝ) (_ : squareClear L ds x y),
      cornersFree L ds x y) ∧
    (∀ (L : Level) (ds : List PlayDoor) (x y : ℝ) (_ : squareClear L ds x y),
      (0 ≤ x - 10 ∧ x + 10 < 32 * (L.COLS : ℝ)) ∧ (0 ≤ y - 10 ∧ y + 10 < 32 * (L.ROWS : ℝ))) ∧
    (∀ (x : ℝ) (n : ℕ) (_ : 0 ≤ x - 10) (_ : x + 10 < 32 * (n : ℝ)) (px : ℝ)
      (_ : |px - max 11 (min (32 * (n : ℝ) - 11) x)| ≤ 10),
      ∃ qx : ℝ, |qx - x| ≤ 10 ∧ ⌊qx / 32⌋ = ⌊px / 32⌋) ∧
    (∀ (L : Level) (ds : List PlayDoor) (x y : ℝ) (_ : squareClear L ds x y),
      squareClear L ds (max (PLAYER_SIZE / 2) (min ((L.COLS : ℝ) * TILE - PLAYER_SIZE / 2) x))
        (max (PLAYER_SIZE / 2) (min ((L.ROWS : ℝ) * TILE - PLAYER_SIZE / 2) y))) ∧
    (∀ (L : Level) (ds : List PlayDoor) (_ : oneDoorPerCell ds) (x y dx : ℝ)
      (_ : squareClear L ds x y),
      squareClear L ds (moveAxis L ds x y dx 0).x y) := by
  have moveAxis_of_free := phase_frames_b.2.2.2.2.2.1
  have moveAxis_of_not_free := phase_frames_b.2.2.2.2.2.2
  -- The column of a point of the square is the column of its left or of its
  -- right edge, the square being narrower than a tile.
  have floor_mem_ends : ∀ (x px : ℝ) (h : |px - x| ≤ 10),
      ⌊px / 32⌋ = ⌊(x - 10) / 32⌋ ∨ ⌊px / 32⌋ = ⌊(x + 10) / 32⌋ := by
    intro x px h
    rw [abs_le] at h
    have h1 : ⌊(x - 10) / 32⌋ ≤ ⌊px / 32⌋ := Int.floor_mono (by linarith)
    have h2 : ⌊px / 32⌋ ≤ ⌊(x + 10) / 32⌋ := Int.floor_mono (by linarith)
    have h3 : ⌊(x + 10) / 32⌋ ≤ ⌊(x - 10) / 32⌋ + 1 := by
      rw [← Int.floor_add_one]
      exact Int.floor_mono (by linarith)
    omega
  have squareClear_of_cornersFree : ∀ (L : Level) (ds : List PlayDoor) (x y : ℝ)
      (h : cornersFree L ds x y),
      squareClear L ds x y := by
    intro L ds x y h
    intro px py hx hy
    obtain ⟨h1, h2, h3, h4⟩ := h
    rcases floor_mem_ends x px hx with ex | ex <;> rcases floor_mem_ends y py hy with ey | ey <;>
      rw [ex, ey] <;> assumption
  have cornersFree_of_squareClear : ∀ (L : Level) (ds : List PlayDoor) (x y : ℝ)
      (h : squareClear L ds x y),
      cornersFree L ds x y := by
    intro L ds x y h
    refine ⟨h _ _ ?_ ?_, h _ _ ?_ ?_, h _ _ ?_ ?_, h _ _ ?_ ?_⟩ <;> norm_num [abs_le]
  -- The horizontal extent that a clear square implies.
  have squareClear_bounds : ∀ (L : Level) (ds : List PlayDoor) (x y : ℝ)
      (h : squareClear L ds x y),
      (0 ≤ x - 10 ∧ x + 10 < 32 * (L.COLS : ℝ)) ∧ (0 ≤ y - 10 ∧ y + 10 < 32 * (L.ROWS : ℝ)) := by
    intro L ds x y h
    obtain ⟨⟨⟨a1, _, a2, _⟩, _⟩, _, _, ⟨⟨_, b1, _, b2⟩, _⟩⟩ := cornersFree_of_squareClear L ds x y h
    have a1' : 0 ≤ ⌊(x - 10) / 32⌋ := a1
    have a2' : 0 ≤ ⌊(y - 10) / 32⌋ := a2
    rw [Int.floor_nonneg] at a1' a2'
    have b1' : (x + 10) / 32 < ((L.COLS : ℤ) : ℝ) := Int.floor_lt.mp b1
    have b2' : (y + 10) / 32 < ((L.ROWS : ℤ) : ℝ) := Int.floor_lt.mp b2
    simp only [Int.cast_natCast] at b1' b2'
    refine ⟨⟨by linarith, by linarith⟩, ⟨by linarith, by linarith⟩⟩
  -- The final clamp keeps every point of the square in a column that the
  -- square already met.
  have clamp_same_column : ∀ (x : ℝ) (n : ℕ) (h0 : 0 ≤ x - 10) (h1 : x + 10 < 32 * (n : ℝ))
      (px : ℝ) (hp : |px - max 11 (min (32 * (n : ℝ) - 11) x)| ≤ 10),
      ∃ qx : ℝ, |qx - x| ≤ 10 ∧ ⌊qx / 32⌋ = ⌊px / 32⌋ := by
    intro x n h0 h1 px hp
    have hn : (1 : ℝ) ≤ n := by
      have : (0 : ℝ) < n := by
        by_contra hc
        have : (n : ℝ) = 0 := le_antisymm (not_lt.mp hc) (Nat.cast_nonneg n)
        rw [this] at h1
        linarith
      exact_mod_cast this
    by_cases hlo : x < 11
    · have hc : max 11 (min (32 * (n : ℝ) - 11) x) = 11 := by
        rw [min_eq_right (by linarith), max_eq_left (by linarith)]
      rw [hc, abs_le] at hp
      refine ⟨x - 10, by norm_num [abs_le], ?_⟩
      have e1 : ⌊(x - 10) / 32⌋ = 0 := by
        rw [Int.floor_eq_iff]; constructor <;> norm_num <;> linarith
      have e2 : ⌊px / 32⌋ = 0 := by
        rw [Int.floor_eq_iff]; constructor <;> norm_num <;> linarith
      rw [e1, e2]
    · by_cases hhi : 32 * (n : ℝ) - 11 < x
      · have hc : max 11 (min (32 * (n : ℝ) - 11) x) = 32 * (n : ℝ) - 11 := by
          rw [min_eq_left (by linarith), max_eq_right (by linarith)]
        rw [hc, abs_le] at hp
        refine ⟨x + 10, by norm_num [abs_le], ?_⟩
        have e1 : ⌊(x + 10) / 32⌋ = (n : ℤ) - 1 := by
          rw [Int.floor_eq_iff]; constructor <;> push_cast <;> linarith
        have e2 : ⌊px / 32⌋ = (n : ℤ) - 1 := by
          rw [Int.floor_eq_iff]; constructor <;> push_cast <;> linarith
        rw [e1, e2]
      · have hc : max 11 (min (32 * (n : ℝ) - 11) x) = x := by
          rw [min_eq_right (by linarith), max_eq_right (by linarith)]
        rw [hc] at hp
        exact ⟨px, hp, rfl⟩
  have squareClear_clamp : ∀ (L : Level) (ds : List PlayDoor) (x y : ℝ) (h : squareClear L ds x y),
      squareClear L ds (max (PLAYER_SIZE / 2) (min ((L.COLS : ℝ) * TILE - PLAYER_SIZE / 2) x))
        (max (PLAYER_SIZE / 2) (min ((L.ROWS : ℝ) * TILE - PLAYER_SIZE / 2) y)) := by
    intro L ds x y h
    obtain ⟨⟨x0, x1⟩, ⟨y0, y1⟩⟩ := squareClear_bounds L ds x y h
    have e : PLAYER_SIZE / 2 = 11 := by unfold PLAYER_SIZE; norm_num
    have ec : (L.COLS : ℝ) * TILE = 32 * (L.COLS : ℝ) := by unfold TILE; ring
    have er : (L.ROWS : ℝ) * TILE = 32 * (L.ROWS : ℝ) := by unfold TILE; ring
    rw [e, ec, er]
    intro px py hx hy
    obtain ⟨qx, hqx, ex⟩ := clamp_same_column x L.COLS x0 x1 px hx
    obtain ⟨qy, hqy, ey⟩ := clamp_same_column y L.ROWS y0 y1 py hy
    rw [← ex, ← ey]
    exact h qx qy hqx hqy
  have squareClear_moveAxis_x : ∀ (L : Level) (ds : List PlayDoor) (hd : oneDoorPerCell ds)
      (x y dx : ℝ) (h : squareClear L ds x y),
      squareClear L ds (moveAxis L ds x y dx 0).x y := by
    intro L ds hd x y dx h
    by_cases hf : cornersFree L ds (x + dx) (y + 0)
    · rw [moveAxis_of_free L ds hd x y dx 0 hf]
      rw [add_zero] at hf
      exact squareClear_of_cornersFree L ds _ _ hf
    · rw [moveAxis_of_not_free L ds hd x y dx 0 hf]
      exact h
  exact ⟨floor_mem_ends, squareClear_of_cornersFree, cornersFree_of_squareClear,
    squareClear_bounds, clamp_same_column, squareClear_clamp, squareClear_moveAxis_x⟩

/-- The collision square, its corners and the blocking test of `moveAxis`.  The
conjuncts, in order: `squareClear_moveAxis_y`, `moreOpen_refl`,
`moreOpen_trans`, `moreOpen_openDoors`, `foldl_keyEffect_moreOpen`,
`cellFree_of_moreOpen`, `squareClear_of_moreOpen`. -/
theorem collision_square_lemmas_b :
    (∀ (L : Level) (ds : List PlayDoor) (_ : oneDoorPerCell ds) (x y dy : ℝ)
      (_ : squareClear L ds x y),
      squareClear L ds x (moveAxis L ds x y 0 dy).y) ∧
    (∀ (ds : List PlayDoor),
      moreOpen ds ds) ∧
    (∀ (a b c : List PlayDoor) (_ : moreOpen a b) (_ : moreOpen b c),
      moreOpen a c) ∧
    (∀ (id : ℕ) (ds : List PlayDoor),
      moreOpen ds (openDoors id ds)) ∧
    (∀ (p : Player) (ks : List PlayKey) (s : Play),
      moreOpen s.playDoors (ks.foldl (keyEffect p) s).playDoors) ∧
    (∀ (L : Level) (ds ds' : List PlayDoor) (_ : moreOpen ds ds') (gx gy : ℤ)
      (_ : cellFree L ds gx gy),
      cellFree L ds' gx gy) ∧
    (∀ (L : Level) (ds ds' : List PlayDoor) (_ : moreOpen ds ds') (x y : ℝ)
      (_ : squareClear L ds x y),
      squareClear L ds' x y) := by
  have moveAxis_of_free := phase_frames_b.2.2.2.2.2.1
  have moveAxis_of_not_free := phase_frames_b.2.2.2.2.2.2
  have squareClear_of_cornersFree := collision_square_lemmas.2.1
  have squareClear_moveAxis_y : ∀ (L : Level) (ds : List PlayDoor) (hd : oneDoorPerCell ds)
      (x y dy : ℝ) (h : squareClear L ds x y),
      squareClear L ds x (moveAxis L ds x y 0 dy).y := by
    intro L ds hd x y dy h
    by_cases hf : cornersFree L ds (x + 0) (y + dy)
    · rw [moveAxis_of_free L ds hd x y 0 dy hf]
      rw [add_zero] at hf
      exact squareClear_of_cornersFree L ds _ _ hf
    · rw [moveAxis_of_not_free L ds hd x y 0 dy hf]
      exact h
  have moreOpen_refl : ∀ (ds : List PlayDoor),
      moreOpen ds ds :=
      fun ds =>
        fun e he => ⟨e, he, rfl, rfl, id⟩
  have moreOpen_trans : ∀ (a b c : List PlayDoor) (hab : moreOpen a b) (hbc : moreOpen b c),
      moreOpen a c := by
    intro a b c hab hbc
    intro e he
    obtain ⟨d, hd, hx, hy, ho⟩ := hbc e he
    obtain ⟨d', hd', hx', hy', ho'⟩ := hab d hd
    exact ⟨d', hd', hx'.trans hx, hy'.trans hy, fun h => ho' (ho h)⟩
  have moreOpen_openDoors : ∀ (id : ℕ) (ds : List PlayDoor),
      moreOpen ds (openDoors id ds) := by
    intro id ds
    intro e he
    unfold openDoors at he
    rw [List.mem_map] at he
    obtain ⟨d, hd, rfl⟩ := he
    refine ⟨d, hd, ?_⟩
    split_ifs <;> simp
  have foldl_keyEffect_moreOpen : ∀ (p : Player) (ks : List PlayKey) (s : Play),
      moreOpen s.playDoors (ks.foldl (keyEffect p) s).playDoors := by
    intro p ks s
    induction ks generalizing s with
    | nil => exact moreOpen_refl _
    | cons k ks ih =>
      rw [List.foldl_cons]
      refine moreOpen_trans _ _ _ ?_ (ih _)
      unfold keyEffect
      split_ifs
      · exact moreOpen_openDoors _ _
      · exact moreOpen_refl _
  have cellFree_of_moreOpen : ∀ (L : Level) (ds ds' : List PlayDoor) (h : moreOpen ds ds')
      (gx gy : ℤ) (hf : cellFree L ds gx gy),
      cellFree L ds' gx gy := by
    intro L ds ds' h gx gy hf
    refine ⟨hf.1, hf.2.1, ?_⟩
    rintro ⟨e, he, hx, hy, ho⟩
    obtain ⟨d, hd, hx', hy', ho'⟩ := h e he
    exact hf.2.2 ⟨d, hd, hx'.trans hx, hy'.trans hy, ho' ho⟩
  have squareClear_of_moreOpen : ∀ (L : Level) (ds ds' : List PlayDoor) (h : moreOpen ds ds')
      (x y : ℝ) (hs : squareClear L ds x y),
      squareClear L ds' x y :=
      fun L ds ds' h x y hs =>
        fun px py hx hy => cellFree_of_moreOpen L ds ds' h _ _ (hs px py hx hy)
  exact ⟨squareClear_moveAxis_y, moreOpen_refl, moreOpen_trans, moreOpen_openDoors,
    foldl_keyEffect_moreOpen, cellFree_of_moreOpen, squareClear_of_moreOpen⟩

/-! ## More frame lemmas -/

/-- The collision square, its corners and the blocking test of `moveAxis`.  The
conjuncts, in order: `items_goalStep`, `items_contactStep`,
`items_checkpointStep`, `items_velocityStep`, `items_iceStep`,
`items_beforeMove`, `player_iceStep`. -/
theorem collision_square_lemmas_c :
    (∀ (L : Level) (pgx pgy : ℤ) (s : Play),
      items (goalStep L pgx pgy s) = items s) ∧
    (∀ (L : Level) (dt : ℝ) (pgx pgy : ℤ) (s : Play),
      items (contactStep L dt pgx pgy s) = items s) ∧
    (∀ (L : Level) (s : Play),
      items (checkpointStep L s) = items s) ∧
    (∀ (L : Level) (keysDown : String → Bool) (s : Play),
      items (velocityStep L keysDown s) = items s) ∧
    (∀ (L : Level) (keysDown : String → Bool) (s : Play),
      items (iceStep L keysDown s) = items s) ∧
    (∀ (L : Level) (keysDown : String → Bool) (dt : ℝ) (s : Play),
      items (beforeMove L keysDown dt s) = items s) ∧
    (∀ (L : Level) (keysDown : String → Bool) (s : Play),
      (iceStep L keysDown s).player = s.player) := by
  have items_goalStep : ∀ (L : Level) (pgx pgy : ℤ) (s : Play),
      items (goalStep L pgx pgy s) = items s := by
    intro L pgx pgy s
    unfold goalStep
    split_ifs <;> rfl
  have items_contactStep : ∀ (L : Level) (dt : ℝ) (pgx pgy : ℤ) (s : Play),
      items (contactStep L dt pgx pgy s) = items s := by
    intro L dt pgx pgy s
    unfold contactStep
    split_ifs
    · rw [items_goalStep]; rfl
    · rfl
    · rw [items_goalStep]
  have items_checkpointStep : ∀ (L : Level) (s : Play),
      items (checkpointStep L s) = items s := by
    intro L s
    unfold checkpointStep
    dsimp only
    split_ifs <;> rfl
  have items_velocityStep : ∀ (L : Level) (keysDown : String → Bool) (s : Play),
      items (velocityStep L keysDown s) = items s := by
    intro L keysDown s
    unfold velocityStep
    split_ifs <;> rfl
  have items_iceStep : ∀ (L : Level) (keysDown : String → Bool) (s : Play),
      items (iceStep L keysDown s) = items s := by
    intro L keysDown s
    unfold iceStep
    dsimp only
    split_ifs <;> rfl
  have items_beforeMove : ∀ (L : Level) (keysDown : String → Bool) (dt : ℝ) (s : Play),
      items (beforeMove L keysDown dt s) = items s := by
    intro L keysDown dt s
    unfold beforeMove
    rw [items_velocityStep, items_iceStep]
    rfl
  have player_iceStep : ∀ (L : Level) (keysDown : String → Bool) (s : Play),
      (iceStep L keysDown s).player = s.player := by
    intro L keysDown s
    unfold iceStep
    dsimp only
    split_ifs <;> rfl
  exact ⟨items_goalStep, items_contactStep, items_checkpointStep, items_velocityStep,
    items_iceStep, items_beforeMove, player_iceStep⟩

/-- The collision square, its corners and the blocking test of `moveAxis`.  The
conjuncts, in order: `player_velocityStep`, `player_beforeMove`,
`playDoors_beforeMove`, `player_updatePlay`, `items_updatePlay`,
`updatePlay_of_not_reachesMove`, `moreOpen_updatePlay`. -/
theorem collision_square_lemmas_d :
    (∀ (L : Level) (keysDown : String → Bool) (s : Play),
      (velocityStep L keysDown s).player = s.player) ∧
    (∀ (L : Level) (keysDown : String → Bool) (dt : ℝ) (s : Play),
      (beforeMove L keysDown dt s).player = s.player) ∧
    (∀ (L : Level) (keysDown : String → Bool) (dt : ℝ) (s : Play),
      (beforeMove L keysDown dt s).playDoors = s.playDoors) ∧
    (∀ (L : Level) (keysDown : String → Bool) (dt : ℝ) (s : Play) (_ : reachesMove L dt s),
      (updatePlay L keysDown dt s).player = (moveStep L dt (beforeMove L keysDown dt s)).player) ∧
    (∀ (L : Level) (keysDown : String → Bool) (dt : ℝ) (s : Play) (_ : reachesMove L dt s),
      items (updatePlay L keysDown dt s)
        = items (keyStep (coinStep (enemyStep dt (moveStep L dt (beforeMove L keysDown dt s)))))) ∧
    (∀ (L : Level) (keysDown : String → Bool) (dt : ℝ) (s : Play) (_ : ¬ reachesMove L dt s),
      motion (updatePlay L keysDown dt s) = motion s ∧
        items (updatePlay L keysDown dt s) = items s) ∧
    (∀ (L : Level) (keysDown : String → Bool) (dt : ℝ) (s : Play),
      moreOpen s.playDoors (updatePlay L keysDown dt s).playDoors) := by
  have updatePlay_of_reachesMove := phase_frames_b.1
  have motion_updatePlay := phase_frames_b.2.1
  have moreOpen_refl := collision_square_lemmas_b.2.1
  have foldl_keyEffect_moreOpen := collision_square_lemmas_b.2.2.2.2.1
  have items_contactStep := collision_square_lemmas_c.2.1
  have items_checkpointStep := collision_square_lemmas_c.2.2.1
  have items_beforeMove := collision_square_lemmas_c.2.2.2.2.2.1
  have player_iceStep := collision_square_lemmas_c.2.2.2.2.2.2
  have player_velocityStep : ∀ (L : Level) (keysDown : String → Bool) (s : Play),
      (velocityStep L keysDown s).player = s.player := by
    intro L keysDown s
    unfold velocityStep
    split_ifs <;> rfl
  have player_beforeMove : ∀ (L : Level) (keysDown : String → Bool) (dt : ℝ) (s : Play),
      (beforeMove L keysDown dt s).player = s.player := by
    intro L keysDown dt s
    unfold beforeMove
    rw [player_velocityStep, player_iceStep]
  have playDoors_beforeMove : ∀ (L : Level) (keysDown : String → Bool) (dt : ℝ) (s : Play),
      (beforeMove L keysDown dt s).playDoors = s.playDoors :=
      fun L keysDown dt s =>
        congrArg (fun t => t.2.2.1) (items_beforeMove L keysDown dt s)
  -- The player after a tick that reaches the move.
  have player_updatePlay : ∀ (L : Level) (keysDown : String → Bool) (dt : ℝ) (s : Play)
      (h : reachesMove L dt s),
      (updatePlay L keysDown dt s).player = (moveStep L dt (beforeMove L keysDown dt s)).player :=
      fun L keysDown dt s h =>
        congrArg Prod.fst (motion_updatePlay L keysDown dt s h)
  -- The coins, keys and doors after a tick that reaches the move are those
  -- that the coin filter and the key loop give, run on the moved player.
  have items_updatePlay : ∀ (L : Level) (keysDown : String → Bool) (dt : ℝ) (s : Play)
      (h : reachesMove L dt s),
      items (updatePlay L keysDown dt s)
        = items (keyStep (coinStep (enemyStep dt (moveStep L dt (beforeMove L keysDown dt s))))) := by
    intro L keysDown dt s h
    rw [updatePlay_of_reachesMove L keysDown dt s h]
    unfold playStep
    dsimp only
    rw [items_contactStep, items_checkpointStep]
    rfl
  -- A tick that does not reach the move leaves player, coins, keys and doors as
  -- they were.
  have updatePlay_of_not_reachesMove : ∀ (L : Level) (keysDown : String → Bool) (dt : ℝ)
      (s : Play) (h : ¬ reachesMove L dt s),
      motion (updatePlay L keysDown dt s) = motion s ∧
        items (updatePlay L keysDown dt s) = items s := by
    intro L keysDown dt s h
    unfold updatePlay
    by_cases hd : s.playerDying = true
    · rw [if_pos hd]; exact ⟨rfl, rfl⟩
    · rw [if_neg hd]
      dsimp only
      have ht : timeUp L { s with playTimer := s.playTimer + dt } := by
        by_contra hc
        exact h ⟨by simpa using hd, hc⟩
      rw [if_pos ht]
      exact ⟨rfl, rfl⟩
  have moreOpen_updatePlay : ∀ (L : Level) (keysDown : String → Bool) (dt : ℝ) (s : Play),
      moreOpen s.playDoors (updatePlay L keysDown dt s).playDoors := by
    intro L keysDown dt s
    by_cases h : reachesMove L dt s
    · have e := congrArg (fun t => t.2.2.1) (items_updatePlay L keysDown dt s h)
      have e' : (updatePlay L keysDown dt s).playDoors
          = (keyStep (coinStep (enemyStep dt
              (moveStep L dt (beforeMove L keysDown dt s))))).playDoors := e
      rw [e']
      have hm := foldl_keyEffect_moreOpen
        (coinStep (enemyStep dt (moveStep L dt (beforeMove L keysDown dt s)))).player
        (coinStep (enemyStep dt (moveStep L dt (beforeMove L keysDown dt s)))).playKeys
        (coinStep (enemyStep dt (moveStep L dt (beforeMove L keysDown dt s))))
      have e0 : (coinStep (enemyStep dt (moveStep L dt (beforeMove L keysDown dt s)))).playDoors
          = s.playDoors := playDoors_beforeMove L keysDown dt s
      rw [e0] at hm
      exact hm
    · have e := congrArg (fun t => t.2.2.1) (updatePlay_of_not_reachesMove L keysDown dt s h).2
      have e' : (updatePlay L keysDown dt s).playDoors = s.playDoors := e
      rw [e']
      exact moreOpen_refl _
  exact ⟨player_velocityStep, player_beforeMove, playDoors_beforeMove, player_updatePlay,
    items_updatePlay, updatePlay_of_not_reachesMove, moreOpen_updatePlay⟩

/-! ## C1: the wall non-overlap invariant -/

/-- C1 (amended): wall non-overlap is a tick invariant when every cell holds at
most one door.  For every grid, frame time, key table and state whose
collision square (centre = player position, half-size 10) lies inside the grid
and meets no wall cell and no closed-door cell, the square after `updatePlay`
(X move, Y move, final clamp) again lies inside the grid and meets no wall cell
and no closed-door cell. -/
theorem wall_non_overlap_invariant (L : Level) (keysDown : String → Bool) (dt : ℝ) (s : Play)
    (hd : oneDoorPerCell s.playDoors)
    (h : squareClear L s.playDoors s.player.x s.player.y) :
    squareClear L (updatePlay L keysDown dt s).playDoors
      (updatePlay L keysDown dt s).player.x (updatePlay L keysDown dt s).player.y := by
  have squareClear_clamp := collision_square_lemmas.2.2.2.2.2.1
  have squareClear_moveAxis_x := collision_square_lemmas.2.2.2.2.2.2
  have squareClear_moveAxis_y := collision_square_lemmas_b.1
  have squareClear_of_moreOpen := collision_square_lemmas_b.2.2.2.2.2.2
  have player_beforeMove := collision_square_lemmas_d.2.1
  have playDoors_beforeMove := collision_square_lemmas_d.2.2.1
  have player_updatePlay := collision_square_lemmas_d.2.2.2.1
  have updatePlay_of_not_reachesMove := collision_square_lemmas_d.2.2.2.2.2.1
  have moreOpen_updatePlay := collision_square_lemmas_d.2.2.2.2.2.2
  refine squareClear_of_moreOpen L s.playDoors _ (moreOpen_updatePlay L keysDown dt s) _ _ ?_
  by_cases hr : reachesMove L dt s
  · rw [player_updatePlay L keysDown dt s hr]
    unfold moveStep
    dsimp only
    rw [playDoors_beforeMove, player_beforeMove]
    apply squareClear_clamp
    have hx := squareClear_moveAxis_x L s.playDoors hd s.player.x s.player.y
      ((beforeMove L keysDown dt s).playerVx * dt) h
    exact squareClear_moveAxis_y L s.playDoors hd _ s.player.y
      ((beforeMove L keysDown dt s).playerVy * dt) hx
  · have e : (updatePlay L keysDown dt s).player = s.player :=
      congrArg Prod.fst (updatePlay_of_not_reachesMove L keysDown dt s hr).1
    rw [e]
    exact h

/-! ## The ice switch and the velocity of the tick -/

/-- The ice switch, the velocity of the tick and the move.  The conjuncts, in
order: `beforeMove_off_ice`, `beforeMove_locked`, `beforeMove_entry`,
`playerOnIce_beforeMove`, `velocity_beforeMove_of_onIce`,
`velocity_updatePlay`, `moveAxis_of_blocked`, `moveAxis_of_not_blocked`. -/
theorem ice_switch_lemmas :
    (∀ (L : Level) (keysDown : String → Bool) (dt : ℝ) (s : Play) (_ : ¬ nowOnIce L s.player),
      beforeMove L keysDown dt s
        = { s with playTimer := s.playTimer + dt, playerOnIce := false,
                   playerVx := (inputVelocity L keysDown).1,
                   playerVy := (inputVelocity L keysDown).2 }) ∧
    (∀ (L : Level) (keysDown : String → Bool) (dt : ℝ) (s : Play) (_ : nowOnIce L s.player)
      (_ : s.playerOnIce = true),
      beforeMove L keysDown dt s
        = { s with playTimer := s.playTimer + dt,
                   playerVx := s.iceLockedVx, playerVy := s.iceLockedVy }) ∧
    (∀ (L : Level) (keysDown : String → Bool) (dt : ℝ) (s : Play) (_ : nowOnIce L s.player)
      (_ : s.playerOnIce = false),
      beforeMove L keysDown dt s
        = { s with playTimer := s.playTimer + dt, playerOnIce := true,
                   iceLockedVx := (entryLock L keysDown s).1,
                   iceLockedVy := (entryLock L keysDown s).2,
                   playerVx := (entryLock L keysDown s).1,
                   playerVy := (entryLock L keysDown s).2 }) ∧
    (∀ (L : Level) (keysDown : String → Bool) (dt : ℝ) (s : Play),
      (beforeMove L keysDown dt s).playerOnIce = true ↔ nowOnIce L s.player) ∧
    (∀ (L : Level) (keysDown : String → Bool) (dt : ℝ) (s : Play)
      (_ : (beforeMove L keysDown dt s).playerOnIce = true),
      (beforeMove L keysDown dt s).playerVx = (beforeMove L keysDown dt s).iceLockedVx ∧
      (beforeMove L keysDown dt s).playerVy = (beforeMove L keysDown dt s).iceLockedVy) ∧
    (∀ (L : Level) (keysDown : String → Bool) (dt : ℝ) (s : Play) (_ : reachesMove L dt s),
      (updatePlay L keysDown dt s).playerVx = (beforeMove L keysDown dt s).playerVx ∧
      (updatePlay L keysDown dt s).playerVy = (beforeMove L keysDown dt s).playerVy) ∧
    (∀ (L : Level) (ds : List PlayDoor) (cx cy dx dy : ℝ)
      (_ : ∃ c ∈ corners (cx + dx) (cy + dy), cornerBlocked L ds c),
      moveAxis L ds cx cy dx dy = { x := cx, y := cy }) ∧
    (∀ (L : Level) (ds : List PlayDoor) (cx cy dx dy : ℝ)
      (_ : ¬ ∃ c ∈ corners (cx + dx) (cy + dy), cornerBlocked L ds c),
      moveAxis L ds cx cy dx dy = { x := cx + dx, y := cy + dy }) := by
  have motion_updatePlay := phase_frames_b.2.1
  -- Off the ice (the tile of the player is not ice) the ice flag is off and the
  -- tick moves with the velocity of the held keys.
  have beforeMove_off_ice : ∀ (L : Level) (keysDown : String → Bool) (dt : ℝ) (s : Play)
      (h : ¬ nowOnIce L s.player),
      beforeMove L keysDown dt s
        = { s with playTimer := s.playTimer + dt, playerOnIce := false,
                   playerVx := (inputVelocity L keysDown).1,
                   playerVy := (inputVelocity L keysDown).2 } := by
    intro L keysDown dt s h
    unfold beforeMove iceStep
    cases ho : s.playerOnIce <;> simp [velocityStep, inputVelocity, SQRT2, h, ho]
  -- On an ice tile with the lock already on, the tick moves with the locked
  -- vector and changes nothing else before the move.
  have beforeMove_locked : ∀ (L : Level) (keysDown : String → Bool) (dt : ℝ) (s : Play)
      (h : nowOnIce L s.player) (ho : s.playerOnIce = true),
      beforeMove L keysDown dt s
        = { s with playTimer := s.playTimer + dt,
                   playerVx := s.iceLockedVx, playerVy := s.iceLockedVy } := by
    intro L keysDown dt s h ho
    unfold beforeMove iceStep
    simp [velocityStep, h, ho]
  -- On an ice tile with the lock off, the tick turns the lock on, locks
  -- `entryLock` and moves with it.
  have beforeMove_entry : ∀ (L : Level) (keysDown : String → Bool) (dt : ℝ) (s : Play)
      (h : nowOnIce L s.player) (ho : s.playerOnIce = false),
      beforeMove L keysDown dt s
        = { s with playTimer := s.playTimer + dt, playerOnIce := true,
                   iceLockedVx := (entryLock L keysDown s).1,
                   iceLockedVy := (entryLock L keysDown s).2,
                   playerVx := (entryLock L keysDown s).1,
                   playerVy := (entryLock L keysDown s).2 } := by
    intro L keysDown dt s h ho
    unfold beforeMove iceStep entryLock
    simp only [h, ho, and_self, if_true]
    by_cases hs : hypot s.playerVx s.playerVy > 5
    · simp [velocityStep, hs]
    · by_cases hi : inputX keysDown ≠ 0 ∨ inputY keysDown ≠ 0
      · simp [velocityStep, hs, hi, inputVelocity, SQRT2]
      · simp [velocityStep, hs, hi]
  -- The ice flag at the move is on exactly on an ice tile.
  have playerOnIce_beforeMove : ∀ (L : Level) (keysDown : String → Bool) (dt : ℝ) (s : Play),
      (beforeMove L keysDown dt s).playerOnIce = true ↔ nowOnIce L s.player := by
    intro L keysDown dt s
    by_cases h : nowOnIce L s.player
    · cases ho : s.playerOnIce
      · rw [beforeMove_entry L keysDown dt s h ho]; simp [h]
      · rw [beforeMove_locked L keysDown dt s h ho]; simp [h, ho]
    · rw [beforeMove_off_ice L keysDown dt s h]; simp [h]
  -- When the ice flag is on at the move, the velocity is the locked vector.
  have velocity_beforeMove_of_onIce : ∀ (L : Level) (keysDown : String → Bool) (dt : ℝ) (s : Play)
      (h : (beforeMove L keysDown dt s).playerOnIce = true),
      (beforeMove L keysDown dt s).playerVx = (beforeMove L keysDown dt s).iceLockedVx ∧
      (beforeMove L keysDown dt s).playerVy = (beforeMove L keysDown dt s).iceLockedVy := by
    intro L keysDown dt s h
    have ht := (playerOnIce_beforeMove L keysDown dt s).mp h
    cases ho : s.playerOnIce
    · rw [beforeMove_entry L keysDown dt s ht ho]; exact ⟨rfl, rfl⟩
    · rw [beforeMove_locked L keysDown dt s ht ho]; exact ⟨rfl, rfl⟩
  -- The velocity of a tick is not touched by the move.
  have velocity_updatePlay : ∀ (L : Level) (keysDown : String → Bool) (dt : ℝ) (s : Play)
      (h : reachesMove L dt s),
      (updatePlay L keysDown dt s).playerVx = (beforeMove L keysDown dt s).playerVx ∧
      (updatePlay L keysDown dt s).playerVy = (beforeMove L keysDown dt s).playerVy := by
    intro L keysDown dt s h
    have e := motion_updatePlay L keysDown dt s h
    exact ⟨congrArg (fun t => t.2.1) e, congrArg (fun t => t.2.2.1) e⟩
  have moveAxis_of_blocked : ∀ (L : Level) (ds : List PlayDoor) (cx cy dx dy : ℝ)
      (h : ∃ c ∈ corners (cx + dx) (cy + dy), cornerBlocked L ds c),
      moveAxis L ds cx cy dx dy = { x := cx, y := cy } := by
    intro L ds cx cy dx dy h
    unfold moveAxis
    exact if_pos h
  have moveAxis_of_not_blocked : ∀ (L : Level) (ds : List PlayDoor) (cx cy dx dy : ℝ)
      (h : ¬ ∃ c ∈ corners (cx + dx) (cy + dy), cornerBlocked L ds c),
      moveAxis L ds cx cy dx dy = { x := cx + dx, y := cy + dy } := by
    intro L ds cx cy dx dy h
    unfold moveAxis
    exact if_neg h
  exact ⟨beforeMove_off_ice, beforeMove_locked, beforeMove_entry, playerOnIce_beforeMove,
    velocity_beforeMove_of_onIce, velocity_updatePlay, moveAxis_of_blocked,
    moveAxis_of_not_blocked⟩

/-- The ice switch, the velocity of the tick and the move.  The conjuncts, in
order: `moveAxis_zero`, `newX_cases`, `newY_cases`, `moveStep_decay`,
`inputX_cases`, `inputY_cases`, `inputVelocity_norm`. -/
theorem ice_switch_lemmas_b :
    (∀ (L : Level) (ds : List PlayDoor) (cx cy : ℝ),
      moveAxis L ds cx cy 0 0 = { x := cx, y := cy }) ∧
    (∀ (L : Level) (dt : ℝ) (m : Play),
      (xRejected L dt m →
        (moveAxis L m.playDoors m.player.x m.player.y (m.playerVx * dt) 0).x = m.player.x) ∧
      (¬ xRejected L dt m →
        (moveAxis L m.playDoors m.player.x m.player.y (m.playerVx * dt) 0).x
          = m.player.x + m.playerVx * dt)) ∧
    (∀ (L : Level) (dt : ℝ) (m : Play),
      (yRejected L dt m →
        (moveAxis L m.playDoors
          (moveAxis L m.playDoors m.player.x m.player.y (m.playerVx * dt) 0).x m.player.y 0
          (m.playerVy * dt)).y = m.player.y) ∧
      (¬ yRejected L dt m →
        (moveAxis L m.playDoors
          (moveAxis L m.playDoors m.player.x m.player.y (m.playerVx * dt) 0).x m.player.y 0
          (m.playerVy * dt)).y = m.player.y + m.playerVy * dt)) ∧
    (∀ (L : Level) (dt : ℝ) (m : Play) (_ : m.playerOnIce = true),
      (xRejected L dt m → m.playerVx * dt ≠ 0 → (moveStep L dt m).iceLockedVx = 0) ∧
      (¬ xRejected L dt m → (moveStep L dt m).iceLockedVx = m.iceLockedVx) ∧
      (yRejected L dt m → m.playerVy * dt ≠ 0 → (moveStep L dt m).iceLockedVy = 0) ∧
      (¬ yRejected L dt m → (moveStep L dt m).iceLockedVy = m.iceLockedVy) ∧
      ((moveStep L dt m).playerOnIce = false ↔
        (moveStep L dt m).iceLockedVx = 0 ∧ (moveStep L dt m).iceLockedVy = 0)) ∧
    (∀ (keysDown : String → Bool),
      inputX keysDown = -1 ∨ inputX keysDown = 0 ∨ inputX keysDown = 1) ∧
    (∀ (keysDown : String → Bool),
      inputY keysDown = -1 ∨ inputY keysDown = 0 ∨ inputY keysDown = 1) ∧
    (∀ (L : Level) (keysDown : String → Bool),
      ((inputX keysDown ≠ 0 ∨ inputY keysDown ≠ 0) →
        (inputVelocity L keysDown).1 ^ 2 + (inputVelocity L keysDown).2 ^ 2
          = L.currentPlayerSpeed ^ 2) ∧
      (noDirection keysDown → inputVelocity L keysDown = (0, 0))) := by
  have moveAxis_of_blocked := ice_switch_lemmas.2.2.2.2.2.2.1
  have moveAxis_of_not_blocked := ice_switch_lemmas.2.2.2.2.2.2.2
  -- A zero displacement leaves the position where it is, blocked or not.
  have moveAxis_zero : ∀ (L : Level) (ds : List PlayDoor) (cx cy : ℝ),
      moveAxis L ds cx cy 0 0 = { x := cx, y := cy } := by
    intro L ds cx cy
    unfold moveAxis
    dsimp only
    split_ifs <;> simp
  -- The X coordinate before the clamp: unchanged when the X displacement is
  -- rejected, advanced by `vx*dt` when it is not.
  have newX_cases : ∀ (L : Level) (dt : ℝ) (m : Play),
      (xRejected L dt m →
        (moveAxis L m.playDoors m.player.x m.player.y (m.playerVx * dt) 0).x = m.player.x) ∧
      (¬ xRejected L dt m →
        (moveAxis L m.playDoors m.player.x m.player.y (m.playerVx * dt) 0).x
          = m.player.x + m.playerVx * dt) := by
    intro L dt m
    constructor
    · intro h; rw [moveAxis_of_blocked _ _ _ _ _ _ h]
    · intro h; rw [moveAxis_of_not_blocked _ _ _ _ _ _ h]
  -- The Y coordinate before the clamp, the Y move starting from the new X.
  have newY_cases : ∀ (L : Level) (dt : ℝ) (m : Play),
      (yRejected L dt m →
        (moveAxis L m.playDoors
          (moveAxis L m.playDoors m.player.x m.player.y (m.playerVx * dt) 0).x m.player.y 0
          (m.playerVy * dt)).y = m.player.y) ∧
      (¬ yRejected L dt m →
        (moveAxis L m.playDoors
          (moveAxis L m.playDoors m.player.x m.player.y (m.playerVx * dt) 0).x m.player.y 0
          (m.playerVy * dt)).y = m.player.y + m.playerVy * dt) := by
    intro L dt m
    constructor
    · intro h; rw [moveAxis_of_blocked _ _ _ _ _ _ h]
    · intro h; rw [moveAxis_of_not_blocked _ _ _ _ _ _ h]
  -- The locked vector and the ice flag after the move, for a state whose ice
  -- flag is on.
  have moveStep_decay : ∀ (L : Level) (dt : ℝ) (m : Play) (hice : m.playerOnIce = true),
      (xRejected L dt m → m.playerVx * dt ≠ 0 → (moveStep L dt m).iceLockedVx = 0) ∧
      (¬ xRejected L dt m → (moveStep L dt m).iceLockedVx = m.iceLockedVx) ∧
      (yRejected L dt m → m.playerVy * dt ≠ 0 → (moveStep L dt m).iceLockedVy = 0) ∧
      (¬ yRejected L dt m → (moveStep L dt m).iceLockedVy = m.iceLockedVy) ∧
      ((moveStep L dt m).playerOnIce = false ↔
        (moveStep L dt m).iceLockedVx = 0 ∧ (moveStep L dt m).iceLockedVy = 0) := by
    intro L dt m hice
    obtain ⟨x1, x2⟩ := newX_cases L dt m
    obtain ⟨y1, y2⟩ := newY_cases L dt m
    refine ⟨?_, ?_, ?_, ?_, ?_⟩
    · intro hx hd
      simp only [moveStep, hice, x1 hx, true_and]
      rw [if_pos hd]
    · intro hx
      simp only [moveStep, hice, x2 hx, true_and]
      by_cases hd : m.playerVx * dt = 0
      · simp [hd]
      · simp [hd]
    · intro hy hd
      simp only [moveStep, hice, y1 hy, true_and]
      rw [if_pos hd]
    · intro hy
      simp only [moveStep, hice, y2 hy, true_and]
      by_cases hd : m.playerVy * dt = 0
      · simp [hd]
      · simp [hd]
    · simp only [moveStep, hice, true_and]
      split_ifs <;> simp_all
  have inputX_cases : ∀ (keysDown : String → Bool),
      inputX keysDown = -1 ∨ inputX keysDown = 0 ∨ inputX keysDown = 1 := by
    intro keysDown
    unfold inputX
    dsimp only
    split_ifs <;> simp
  have inputY_cases : ∀ (keysDown : String → Bool),
      inputY keysDown = -1 ∨ inputY keysDown = 0 ∨ inputY keysDown = 1 := by
    intro keysDown
    unfold inputY
    dsimp only
    split_ifs <;> simp
  -- The velocity of the held keys has the configured speed as its magnitude
  -- when a direction is held, and is zero when none is.
  have inputVelocity_norm : ∀ (L : Level) (keysDown : String → Bool),
      ((inputX keysDown ≠ 0 ∨ inputY keysDown ≠ 0) →
        (inputVelocity L keysDown).1 ^ 2 + (inputVelocity L keysDown).2 ^ 2
          = L.currentPlayerSpeed ^ 2) ∧
      (noDirection keysDown → inputVelocity L keysDown = (0, 0)) := by
    intro L keysDown
    have h2 : ((Real.sqrt 2)⁻¹) ^ 2 = 1 / 2 := by
      rw [inv_pow, Real.sq_sqrt (by norm_num)]; norm_num
    constructor
    · intro hd
      unfold inputVelocity
      dsimp only
      rcases inputX_cases keysDown with hx | hx | hx <;>
        rcases inputY_cases keysDown with hy | hy | hy <;>
        simp only [hx, hy] at hd ⊢ <;> norm_num at hd ⊢ <;> 
        (try (rw [mul_pow, h2]; ring))
    · rintro ⟨hx, hy⟩
      unfold inputVelocity
      simp [hx, hy]
  exact ⟨moveAxis_zero, newX_cases, newY_cases, moveStep_decay, inputX_cases, inputY_cases,
    inputVelocity_norm⟩

/-! ## C3: the ice lock ignores input -/

/-- C3: the ice lock ignores input.  On a tick that starts with the ice flag
set, the tile of the player an ice tile and a non-zero locked vector, two runs
that differ only in the held keys give the same state after the tick; when the
tick reaches the move, the velocity it applies is the locked vector; and when
neither axis displacement is rejected, the locked vector and the ice flag are
unchanged after the tick. -/
theorem ice_lock_ignores_input (L : Level) (keys₁ keys₂ : String → Bool) (dt : ℝ) (s : Play)
    (hon : s.playerOnIce = true) (htile : nowOnIce L s.player)
    (hlock : s.iceLockedVx ≠ 0 ∨ s.iceLockedVy ≠ 0) :
    updatePlay L keys₁ dt s = updatePlay L keys₂ dt s ∧
    (reachesMove L dt s →
      ((updatePlay L keys₁ dt s).playerVx = s.iceLockedVx ∧
        (updatePlay L keys₁ dt s).playerVy = s.iceLockedVy) ∧
      (¬ xRejected L dt (beforeMove L keys₁ dt s) → ¬ yRejected L dt (beforeMove L keys₁ dt s) →
        (updatePlay L keys₁ dt s).iceLockedVx = s.iceLockedVx ∧
        (updatePlay L keys₁ dt s).iceLockedVy = s.iceLockedVy ∧
        (updatePlay L keys₁ dt s).playerOnIce = true)) := by
  have motion_updatePlay := phase_frames_b.2.1
  have beforeMove_locked := ice_switch_lemmas.2.1
  have playerOnIce_beforeMove := ice_switch_lemmas.2.2.2.1
  have velocity_updatePlay := ice_switch_lemmas.2.2.2.2.2.1
  have moveStep_decay := ice_switch_lemmas_b.2.2.2.1
  have hb : ∀ k, beforeMove L k dt s
      = { s with playTimer := s.playTimer + dt,
                 playerVx := s.iceLockedVx, playerVy := s.iceLockedVy } :=
    fun k => beforeMove_locked L k dt s htile hon
  constructor
  · have e : beforeMove L keys₁ dt s = beforeMove L keys₂ dt s := by rw [hb, hb]
    unfold beforeMove at e
    unfold updatePlay playStep
    simp only [e]
  · intro hr
    have hv := velocity_updatePlay L keys₁ dt s hr
    have hm := motion_updatePlay L keys₁ dt s hr
    have h5 : (updatePlay L keys₁ dt s).iceLockedVx
        = (moveStep L dt (beforeMove L keys₁ dt s)).iceLockedVx :=
      congrArg (fun t => t.2.2.2.2.1) hm
    have h6 : (updatePlay L keys₁ dt s).iceLockedVy
        = (moveStep L dt (beforeMove L keys₁ dt s)).iceLockedVy :=
      congrArg (fun t => t.2.2.2.2.2) hm
    have h4 : (updatePlay L keys₁ dt s).playerOnIce
        = (moveStep L dt (beforeMove L keys₁ dt s)).playerOnIce :=
      congrArg (fun t => t.2.2.2.1) hm
    have hice : (beforeMove L keys₁ dt s).playerOnIce = true :=
      (playerOnIce_beforeMove L keys₁ dt s).mpr htile
    obtain ⟨-, d2, -, d4, d5⟩ := moveStep_decay L dt (beforeMove L keys₁ dt s) hice
    refine ⟨?_, ?_⟩
    · rw [hv.1, hv.2, hb]; exact ⟨rfl, rfl⟩
    · intro hx hy
      have e5 := d2 hx
      have e6 := d4 hy
      have l5 : (beforeMove L keys₁ dt s).iceLockedVx = s.iceLockedVx := by rw [hb]
      have l6 : (beforeMove L keys₁ dt s).iceLockedVy = s.iceLockedVy := by rw [hb]
      refine ⟨by rw [h5, e5, l5], by rw [h6, e6, l6], ?_⟩
      rw [h4]
      by_contra hc
      have hf : (moveStep L dt (beforeMove L keys₁ dt s)).playerOnIce = false := by
        simpa using hc
      obtain ⟨z5, z6⟩ := d5.mp hf
      rw [e5, l5] at z5
      rw [e6, l6] at z6
      rcases hlock with h | h
      · exact h z5
      · exact h z6

/-! ## C4: the ice entry rule -/

/-- C4: the ice entry rule.  On a tick that reaches the move with the tile of
the player an ice tile and the ice flag off, the flag is on when the player is
moved and the locked vector is: the velocity carried from the previous tick
when its magnitude exceeds 5; otherwise, when the held keys give a non-zero
direction `(ix, iy)`, that direction scaled by `1/sqrt 2` when both are
non-zero and by the configured speed; otherwise the zero vector.  The velocity
applied in the tick is that locked vector. -/
theorem ice_entry_rule (L : Level) (keysDown : String → Bool) (dt : ℝ) (s : Play)
    (hr : reachesMove L dt s) (htile : nowOnIce L s.player) (hoff : s.playerOnIce = false) :
    (beforeMove L keysDown dt s).playerOnIce = true ∧
    (hypot s.playerVx s.playerVy > 5 →
      (beforeMove L keysDown dt s).iceLockedVx = s.playerVx ∧
      (beforeMove L keysDown dt s).iceLockedVy = s.playerVy) ∧
    (¬ hypot s.playerVx s.playerVy > 5 → (inputX keysDown ≠ 0 ∨ inputY keysDown ≠ 0) →
      (beforeMove L keysDown dt s).iceLockedVx
        = inputX keysDown * (if inputX keysDown ≠ 0 ∧ inputY keysDown ≠ 0
            then 1 / Real.sqrt 2 else 1) * L.currentPlayerSpeed ∧
      (beforeMove L keysDown dt s).iceLockedVy
        = inputY keysDown * (if inputX keysDown ≠ 0 ∧ inputY keysDown ≠ 0
            then 1 / Real.sqrt 2 else 1) * L.currentPlayerSpeed) ∧
    (¬ hypot s.playerVx s.playerVy > 5 → inputX keysDown = 0 ∧ inputY keysDown = 0 →
      (beforeMove L keysDown dt s).iceLockedVx = 0 ∧
      (beforeMove L keysDown dt s).iceLockedVy = 0) ∧
    ((updatePlay L keysDown dt s).playerVx = (beforeMove L keysDown dt s).iceLockedVx ∧
      (updatePlay L keysDown dt s).playerVy = (beforeMove L keysDown dt s).iceLockedVy) := by
  have beforeMove_entry := ice_switch_lemmas.2.2.1
  have velocity_updatePlay := ice_switch_lemmas.2.2.2.2.2.1
  have hv := velocity_updatePlay L keysDown dt s hr
  rw [hv.1, hv.2, beforeMove_entry L keysDown dt s htile hoff]
  refine ⟨rfl, ?_, ?_, ?_, rfl, rfl⟩
  · intro h
    simp [entryLock, h]
  · intro h hi
    simp only [entryLock, if_neg h, if_pos hi, inputVelocity]
    exact ⟨trivial, trivial⟩
  · intro h hi
    have hn : ¬ (inputX keysDown ≠ 0 ∨ inputY keysDown ≠ 0) := by
      simp [hi.1, hi.2]
    simp only [entryLock, if_neg h, if_neg hn]
    exact ⟨trivial, trivial⟩

/-! ## C6: the ice exit -/

/-- C6 (amended): the ice exit.  On a tick that reaches the move with the tile
of the player not an ice tile while the ice flag was set, the flag is cleared
and the velocity applied to the move of that same tick is the velocity that the
held keys give (zero when no direction is held): input control is back in the
tick of the exit, not one tick later. -/
theorem ice_exit_resumes_input (L : Level) (keysDown : String → Bool) (dt : ℝ) (s : Play)
    (hr : reachesMove L dt s) (htile : ¬ nowOnIce L s.player) (_hon : s.playerOnIce = true) :
    (updatePlay L keysDown dt s).playerOnIce = false ∧
    (updatePlay L keysDown dt s).playerVx = (inputVelocity L keysDown).1 ∧
    (updatePlay L keysDown dt s).playerVy = (inputVelocity L keysDown).2 ∧
    (noDirection keysDown →
      (updatePlay L keysDown dt s).playerVx = 0 ∧ (updatePlay L keysDown dt s).playerVy = 0) := by
  have motion_updatePlay := phase_frames_b.2.1
  have beforeMove_off_ice := ice_switch_lemmas.1
  have velocity_updatePlay := ice_switch_lemmas.2.2.2.2.2.1
  have inputVelocity_norm := ice_switch_lemmas_b.2.2.2.2.2.2
  have hv := velocity_updatePlay L keysDown dt s hr
  have hm := motion_updatePlay L keysDown dt s hr
  have h4 : (updatePlay L keysDown dt s).playerOnIce
      = (moveStep L dt (beforeMove L keysDown dt s)).playerOnIce :=
    congrArg (fun t => t.2.2.2.1) hm
  rw [hv.1, hv.2, h4, beforeMove_off_ice L keysDown dt s htile]
  refine ⟨?_, rfl, rfl, ?_⟩
  · simp [moveStep]
  · intro hk
    have := (inputVelocity_norm L keysDown).2 hk
    simp [this]

/-! ## C7: the decay of a blocked axis -/

/-- C7: blocked-axis decay.  On a tick with positive frame time that reaches
the move with the ice flag set there: a rejected X displacement zeroes a
non-zero locked X component; an accepted displacement keeps the locked
component of its axis (so the locked Y component keeps its value unless the Y
displacement is rejected too); the same holds with X and Y exchanged; and at
the end of the tick the ice flag is cleared exactly when both locked components
are zero. -/
theorem blocked_axis_decay (L : Level) (keysDown : String → Bool) (dt : ℝ) (s : Play)
    (hr : reachesMove L dt s) (hdt : 0 < dt)
    (hice : (beforeMove L keysDown dt s).playerOnIce = true) :
    (xRejected L dt (beforeMove L keysDown dt s) →
      (beforeMove L keysDown dt s).iceLockedVx ≠ 0 →
      (updatePlay L keysDown dt s).iceLockedVx = 0) ∧
    (¬ xRejected L dt (beforeMove L keysDown dt s) →
      (updatePlay L keysDown dt s).iceLockedVx = (beforeMove L keysDown dt s).iceLockedVx) ∧
    (yRejected L dt (beforeMove L keysDown dt s) →
      (beforeMove L keysDown dt s).iceLockedVy ≠ 0 →
      (updatePlay L keysDown dt s).iceLockedVy = 0) ∧
    (¬ yRejected L dt (beforeMove L keysDown dt s) →
      (updatePlay L keysDown dt s).iceLockedVy = (beforeMove L keysDown dt s).iceLockedVy) ∧
    ((updatePlay L keysDown dt s).playerOnIce = false ↔
      (updatePlay L keysDown dt s).iceLockedVx = 0 ∧
      (updatePlay L keysDown dt s).iceLockedVy = 0) := by
  have motion_updatePlay := phase_frames_b.2.1
  have velocity_beforeMove_of_onIce := ice_switch_lemmas.2.2.2.2.1
  have moveStep_decay := ice_switch_lemmas_b.2.2.2.1
  have hm := motion_updatePlay L keysDown dt s hr
  have h5 : (updatePlay L keysDown dt s).iceLockedVx
      = (moveStep L dt (beforeMove L keysDown dt s)).iceLockedVx :=
    congrArg (fun t => t.2.2.2.2.1) hm
  have h6 : (updatePlay L keysDown dt s).iceLockedVy
      = (moveStep L dt (beforeMove L keysDown dt s)).iceLockedVy :=
    congrArg (fun t => t.2.2.2.2.2) hm
  have h4 : (updatePlay L keysDown dt s).playerOnIce
      = (moveStep L dt (beforeMove L keysDown dt s)).playerOnIce :=
    congrArg (fun t => t.2.2.2.1) hm
  obtain ⟨vx, vy⟩ := velocity_beforeMove_of_onIce L keysDown dt s hice
  obtain ⟨d1, d2, d3, d4, d5⟩ := moveStep_decay L dt (beforeMove L keysDown dt s) hice
  rw [h4, h5, h6]
  refine ⟨fun hx hl => d1 hx ?_, d2, fun hy hl => d3 hy ?_, d4, d5⟩
  · rw [vx]; exact mul_ne_zero hl hdt.ne'
  · rw [vy]; exact mul_ne_zero hl hdt.ne'

/-! ## C8: the velocity off the ice -/

/-- C8: diagonal speed equals axis speed.  On a tick that reaches the move
with the ice flag off there, the velocity is the one that the held keys and the
configured speed give, whatever the state was before; when the keys give a
non-zero direction `vx^2 + vy^2 = speed^2`, and when they give none the
velocity is `(0, 0)`. -/
theorem fresh_velocity_off_ice (L : Level) (keysDown : String → Bool) (dt : ℝ) (s : Play)
    (hr : reachesMove L dt s) (hoff : (beforeMove L keysDown dt s).playerOnIce = false) :
    ((updatePlay L keysDown dt s).playerVx
        = inputX keysDown * (if inputX keysDown ≠ 0 ∧ inputY keysDown ≠ 0
            then 1 / Real.sqrt 2 else 1) * L.currentPlayerSpeed ∧
      (updatePlay L keysDown dt s).playerVy
        = inputY keysDown * (if inputX keysDown ≠ 0 ∧ inputY keysDown ≠ 0
            then 1 / Real.sqrt 2 else 1) * L.currentPlayerSpeed) ∧
    ((inputX keysDown ≠ 0 ∨ inputY keysDown ≠ 0) →
      (updatePlay L keysDown dt s).playerVx ^ 2 + (updatePlay L keysDown dt s).playerVy ^ 2
        = L.currentPlayerSpeed ^ 2) ∧
    (inputX keysDown = 0 ∧ inputY keysDown = 0 →
      (updatePlay L keysDown dt s).playerVx = 0 ∧ (updatePlay L keysDown dt s).playerVy = 0) := by
  have beforeMove_off_ice := ice_switch_lemmas.1
  have playerOnIce_beforeMove := ice_switch_lemmas.2.2.2.1
  have velocity_updatePlay := ice_switch_lemmas.2.2.2.2.2.1
  have inputVelocity_norm := ice_switch_lemmas_b.2.2.2.2.2.2
  have htile : ¬ nowOnIce L s.player := by
    intro hc
    have := (playerOnIce_beforeMove L keysDown dt s).mpr hc
    rw [hoff] at this
    exact Bool.noConfusion this
  have hv := velocity_updatePlay L keysDown dt s hr
  rw [hv.1, hv.2, beforeMove_off_ice L keysDown dt s htile]
  refine ⟨⟨rfl, rfl⟩, (inputVelocity_norm L keysDown).1, ?_⟩
  intro hk
  have := (inputVelocity_norm L keysDown).2 hk
  simp [this]

/-! ## C9 and C10: coins and keys -/

/-- Distances to cell centres and the coin filter.  The conjuncts, in order:
`hypot_eq_distance`, `tileCenter_px`, `tileCenter_py`, `coinKept_iff`,
`playCoins_updatePlay`. -/
theorem coin_filter_lemmas :
    (∀ (x y x' y' : ℝ),
      hypot (x - x') (y - y') = distance x y x' y') ∧
    (∀ (gx gy : ℤ),
      (tileCenter gx gy).px = 32 * (gx : ℝ) + 16) ∧
    (∀ (gx gy : ℤ),
      (tileCenter gx gy).py = 32 * (gy : ℝ) + 16) ∧
    (∀ (p : Player) (coin : Coin),
      coinKept p coin ↔
        ¬ distance p.x p.y (32 * (coin.gx : ℝ) + 16) (32 * (coin.gy : ℝ) + 16) ≤ 15) ∧
    (∀ (L : Level) (keysDown : String → Bool) (dt : ℝ) (s : Play) (_ : reachesMove L dt s),
      (updatePlay L keysDown dt s).playCoins
        = s.playCoins.filter (fun coin => decide (coinKept (updatePlay L keysDown dt s).player coin))) := by
  have playCoins_keyStep := phase_frames.2.2.2.1
  have items_beforeMove := collision_square_lemmas_c.2.2.2.2.2.1
  have player_updatePlay := collision_square_lemmas_d.2.2.2.1
  have items_updatePlay := collision_square_lemmas_d.2.2.2.2.1
  have hypot_eq_distance : ∀ (x y x' y' : ℝ),
      hypot (x - x') (y - y') = distance x y x' y' :=
      fun x y x' y' =>
        rfl
  have tileCenter_px : ∀ (gx gy : ℤ),
      (tileCenter gx gy).px = 32 * (gx : ℝ) + 16 := by
    intro gx gy
    unfold tileCenter TILE; norm_num; ring
  have tileCenter_py : ∀ (gx gy : ℤ),
      (tileCenter gx gy).py = 32 * (gy : ℝ) + 16 := by
    intro gx gy
    unfold tileCenter TILE; norm_num; ring
  have coinKept_iff : ∀ (p : Player) (coin : Coin),
      coinKept p coin ↔
        ¬ distance p.x p.y (32 * (coin.gx : ℝ) + 16) (32 * (coin.gy : ℝ) + 16) ≤ 15 := by
    intro p coin
    unfold coinKept
    dsimp only
    rw [tileCenter_px, tileCenter_py, hypot_eq_distance]
    unfold COIN_RADIUS PLAYER_SIZE
    rw [not_le]
    norm_num
  -- The coins after a tick that reaches the move.
  have playCoins_updatePlay : ∀ (L : Level) (keysDown : String → Bool) (dt : ℝ) (s : Play)
      (hr : reachesMove L dt s),
      (updatePlay L keysDown dt s).playCoins
        = s.playCoins.filter (fun coin => decide (coinKept (updatePlay L keysDown dt s).player coin)) := by
    intro L keysDown dt s hr
    have e := congrArg Prod.fst (items_updatePlay L keysDown dt s hr)
    have e' : (updatePlay L keysDown dt s).playCoins
        = (keyStep (coinStep (enemyStep dt
            (moveStep L dt (beforeMove L keysDown dt s))))).playCoins := e
    rw [e', playCoins_keyStep, player_updatePlay L keysDown dt s hr]
    have e0 : (beforeMove L keysDown dt s).playCoins = s.playCoins :=
      congrArg Prod.fst (items_beforeMove L keysDown dt s)
    simp only [coinStep, enemyStep, moveStep, e0]
  exact ⟨hypot_eq_distance, tileCenter_px, tileCenter_py, coinKept_iff, playCoins_updatePlay⟩

/-- C9: the coin pickup threshold.  After a tick that reaches the coin step,
the remaining coins are the coins that were remaining before it, in their
order, without those whose cell centre is at distance `<= 15` from the moved
player: a coin is removed if and only if that distance is `<= 15`, and no coin
is added. -/
theorem coin_pickup_threshold (L : Level) (keysDown : String → Bool) (dt : ℝ) (s : Play)
    (hr : reachesMove L dt s) :
    (updatePlay L keysDown dt s).playCoins
      = s.playCoins.filter (fun coin => decide (¬ distance
          (updatePlay L keysDown dt s).player.x (updatePlay L keysDown dt s).player.y
          (32 * (coin.gx : ℝ) + 16) (32 * (coin.gy : ℝ) + 16) ≤ 15)) ∧
    (∀ coin, coin ∈ (updatePlay L keysDown dt s).playCoins ↔
      coin ∈ s.playCoins ∧ ¬ distance
          (updatePlay L keysDown dt s).player.x (updatePlay L keysDown dt s).player.y
          (32 * (coin.gx : ℝ) + 16) (32 * (coin.gy : ℝ) + 16) ≤ 15) ∧
    (updatePlay L keysDown dt s).playCoins.Sublist s.playCoins ∧
    COIN_RADIUS + PLAYER_SIZE / 2 - 3 = 15 := by
  have coinKept_iff := coin_filter_lemmas.2.2.2.1
  have playCoins_updatePlay := coin_filter_lemmas.2.2.2.2
  have e : (updatePlay L keysDown dt s).playCoins
      = s.playCoins.filter (fun coin => decide (¬ distance
          (updatePlay L keysDown dt s).player.x (updatePlay L keysDown dt s).player.y
          (32 * (coin.gx : ℝ) + 16) (32 * (coin.gy : ℝ) + 16) ≤ 15)) := by
    rw [playCoins_updatePlay L keysDown dt s hr]
    apply List.filter_congr
    intro coin _
    rw [decide_eq_decide]
    exact coinKept_iff _ coin
  refine ⟨e, ?_, ?_, ?_⟩
  · intro coin
    rw [e, List.mem_filter, decide_eq_true_eq]
  · rw [e]
    exact List.filter_sublist _
  · unfold COIN_RADIUS PLAYER_SIZE; norm_num

/-- The keys after a tick that reaches the move. -/
theorem playKeys_updatePlay (L : Level) (keysDown : String → Bool) (dt : ℝ) (s : Play)
    (hr : reachesMove L dt s) :
    (updatePlay L keysDown dt s).playKeys
      = s.playKeys.map (fun key =>
          if keyHit (updatePlay L keysDown dt s).player key then { key with collected := true }
          else key) := by
  have items_beforeMove := collision_square_lemmas_c.2.2.2.2.2.1
  have player_updatePlay := collision_square_lemmas_d.2.2.2.1
  have items_updatePlay := collision_square_lemmas_d.2.2.2.2.1
  have e := congrArg (fun t => t.2.1) (items_updatePlay L keysDown dt s hr)
  have e' : (updatePlay L keysDown dt s).playKeys
      = (keyStep (coinStep (enemyStep dt
          (moveStep L dt (beforeMove L keysDown dt s))))).playKeys := e
  rw [e', player_updatePlay L keysDown dt s hr]
  have e0 : (beforeMove L keysDown dt s).playKeys = s.playKeys :=
    congrArg (fun t => t.2.1) (items_beforeMove L keysDown dt s)
  simp only [keyStep, coinStep, enemyStep, moveStep, e0]

/-- C10 (amended): the key pickup threshold is strict.  On a tick that reaches
the interaction checks, with every key placed at the centre of its cell, a key
that is not yet collected becomes collected if and only if the distance between
the moved player and the centre of the key's cell is `< TILE/2 + 4 = 20`; a
key at distance exactly 20 stays uncollected, and every other key is
unchanged. -/
theorem key_pickup_threshold (L : Level) (keysDown : String → Bool) (dt : ℝ) (s : Play)
    (hr : reachesMove L dt s)
    (hc : ∀ key ∈ s.playKeys,
      key.px = 32 * (key.gx : ℝ) + 16 ∧ key.py = 32 * (key.gy : ℝ) + 16) :
    (updatePlay L keysDown dt s).playKeys
      = s.playKeys.map (fun key =>
          if key.collected = false ∧ distance
              (updatePlay L keysDown dt s).player.x (updatePlay L keysDown dt s).player.y
              (32 * (key.gx : ℝ) + 16) (32 * (key.gy : ℝ) + 16) < 20
          then { key with collected := true } else key) ∧
    TILE / 2 + 4 = 20 := by
  have hypot_eq_distance := coin_filter_lemmas.1
  refine ⟨?_, by unfold TILE; norm_num⟩
  rw [playKeys_updatePlay L keysDown dt s hr]
  apply List.map_congr_left
  intro key hk
  obtain ⟨hx, hy⟩ := hc key hk
  have e : keyHit (updatePlay L keysDown dt s).player key ↔
      (key.collected = false ∧ distance
        (updatePlay L keysDown dt s).player.x (updatePlay L keysDown dt s).player.y
        (32 * (key.gx : ℝ) + 16) (32 * (key.gy : ℝ) + 16) < 20) := by
    unfold keyHit
    rw [hypot_eq_distance, hx, hy]
    unfold TILE
    norm_num
  by_cases h : keyHit (updatePlay L keysDown dt s).player key
  · rw [if_pos h, if_pos (e.mp h)]
  · rw [if_neg h, if_neg (fun hc => h (e.mpr hc))]

/-! ## C5: entering the ice at rest -/

/-- The clamp and a tick of a player at rest.  The conjuncts, in order:
`clamp_idem`, `hypot_zero`, `moveStep_of_rest`, `rest_tick`, `atRest_tick`,
`atRest_runTicks`. -/
theorem rest_lemmas :
    (∀ (a b x : ℝ),
      max a (min b (max a (min b x))) = max a (min b x)) ∧
    (hypot 0 0 = 0) ∧
    (∀ (L : Level) (dt : ℝ) (m : Play) (_ : m.playerVx = 0) (_ : m.playerVy = 0)
      (_ : m.playerOnIce = true → m.iceLockedVx = 0 ∧ m.iceLockedVy = 0),
      (moveStep L dt m).player
        = { x := max (PLAYER_SIZE / 2) (min ((L.COLS : ℝ) * TILE - PLAYER_SIZE / 2) m.player.x),
            y := max (PLAYER_SIZE / 2) (min ((L.ROWS : ℝ) * TILE - PLAYER_SIZE / 2) m.player.y) } ∧
      (moveStep L dt m).playerOnIce = false) ∧
    (∀ (L : Level) (keysDown : String → Bool) (dt : ℝ) (s : Play) (_ : reachesMove L dt s)
      (_ : noDirection keysDown) (_ : s.playerOnIce = false)
      (_ : hypot s.playerVx s.playerVy ≤ 5),
      (updatePlay L keysDown dt s).player
        = { x := max (PLAYER_SIZE / 2) (min ((L.COLS : ℝ) * TILE - PLAYER_SIZE / 2) s.player.x),
            y := max (PLAYER_SIZE / 2) (min ((L.ROWS : ℝ) * TILE - PLAYER_SIZE / 2) s.player.y) } ∧
      (updatePlay L keysDown dt s).playerOnIce = false ∧
      (updatePlay L keysDown dt s).playerVx = 0 ∧ (updatePlay L keysDown dt s).playerVy = 0) ∧
    (∀ (L : Level) (keysDown : String → Bool) (dt : ℝ) (s : Play) (_ : noDirection keysDown)
      (_ : atRest L s),
      atRest L (updatePlay L keysDown dt s) ∧ (updatePlay L keysDown dt s).player = s.player) ∧
    (∀ (L : Level) (ticks : List ((String → Bool) × ℝ)) (s : Play)
      (_ : ∀ t ∈ ticks, noDirection t.1) (_ : atRest L s),
      atRest L (runTicks L ticks s) ∧ (runTicks L ticks s).player = s.player) := by
  have motion_updatePlay := phase_frames_b.2.1
  have player_beforeMove := collision_square_lemmas_d.2.1
  have player_updatePlay := collision_square_lemmas_d.2.2.2.1
  have updatePlay_of_not_reachesMove := collision_square_lemmas_d.2.2.2.2.2.1
  have beforeMove_off_ice := ice_switch_lemmas.1
  have beforeMove_entry := ice_switch_lemmas.2.2.1
  have velocity_updatePlay := ice_switch_lemmas.2.2.2.2.2.1
  have moveAxis_zero := ice_switch_lemmas_b.1
  have inputVelocity_norm := ice_switch_lemmas_b.2.2.2.2.2.2
  have clamp_idem : ∀ (a b x : ℝ),
      max a (min b (max a (min b x))) = max a (min b x) := by
    intro a b x
    simp only [max_def, min_def]
    split_ifs <;> linarith
  have hypot_zero :
      hypot 0 0 = 0 := by
    unfold hypot; simp
  -- A move with zero velocity, the locked vector zero when the ice flag is on:
  -- the player lands on the clamped position and the ice flag is off afterwards.
  have moveStep_of_rest : ∀ (L : Level) (dt : ℝ) (m : Play) (hx : m.playerVx = 0)
      (hy : m.playerVy = 0) (hl : m.playerOnIce = true → m.iceLockedVx = 0 ∧ m.iceLockedVy = 0),
      (moveStep L dt m).player
        = { x := max (PLAYER_SIZE / 2) (min ((L.COLS : ℝ) * TILE - PLAYER_SIZE / 2) m.player.x),
            y := max (PLAYER_SIZE / 2) (min ((L.ROWS : ℝ) * TILE - PLAYER_SIZE / 2) m.player.y) } ∧
      (moveStep L dt m).playerOnIce = false := by
    intro L dt m hx hy hl
    cases ho : m.playerOnIce
    · simp [moveStep, hx, hy, moveAxis_zero, ho]
    · obtain ⟨l1, l2⟩ := hl ho
      simp [moveStep, hx, hy, moveAxis_zero, ho, l1, l2]
  -- A tick without a held direction, from a state off the ice lock whose
  -- carried speed is at most 5: the player lands on the clamped position, with zero
  -- velocity and the ice flag off, whether its tile is ice or not.
  have rest_tick : ∀ (L : Level) (keysDown : String → Bool) (dt : ℝ) (s : Play)
      (hr : reachesMove L dt s) (hk : noDirection keysDown) (hoff : s.playerOnIce = false)
      (hslow : hypot s.playerVx s.playerVy ≤ 5),
      (updatePlay L keysDown dt s).player
        = { x := max (PLAYER_SIZE / 2) (min ((L.COLS : ℝ) * TILE - PLAYER_SIZE / 2) s.player.x),
            y := max (PLAYER_SIZE / 2) (min ((L.ROWS : ℝ) * TILE - PLAYER_SIZE / 2) s.player.y) } ∧
      (updatePlay L keysDown dt s).playerOnIce = false ∧
      (updatePlay L keysDown dt s).playerVx = 0 ∧ (updatePlay L keysDown dt s).playerVy = 0 := by
    intro L keysDown dt s hr hk hoff hslow
    have hv := velocity_updatePlay L keysDown dt s hr
    have hm := motion_updatePlay L keysDown dt s hr
    have h4 : (updatePlay L keysDown dt s).playerOnIce
        = (moveStep L dt (beforeMove L keysDown dt s)).playerOnIce :=
      congrArg (fun t => t.2.2.2.1) hm
    have hz : inputVelocity L keysDown = (0, 0) := (inputVelocity_norm L keysDown).2 hk
    have hlock : entryLock L keysDown s = (0, 0) := by
      unfold entryLock
      rw [if_neg (not_lt.mpr hslow), if_neg (by simp [hk.1, hk.2])]
    have key : (beforeMove L keysDown dt s).playerVx = 0 ∧
        (beforeMove L keysDown dt s).playerVy = 0 ∧
        ((beforeMove L keysDown dt s).playerOnIce = true →
          (beforeMove L keysDown dt s).iceLockedVx = 0 ∧
          (beforeMove L keysDown dt s).iceLockedVy = 0) := by
      by_cases ht : nowOnIce L s.player
      · rw [beforeMove_entry L keysDown dt s ht hoff, hlock]
        exact ⟨rfl, rfl, fun _ => ⟨rfl, rfl⟩⟩
      · rw [beforeMove_off_ice L keysDown dt s ht, hz]
        exact ⟨rfl, rfl, fun h => Bool.noConfusion h⟩
    obtain ⟨k1, k2, k3⟩ := key
    obtain ⟨m1, m2⟩ := moveStep_of_rest L dt (beforeMove L keysDown dt s) k1 k2 k3
    rw [player_updatePlay L keysDown dt s hr, h4, hv.1, hv.2, m1, m2,
      player_beforeMove]
    exact ⟨rfl, rfl, k1, k2⟩
  -- A tick without a held direction keeps a player at rest where it is, and
  -- at rest.
  have atRest_tick : ∀ (L : Level) (keysDown : String → Bool) (dt : ℝ) (s : Play)
      (hk : noDirection keysDown) (h : atRest L s),
      atRest L (updatePlay L keysDown dt s) ∧ (updatePlay L keysDown dt s).player = s.player := by
    intro L keysDown dt s hk h
    obtain ⟨a1, a2, a3, a4, a5⟩ := h
    by_cases hr : reachesMove L dt s
    · have hslow : hypot s.playerVx s.playerVy ≤ 5 := by
        rw [a2, a3, hypot_zero]; norm_num
      obtain ⟨r1, r2, r3, r4⟩ := rest_tick L keysDown dt s hr hk a1 hslow
      rw [a4, a5] at r1
      have e : (updatePlay L keysDown dt s).player = s.player := r1
      refine ⟨⟨r2, r3, r4, ?_, ?_⟩, e⟩
      · rw [e]; exact a4
      · rw [e]; exact a5
    · have e := (updatePlay_of_not_reachesMove L keysDown dt s hr).1
      have e1 : (updatePlay L keysDown dt s).player = s.player := congrArg Prod.fst e
      have e2 : (updatePlay L keysDown dt s).playerVx = s.playerVx :=
        congrArg (fun t => t.2.1) e
      have e3 : (updatePlay L keysDown dt s).playerVy = s.playerVy :=
        congrArg (fun t => t.2.2.1) e
      have e4 : (updatePlay L keysDown dt s).playerOnIce = s.playerOnIce :=
        congrArg (fun t => t.2.2.2.1) e
      refine ⟨⟨by rw [e4, a1], by rw [e2, a2], by rw [e3, a3], ?_, ?_⟩, e1⟩
      · rw [e1]; exact a4
      · rw [e1]; exact a5
  have atRest_runTicks : ∀ (L : Level) (ticks : List ((String → Bool) × ℝ)) (s : Play)
      (hk : ∀ t ∈ ticks, noDirection t.1) (h : atRest L s),
      atRest L (runTicks L ticks s) ∧ (runTicks L ticks s).player = s.player := by
    intro L ticks s hk h
    induction ticks generalizing s with
    | nil => exact ⟨h, rfl⟩
    | cons t rest ih =>
      obtain ⟨h1, e1⟩ := atRest_tick L t.1 t.2 s (hk t (List.mem_cons_self _ _)) h
      obtain ⟨h2, e2⟩ := ih (updatePlay L t.1 t.2 s)
        (fun u hu => hk u (List.mem_cons_of_mem _ hu)) h1
      exact ⟨h2, e2.trans e1⟩
  exact ⟨clamp_idem, hypot_zero, moveStep_of_rest, rest_tick, atRest_tick, atRest_runTicks⟩

/-- C5 (amended): parked on ice until a direction is held.  When the player
enters an ice tile with speed `<= 5` and no direction key held, the locked
vector is zero and the ice flag is off again at the end of that tick; the
player is not displaced in any later tick as long as no direction key is held;
and in a later tick that reaches the move on an ice tile with a direction key
held, the ice lock is entered again with the velocity of the held keys, which
is the velocity applied in that tick. -/
theorem parked_on_ice_until_input (L : Level) (keys₀ : String → Bool) (dt₀ : ℝ) (s : Play)
    (hr : reachesMove L dt₀ s) (htile : nowOnIce L s.player) (hoff : s.playerOnIce = false)
    (hslow : hypot s.playerVx s.playerVy ≤ 5) (hk : noDirection keys₀) :
    ((beforeMove L keys₀ dt₀ s).iceLockedVx = 0 ∧ (beforeMove L keys₀ dt₀ s).iceLockedVy = 0 ∧
      (updatePlay L keys₀ dt₀ s).playerOnIce = false) ∧
    (∀ ticks : List ((String → Bool) × ℝ), (∀ t ∈ ticks, noDirection t.1) →
      (runTicks L ticks (updatePlay L keys₀ dt₀ s)).player = (updatePlay L keys₀ dt₀ s).player) ∧
    (∀ (ticks : List ((String → Bool) × ℝ)) (keysDown : String → Bool) (dt : ℝ),
      (∀ t ∈ ticks, noDirection t.1) →
      nowOnIce L (runTicks L ticks (updatePlay L keys₀ dt₀ s)).player →
      reachesMove L dt (runTicks L ticks (updatePlay L keys₀ dt₀ s)) →
      (inputX keysDown ≠ 0 ∨ inputY keysDown ≠ 0) →
      (beforeMove L keysDown dt (runTicks L ticks (updatePlay L keys₀ dt₀ s))).playerOnIce = true ∧
      (beforeMove L keysDown dt (runTicks L ticks (updatePlay L keys₀ dt₀ s))).iceLockedVx
        = (inputVelocity L keysDown).1 ∧
      (beforeMove L keysDown dt (runTicks L ticks (updatePlay L keys₀ dt₀ s))).iceLockedVy
        = (inputVelocity L keysDown).2 ∧
      (updatePlay L keysDown dt (runTicks L ticks (updatePlay L keys₀ dt₀ s))).playerVx
        = (inputVelocity L keysDown).1 ∧
      (updatePlay L keysDown dt (runTicks L ticks (updatePlay L keys₀ dt₀ s))).playerVy
        = (inputVelocity L keysDown).2) := by
  have beforeMove_entry := ice_switch_lemmas.2.2.1
  have velocity_updatePlay := ice_switch_lemmas.2.2.2.2.2.1
  have clamp_idem := rest_lemmas.1
  have hypot_zero := rest_lemmas.2.1
  have rest_tick := rest_lemmas.2.2.2.1
  have atRest_runTicks := rest_lemmas.2.2.2.2.2
  obtain ⟨r1, r2, r3, r4⟩ := rest_tick L keys₀ dt₀ s hr hk hoff hslow
  have hlock₀ : entryLock L keys₀ s = (0, 0) := by
    unfold entryLock
    rw [if_neg (not_lt.mpr hslow), if_neg (by simp [hk.1, hk.2])]
  have h1 : atRest L (updatePlay L keys₀ dt₀ s) := by
    refine ⟨r2, r3, r4, ?_, ?_⟩
    · rw [r1]; exact clamp_idem _ _ _
    · rw [r1]; exact clamp_idem _ _ _
  refine ⟨?_, ?_, ?_⟩
  · rw [beforeMove_entry L keys₀ dt₀ s htile hoff, hlock₀]
    exact ⟨rfl, rfl, r2⟩
  · intro ticks ht
    exact (atRest_runTicks L ticks _ ht h1).2
  · intro ticks keysDown dt ht hice hreach hdir
    obtain ⟨⟨a1, a2, a3, -, -⟩, -⟩ := atRest_runTicks L ticks _ ht h1
    have hv := velocity_updatePlay L keysDown dt _ hreach
    have hlock : entryLock L keysDown (runTicks L ticks (updatePlay L keys₀ dt₀ s))
        = inputVelocity L keysDown := by
      unfold entryLock
      rw [a2, a3, hypot_zero, if_neg (by norm_num), if_pos hdir]
    rw [hv.1, hv.2, beforeMove_entry L keysDown dt _ hice a1, hlock]
    exact ⟨rfl, rfl, rfl, rfl, rfl⟩

/-! ## Evaluation on the concrete levels -/

/-- Evaluation of the tick on the demo level.  The conjuncts, in order:
`floor_div32`, `playStep_quiet`, `demoLevel_grid`, `reachesMove_demo`,
`updatePlay_demo`, `nowOnIce_demo`, `cellFree_demo`, `cornersFree_demo`. -/
theorem demo_evaluation :
    (∀ (x : ℝ) (z : ℤ) (_ : 32 * (z : ℝ) ≤ x) (_ : x < 32 * (z : ℝ) + 32),
      ⌊x / 32⌋ = z) ∧
    (∀ (L : Level) (keysDown : String → Bool) (dt : ℝ) (s : Play)
      (_ : ∀ gy gx, L.grid gy gx ≠ TILE_GOAL ∧ L.grid gy gx ≠ TILE_CHECKPOINT)
      (_ : s.playEnemies = []) (_ : s.playKeys = []) (_ : s.playCoins = [])
      (_ : s.deathCooldown = 0),
      playStep L keysDown dt s = moveStep L dt (velocityStep L keysDown (iceStep L keysDown s))) ∧
    (∀ (gy gx : ℤ),
      demoLevel.grid gy gx ≠ TILE_GOAL ∧ demoLevel.grid gy gx ≠ TILE_CHECKPOINT ∧
        demoLevel.grid gy gx ≠ TILE_WALL) ∧
    (∀ (dt : ℝ) (s : Play) (_ : s.playerDying = false),
      reachesMove demoLevel dt s) ∧
    (∀ (keysDown : String → Bool) (dt : ℝ) (s : Play) (_ : s.playerDying = false)
      (_ : s.playEnemies = []) (_ : s.playKeys = []) (_ : s.playCoins = [])
      (_ : s.deathCooldown = 0),
      updatePlay demoLevel keysDown dt s = moveStep demoLevel dt (beforeMove demoLevel keysDown dt s)) ∧
    (∀ (p : Player) (gx gy : ℤ) (_ : ⌊p.x / 32⌋ = gx) (_ : ⌊p.y / 32⌋ = gy),
      nowOnIce demoLevel p ↔ (gx = 1 ∧ gy = 1)) ∧
    (∀ (ds : List PlayDoor) (gx gy : ℤ) (_ : 0 ≤ gx ∧ gx < 4) (_ : 0 ≤ gy ∧ gy < 3)
      (_ : ∀ d ∈ ds, d.gx = gx → d.gy = gy → d.isOpen = true),
      cellFree demoLevel ds gx gy) ∧
    (∀ (x y : ℝ) (_ : 10 ≤ x ∧ x + 10 < 128) (_ : 10 ≤ y ∧ y + 10 < 96),
      cornersFree demoLevel [] x y) := by
  have updatePlay_of_reachesMove := phase_frames_b.1
  have floor_div32 : ∀ (x : ℝ) (z : ℤ) (h1 : 32 * (z : ℝ) ≤ x) (h2 : x < 32 * (z : ℝ) + 32),
      ⌊x / 32⌋ = z := by
    intro x z h1 h2
    rw [Int.floor_eq_iff]
    constructor
    · rw [le_div_iff₀ (by norm_num)]; linarith
    · rw [div_lt_iff₀ (by norm_num)]; linarith
  -- A tick of a state without enemies, keys, coins and countdown, in a level
  -- without goal and checkpoint tiles, is the move alone.
  have playStep_quiet : ∀ (L : Level) (keysDown : String → Bool) (dt : ℝ) (s : Play)
      (hg : ∀ gy gx, L.grid gy gx ≠ TILE_GOAL ∧ L.grid gy gx ≠ TILE_CHECKPOINT)
      (he : s.playEnemies = []) (hk : s.playKeys = []) (hc : s.playCoins = [])
      (hcd : s.deathCooldown = 0),
      playStep L keysDown dt s = moveStep L dt (velocityStep L keysDown (iceStep L keysDown s)) := by
    intro L keysDown dt s hg he hk hc hcd
    have q : ∀ m : Play, m.playEnemies = [] → m.playKeys = [] → m.playCoins = [] →
        m.deathCooldown = 0 → ∀ pgx pgy,
        contactStep L dt pgx pgy (checkpointStep L (keyStep (coinStep (enemyStep dt
          (moveStep L dt m))))) = moveStep L dt m := by
      intro m me mk mc mcd pgx pgy
      simp [contactStep, checkpointStep, keyStep, coinStep, enemyStep, moveStep, goalStep,
        enemyHit, hg, me, mk, mc, mcd]
    unfold playStep
    dsimp only
    apply q
    · unfold velocityStep iceStep; dsimp only; split_ifs <;> exact he
    · unfold velocityStep iceStep; dsimp only; split_ifs <;> exact hk
    · unfold velocityStep iceStep; dsimp only; split_ifs <;> exact hc
    · unfold velocityStep iceStep; dsimp only; split_ifs <;> exact hcd
  have demoLevel_grid : ∀ (gy gx : ℤ),
      demoLevel.grid gy gx ≠ TILE_GOAL ∧ demoLevel.grid gy gx ≠ TILE_CHECKPOINT ∧
        demoLevel.grid gy gx ≠ TILE_WALL := by
    intro gy gx
    unfold demoLevel TILE_GOAL TILE_CHECKPOINT TILE_WALL TILE_ICE TILE_EMPTY
    dsimp only
    split_ifs <;> decide
  have reachesMove_demo : ∀ (dt : ℝ) (s : Play) (h : s.playerDying = false),
      reachesMove demoLevel dt s := by
    intro dt s h
    refine ⟨h, ?_⟩
    unfold timeUp demoLevel
    simp
  -- A tick of a quiet state of the demo level, as a whole state.
  have updatePlay_demo : ∀ (keysDown : String → Bool) (dt : ℝ) (s : Play)
      (hd : s.playerDying = false) (he : s.playEnemies = []) (hk : s.playKeys = [])
      (hc : s.playCoins = []) (hcd : s.deathCooldown = 0),
      updatePlay demoLevel keysDown dt s = moveStep demoLevel dt (beforeMove demoLevel keysDown dt s) := by
    intro keysDown dt s hd he hk hc hcd
    rw [updatePlay_of_reachesMove demoLevel keysDown dt s (reachesMove_demo dt s hd),
      playStep_quiet demoLevel keysDown dt { s with playTimer := s.playTimer + dt } (fun gy gx => ⟨(demoLevel_grid gy gx).1,
        (demoLevel_grid gy gx).2.1⟩) he hk hc hcd]
    rfl
  have nowOnIce_demo : ∀ (p : Player) (gx gy : ℤ) (hx : ⌊p.x / 32⌋ = gx) (hy : ⌊p.y / 32⌋ = gy),
      nowOnIce demoLevel p ↔ (gx = 1 ∧ gy = 1) := by
    intro p gx gy hx hy
    unfold nowOnIce TILE
    dsimp only
    rw [hx, hy]
    unfold inBounds demoLevel TILE_ICE TILE_EMPTY
    dsimp only
    constructor
    · intro h
      by_cases h2 : gy = 1 ∧ gx = 1
      · exact ⟨h2.2, h2.1⟩
      · simp [h2] at h
    · rintro ⟨rfl, rfl⟩
      simp
  have cellFree_demo : ∀ (ds : List PlayDoor) (gx gy : ℤ) (hx : 0 ≤ gx ∧ gx < 4)
      (hy : 0 ≤ gy ∧ gy < 3) (hd : ∀ d ∈ ds, d.gx = gx → d.gy = gy → d.isOpen = true),
      cellFree demoLevel ds gx gy := by
    intro ds gx gy hx hy hd
    refine ⟨⟨hx.1, hx.2, hy.1, hy.2⟩, (demoLevel_grid gy gx).2.2, ?_⟩
    rintro ⟨d, hm, h1, h2, h3⟩
    rw [hd d hm h1 h2] at h3
    exact Bool.noConfusion h3
  -- In the demo level without doors, the corners are free as soon as the square
  -- is inside the 128 x 96 pixels.
  have cornersFree_demo : ∀ (x y : ℝ) (hx : 10 ≤ x ∧ x + 10 < 128) (hy : 10 ≤ y ∧ y + 10 < 96),
      cornersFree demoLevel [] x y := by
    intro x y hx hy
    have fx : ∀ px : ℝ, 0 ≤ px → px < 128 → 0 ≤ ⌊px / 32⌋ ∧ ⌊px / 32⌋ < 4 := by
      intro px h0 h1
      constructor
      · rw [Int.floor_nonneg]; positivity
      · rw [Int.floor_lt]; push_cast; linarith
    have fy : ∀ py : ℝ, 0 ≤ py → py < 96 → 0 ≤ ⌊py / 32⌋ ∧ ⌊py / 32⌋ < 3 := by
      intro py h0 h1
      constructor
      · rw [Int.floor_nonneg]; positivity
      · rw [Int.floor_lt]; push_cast; linarith
    refine ⟨cellFree_demo [] _ _ (fx _ ?_ ?_) (fy _ ?_ ?_) ?_,
      cellFree_demo [] _ _ (fx _ ?_ ?_) (fy _ ?_ ?_) ?_,
      cellFree_demo [] _ _ (fx _ ?_ ?_) (fy _ ?_ ?_) ?_,
      cellFree_demo [] _ _ (fx _ ?_ ?_) (fy _ ?_ ?_) ?_⟩ <;>
      first
        | linarith [hx.1, hx.2, hy.1, hy.2]
        | (intro d hd; exact absurd hd (List.not_mem_nil d))
  exact ⟨floor_div32, playStep_quiet, demoLevel_grid, reachesMove_demo, updatePlay_demo,
    nowOnIce_demo, cellFree_demo, cornersFree_demo⟩

/-- Evaluation of the tick on the demo level.  The conjuncts, in order:
`inputVelocity_right`, `noDirection_noKeys`, `clamp_demo`, `moveStep_player`,
`not_blocked_twoDoors`, `doorPlay_tick`, `moveStep_player_of_free`,
`demo_COLS`. -/
theorem demo_evaluation_b :
    (inputVelocity demoLevel rightKey = (120, 0)) ∧
    (noDirection noKeys) ∧
    (∀ (n : ℕ) (x : ℝ) (_ : 11 ≤ x) (_ : x ≤ (n : ℝ) * 32 - 11),
      max (PLAYER_SIZE / 2) (min ((n : ℝ) * TILE - PLAYER_SIZE / 2) x) = x) ∧
    (∀ (L : Level) (dt : ℝ) (m : Play),
      (moveStep L dt m).player
        = { x := max (PLAYER_SIZE / 2) (min ((L.COLS : ℝ) * TILE - PLAYER_SIZE / 2)
              (moveAxis L m.playDoors m.player.x m.player.y (m.playerVx * dt) 0).x),
            y := max (PLAYER_SIZE / 2) (min ((L.ROWS : ℝ) * TILE - PLAYER_SIZE / 2)
              (moveAxis L m.playDoors
                (moveAxis L m.playDoors m.player.x m.player.y (m.playerVx * dt) 0).x
                m.player.y 0 (m.playerVy * dt)).y) }) ∧
    (∀ (c : Pt) (_ : ⌊c.px / 32⌋ = 1 ∨ ⌊c.px / 32⌋ = 2) (_ : ⌊c.py / 32⌋ = 2),
      ¬ cornerBlocked demoLevel twoDoors c) ∧
    ((updatePlay demoLevel rightKey (1 / 20) doorPlay).player = { x := 54, y := 80 } ∧
      (updatePlay demoLevel rightKey (1 / 20) doorPlay).playDoors = twoDoors) ∧
    (∀ (L : Level) (dt : ℝ) (m : Play) (_ : oneDoorPerCell m.playDoors)
      (_ : cornersFree L m.playDoors (m.player.x + m.playerVx * dt) (m.player.y + 0))
      (_ : cornersFree L m.playDoors (m.player.x + m.playerVx * dt + 0) (m.player.y + m.playerVy * dt)),
      (moveStep L dt m).player
        = { x := max (PLAYER_SIZE / 2) (min ((L.COLS : ℝ) * TILE - PLAYER_SIZE / 2)
              (m.player.x + m.playerVx * dt)),
            y := max (PLAYER_SIZE / 2) (min ((L.ROWS : ℝ) * TILE - PLAYER_SIZE / 2)
              (m.player.y + m.playerVy * dt)) }) ∧
    (((demoLevel.COLS : ℕ) : ℝ) = ((4 : ℕ) : ℝ)) := by
  have moveAxis_of_free := phase_frames_b.2.2.2.2.2.1
  have player_updatePlay := collision_square_lemmas_d.2.2.2.1
  have items_updatePlay := collision_square_lemmas_d.2.2.2.2.1
  have beforeMove_off_ice := ice_switch_lemmas.1
  have moveAxis_of_not_blocked := ice_switch_lemmas.2.2.2.2.2.2.2
  have moveAxis_zero := ice_switch_lemmas_b.1
  have floor_div32 := demo_evaluation.1
  have reachesMove_demo := demo_evaluation.2.2.2.1
  have nowOnIce_demo := demo_evaluation.2.2.2.2.2.1
  have inputVelocity_right :
      inputVelocity demoLevel rightKey = (120, 0) := by
    have hx : inputX rightKey = 1 := by simp [inputX, rightKey]
    have hy : inputY rightKey = 0 := by simp [inputY, rightKey]
    unfold inputVelocity
    simp [hx, hy, demoLevel]
  have noDirection_noKeys :
      noDirection noKeys := by
    constructor <;> simp [inputX, inputY, noKeys]
  -- The final clamp of the demo level leaves a coordinate between 11 and the
  -- far bound where it is.
  have clamp_demo : ∀ (n : ℕ) (x : ℝ) (h0 : 11 ≤ x) (h1 : x ≤ (n : ℝ) * 32 - 11),
      max (PLAYER_SIZE / 2) (min ((n : ℝ) * TILE - PLAYER_SIZE / 2) x) = x := by
    intro n x h0 h1
    unfold PLAYER_SIZE TILE
    rw [min_eq_right (by linarith), max_eq_right (by linarith)]
  have moveStep_player : ∀ (L : Level) (dt : ℝ) (m : Play),
      (moveStep L dt m).player
        = { x := max (PLAYER_SIZE / 2) (min ((L.COLS : ℝ) * TILE - PLAYER_SIZE / 2)
              (moveAxis L m.playDoors m.player.x m.player.y (m.playerVx * dt) 0).x),
            y := max (PLAYER_SIZE / 2) (min ((L.ROWS : ℝ) * TILE - PLAYER_SIZE / 2)
              (moveAxis L m.playDoors
                (moveAxis L m.playDoors m.player.x m.player.y (m.playerVx * dt) 0).x
                m.player.y 0 (m.playerVy * dt)).y) } :=
      fun L dt m =>
        rfl
  -- In the demo level with the two doors, a corner in the cell `(1, 2)` or
  -- `(2, 2)` is not blocked: the door found first in `(2, 2)` is the open one.
  have not_blocked_twoDoors : ∀ (c : Pt) (hx : ⌊c.px / 32⌋ = 1 ∨ ⌊c.px / 32⌋ = 2)
      (hy : ⌊c.py / 32⌋ = 2),
      ¬ cornerBlocked demoLevel twoDoors c := by
    intro c hx hy
    unfold cornerBlocked TILE
    dsimp only
    rw [hy]
    rcases hx with h | h <;> rw [h] <;>
      simp [inBounds, demoLevel, twoDoors, doorHere, List.find?, TILE_WALL, TILE_ICE, TILE_EMPTY]
  -- The tick of the counterexample of C1: the player walks right from
  -- `(48, 80)` to `(54, 80)` and the doors are as before.
  have doorPlay_tick :
      (updatePlay demoLevel rightKey (1 / 20) doorPlay).player = { x := 54, y := 80 } ∧
      (updatePlay demoLevel rightKey (1 / 20) doorPlay).playDoors = twoDoors := by
    have hice : ¬ nowOnIce demoLevel doorPlay.player := by
      rw [nowOnIce_demo doorPlay.player 1 2
        (floor_div32 _ 1 (by norm_num [doorPlay, demoPlay]) (by norm_num [doorPlay, demoPlay]))
        (floor_div32 _ 2 (by norm_num [doorPlay, demoPlay]) (by norm_num [doorPlay, demoPlay]))]
      decide
    have hr : reachesMove demoLevel (1 / 20) doorPlay := reachesMove_demo _ _ rfl
    have hdoors : (updatePlay demoLevel rightKey (1 / 20) doorPlay).playDoors = twoDoors := by
      have e := congrArg (fun t => t.2.2.1) (items_updatePlay demoLevel rightKey (1 / 20) doorPlay hr)
      have e' : (updatePlay demoLevel rightKey (1 / 20) doorPlay).playDoors
          = (keyStep (coinStep (enemyStep (1 / 20)
              (moveStep demoLevel (1 / 20)
                (beforeMove demoLevel rightKey (1 / 20) doorPlay))))).playDoors := e
      rw [e', beforeMove_off_ice demoLevel rightKey (1 / 20) doorPlay hice]
      simp [keyStep, keyEffect, keyHit, coinStep, enemyStep, moveStep, doorPlay, demoPlay]
    refine ⟨?_, hdoors⟩
    rw [player_updatePlay demoLevel rightKey (1 / 20) doorPlay hr,
      beforeMove_off_ice demoLevel rightKey (1 / 20) doorPlay hice, inputVelocity_right]
    rw [moveStep_player]
    have hx : ¬ ∃ c ∈ corners ((48 : ℝ) + 120 * (1 / 20)) (80 + 0),
        cornerBlocked demoLevel twoDoors c := by
      rintro ⟨c, hc, hb⟩
      refine not_blocked_twoDoors c ?_ ?_ hb
      · simp only [corners, PLAYER_SIZE, List.mem_cons, List.mem_singleton, List.not_mem_nil,
          or_false] at hc
        rcases hc with rfl | rfl | rfl | rfl
        · left; exact floor_div32 _ 1 (by norm_num) (by norm_num)
        · right; exact floor_div32 _ 2 (by norm_num) (by norm_num)
        · left; exact floor_div32 _ 1 (by norm_num) (by norm_num)
        · right; exact floor_div32 _ 2 (by norm_num) (by norm_num)
      · simp only [corners, PLAYER_SIZE, List.mem_cons, List.mem_singleton, List.not_mem_nil,
          or_false] at hc
        rcases hc with rfl | rfl | rfl | rfl <;>
          exact floor_div32 _ 2 (by norm_num) (by norm_num)
    have ex : moveAxis demoLevel twoDoors 48 80 (120 * (1 / 20)) 0
        = { x := 48 + 120 * (1 / 20), y := 80 + 0 } :=
      moveAxis_of_not_blocked demoLevel twoDoors 48 80 (120 * (1 / 20)) 0 hx
    simp only [doorPlay, demoPlay, ex, zero_mul, moveAxis_zero]
    have e3 : ((demoLevel.ROWS : ℕ) : ℝ) = ((3 : ℕ) : ℝ) := rfl
    have e4 : ((demoLevel.COLS : ℕ) : ℝ) = ((4 : ℕ) : ℝ) := rfl
    rw [e3, e4, clamp_demo 4 _ (by norm_num) (by norm_num),
      clamp_demo 3 _ (by norm_num) (by norm_num)]
    norm_num
  have moveStep_player_of_free : ∀ (L : Level) (dt : ℝ) (m : Play)
      (hd : oneDoorPerCell m.playDoors)
      (hx : cornersFree L m.playDoors (m.player.x + m.playerVx * dt) (m.player.y + 0))
      (hy : cornersFree L m.playDoors (m.player.x + m.playerVx * dt + 0) (m.player.y + m.playerVy * dt)),
      (moveStep L dt m).player
        = { x := max (PLAYER_SIZE / 2) (min ((L.COLS : ℝ) * TILE - PLAYER_SIZE / 2)
              (m.player.x + m.playerVx * dt)),
            y := max (PLAYER_SIZE / 2) (min ((L.ROWS : ℝ) * TILE - PLAYER_SIZE / 2)
              (m.player.y + m.playerVy * dt)) } := by
    intro L dt m hd hx hy
    rw [moveStep_player, moveAxis_of_free L m.playDoors hd _ _ _ _ hx]
    dsimp only
    rw [moveAxis_of_free L m.playDoors hd _ _ _ _ hy]
  have demo_COLS :
      ((demoLevel.COLS : ℕ) : ℝ) = ((4 : ℕ) : ℝ) :=
    rfl
  exact ⟨inputVelocity_right, noDirection_noKeys, clamp_demo, moveStep_player,
    not_blocked_twoDoors, doorPlay_tick, moveStep_player_of_free, demo_COLS⟩

/-- Evaluation of the tick on the demo level.  The conjuncts, in order:
`demo_ROWS`, `nowOnIce_48_48`, `not_nowOnIce_80_48`, `not_nowOnIce_row2`,
`parked_first_tick`, `parked_second_tick`. -/
theorem demo_evaluation_c :
    (((demoLevel.ROWS : ℕ) : ℝ) = ((3 : ℕ) : ℝ)) ∧
    (nowOnIce demoLevel { x := 48, y := 48 }) ∧
    (¬ nowOnIce demoLevel { x := 80, y := 48 }) ∧
    (∀ (x : ℝ),
      ¬ nowOnIce demoLevel { x := x, y := 80 }) ∧
    (updatePlay demoLevel noKeys (1 / 20) (demoPlay 48 48)
        = { demoPlay 48 48 with playTimer := 0 + 1 / 20 }) ∧
    ((updatePlay demoLevel rightKey (1 / 20)
        { demoPlay 48 48 with playTimer := 0 + 1 / 20 }).player = { x := 54, y := 48 }) := by
  have player_updatePlay := collision_square_lemmas_d.2.2.2.1
  have beforeMove_entry := ice_switch_lemmas.2.2.1
  have moveAxis_zero := ice_switch_lemmas_b.1
  have hypot_zero := rest_lemmas.2.1
  have floor_div32 := demo_evaluation.1
  have reachesMove_demo := demo_evaluation.2.2.2.1
  have updatePlay_demo := demo_evaluation.2.2.2.2.1
  have nowOnIce_demo := demo_evaluation.2.2.2.2.2.1
  have cornersFree_demo := demo_evaluation.2.2.2.2.2.2.2
  have inputVelocity_right := demo_evaluation_b.1
  have noDirection_noKeys := demo_evaluation_b.2.1
  have clamp_demo := demo_evaluation_b.2.2.1
  have moveStep_player_of_free := demo_evaluation_b.2.2.2.2.2.2.1
  have demo_COLS := demo_evaluation_b.2.2.2.2.2.2.2
  have demo_ROWS :
      ((demoLevel.ROWS : ℕ) : ℝ) = ((3 : ℕ) : ℝ) :=
    rfl
  have nowOnIce_48_48 :
      nowOnIce demoLevel { x := 48, y := 48 } := by
    rw [nowOnIce_demo _ 1 1 (floor_div32 _ 1 (by norm_num) (by norm_num))
      (floor_div32 _ 1 (by norm_num) (by norm_num))]
    decide
  have not_nowOnIce_80_48 :
      ¬ nowOnIce demoLevel { x := 80, y := 48 } := by
    rw [nowOnIce_demo _ 2 1 (floor_div32 _ 2 (by norm_num) (by norm_num))
      (floor_div32 _ 1 (by norm_num) (by norm_num))]
    decide
  have not_nowOnIce_row2 : ∀ (x : ℝ),
      ¬ nowOnIce demoLevel { x := x, y := 80 } := by
    intro x
    rw [nowOnIce_demo _ ⌊x / 32⌋ 2 rfl (floor_div32 _ 2 (by norm_num) (by norm_num))]
    omega
  -- The first tick of the counterexample of C5: the player enters the ice tile
  -- at rest with no key held, and the state after the tick is the state before it
  -- but for the timer.
  have parked_first_tick :
      updatePlay demoLevel noKeys (1 / 20) (demoPlay 48 48)
        = { demoPlay 48 48 with playTimer := 0 + 1 / 20 } := by
    have hlock : entryLock demoLevel noKeys (demoPlay 48 48) = (0, 0) := by
      unfold entryLock
      have h0 : hypot (demoPlay 48 48).playerVx (demoPlay 48 48).playerVy = 0 := hypot_zero
      rw [h0, if_neg (by norm_num), if_neg (by simp [noDirection_noKeys.1, noDirection_noKeys.2])]
    rw [updatePlay_demo noKeys (1 / 20) (demoPlay 48 48) rfl rfl rfl rfl rfl,
      beforeMove_entry demoLevel noKeys (1 / 20) (demoPlay 48 48) nowOnIce_48_48 rfl, hlock]
    simp only [moveStep, demoPlay, zero_mul, moveAxis_zero, demo_COLS, demo_ROWS]
    rw [clamp_demo 4 _ (by norm_num) (by norm_num), clamp_demo 3 _ (by norm_num) (by norm_num)]
    simp
  -- The second tick of the counterexample of C5: with the right arrow held the
  -- player, still on the ice tile, moves from `(48, 48)` to `(54, 48)`.
  have parked_second_tick :
      (updatePlay demoLevel rightKey (1 / 20)
        { demoPlay 48 48 with playTimer := 0 + 1 / 20 }).player = { x := 54, y := 48 } := by
    have hlock : entryLock demoLevel rightKey { demoPlay 48 48 with playTimer := 0 + 1 / 20 }
        = (120, 0) := by
      unfold entryLock
      have h0 : hypot ({ demoPlay 48 48 with playTimer := 0 + 1 / 20 } : Play).playerVx
          ({ demoPlay 48 48 with playTimer := 0 + 1 / 20 } : Play).playerVy = 0 := hypot_zero
      have hx : inputX rightKey = 1 := by simp [inputX, rightKey]
      rw [h0, if_neg (by norm_num), if_pos (by simp [hx]), inputVelocity_right]
    rw [player_updatePlay demoLevel rightKey (1 / 20) _ (reachesMove_demo _ _ rfl),
      beforeMove_entry demoLevel rightKey (1 / 20) _ nowOnIce_48_48 rfl, hlock]
    refine (moveStep_player_of_free demoLevel (1 / 20) _ ?_ ?_ ?_).trans ?_
    · exact List.Pairwise.nil
    · exact cornersFree_demo _ _ (by norm_num [demoPlay]) (by norm_num [demoPlay])
    · exact cornersFree_demo _ _ (by norm_num [demoPlay]) (by norm_num [demoPlay])
    simp only [demoPlay, demo_COLS, demo_ROWS]
    rw [clamp_demo 4 _ (by norm_num) (by norm_num), clamp_demo 3 _ (by norm_num) (by norm_num)]
    norm_num
  exact ⟨demo_ROWS, nowOnIce_48_48, not_nowOnIce_80_48, not_nowOnIce_row2, parked_first_tick,
    parked_second_tick⟩

/-- C5, counterexample: in the demo level the player enters the ice tile at
rest with no key held; one tick later, still on that ice tile, it holds the
right arrow and is displaced from `(48, 48)` to `(54, 48)`. -/
theorem parked_on_ice_counterexample :
    (reachesMove demoLevel (1 / 20) (demoPlay 48 48) ∧
      nowOnIce demoLevel (demoPlay 48 48).player ∧ (demoPlay 48 48).playerOnIce = false ∧
      hypot (demoPlay 48 48).playerVx (demoPlay 48 48).playerVy ≤ 5 ∧ noDirection noKeys) ∧
    nowOnIce demoLevel (updatePlay demoLevel noKeys (1 / 20) (demoPlay 48 48)).player ∧
    (updatePlay demoLevel rightKey (1 / 20)
        (updatePlay demoLevel noKeys (1 / 20) (demoPlay 48 48))).player
      ≠ (updatePlay demoLevel noKeys (1 / 20) (demoPlay 48 48)).player := by
  have hypot_zero := rest_lemmas.2.1
  have reachesMove_demo := demo_evaluation.2.2.2.1
  have noDirection_noKeys := demo_evaluation_b.2.1
  have nowOnIce_48_48 := demo_evaluation_c.2.1
  have parked_first_tick := demo_evaluation_c.2.2.2.2.1
  have parked_second_tick := demo_evaluation_c.2.2.2.2.2
  refine ⟨⟨reachesMove_demo _ _ rfl, nowOnIce_48_48, rfl, ?_, noDirection_noKeys⟩, ?_, ?_⟩
  · have h0 : hypot (demoPlay 48 48).playerVx (demoPlay 48 48).playerVy = 0 := hypot_zero
    rw [h0]; norm_num
  · rw [parked_first_tick]; exact nowOnIce_48_48
  · rw [parked_first_tick, parked_second_tick]
    intro h
    have hx := congrArg Player.x h
    norm_num [demoPlay] at hx

/-- C1, counterexample: with two doors in one cell the invariant fails.  In the
demo level the cell `(2, 2)` holds an open door, found first, and a closed one;
the square of the player at `(48, 80)` is clear, and after one tick with the
right arrow held the player is at `(54, 80)` and its square meets the cell
`(2, 2)`, which holds a closed door. -/
theorem wall_non_overlap_counterexample :
    squareClear demoLevel doorPlay.playDoors doorPlay.player.x doorPlay.player.y ∧
    ¬ squareClear demoLevel (updatePlay demoLevel rightKey (1 / 20) doorPlay).playDoors
        (updatePlay demoLevel rightKey (1 / 20) doorPlay).player.x
        (updatePlay demoLevel rightKey (1 / 20) doorPlay).player.y := by
  have floor_div32 := demo_evaluation.1
  have cellFree_demo := demo_evaluation.2.2.2.2.2.2.1
  have doorPlay_tick := demo_evaluation_b.2.2.2.2.2.1
  constructor
  · intro px py hx hy
    simp only [doorPlay, demoPlay, abs_le] at hx hy
    rw [floor_div32 px 1 (by norm_num; linarith) (by norm_num; linarith),
      floor_div32 py 2 (by norm_num; linarith) (by norm_num; linarith)]
    refine cellFree_demo _ 1 2 (by decide) (by decide) ?_
    intro d hd h1
    simp only [doorPlay, demoPlay, twoDoors, List.mem_cons, List.mem_singleton,
      List.not_mem_nil, or_false] at hd
    rcases hd with rfl | rfl <;> simp at h1
  · rw [doorPlay_tick.1, doorPlay_tick.2]
    intro h
    have hc := h 64 80 (by norm_num [abs_le]) (by norm_num [abs_le])
    rw [floor_div32 64 2 (by norm_num) (by norm_num),
      floor_div32 80 2 (by norm_num) (by norm_num)] at hc
    exact hc.2.2 ⟨{ id := 2, gx := 2, gy := 2, keyId := none, isOpen := false },
      by simp [twoDoors], rfl, rfl, rfl⟩

/-- C6, counterexample: ice-locked from the previous tick, the player is in the
cell `(2, 1)`, which is not ice, and holds the right arrow; in that very tick
it moves with velocity 120 from `(80, 48)` to `(86, 48)`. -/
theorem ice_exit_counterexample :
    (reachesMove demoLevel (1 / 20) slidPlay ∧ ¬ nowOnIce demoLevel slidPlay.player ∧
      slidPlay.playerOnIce = true) ∧
    (updatePlay demoLevel rightKey (1 / 20) slidPlay).playerVx = 120 ∧
    (updatePlay demoLevel rightKey (1 / 20) slidPlay).player = { x := 86, y := 48 } ∧
    (updatePlay demoLevel rightKey (1 / 20) slidPlay).playerVx ≠ 0 ∧
    (updatePlay demoLevel rightKey (1 / 20) slidPlay).player ≠ slidPlay.player := by
  have player_updatePlay := collision_square_lemmas_d.2.2.2.1
  have beforeMove_off_ice := ice_switch_lemmas.1
  have velocity_updatePlay := ice_switch_lemmas.2.2.2.2.2.1
  have reachesMove_demo := demo_evaluation.2.2.2.1
  have cornersFree_demo := demo_evaluation.2.2.2.2.2.2.2
  have inputVelocity_right := demo_evaluation_b.1
  have clamp_demo := demo_evaluation_b.2.2.1
  have moveStep_player_of_free := demo_evaluation_b.2.2.2.2.2.2.1
  have demo_COLS := demo_evaluation_b.2.2.2.2.2.2.2
  have demo_ROWS := demo_evaluation_c.1
  have not_nowOnIce_80_48 := demo_evaluation_c.2.2.1
  have hr : reachesMove demoLevel (1 / 20) slidPlay := reachesMove_demo _ _ rfl
  have hv : (updatePlay demoLevel rightKey (1 / 20) slidPlay).playerVx = 120 := by
    rw [(velocity_updatePlay demoLevel rightKey (1 / 20) slidPlay hr).1,
      beforeMove_off_ice demoLevel rightKey (1 / 20) slidPlay not_nowOnIce_80_48,
      inputVelocity_right]
  have hp : (updatePlay demoLevel rightKey (1 / 20) slidPlay).player = { x := 86, y := 48 } := by
    rw [player_updatePlay demoLevel rightKey (1 / 20) slidPlay hr,
      beforeMove_off_ice demoLevel rightKey (1 / 20) slidPlay not_nowOnIce_80_48,
      inputVelocity_right]
    refine (moveStep_player_of_free demoLevel (1 / 20) _ ?_ ?_ ?_).trans ?_
    · exact List.Pairwise.nil
    · exact cornersFree_demo _ _ (by norm_num [slidPlay, demoPlay])
        (by norm_num [slidPlay, demoPlay])
    · exact cornersFree_demo _ _ (by norm_num [slidPlay, demoPlay])
        (by norm_num [slidPlay, demoPlay])
    simp only [slidPlay, demoPlay, demo_COLS, demo_ROWS]
    rw [clamp_demo 4 _ (by norm_num) (by norm_num), clamp_demo 3 _ (by norm_num) (by norm_num)]
    norm_num
  refine ⟨⟨hr, not_nowOnIce_80_48, rfl⟩, hv, hp, ?_, ?_⟩
  · rw [hv]; norm_num
  · rw [hp]
    intro h
    have hx := congrArg Player.x h
    norm_num [slidPlay, demoPlay] at hx

/-- Evaluation of the tick of `keyPlay`.  The conjuncts, in order:
`distance_68_48`, `keyPlay_tick`. -/
theorem keyPlay_evaluation :
    (distance 68 80 48 80 = 20) ∧
    ((updatePlay demoLevel noKeys (1 / 20) keyPlay).player = { x := 68, y := 80 }) := by
  have hypot_zero := rest_lemmas.2.1
  have rest_tick := rest_lemmas.2.2.2.1
  have reachesMove_demo := demo_evaluation.2.2.2.1
  have noDirection_noKeys := demo_evaluation_b.2.1
  have clamp_demo := demo_evaluation_b.2.2.1
  have demo_COLS := demo_evaluation_b.2.2.2.2.2.2.2
  have demo_ROWS := demo_evaluation_c.1
  have distance_68_48 :
      distance 68 80 48 80 = 20 := by
    unfold distance
    have e : ((68 : ℝ) - 48) ^ 2 + (80 - 80) ^ 2 = 20 ^ 2 := by norm_num
    rw [e, Real.sqrt_sq (by norm_num)]
  -- The tick of the counterexample of C10: the player stays at `(68, 80)`.
  have keyPlay_tick :
      (updatePlay demoLevel noKeys (1 / 20) keyPlay).player = { x := 68, y := 80 } := by
    have h0 : hypot keyPlay.playerVx keyPlay.playerVy = 0 := hypot_zero
    rw [(rest_tick demoLevel noKeys (1 / 20) keyPlay (reachesMove_demo _ _ rfl)
      noDirection_noKeys rfl (by rw [h0]; norm_num)).1]
    simp only [keyPlay, demoPlay, demo_COLS, demo_ROWS]
    rw [clamp_demo 4 _ (by norm_num) (by norm_num), clamp_demo 3 _ (by norm_num) (by norm_num)]
  exact ⟨distance_68_48, keyPlay_tick⟩

/-- C10, counterexample: a key at distance exactly 20 is not collected.  The
player rests at `(68, 80)`, the key lies in the cell `(1, 2)` of centre
`(48, 80)`; the distance is `20 <= 20`, and after the tick the key is still
uncollected. -/
theorem key_pickup_counterexample :
    reachesMove demoLevel (1 / 20) keyPlay ∧
    distance (updatePlay demoLevel noKeys (1 / 20) keyPlay).player.x
      (updatePlay demoLevel noKeys (1 / 20) keyPlay).player.y (32 * 1 + 16) (32 * 2 + 16) ≤ 20 ∧
    keyPlay.playKeys
      = [{ id := 7, gx := 1, gy := 2, px := 48, py := 80, collected := false }] ∧
    (updatePlay demoLevel noKeys (1 / 20) keyPlay).playKeys
      = [{ id := 7, gx := 1, gy := 2, px := 48, py := 80, collected := false }] := by
  have hypot_eq_distance := coin_filter_lemmas.1
  have reachesMove_demo := demo_evaluation.2.2.2.1
  have distance_68_48 := keyPlay_evaluation.1
  have keyPlay_tick := keyPlay_evaluation.2
  have hr : reachesMove demoLevel (1 / 20) keyPlay := reachesMove_demo _ _ rfl
  refine ⟨hr, ?_, rfl, ?_⟩
  · rw [keyPlay_tick]
    have e : distance 68 80 (32 * 1 + 16) (32 * 2 + 16) = distance 68 80 48 80 := by norm_num
    rw [e, distance_68_48]
  · rw [playKeys_updatePlay demoLevel noKeys (1 / 20) keyPlay hr, keyPlay_tick]
    have hk : ¬ keyHit { x := 68, y := 80 }
        { id := 7, gx := 1, gy := 2, px := 48, py := 80, collected := false } := by
      unfold keyHit
      rw [hypot_eq_distance, distance_68_48]
      norm_num [TILE]
    simp [keyPlay, demoPlay, hk]

/-! ## Witnesses: the theorems at concrete inputs -/

/-- Evaluation on the demo level with one closed door.  The conjuncts, in
order: `oneDoorPerCell_oneDoor`, `cellFree_oneDoor`, `squareClear_oneDoorPlay`.
-/
theorem oneDoor_evaluation :
    (oneDoorPerCell oneDoor) ∧
    (∀ (gx : ℤ) (_ : 0 ≤ gx ∧ gx < 3),
      cellFree demoLevel oneDoor gx 2) ∧
    (squareClear demoLevel oneDoorPlay.playDoors oneDoorPlay.player.x oneDoorPlay.player.y) := by
  have floor_div32 := demo_evaluation.1
  have cellFree_demo := demo_evaluation.2.2.2.2.2.2.1
  have oneDoorPerCell_oneDoor :
      oneDoorPerCell oneDoor := by
    unfold oneDoorPerCell oneDoor
    simp
  -- In the demo level with the one door, the cells of the columns 0 to 2 of the
  -- row 2 are free.
  have cellFree_oneDoor : ∀ (gx : ℤ) (hx : 0 ≤ gx ∧ gx < 3),
      cellFree demoLevel oneDoor gx 2 := by
    intro gx hx
    refine cellFree_demo _ gx 2 ⟨hx.1, by omega⟩ (by decide) ?_
    intro d hd h1
    simp only [oneDoor, List.mem_singleton] at hd
    rw [hd] at h1
    simp only at h1
    omega
  have squareClear_oneDoorPlay :
      squareClear demoLevel oneDoorPlay.playDoors oneDoorPlay.player.x oneDoorPlay.player.y := by
    intro px py hx hy
    simp only [oneDoorPlay, demoPlay, abs_le] at hx hy
    rw [floor_div32 px 1 (by norm_num; linarith) (by norm_num; linarith),
      floor_div32 py 2 (by norm_num; linarith) (by norm_num; linarith)]
    exact cellFree_oneDoor 1 (by decide)
  exact ⟨oneDoorPerCell_oneDoor, cellFree_oneDoor, squareClear_oneDoorPlay⟩

/-- C1, witness: the demo level with one closed door, the player at
`(48, 80)`, the right arrow held. -/
theorem wall_non_overlap_invariant_witness :
    oneDoorPerCell oneDoorPlay.playDoors ∧
    squareClear demoLevel oneDoorPlay.playDoors oneDoorPlay.player.x oneDoorPlay.player.y ∧
    squareClear demoLevel (updatePlay demoLevel rightKey (1 / 20) oneDoorPlay).playDoors
      (updatePlay demoLevel rightKey (1 / 20) oneDoorPlay).player.x
      (updatePlay demoLevel rightKey (1 / 20) oneDoorPlay).player.y :=
  have oneDoorPerCell_oneDoor := oneDoor_evaluation.1
  have squareClear_oneDoorPlay := oneDoor_evaluation.2.2
  ⟨oneDoorPerCell_oneDoor, squareClear_oneDoorPlay,
    wall_non_overlap_invariant demoLevel rightKey (1 / 20) oneDoorPlay
      oneDoorPerCell_oneDoor squareClear_oneDoorPlay⟩

/-- C2, witness: in the demo level with one closed door in the cell `(3, 2)`,
the step from `(48, 80)` to `(54, 80)` is taken whole, and the step from
`(80, 80)` to `(86, 80)`, whose right corners fall in the door cell, is
refused whole. -/
theorem moveAxis_all_or_nothing_witness :
    oneDoorPerCell oneDoor ∧
    moveAxis demoLevel oneDoor 48 80 6 0 = { x := 48 + 6, y := 80 + 0 } ∧
    moveAxis demoLevel oneDoor 80 80 6 0 = { x := 80, y := 80 } := by
  have floor_div32 := demo_evaluation.1
  have oneDoorPerCell_oneDoor := oneDoor_evaluation.1
  have cellFree_oneDoor := oneDoor_evaluation.2.1
  refine ⟨oneDoorPerCell_oneDoor,
    (moveAxis_all_or_nothing demoLevel oneDoor 48 80 6 0 oneDoorPerCell_oneDoor).1 ?_,
    (moveAxis_all_or_nothing demoLevel oneDoor 80 80 6 0 oneDoorPerCell_oneDoor).2.1 ?_⟩
  · unfold cornersFree
    rw [floor_div32 (48 + 6 - 10) 1 (by norm_num) (by norm_num),
      floor_div32 (48 + 6 + 10) 2 (by norm_num) (by norm_num),
      floor_div32 (80 + 0 - 10) 2 (by norm_num) (by norm_num),
      floor_div32 (80 + 0 + 10) 2 (by norm_num) (by norm_num)]
    exact ⟨cellFree_oneDoor 1 (by decide), cellFree_oneDoor 2 (by decide),
      cellFree_oneDoor 1 (by decide), cellFree_oneDoor 2 (by decide)⟩
  · intro h
    have h2 := h.2.1
    rw [floor_div32 (80 + 6 + 10) 3 (by norm_num) (by norm_num),
      floor_div32 (80 + 0 - 10) 2 (by norm_num) (by norm_num)] at h2
    exact h2.2.2 ⟨{ id := 1, gx := 3, gy := 2, keyId := none, isOpen := false },
      by simp [oneDoor], rfl, rfl, rfl⟩

/-- C3, witness: the ice-locked player of the demo level, with no key and with
the right arrow. -/
theorem ice_lock_ignores_input_witness :
    (icePlay.playerOnIce = true ∧ nowOnIce demoLevel icePlay.player ∧
      (icePlay.iceLockedVx ≠ 0 ∨ icePlay.iceLockedVy ≠ 0)) ∧
    updatePlay demoLevel noKeys (1 / 20) icePlay = updatePlay demoLevel rightKey (1 / 20) icePlay ∧
    (updatePlay demoLevel noKeys (1 / 20) icePlay).playerVx = icePlay.iceLockedVx := by
  have reachesMove_demo := demo_evaluation.2.2.2.1
  have nowOnIce_48_48 := demo_evaluation_c.2.1
  have hl : icePlay.iceLockedVx ≠ 0 ∨ icePlay.iceLockedVy ≠ 0 := by
    left; norm_num [icePlay, demoPlay]
  have h := ice_lock_ignores_input demoLevel noKeys rightKey (1 / 20) icePlay rfl
    nowOnIce_48_48 hl
  exact ⟨⟨rfl, nowOnIce_48_48, hl⟩, h.1, (h.2 (reachesMove_demo _ _ rfl)).1.1⟩

/-- C4, witness: the player at rest on the ice tile of the demo level enters
the lock with the right arrow held. -/
theorem ice_entry_rule_witness :
    (reachesMove demoLevel (1 / 20) (demoPlay 48 48) ∧
      nowOnIce demoLevel (demoPlay 48 48).player ∧ (demoPlay 48 48).playerOnIce = false) ∧
    (beforeMove demoLevel rightKey (1 / 20) (demoPlay 48 48)).playerOnIce = true ∧
    (updatePlay demoLevel rightKey (1 / 20) (demoPlay 48 48)).playerVx
      = (beforeMove demoLevel rightKey (1 / 20) (demoPlay 48 48)).iceLockedVx := by
  have reachesMove_demo := demo_evaluation.2.2.2.1
  have nowOnIce_48_48 := demo_evaluation_c.2.1
  have h := ice_entry_rule demoLevel rightKey (1 / 20) (demoPlay 48 48)
    (reachesMove_demo _ _ rfl) nowOnIce_48_48 rfl
  exact ⟨⟨reachesMove_demo _ _ rfl, nowOnIce_48_48, rfl⟩, h.1, h.2.2.2.2.1⟩

theorem hypot_demoPlay (x y : ℝ) : hypot (demoPlay x y).playerVx (demoPlay x y).playerVy ≤ 5 := by
  have hypot_zero := rest_lemmas.2.1
  have h0 : hypot (demoPlay x y).playerVx (demoPlay x y).playerVy = 0 := hypot_zero
  rw [h0]; norm_num

/-- C5, witness: the player enters the ice tile of the demo level at rest with
no key held, and two more ticks without keys leave it where it is. -/
theorem parked_on_ice_until_input_witness :
    (reachesMove demoLevel (1 / 20) (demoPlay 48 48) ∧
      nowOnIce demoLevel (demoPlay 48 48).player ∧ (demoPlay 48 48).playerOnIce = false ∧
      hypot (demoPlay 48 48).playerVx (demoPlay 48 48).playerVy ≤ 5 ∧ noDirection noKeys) ∧
    (runTicks demoLevel [(noKeys, 1 / 20), (noKeys, 1 / 50)]
        (updatePlay demoLevel noKeys (1 / 20) (demoPlay 48 48))).player
      = (updatePlay demoLevel noKeys (1 / 20) (demoPlay 48 48)).player := by
  have reachesMove_demo := demo_evaluation.2.2.2.1
  have noDirection_noKeys := demo_evaluation_b.2.1
  have nowOnIce_48_48 := demo_evaluation_c.2.1
  have h := parked_on_ice_until_input demoLevel noKeys (1 / 20) (demoPlay 48 48)
    (reachesMove_demo _ _ rfl) nowOnIce_48_48 rfl (hypot_demoPlay 48 48) noDirection_noKeys
  refine ⟨⟨reachesMove_demo _ _ rfl, nowOnIce_48_48, rfl, hypot_demoPlay 48 48,
    noDirection_noKeys⟩, h.2.1 _ ?_⟩
  intro t ht
  simp only [List.mem_cons, List.mem_singleton, List.not_mem_nil, or_false] at ht
  rcases ht with rfl | rfl <;> exact noDirection_noKeys

/-- C6, witness: the player of the demo level that has just slid off the ice
tile, the right arrow held. -/
theorem ice_exit_resumes_input_witness :
    (reachesMove demoLevel (1 / 20) slidPlay ∧ ¬ nowOnIce demoLevel slidPlay.player ∧
      slidPlay.playerOnIce = true) ∧
    (updatePlay demoLevel rightKey (1 / 20) slidPlay).playerOnIce = false ∧
    (updatePlay demoLevel rightKey (1 / 20) slidPlay).playerVx
      = (inputVelocity demoLevel rightKey).1 := by
  have reachesMove_demo := demo_evaluation.2.2.2.1
  have not_nowOnIce_80_48 := demo_evaluation_c.2.2.1
  have h := ice_exit_resumes_input demoLevel rightKey (1 / 20) slidPlay
    (reachesMove_demo _ _ rfl) not_nowOnIce_80_48 rfl
  exact ⟨⟨reachesMove_demo _ _ rfl, not_nowOnIce_80_48, rfl⟩, h.1, h.2.1⟩

/-- C8, witness: the player of the demo level off the ice, the right arrow
held, moves at the configured speed 120. -/
theorem fresh_velocity_off_ice_witness :
    (reachesMove demoLevel (1 / 20) (demoPlay 48 80) ∧
      (beforeMove demoLevel rightKey (1 / 20) (demoPlay 48 80)).playerOnIce = false) ∧
    (updatePlay demoLevel rightKey (1 / 20) (demoPlay 48 80)).playerVx ^ 2
      + (updatePlay demoLevel rightKey (1 / 20) (demoPlay 48 80)).playerVy ^ 2
      = demoLevel.currentPlayerSpeed ^ 2 := by
  have beforeMove_off_ice := ice_switch_lemmas.1
  have reachesMove_demo := demo_evaluation.2.2.2.1
  have not_nowOnIce_row2 := demo_evaluation_c.2.2.2.1
  have hi : (beforeMove demoLevel rightKey (1 / 20) (demoPlay 48 80)).playerOnIce = false := by
    rw [beforeMove_off_ice demoLevel rightKey (1 / 20) (demoPlay 48 80) (not_nowOnIce_row2 48)]
  have hx : inputX rightKey = 1 := by simp [inputX, rightKey]
  have h := fresh_velocity_off_ice demoLevel rightKey (1 / 20) (demoPlay 48 80)
    (reachesMove_demo _ _ rfl) hi
  exact ⟨⟨reachesMove_demo _ _ rfl, hi⟩, h.2.1 (Or.inl (by rw [hx]; norm_num))⟩

/-- C10, witness: the player and the key of the demo level. -/
theorem key_pickup_threshold_witness :
    (reachesMove demoLevel (1 / 20) keyPlay ∧
      ∀ key ∈ keyPlay.playKeys,
        key.px = 32 * (key.gx : ℝ) + 16 ∧ key.py = 32 * (key.gy : ℝ) + 16) ∧
    (updatePlay demoLevel noKeys (1 / 20) keyPlay).playKeys
      = keyPlay.playKeys.map (fun key =>
          if key.collected = false ∧ distance
              (updatePlay demoLevel noKeys (1 / 20) keyPlay).player.x
              (updatePlay demoLevel noKeys (1 / 20) keyPlay).player.y
              (32 * (key.gx : ℝ) + 16) (32 * (key.gy : ℝ) + 16) < 20
          then { key with collected := true } else key) := by
  have reachesMove_demo := demo_evaluation.2.2.2.1
  have hc : ∀ key ∈ keyPlay.playKeys,
      key.px = 32 * (key.gx : ℝ) + 16 ∧ key.py = 32 * (key.gy : ℝ) + 16 := by
    intro key hk
    simp only [keyPlay, demoPlay, List.mem_singleton] at hk
    rw [hk]
    norm_num
  have h := key_pickup_threshold demoLevel noKeys (1 / 20) keyPlay (reachesMove_demo _ _ rfl) hc
  exact ⟨⟨reachesMove_demo _ _ rfl, hc⟩, h.1⟩

/-- Evaluation of the slide into the wall of `wallLevel`.  The conjuncts, in
order: `reachesMove_of_no_limit`, `nowOnIce_of_floor`, `cornerBlocked_of_wall`,
`nowOnIce_wallSlide`, `xRejected_wallSlide`. -/
theorem wallSlide_evaluation :
    (∀ (L : Level) (dt : ℝ) (s : Play) (_ : L.currentTimeLimit = 0) (_ : s.playerDying = false),
      reachesMove L dt s) ∧
    (∀ (L : Level) (p : Player) (gx gy : ℤ) (_ : ⌊p.x / 32⌋ = gx) (_ : ⌊p.y / 32⌋ = gy)
      (_ : inBounds L gx gy) (_ : L.grid gy gx = TILE_ICE),
      nowOnIce L p) ∧
    (∀ (L : Level) (ds : List PlayDoor) (c : Pt) (gx gy : ℤ) (_ : ⌊c.px / 32⌋ = gx)
      (_ : ⌊c.py / 32⌋ = gy) (_ : L.grid gy gx = TILE_WALL),
      cornerBlocked L ds c) ∧
    (nowOnIce wallLevel wallSlidePlay.player) ∧
    (xRejected wallLevel (1 / 20) (beforeMove wallLevel noKeys (1 / 20) wallSlidePlay)) := by
  have beforeMove_locked := ice_switch_lemmas.2.1
  have floor_div32 := demo_evaluation.1
  have reachesMove_of_no_limit : ∀ (L : Level) (dt : ℝ) (s : Play) (hl : L.currentTimeLimit = 0)
      (h : s.playerDying = false),
      reachesMove L dt s := by
    intro L dt s hl h
    refine ⟨h, ?_⟩
    unfold timeUp
    simp [hl]
  have nowOnIce_of_floor : ∀ (L : Level) (p : Player) (gx gy : ℤ) (hx : ⌊p.x / 32⌋ = gx)
      (hy : ⌊p.y / 32⌋ = gy) (hb : inBounds L gx gy) (hg : L.grid gy gx = TILE_ICE),
      nowOnIce L p := by
    intro L p gx gy hx hy hb hg
    unfold nowOnIce TILE
    dsimp only
    rw [hx, hy, if_pos hb, hg]
  have cornerBlocked_of_wall : ∀ (L : Level) (ds : List PlayDoor) (c : Pt) (gx gy : ℤ)
      (hx : ⌊c.px / 32⌋ = gx) (hy : ⌊c.py / 32⌋ = gy) (hw : L.grid gy gx = TILE_WALL),
      cornerBlocked L ds c := by
    intro L ds c gx gy hx hy hw
    unfold cornerBlocked TILE
    dsimp only
    rw [hx, hy]
    by_cases hb : inBounds L gx gy <;> simp [hb, hw]
  have nowOnIce_wallSlide :
      nowOnIce wallLevel wallSlidePlay.player :=
    nowOnIce_of_floor wallLevel _ 1 1
      (floor_div32 _ 1 (by norm_num [wallSlidePlay, demoPlay]) (by norm_num [wallSlidePlay, demoPlay]))
      (floor_div32 _ 1 (by norm_num [wallSlidePlay, demoPlay]) (by norm_num [wallSlidePlay, demoPlay]))
      (by unfold inBounds wallLevel demoLevel; decide)
      (by simp [wallLevel, demoLevel])
  -- The slide of `wallSlidePlay` is rejected on the X axis: the upper right
  -- corner of the candidate square falls in the wall cell `(2, 1)`.
  have xRejected_wallSlide :
      xRejected wallLevel (1 / 20) (beforeMove wallLevel noKeys (1 / 20) wallSlidePlay) := by
    rw [beforeMove_locked wallLevel noKeys (1 / 20) wallSlidePlay nowOnIce_wallSlide rfl]
    unfold xRejected
    refine ⟨{ px := 53 + 120 * (1 / 20) + (PLAYER_SIZE / 2 - 1),
              py := 48 + 0 - (PLAYER_SIZE / 2 - 1) }, ?_, ?_⟩
    · simp [corners, wallSlidePlay, demoPlay]
    · refine cornerBlocked_of_wall wallLevel _ _ 2 1
        (floor_div32 _ 2 (by norm_num [PLAYER_SIZE]) (by norm_num [PLAYER_SIZE]))
        (floor_div32 _ 1 (by norm_num [PLAYER_SIZE]) (by norm_num [PLAYER_SIZE])) ?_
      simp [wallLevel]
  exact ⟨reachesMove_of_no_limit, nowOnIce_of_floor, cornerBlocked_of_wall, nowOnIce_wallSlide,
    xRejected_wallSlide⟩

/-- C7, witness: in `wallLevel` the ice-locked player slides right into the
wall; the X displacement is rejected and the locked X component becomes 0. -/
theorem blocked_axis_decay_witness :
    (reachesMove wallLevel (1 / 20) wallSlidePlay ∧ (0 : ℝ) < 1 / 20 ∧
      (beforeMove wallLevel noKeys (1 / 20) wallSlidePlay).playerOnIce = true) ∧
    (xRejected wallLevel (1 / 20) (beforeMove wallLevel noKeys (1 / 20) wallSlidePlay) ∧
      (beforeMove wallLevel noKeys (1 / 20) wallSlidePlay).iceLockedVx ≠ 0) ∧
    (updatePlay wallLevel noKeys (1 / 20) wallSlidePlay).iceLockedVx = 0 := by
  have beforeMove_locked := ice_switch_lemmas.2.1
  have playerOnIce_beforeMove := ice_switch_lemmas.2.2.2.1
  have reachesMove_of_no_limit := wallSlide_evaluation.1
  have nowOnIce_wallSlide := wallSlide_evaluation.2.2.2.1
  have xRejected_wallSlide := wallSlide_evaluation.2.2.2.2
  have hr : reachesMove wallLevel (1 / 20) wallSlidePlay :=
    reachesMove_of_no_limit wallLevel _ _ rfl rfl
  have hi : (beforeMove wallLevel noKeys (1 / 20) wallSlidePlay).playerOnIce = true :=
    (playerOnIce_beforeMove wallLevel noKeys (1 / 20) wallSlidePlay).mpr nowOnIce_wallSlide
  have hl : (beforeMove wallLevel noKeys (1 / 20) wallSlidePlay).iceLockedVx ≠ 0 := by
    rw [beforeMove_locked wallLevel noKeys (1 / 20) wallSlidePlay nowOnIce_wallSlide rfl]
    norm_num [wallSlidePlay, demoPlay]
  have h := blocked_axis_decay wallLevel noKeys (1 / 20) wallSlidePlay hr (by norm_num) hi
  exact ⟨⟨hr, by norm_num, hi⟩, ⟨xRejected_wallSlide, hl⟩, h.1 xRejected_wallSlide hl⟩

/-- The tick of the witness of C9: the player stays at `(48, 80)`. -/
theorem coinPlay_tick :
    (updatePlay demoLevel noKeys (1 / 20) coinPlay).player = { x := 48, y := 80 } := by
  have hypot_zero := rest_lemmas.2.1
  have rest_tick := rest_lemmas.2.2.2.1
  have reachesMove_demo := demo_evaluation.2.2.2.1
  have noDirection_noKeys := demo_evaluation_b.2.1
  have clamp_demo := demo_evaluation_b.2.2.1
  have demo_COLS := demo_evaluation_b.2.2.2.2.2.2.2
  have demo_ROWS := demo_evaluation_c.1
  have h0 : hypot coinPlay.playerVx coinPlay.playerVy = 0 := hypot_zero
  rw [(rest_tick demoLevel noKeys (1 / 20) coinPlay (reachesMove_demo _ _ rfl)
    noDirection_noKeys rfl (by rw [h0]; norm_num)).1]
  simp only [coinPlay, demoPlay, demo_COLS, demo_ROWS]
  rw [clamp_demo 4 _ (by norm_num) (by norm_num), clamp_demo 3 _ (by norm_num) (by norm_num)]

/-- C9, witness: the player of the demo level stands on the coin of the cell
`(1, 2)`, which is removed, and the coin of the cell `(3, 0)`, far away, is
kept. -/
theorem coin_pickup_threshold_witness :
    reachesMove demoLevel (1 / 20) coinPlay ∧
    coinPlay.playCoins = [{ gx := 1, gy := 2 }, { gx := 3, gy := 0 }] ∧
    (updatePlay demoLevel noKeys (1 / 20) coinPlay).playCoins = [{ gx := 3, gy := 0 }] := by
  have reachesMove_demo := demo_evaluation.2.2.2.1
  have h := coin_pickup_threshold demoLevel noKeys (1 / 20) coinPlay (reachesMove_demo _ _ rfl)
  refine ⟨reachesMove_demo _ _ rfl, rfl, ?_⟩
  rw [h.1, coinPlay_tick]
  have near : distance 48 80 (32 * ((1 : ℤ) : ℝ) + 16) (32 * ((2 : ℤ) : ℝ) + 16) ≤ 15 := by
    unfold distance
    rw [Real.sqrt_le_left (by norm_num)]
    norm_num
  have far : ¬ distance 48 80 (32 * ((3 : ℤ) : ℝ) + 16) (32 * ((0 : ℤ) : ℝ) + 16) ≤ 15 := by
    unfold distance
    rw [Real.sqrt_le_left (by norm_num)]
    norm_num
  simp only [coinPlay, demoPlay, List.filter, near, far, not_true_eq_false, not_false_eq_true,
    decide_True, decide_False]

/-! ## C11: key pickup opens exactly the linked doors -/

/-- The doors through the key loop.  The conjuncts, in order:
`foldl_keyEffect_playDoors`, `playDoors_updatePlay`. -/
theorem door_loop_lemmas :
    (∀ (p : Player) (ks : List PlayKey) (s : Play),
      (ks.foldl (keyEffect p) s).playDoors
        = s.playDoors.map (fun d =>
            if linkedKeyHit p ks d then { d with isOpen := true } else d)) ∧
    (∀ (L : Level) (keysDown : String → Bool) (dt : ℝ) (s : Play) (_ : reachesMove L dt s),
      (updatePlay L keysDown dt s).playDoors
        = s.playDoors.map (fun d =>
            if linkedKeyHit (updatePlay L keysDown dt s).player s.playKeys d
            then { d with isOpen := true } else d)) := by
  have items_beforeMove := collision_square_lemmas_c.2.2.2.2.2.1
  have playDoors_beforeMove := collision_square_lemmas_d.2.2.1
  have player_updatePlay := collision_square_lemmas_d.2.2.2.1
  have items_updatePlay := collision_square_lemmas_d.2.2.2.2.1
  -- The doors after the key loop: a door is opened exactly when it is linked to
  -- a key that the loop collects; every other door is as before.
  have foldl_keyEffect_playDoors : ∀ (p : Player) (ks : List PlayKey) (s : Play),
      (ks.foldl (keyEffect p) s).playDoors
        = s.playDoors.map (fun d =>
            if linkedKeyHit p ks d then { d with isOpen := true } else d) := by
    intro p ks s
    induction ks generalizing s with
    | nil =>
      have h : ∀ d : PlayDoor, ¬ linkedKeyHit p [] d := by
        rintro d ⟨k, hk, _⟩
        exact absurd hk (List.not_mem_nil k)
      simp [h]
    | cons k ks ih =>
      rw [List.foldl_cons, ih]
      unfold keyEffect
      by_cases hk : keyHit p k
      · rw [if_pos hk]
        simp only [openDoors, List.map_map]
        apply List.map_congr_left
        intro d _
        simp only [Function.comp]
        by_cases hd : d.keyId = some k.id
        · have h1 : linkedKeyHit p (k :: ks) d := ⟨k, List.mem_cons_self _ _, hk, hd⟩
          rw [if_pos hd, if_pos h1]
          split_ifs <;> rfl
        · rw [if_neg hd]
          have h2 : linkedKeyHit p (k :: ks) d ↔ linkedKeyHit p ks d := by
            constructor
            · rintro ⟨k', hm, hh, he⟩
              rcases List.mem_cons.mp hm with rfl | hm'
              · exact absurd he hd
              · exact ⟨k', hm', hh, he⟩
            · rintro ⟨k', hm, hh, he⟩
              exact ⟨k', List.mem_cons_of_mem _ hm, hh, he⟩
          by_cases h3 : linkedKeyHit p ks d
          · rw [if_pos h3, if_pos (h2.mpr h3)]
          · rw [if_neg h3, if_neg (fun h => h3 (h2.mp h))]
      · rw [if_neg hk]
        apply List.map_congr_left
        intro d _
        have h2 : linkedKeyHit p (k :: ks) d ↔ linkedKeyHit p ks d := by
          constructor
          · rintro ⟨k', hm, hh, he⟩
            rcases List.mem_cons.mp hm with rfl | hm'
            · exact absurd hh hk
            · exact ⟨k', hm', hh, he⟩
          · rintro ⟨k', hm, hh, he⟩
            exact ⟨k', List.mem_cons_of_mem _ hm, hh, he⟩
        by_cases h3 : linkedKeyHit p ks d
        · rw [if_pos h3, if_pos (h2.mpr h3)]
        · rw [if_neg h3, if_neg (fun h => h3 (h2.mp h))]
  -- The doors after a tick that reaches the move.
  have playDoors_updatePlay : ∀ (L : Level) (keysDown : String → Bool) (dt : ℝ) (s : Play)
      (hr : reachesMove L dt s),
      (updatePlay L keysDown dt s).playDoors
        = s.playDoors.map (fun d =>
            if linkedKeyHit (updatePlay L keysDown dt s).player s.playKeys d
            then { d with isOpen := true } else d) := by
    intro L keysDown dt s hr
    have e := congrArg (fun t => t.2.2.1) (items_updatePlay L keysDown dt s hr)
    have e' : (updatePlay L keysDown dt s).playDoors
        = (keyStep (coinStep (enemyStep dt
            (moveStep L dt (beforeMove L keysDown dt s))))).playDoors := e
    rw [e', player_updatePlay L keysDown dt s hr]
    have e0 : (beforeMove L keysDown dt s).playKeys = s.playKeys :=
      congrArg (fun t => t.2.1) (items_beforeMove L keysDown dt s)
    have e1 : (beforeMove L keysDown dt s).playDoors = s.playDoors :=
      playDoors_beforeMove L keysDown dt s
    have h := foldl_keyEffect_playDoors
      (coinStep (enemyStep dt (moveStep L dt (beforeMove L keysDown dt s)))).player
      (coinStep (enemyStep dt (moveStep L dt (beforeMove L keysDown dt s)))).playKeys
      (coinStep (enemyStep dt (moveStep L dt (beforeMove L keysDown dt s))))
    have hk : (coinStep (enemyStep dt (moveStep L dt (beforeMove L keysDown dt s)))).playKeys
        = s.playKeys := e0
    have hd : (coinStep (enemyStep dt (moveStep L dt (beforeMove L keysDown dt s)))).playDoors
        = s.playDoors := e1
    have e2 : (keyStep (coinStep (enemyStep dt
          (moveStep L dt (beforeMove L keysDown dt s))))).playDoors
        = (List.foldl
            (keyEffect (coinStep (enemyStep dt (moveStep L dt (beforeMove L keysDown dt s)))).player)
            (coinStep (enemyStep dt (moveStep L dt (beforeMove L keysDown dt s))))
            (coinStep (enemyStep dt (moveStep L dt (beforeMove L keysDown dt s)))).playKeys).playDoors :=
      rfl
    rw [e2, h, hk, hd]
    rfl
  exact ⟨foldl_keyEffect_playDoors, playDoors_updatePlay⟩

/-- C11: key pickup opens exactly the linked doors.  After a tick that reaches
the interaction checks, the doors are the doors before it, in their order, each
one open exactly when it was open before or its linked key id is the id of a
key collected in that tick (not collected before, nearer than 20 to the moved
player); a door linked to another key or to no key is unchanged.  A tick that
does not reach the checks leaves the doors as they are.  No tick closes a
door. -/
theorem key_opens_linked_doors (L : Level) (keysDown : String → Bool) (dt : ℝ) (s : Play) :
    (reachesMove L dt s →
      (updatePlay L keysDown dt s).playDoors
        = s.playDoors.map (fun d =>
            if (∃ key ∈ s.playKeys,
                (key.collected = false ∧
                  distance (updatePlay L keysDown dt s).player.x
                    (updatePlay L keysDown dt s).player.y key.px key.py < 20) ∧
                d.keyId = some key.id)
            then { d with isOpen := true } else d)) ∧
    (¬ reachesMove L dt s → (updatePlay L keysDown dt s).playDoors = s.playDoors) ∧
    (updatePlay L keysDown dt s).playDoors.map (fun d => (d.id, d.gx, d.gy, d.keyId))
      = s.playDoors.map (fun d => (d.id, d.gx, d.gy, d.keyId)) ∧
    List.Forall₂ (fun d e => d.isOpen = true → e.isOpen = true)
      s.playDoors (updatePlay L keysDown dt s).playDoors := by
  have updatePlay_of_not_reachesMove := collision_square_lemmas_d.2.2.2.2.2.1
  have hypot_eq_distance := coin_filter_lemmas.1
  have playDoors_updatePlay := door_loop_lemmas.2
  have hlink : ∀ (p : Player) (d : PlayDoor), linkedKeyHit p s.playKeys d ↔
      (∃ key ∈ s.playKeys,
        (key.collected = false ∧ distance p.x p.y key.px key.py < 20) ∧
        d.keyId = some key.id) := by
    intro p d
    have e : TILE / 2 + 4 = 20 := by unfold TILE; norm_num
    unfold linkedKeyHit keyHit
    simp only [hypot_eq_distance, e]
  have hreach : reachesMove L dt s →
      (updatePlay L keysDown dt s).playDoors
        = s.playDoors.map (fun d =>
            if (∃ key ∈ s.playKeys,
                (key.collected = false ∧
                  distance (updatePlay L keysDown dt s).player.x
                    (updatePlay L keysDown dt s).player.y key.px key.py < 20) ∧
                d.keyId = some key.id)
            then { d with isOpen := true } else d) := by
    intro hr
    rw [playDoors_updatePlay L keysDown dt s hr]
    apply List.map_congr_left
    intro d _
    by_cases h : linkedKeyHit (updatePlay L keysDown dt s).player s.playKeys d
    · rw [if_pos h, if_pos ((hlink _ d).mp h)]
    · rw [if_neg h, if_neg (fun hc => h ((hlink _ d).mpr hc))]
  have hnot : ¬ reachesMove L dt s → (updatePlay L keysDown dt s).playDoors = s.playDoors :=
    fun hn => congrArg (fun t => t.2.2.1) (updatePlay_of_not_reachesMove L keysDown dt s hn).2
  refine ⟨hreach, hnot, ?_, ?_⟩
  · by_cases hr : reachesMove L dt s
    · rw [hreach hr, List.map_map]
      apply List.map_congr_left
      intro d _
      simp only [Function.comp]
      split_ifs <;> rfl
    · rw [hnot hr]
  · by_cases hr : reachesMove L dt s
    · rw [hreach hr, List.forall₂_map_right_iff]
      apply List.forall₂_same.mpr
      intro d _ ho
      split_ifs
      · rfl
      · exact ho
    · rw [hnot hr]
      exact List.forall₂_same.mpr (fun d _ ho => ho)

/-! ## The end of the tick: countdown, enemy test, goal test -/

/-- The end of the tick: countdown, enemy test and goal test.  The conjuncts,
in order: `foldl_keyEffect_session`, `session_beforeMove`,
`session_beforeCheckpoint`, `session_beforeContact`,
`updatePlay_eq_contactStep`, `beforeContact_frame`, `enemyHit_iff`. -/
theorem contact_lemmas :
    (∀ (p : Player) (ks : List PlayKey) (s : Play),
      session (ks.foldl (keyEffect p) s) = session s ∧
      (ks.foldl (keyEffect p) s).playEnemies = s.playEnemies ∧
      (ks.foldl (keyEffect p) s).checkpointPos = s.checkpointPos) ∧
    (∀ (L : Level) (keysDown : String → Bool) (dt : ℝ) (s : Play),
      session (beforeMove L keysDown dt s)
          = session { s with playTimer := s.playTimer + dt } ∧
      (beforeMove L keysDown dt s).playEnemies = s.playEnemies ∧
      (beforeMove L keysDown dt s).checkpointPos = s.checkpointPos) ∧
    (∀ (L : Level) (keysDown : String → Bool) (dt : ℝ) (s : Play),
      session (beforeCheckpoint L keysDown dt s)
          = session { s with playTimer := s.playTimer + dt } ∧
      (beforeCheckpoint L keysDown dt s).playEnemies = s.playEnemies.map (advanceEnemy dt) ∧
      (beforeCheckpoint L keysDown dt s).checkpointPos = s.checkpointPos) ∧
    (∀ (L : Level) (keysDown : String → Bool) (dt : ℝ) (s : Play),
      session (beforeContact L keysDown dt s)
          = session { s with playTimer := s.playTimer + dt } ∧
      (beforeContact L keysDown dt s).playEnemies = s.playEnemies.map (advanceEnemy dt)) ∧
    (∀ (L : Level) (keysDown : String → Bool) (dt : ℝ) (s : Play) (_ : reachesMove L dt s),
      updatePlay L keysDown dt s
        = contactStep L dt ⌊s.player.x / TILE⌋ ⌊s.player.y / TILE⌋
            (beforeContact L keysDown dt s)) ∧
    (∀ (L : Level) (keysDown : String → Bool) (dt : ℝ) (s : Play) (_ : reachesMove L dt s),
      (beforeContact L keysDown dt s).player = (updatePlay L keysDown dt s).player ∧
      (beforeContact L keysDown dt s).playCoins = (updatePlay L keysDown dt s).playCoins) ∧
    (∀ (s : Play),
      enemyHit s ↔ enemyNear s.player.x s.player.y s.playEnemies) := by
  have motion_contactStep := phase_frames.2.2.2.2.2.2.1
  have updatePlay_of_reachesMove := phase_frames_b.1
  have items_contactStep := collision_square_lemmas_c.2.1
  have hypot_eq_distance := coin_filter_lemmas.1
  have foldl_keyEffect_session : ∀ (p : Player) (ks : List PlayKey) (s : Play),
      session (ks.foldl (keyEffect p) s) = session s ∧
      (ks.foldl (keyEffect p) s).playEnemies = s.playEnemies ∧
      (ks.foldl (keyEffect p) s).checkpointPos = s.checkpointPos := by
    intro p ks s
    induction ks generalizing s with
    | nil => exact ⟨rfl, rfl, rfl⟩
    | cons k ks ih =>
      rw [List.foldl_cons]
      obtain ⟨h1, h2, h3⟩ := ih (keyEffect p s k)
      rw [h1, h2, h3]
      unfold keyEffect
      split_ifs <;> exact ⟨rfl, rfl, rfl⟩
  have session_beforeMove : ∀ (L : Level) (keysDown : String → Bool) (dt : ℝ) (s : Play),
      session (beforeMove L keysDown dt s)
          = session { s with playTimer := s.playTimer + dt } ∧
      (beforeMove L keysDown dt s).playEnemies = s.playEnemies ∧
      (beforeMove L keysDown dt s).checkpointPos = s.checkpointPos := by
    intro L keysDown dt s
    unfold beforeMove velocityStep iceStep
    dsimp only
    split_ifs <;> exact ⟨rfl, rfl, rfl⟩
  have session_beforeCheckpoint : ∀ (L : Level) (keysDown : String → Bool) (dt : ℝ) (s : Play),
      session (beforeCheckpoint L keysDown dt s)
          = session { s with playTimer := s.playTimer + dt } ∧
      (beforeCheckpoint L keysDown dt s).playEnemies = s.playEnemies.map (advanceEnemy dt) ∧
      (beforeCheckpoint L keysDown dt s).checkpointPos = s.checkpointPos := by
    intro L keysDown dt s
    obtain ⟨b1, b2, b3⟩ := session_beforeMove L keysDown dt s
    obtain ⟨f1, f2, f3⟩ := foldl_keyEffect_session
      (coinStep (enemyStep dt (moveStep L dt (beforeMove L keysDown dt s)))).player
      (coinStep (enemyStep dt (moveStep L dt (beforeMove L keysDown dt s)))).playKeys
      (coinStep (enemyStep dt (moveStep L dt (beforeMove L keysDown dt s))))
    refine ⟨?_, ?_, ?_⟩
    · rw [← b1]; exact f1
    · rw [← b2]; exact f2
    · rw [← b3]; exact f3
  have session_beforeContact : ∀ (L : Level) (keysDown : String → Bool) (dt : ℝ) (s : Play),
      session (beforeContact L keysDown dt s)
          = session { s with playTimer := s.playTimer + dt } ∧
      (beforeContact L keysDown dt s).playEnemies = s.playEnemies.map (advanceEnemy dt) := by
    intro L keysDown dt s
    obtain ⟨c1, c2, _⟩ := session_beforeCheckpoint L keysDown dt s
    unfold beforeContact checkpointStep
    dsimp only
    split_ifs
    · exact ⟨c1, c2⟩
    · exact ⟨c1, c2⟩
    · exact ⟨c1, c2⟩
  -- A tick that reaches the move ends with the enemy test and the goal test,
  -- run on the state `beforeContact` with the cell that held the player when the
  -- tick began.
  have updatePlay_eq_contactStep : ∀ (L : Level) (keysDown : String → Bool) (dt : ℝ) (s : Play)
      (hr : reachesMove L dt s),
      updatePlay L keysDown dt s
        = contactStep L dt ⌊s.player.x / TILE⌋ ⌊s.player.y / TILE⌋
            (beforeContact L keysDown dt s) := by
    intro L keysDown dt s hr
    rw [updatePlay_of_reachesMove L keysDown dt s hr]
    rfl
  -- The player, the coins and the enemies when the enemy test runs are those
  -- of the end of the tick.
  have beforeContact_frame : ∀ (L : Level) (keysDown : String → Bool) (dt : ℝ) (s : Play)
      (hr : reachesMove L dt s),
      (beforeContact L keysDown dt s).player = (updatePlay L keysDown dt s).player ∧
      (beforeContact L keysDown dt s).playCoins = (updatePlay L keysDown dt s).playCoins := by
    intro L keysDown dt s hr
    have e := updatePlay_eq_contactStep L keysDown dt s hr
    have m := motion_contactStep L dt ⌊s.player.x / TILE⌋ ⌊s.player.y / TILE⌋
      (beforeContact L keysDown dt s)
    have i := items_contactStep L dt ⌊s.player.x / TILE⌋ ⌊s.player.y / TILE⌋
      (beforeContact L keysDown dt s)
    rw [← e] at m i
    exact ⟨(congrArg Prod.fst m).symm, (congrArg Prod.fst i).symm⟩
  have enemyHit_iff : ∀ (s : Play),
      enemyHit s ↔ enemyNear s.player.x s.player.y s.playEnemies := by
    intro s
    have e : ENEMY_RADIUS + PLAYER_SIZE / 2 - 3 = 20 := by
      unfold ENEMY_RADIUS PLAYER_SIZE; norm_num
    unfold enemyHit enemyNear
    simp only [hypot_eq_distance, e]
  exact ⟨foldl_keyEffect_session, session_beforeMove, session_beforeCheckpoint,
    session_beforeContact, updatePlay_eq_contactStep, beforeContact_frame, enemyHit_iff⟩

/-- The end of the tick: countdown, enemy test and goal test.  The conjuncts,
in order: `contactStep_cases`, `goalStep_frame`, `goalStep_win`,
`playEnemies_updatePlay`, `contact_outcome`, `updatePlay_of_dying`,
`updatePlay_of_timeUp`. -/
theorem contact_lemmas_b :
    (∀ (L : Level) (dt : ℝ) (pgx pgy : ℤ) (c : Play),
      (c.deathCooldown > 0 →
        contactStep L dt pgx pgy c
          = goalStep L pgx pgy { c with deathCooldown := c.deathCooldown - dt }) ∧
      (¬ c.deathCooldown > 0 → enemyHit c → contactStep L dt pgx pgy c = die c) ∧
      (¬ c.deathCooldown > 0 → ¬ enemyHit c →
        contactStep L dt pgx pgy c = goalStep L pgx pgy c)) ∧
    (∀ (L : Level) (pgx pgy : ℤ) (c : Play),
      (goalStep L pgx pgy c).deaths = c.deaths ∧
      (goalStep L pgx pgy c).playerDying = c.playerDying ∧
      (goalStep L pgx pgy c).deathCooldown = c.deathCooldown ∧
      (goalStep L pgx pgy c).playEnemies = c.playEnemies ∧
      (goalStep L pgx pgy c).checkpointPos = c.checkpointPos ∧
      (goalStep L pgx pgy c).playTimer = c.playTimer) ∧
    (∀ (L : Level) (pgx pgy : ℤ) (c : Play) (_ : c.winOverlay = false),
      ((goalStep L pgx pgy c).winOverlay = true ↔
        (inBounds L pgx pgy ∧ L.grid pgy pgx = TILE_GOAL ∧ c.playCoins = [])) ∧
      ((goalStep L pgx pgy c).winOverlay = true →
        (goalStep L pgx pgy c).playMode = false ∧ (goalStep L pgx pgy c).animFrameId = none)) ∧
    (∀ (L : Level) (keysDown : String → Bool) (dt : ℝ) (s : Play) (_ : reachesMove L dt s),
      (updatePlay L keysDown dt s).playEnemies = s.playEnemies.map (advanceEnemy dt)) ∧
    (∀ (L : Level) (keysDown : String → Bool) (dt : ℝ) (s : Play) (_ : reachesMove L dt s),
      (s.deathCooldown > 0 →
        (updatePlay L keysDown dt s).deaths = s.deaths ∧
        (updatePlay L keysDown dt s).playerDying = false ∧
        (updatePlay L keysDown dt s).deathCooldown = s.deathCooldown - dt) ∧
      (¬ s.deathCooldown > 0 →
        enemyNear (updatePlay L keysDown dt s).player.x (updatePlay L keysDown dt s).player.y
          (updatePlay L keysDown dt s).playEnemies →
        (updatePlay L keysDown dt s).deaths = s.deaths + 1 ∧
        (updatePlay L keysDown dt s).playerDying = true ∧
        (updatePlay L keysDown dt s).deathCooldown = s.deathCooldown) ∧
      (¬ s.deathCooldown > 0 →
        ¬ enemyNear (updatePlay L keysDown dt s).player.x (updatePlay L keysDown dt s).player.y
          (updatePlay L keysDown dt s).playEnemies →
        (updatePlay L keysDown dt s).deaths = s.deaths ∧
        (updatePlay L keysDown dt s).playerDying = false ∧
        (updatePlay L keysDown dt s).deathCooldown = s.deathCooldown)) ∧
    (∀ (L : Level) (keysDown : String → Bool) (dt : ℝ) (s : Play) (_ : s.playerDying = true),
      updatePlay L keysDown dt s = s) ∧
    (∀ (L : Level) (keysDown : String → Bool) (dt : ℝ) (s : Play) (_ : s.playerDying = false)
      (_ : timeUp L { s with playTimer := s.playTimer + dt }),
      updatePlay L keysDown dt s = die { s with playTimer := s.playTimer + dt }) := by
  have session_beforeContact := contact_lemmas.2.2.2.1
  have updatePlay_eq_contactStep := contact_lemmas.2.2.2.2.1
  have beforeContact_frame := contact_lemmas.2.2.2.2.2.1
  have enemyHit_iff := contact_lemmas.2.2.2.2.2.2
  have contactStep_cases : ∀ (L : Level) (dt : ℝ) (pgx pgy : ℤ) (c : Play),
      (c.deathCooldown > 0 →
        contactStep L dt pgx pgy c
          = goalStep L pgx pgy { c with deathCooldown := c.deathCooldown - dt }) ∧
      (¬ c.deathCooldown > 0 → enemyHit c → contactStep L dt pgx pgy c = die c) ∧
      (¬ c.deathCooldown > 0 → ¬ enemyHit c →
        contactStep L dt pgx pgy c = goalStep L pgx pgy c) := by
    intro L dt pgx pgy c
    unfold contactStep
    refine ⟨fun h => by rw [if_pos h], fun h he => by rw [if_neg h, if_pos he],
      fun h he => by rw [if_neg h, if_neg he]⟩
  -- The goal test writes nothing but what `win` writes, and it wins exactly on
  -- a goal tile with no coin left.
  have goalStep_frame : ∀ (L : Level) (pgx pgy : ℤ) (c : Play),
      (goalStep L pgx pgy c).deaths = c.deaths ∧
      (goalStep L pgx pgy c).playerDying = c.playerDying ∧
      (goalStep L pgx pgy c).deathCooldown = c.deathCooldown ∧
      (goalStep L pgx pgy c).playEnemies = c.playEnemies ∧
      (goalStep L pgx pgy c).checkpointPos = c.checkpointPos ∧
      (goalStep L pgx pgy c).playTimer = c.playTimer := by
    intro L pgx pgy c
    unfold goalStep
    split_ifs <;> exact ⟨rfl, rfl, rfl, rfl, rfl, rfl⟩
  have goalStep_win : ∀ (L : Level) (pgx pgy : ℤ) (c : Play) (hw : c.winOverlay = false),
      ((goalStep L pgx pgy c).winOverlay = true ↔
        (inBounds L pgx pgy ∧ L.grid pgy pgx = TILE_GOAL ∧ c.playCoins = [])) ∧
      ((goalStep L pgx pgy c).winOverlay = true →
        (goalStep L pgx pgy c).playMode = false ∧ (goalStep L pgx pgy c).animFrameId = none) := by
    intro L pgx pgy c hw
    unfold goalStep
    by_cases h : inBounds L pgx pgy ∧ L.grid pgy pgx = TILE_GOAL ∧ c.playCoins.length = 0
    · rw [if_pos h]
      have h' := h
      rw [List.length_eq_zero] at h'
      simp [win, h']
    · rw [if_neg h]
      have h' := h
      rw [List.length_eq_zero] at h'
      simp [hw, h']
  -- The enemies after a tick that reaches the move are the advanced enemies.
  have playEnemies_updatePlay : ∀ (L : Level) (keysDown : String → Bool) (dt : ℝ) (s : Play)
      (hr : reachesMove L dt s),
      (updatePlay L keysDown dt s).playEnemies = s.playEnemies.map (advanceEnemy dt) := by
    intro L keysDown dt s hr
    rw [updatePlay_eq_contactStep L keysDown dt s hr]
    obtain ⟨c1, c2, c3⟩ := contactStep_cases L dt ⌊s.player.x / TILE⌋ ⌊s.player.y / TILE⌋
      (beforeContact L keysDown dt s)
    have he := (session_beforeContact L keysDown dt s).2
    by_cases hcd : (beforeContact L keysDown dt s).deathCooldown > 0
    · rw [c1 hcd, (goalStep_frame L _ _ _).2.2.2.1]; exact he
    · by_cases hh : enemyHit (beforeContact L keysDown dt s)
      · rw [c2 hcd hh]; exact he
      · rw [c3 hcd hh, (goalStep_frame L _ _ _).2.2.2.1]; exact he
  -- What the end of a tick that reaches the move does to the death count, the
  -- dying flag and the countdown.
  have contact_outcome : ∀ (L : Level) (keysDown : String → Bool) (dt : ℝ) (s : Play)
      (hr : reachesMove L dt s),
      (s.deathCooldown > 0 →
        (updatePlay L keysDown dt s).deaths = s.deaths ∧
        (updatePlay L keysDown dt s).playerDying = false ∧
        (updatePlay L keysDown dt s).deathCooldown = s.deathCooldown - dt) ∧
      (¬ s.deathCooldown > 0 →
        enemyNear (updatePlay L keysDown dt s).player.x (updatePlay L keysDown dt s).player.y
          (updatePlay L keysDown dt s).playEnemies →
        (updatePlay L keysDown dt s).deaths = s.deaths + 1 ∧
        (updatePlay L keysDown dt s).playerDying = true ∧
        (updatePlay L keysDown dt s).deathCooldown = s.deathCooldown) ∧
      (¬ s.deathCooldown > 0 →
        ¬ enemyNear (updatePlay L keysDown dt s).player.x (updatePlay L keysDown dt s).player.y
          (updatePlay L keysDown dt s).playEnemies →
        (updatePlay L keysDown dt s).deaths = s.deaths ∧
        (updatePlay L keysDown dt s).playerDying = false ∧
        (updatePlay L keysDown dt s).deathCooldown = s.deathCooldown) := by
    intro L keysDown dt s hr
    have hs := (session_beforeContact L keysDown dt s).1
    have hd : (beforeContact L keysDown dt s).deaths = s.deaths := congrArg (fun t => t.1) hs
    have hy : (beforeContact L keysDown dt s).playerDying = s.playerDying :=
      congrArg (fun t => t.2.1) hs
    have hc : (beforeContact L keysDown dt s).deathCooldown = s.deathCooldown :=
      congrArg (fun t => t.2.2.1) hs
    have hnear : enemyHit (beforeContact L keysDown dt s) ↔
        enemyNear (updatePlay L keysDown dt s).player.x (updatePlay L keysDown dt s).player.y
          (updatePlay L keysDown dt s).playEnemies := by
      rw [enemyHit_iff, (beforeContact_frame L keysDown dt s hr).1,
        playEnemies_updatePlay L keysDown dt s hr, (session_beforeContact L keysDown dt s).2]
    obtain ⟨c1, c2, c3⟩ := contactStep_cases L dt ⌊s.player.x / TILE⌋ ⌊s.player.y / TILE⌋
      (beforeContact L keysDown dt s)
    have e := updatePlay_eq_contactStep L keysDown dt s hr
    refine ⟨?_, ?_, ?_⟩
    · intro h
      have h' : (beforeContact L keysDown dt s).deathCooldown > 0 := by rw [hc]; exact h
      obtain ⟨g1, g2, g3, -⟩ := goalStep_frame L ⌊s.player.x / TILE⌋ ⌊s.player.y / TILE⌋
        { beforeContact L keysDown dt s with
          deathCooldown := (beforeContact L keysDown dt s).deathCooldown - dt }
      rw [e, c1 h', g1, g2, g3]
      exact ⟨hd, hy.trans hr.1, by rw [← hc]⟩
    · intro h hn
      have h' : ¬ (beforeContact L keysDown dt s).deathCooldown > 0 := by rw [hc]; exact h
      rw [e, c2 h' (hnear.mpr hn)]
      exact ⟨by simp [die, hd], rfl, hc⟩
    · intro h hn
      have h' : ¬ (beforeContact L keysDown dt s).deathCooldown > 0 := by rw [hc]; exact h
      obtain ⟨g1, g2, g3, -⟩ := goalStep_frame L ⌊s.player.x / TILE⌋ ⌊s.player.y / TILE⌋
        (beforeContact L keysDown dt s)
      rw [e, c3 h' (fun hh => hn (hnear.mp hh)), g1, g2, g3]
      exact ⟨hd, hy.trans hr.1, hc⟩
  have updatePlay_of_dying : ∀ (L : Level) (keysDown : String → Bool) (dt : ℝ) (s : Play)
      (h : s.playerDying = true),
      updatePlay L keysDown dt s = s := by
    intro L keysDown dt s h
    unfold updatePlay
    rw [if_pos h]
  have updatePlay_of_timeUp : ∀ (L : Level) (keysDown : String → Bool) (dt : ℝ) (s : Play)
      (h : s.playerDying = false) (ht : timeUp L { s with playTimer := s.playTimer + dt }),
      updatePlay L keysDown dt s = die { s with playTimer := s.playTimer + dt } := by
    intro L keysDown dt s h ht
    unfold updatePlay
    rw [if_neg (by simp [h])]
    dsimp only
    rw [if_pos ht]
  exact ⟨contactStep_cases, goalStep_frame, goalStep_win, playEnemies_updatePlay,
    contact_outcome, updatePlay_of_dying, updatePlay_of_timeUp⟩

/-! ## C12: the enemy collision threshold -/

/-- C12 (amended): the enemy collision threshold is strict.  On a tick that
reaches the interaction checks and starts with the invulnerability countdown
`<= 0`, death is triggered (the death count goes up by one and the dying flag
is set) if and only if some enemy, after the enemy advance of that tick, is at
distance `< ENEMY_RADIUS + PLAYER_SIZE/2 - 3 = 20` from the moved player; an
enemy at distance exactly 20 does not kill. -/
theorem enemy_collision_threshold (L : Level) (keysDown : String → Bool) (dt : ℝ) (s : Play)
    (hr : reachesMove L dt s) (hcd : s.deathCooldown ≤ 0) :
    (updatePlay L keysDown dt s).playEnemies = s.playEnemies.map (advanceEnemy dt) ∧
    (((updatePlay L keysDown dt s).deaths = s.deaths + 1 ∧
        (updatePlay L keysDown dt s).playerDying = true) ↔
      ∃ en ∈ (updatePlay L keysDown dt s).playEnemies,
        distance (updatePlay L keysDown dt s).player.x (updatePlay L keysDown dt s).player.y
          en.px en.py < 20) ∧
    ((¬ ∃ en ∈ (updatePlay L keysDown dt s).playEnemies,
        distance (updatePlay L keysDown dt s).player.x (updatePlay L keysDown dt s).player.y
          en.px en.py < 20) →
      (updatePlay L keysDown dt s).deaths = s.deaths ∧
      (updatePlay L keysDown dt s).playerDying = false) ∧
    ENEMY_RADIUS + PLAYER_SIZE / 2 - 3 = 20 := by
  have playEnemies_updatePlay := contact_lemmas_b.2.2.2.1
  have contact_outcome := contact_lemmas_b.2.2.2.2.1
  obtain ⟨-, o2, o3⟩ := contact_outcome L keysDown dt s hr
  have hn : ¬ s.deathCooldown > 0 := not_lt.mpr hcd
  refine ⟨playEnemies_updatePlay L keysDown dt s hr, ?_, ?_, ?_⟩
  · constructor
    · intro h
      by_contra hc
      have := (o3 hn hc).2.1
      rw [h.2] at this
      exact Bool.noConfusion this
    · intro h
      exact ⟨(o2 hn h).1, (o2 hn h).2.1⟩
  · intro h
    exact ⟨(o3 hn h).1, (o3 hn h).2.1⟩
  · unfold ENEMY_RADIUS PLAYER_SIZE; norm_num

/-! ## C13: the invulnerability window -/

/-- C13 (amended): the invulnerability window.  On a tick that reaches the
interaction checks and starts with the invulnerability countdown `> 0`, no
enemy contact triggers death, however close the enemies are, and the countdown
decreases by exactly `dt`.  On every tick that starts with the countdown `<= 0`
the countdown is not changed. -/
theorem invulnerability_window (L : Level) (keysDown : String → Bool) (dt : ℝ) (s : Play) :
    (reachesMove L dt s → s.deathCooldown > 0 →
      (updatePlay L keysDown dt s).deaths = s.deaths ∧
      (updatePlay L keysDown dt s).playerDying = false ∧
      (updatePlay L keysDown dt s).deathCooldown = s.deathCooldown - dt) ∧
    (s.deathCooldown ≤ 0 → (updatePlay L keysDown dt s).deathCooldown = s.deathCooldown) := by
  have contact_outcome := contact_lemmas_b.2.2.2.2.1
  have updatePlay_of_dying := contact_lemmas_b.2.2.2.2.2.1
  have updatePlay_of_timeUp := contact_lemmas_b.2.2.2.2.2.2
  constructor
  · intro hr h
    exact (contact_outcome L keysDown dt s hr).1 h
  · intro h
    have hn : ¬ s.deathCooldown > 0 := not_lt.mpr h
    by_cases hr : reachesMove L dt s
    · obtain ⟨-, o2, o3⟩ := contact_outcome L keysDown dt s hr
      by_cases he : enemyNear (updatePlay L keysDown dt s).player.x
          (updatePlay L keysDown dt s).player.y (updatePlay L keysDown dt s).playEnemies
      · exact (o2 hn he).2.2
      · exact (o3 hn he).2.2
    · by_cases hd : s.playerDying = true
      · rw [updatePlay_of_dying L keysDown dt s hd]
      · have hd' : s.playerDying = false := by simpa using hd
        have ht : timeUp L { s with playTimer := s.playTimer + dt } := by
          by_contra hc
          exact hr ⟨hd', hc⟩
        rw [updatePlay_of_timeUp L keysDown dt s hd' ht]
        rfl

/-! ## C14: the goal test -/

/-- The goal test as the script runs it (line 1409): it reads the cell
`pgx, pgy` computed at line 1287, before the move, where the checkpoint test of
line 1392 reads the cell of the moved player.  On a tick that reaches the
interaction checks, starts without the win overlay and in which the player does
not die, the win event fires (the overlay is shown, play mode is left and the
frame id is dropped) if and only if the tile that contained the player when the
tick began is a goal tile and no coin remains after the coin pickup of that
tick; in particular no win fires while a coin remains. -/
theorem goal_test_as_run (L : Level) (keysDown : String → Bool) (dt : ℝ) (s : Play)
    (hr : reachesMove L dt s) (hw : s.winOverlay = false)
    (hlive : (updatePlay L keysDown dt s).playerDying = false) :
    ((updatePlay L keysDown dt s).winOverlay = true ↔
      (onTile L s.player TILE_GOAL ∧ (updatePlay L keysDown dt s).playCoins = [])) ∧
    ((updatePlay L keysDown dt s).winOverlay = true →
      (updatePlay L keysDown dt s).playMode = false ∧
      (updatePlay L keysDown dt s).animFrameId = none) ∧
    ((updatePlay L keysDown dt s).playCoins ≠ [] →
      (updatePlay L keysDown dt s).winOverlay = false) := by
  have session_beforeContact := contact_lemmas.2.2.2.1
  have updatePlay_eq_contactStep := contact_lemmas.2.2.2.2.1
  have beforeContact_frame := contact_lemmas.2.2.2.2.2.1
  have contactStep_cases := contact_lemmas_b.1
  have goalStep_win := contact_lemmas_b.2.2.1
  have hs := (session_beforeContact L keysDown dt s).1
  have hwc : (beforeContact L keysDown dt s).winOverlay = false :=
    (congrArg (fun t => t.2.2.2.2.2.2) hs).trans hw
  have hcoins := (beforeContact_frame L keysDown dt s hr).2
  obtain ⟨c1, c2, c3⟩ := contactStep_cases L dt ⌊s.player.x / TILE⌋ ⌊s.player.y / TILE⌋
    (beforeContact L keysDown dt s)
  have e := updatePlay_eq_contactStep L keysDown dt s hr
  have key : ((updatePlay L keysDown dt s).winOverlay = true ↔
      (onTile L s.player TILE_GOAL ∧ (updatePlay L keysDown dt s).playCoins = [])) ∧
    ((updatePlay L keysDown dt s).winOverlay = true →
      (updatePlay L keysDown dt s).playMode = false ∧
      (updatePlay L keysDown dt s).animFrameId = none) := by
    have ht : TILE = 32 := rfl
    by_cases hcd : (beforeContact L keysDown dt s).deathCooldown > 0
    · obtain ⟨g1, g2⟩ := goalStep_win L ⌊s.player.x / TILE⌋ ⌊s.player.y / TILE⌋
        { beforeContact L keysDown dt s with
          deathCooldown := (beforeContact L keysDown dt s).deathCooldown - dt } hwc
      rw [← c1 hcd, ← e] at g1 g2
      refine ⟨?_, g2⟩
      rw [g1, ← hcoins, ht]
      unfold onTile
      tauto
    · by_cases hh : enemyHit (beforeContact L keysDown dt s)
      · have hdie := c2 hcd hh
        rw [← e] at hdie
        rw [hdie] at hlive
        exact absurd hlive (by simp [die])
      · obtain ⟨g1, g2⟩ := goalStep_win L ⌊s.player.x / TILE⌋ ⌊s.player.y / TILE⌋
          (beforeContact L keysDown dt s) hwc
        rw [← c3 hcd hh, ← e] at g1 g2
        refine ⟨?_, g2⟩
        rw [g1, ← hcoins, ht]
        unfold onTile
        tauto
  refine ⟨key.1, key.2, ?_⟩
  intro hne
  by_contra hc
  have hc' : (updatePlay L keysDown dt s).winOverlay = true := by simpa using hc
  exact hne (key.1.mp hc').2

/-! ## C15: the checkpoint -/

/-- The checkpoint test.  The conjuncts, in order: `otherCell_iff`,
`checkpointStep_cases`, `checkpointPos_contactStep`, `player_beforeCheckpoint`.
-/
theorem checkpoint_lemmas :
    (∀ (cp : Option Cell) (gx gy : ℤ),
      otherCell cp gx gy = true ↔ cp ≠ some { gx := gx, gy := gy }) ∧
    (∀ (L : Level) (c : Play),
      (onTile L c.player TILE_CHECKPOINT →
        (checkpointStep L c).checkpointPos
          = some { gx := ⌊c.player.x / 32⌋, gy := ⌊c.player.y / 32⌋ }) ∧
      (¬ onTile L c.player TILE_CHECKPOINT → checkpointStep L c = c) ∧
      (c.checkpointPos = some { gx := ⌊c.player.x / 32⌋, gy := ⌊c.player.y / 32⌋ } →
        checkpointStep L c = c)) ∧
    (∀ (L : Level) (dt : ℝ) (pgx pgy : ℤ) (c : Play),
      (contactStep L dt pgx pgy c).checkpointPos = c.checkpointPos) ∧
    (∀ (L : Level) (keysDown : String → Bool) (dt : ℝ) (s : Play) (_ : reachesMove L dt s),
      (beforeCheckpoint L keysDown dt s).player = (updatePlay L keysDown dt s).player) := by
  have motion_checkpointStep := phase_frames.2.2.2.2.1
  have beforeContact_frame := contact_lemmas.2.2.2.2.2.1
  have contactStep_cases := contact_lemmas_b.1
  have goalStep_frame := contact_lemmas_b.2.1
  have otherCell_iff : ∀ (cp : Option Cell) (gx gy : ℤ),
      otherCell cp gx gy = true ↔ cp ≠ some { gx := gx, gy := gy } := by
    intro cp gx gy
    cases cp with
    | none => simp [otherCell]
    | some c =>
      obtain ⟨cx, cy⟩ := c
      simp only [otherCell, ne_eq, decide_not, Bool.or_eq_true, Bool.not_eq_true',
        decide_eq_false_iff_not, Option.some.injEq, Cell.mk.injEq]
      tauto
  -- The checkpoint test: on a checkpoint tile the stored cell becomes the cell
  -- of the player, elsewhere it stays; and when the tile is no checkpoint or its
  -- cell is the stored one, the test changes nothing at all.
  have checkpointStep_cases : ∀ (L : Level) (c : Play),
      (onTile L c.player TILE_CHECKPOINT →
        (checkpointStep L c).checkpointPos
          = some { gx := ⌊c.player.x / 32⌋, gy := ⌊c.player.y / 32⌋ }) ∧
      (¬ onTile L c.player TILE_CHECKPOINT → checkpointStep L c = c) ∧
      (c.checkpointPos = some { gx := ⌊c.player.x / 32⌋, gy := ⌊c.player.y / 32⌋ } →
        checkpointStep L c = c) := by
    intro L c
    have ht : TILE = 32 := rfl
    unfold checkpointStep onTile
    rw [ht]
    dsimp only
    refine ⟨?_, ?_, ?_⟩
    · intro h
      rw [if_pos h]
      by_cases ho : otherCell c.checkpointPos ⌊c.player.x / 32⌋ ⌊c.player.y / 32⌋ = true
      · rw [if_pos ho]
      · rw [if_neg ho]
        by_contra hc
        exact ho ((otherCell_iff _ _ _).mpr hc)
    · intro h
      rw [if_neg h]
    · intro h
      have ho : ¬ otherCell c.checkpointPos ⌊c.player.x / 32⌋ ⌊c.player.y / 32⌋ = true := by
        rw [otherCell_iff]; exact not_not.mpr h
      rw [if_neg ho]
      split_ifs <;> rfl
  have checkpointPos_contactStep : ∀ (L : Level) (dt : ℝ) (pgx pgy : ℤ) (c : Play),
      (contactStep L dt pgx pgy c).checkpointPos = c.checkpointPos := by
    intro L dt pgx pgy c
    obtain ⟨c1, c2, c3⟩ := contactStep_cases L dt pgx pgy c
    by_cases hcd : c.deathCooldown > 0
    · rw [c1 hcd, (goalStep_frame L _ _ _).2.2.2.2.1]
    · by_cases hh : enemyHit c
      · rw [c2 hcd hh]; rfl
      · rw [c3 hcd hh, (goalStep_frame L _ _ _).2.2.2.2.1]
  have player_beforeCheckpoint : ∀ (L : Level) (keysDown : String → Bool) (dt : ℝ) (s : Play)
      (hr : reachesMove L dt s),
      (beforeCheckpoint L keysDown dt s).player = (updatePlay L keysDown dt s).player := by
    intro L keysDown dt s hr
    rw [← (beforeContact_frame L keysDown dt s hr).1]
    exact (congrArg Prod.fst (motion_checkpointStep L (beforeCheckpoint L keysDown dt s))).symm
  exact ⟨otherCell_iff, checkpointStep_cases, checkpointPos_contactStep, player_beforeCheckpoint⟩

/-- C15: the checkpoint is last-touched-wins.  After a tick that reaches the
interaction checks, the stored checkpoint is the cell that contains the moved
player when that cell is inside the grid and is a checkpoint tile, and is the
stored checkpoint of before the tick otherwise.  The stored value changes only
when that cell differs from the one already stored; and when the cell is the
stored one, or is no checkpoint tile, the checkpoint test leaves the whole
state, the status message included, as it is. -/
theorem checkpoint_last_touched (L : Level) (keysDown : String → Bool) (dt : ℝ) (s : Play)
    (hr : reachesMove L dt s) :
    (onTile L (updatePlay L keysDown dt s).player TILE_CHECKPOINT →
      (updatePlay L keysDown dt s).checkpointPos
        = some { gx := ⌊(updatePlay L keysDown dt s).player.x / 32⌋,
                 gy := ⌊(updatePlay L keysDown dt s).player.y / 32⌋ }) ∧
    (¬ onTile L (updatePlay L keysDown dt s).player TILE_CHECKPOINT →
      (updatePlay L keysDown dt s).checkpointPos = s.checkpointPos) ∧
    ((updatePlay L keysDown dt s).checkpointPos ≠ s.checkpointPos →
      onTile L (updatePlay L keysDown dt s).player TILE_CHECKPOINT ∧
      s.checkpointPos ≠ some { gx := ⌊(updatePlay L keysDown dt s).player.x / 32⌋,
                               gy := ⌊(updatePlay L keysDown dt s).player.y / 32⌋ }) ∧
    ((¬ onTile L (updatePlay L keysDown dt s).player TILE_CHECKPOINT ∨
        s.checkpointPos = some { gx := ⌊(updatePlay L keysDown dt s).player.x / 32⌋,
                                 gy := ⌊(updatePlay L keysDown dt s).player.y / 32⌋ }) →
      checkpointStep L (beforeCheckpoint L keysDown dt s)
        = beforeCheckpoint L keysDown dt s) := by
  have session_beforeCheckpoint := contact_lemmas.2.2.1
  have updatePlay_eq_contactStep := contact_lemmas.2.2.2.2.1
  have checkpointStep_cases := checkpoint_lemmas.2.1
  have checkpointPos_contactStep := checkpoint_lemmas.2.2.1
  have player_beforeCheckpoint := checkpoint_lemmas.2.2.2
  have hp := player_beforeCheckpoint L keysDown dt s hr
  have hcp : (beforeCheckpoint L keysDown dt s).checkpointPos = s.checkpointPos :=
    (session_beforeCheckpoint L keysDown dt s).2.2
  obtain ⟨k1, k2, k3⟩ := checkpointStep_cases L (beforeCheckpoint L keysDown dt s)
  rw [hp] at k1 k2 k3
  rw [hcp] at k3
  have e : (updatePlay L keysDown dt s).checkpointPos
      = (checkpointStep L (beforeCheckpoint L keysDown dt s)).checkpointPos := by
    rw [updatePlay_eq_contactStep L keysDown dt s hr, checkpointPos_contactStep]
    rfl
  have a1 : onTile L (updatePlay L keysDown dt s).player TILE_CHECKPOINT →
      (updatePlay L keysDown dt s).checkpointPos
        = some { gx := ⌊(updatePlay L keysDown dt s).player.x / 32⌋,
                 gy := ⌊(updatePlay L keysDown dt s).player.y / 32⌋ } :=
    fun h => e.trans (k1 h)
  have a2 : ¬ onTile L (updatePlay L keysDown dt s).player TILE_CHECKPOINT →
      (updatePlay L keysDown dt s).checkpointPos = s.checkpointPos := by
    intro h
    rw [e, k2 h]
    exact hcp
  refine ⟨a1, a2, ?_, ?_⟩
  · intro hne
    by_cases ht : onTile L (updatePlay L keysDown dt s).player TILE_CHECKPOINT
    · refine ⟨ht, ?_⟩
      intro hc
      exact hne ((a1 ht).trans hc.symm)
    · exact absurd (a2 ht) hne
  · rintro (h | h)
    · exact k2 h
    · exact k3 h

/-! ## C19: the time limit -/

/-- C19: the time limit.  In a level with a time limit `> 0`, a tick of a
player that is not dying forces death exactly when the timer, `dt` added, is
`>=` the limit, and then the tick is the death alone: the state after it is
`die` of the state with the advanced timer, so the player, the enemies, the
coins, the keys, the doors and the checkpoint are as before.  With the timer
below the limit, or with the time limit 0, the tick is not ended by the
timer, however large the elapsed time. -/
theorem time_limit (L : Level) (keysDown : String → Bool) (dt : ℝ) (s : Play)
    (hd : s.playerDying = false) :
    (L.currentTimeLimit > 0 → s.playTimer + dt ≥ L.currentTimeLimit →
      updatePlay L keysDown dt s = die { s with playTimer := s.playTimer + dt } ∧
      (updatePlay L keysDown dt s).deaths = s.deaths + 1 ∧
      (updatePlay L keysDown dt s).playerDying = true ∧
      motion (updatePlay L keysDown dt s) = motion s ∧
      items (updatePlay L keysDown dt s) = items s ∧
      (updatePlay L keysDown dt s).playEnemies = s.playEnemies ∧
      (updatePlay L keysDown dt s).checkpointPos = s.checkpointPos) ∧
    (L.currentTimeLimit > 0 → s.playTimer + dt < L.currentTimeLimit →
      updatePlay L keysDown dt s
        = playStep L keysDown dt { s with playTimer := s.playTimer + dt }) ∧
    (L.currentTimeLimit = 0 →
      updatePlay L keysDown dt s
        = playStep L keysDown dt { s with playTimer := s.playTimer + dt }) := by
  have updatePlay_of_reachesMove := phase_frames_b.1
  have updatePlay_of_timeUp := contact_lemmas_b.2.2.2.2.2.2
  refine ⟨?_, ?_, ?_⟩
  · intro hl ht
    have hu : timeUp L { s with playTimer := s.playTimer + dt } := by
      refine ⟨hl, ?_⟩
      show L.currentTimeLimit - (s.playTimer + dt) ≤ 0
      linarith
    rw [updatePlay_of_timeUp L keysDown dt s hd hu]
    exact ⟨rfl, rfl, rfl, rfl, rfl, rfl, rfl⟩
  · intro _ ht
    apply updatePlay_of_reachesMove L keysDown dt s
    refine ⟨hd, ?_⟩
    rintro ⟨-, h2⟩
    have h2' : L.currentTimeLimit - (s.playTimer + dt) ≤ 0 := h2
    linarith
  · intro hl
    apply updatePlay_of_reachesMove L keysDown dt s
    refine ⟨hd, ?_⟩
    rintro ⟨h1, -⟩
    rw [hl] at h1
    exact lt_irrefl _ h1

/-! ## C20: each death is counted once -/

/-- C20: each death is counted exactly once.  A tick raises the death count by
at most 1, and when it raises it the dying flag is set.  A tick of a player
that is not dying raises it by exactly 1 when the time limit ends the tick, and
when the tick reaches the enemy test with the countdown `<= 0` and an enemy
nearer than 20.  A tick of a dying player leaves the whole state as it is. -/
theorem death_counted_once (L : Level) (keysDown : String → Bool) (dt : ℝ) (s : Play) :
    ((updatePlay L keysDown dt s).deaths = s.deaths ∨
      ((updatePlay L keysDown dt s).deaths = s.deaths + 1 ∧
        (updatePlay L keysDown dt s).playerDying = true)) ∧
    (s.playerDying = false → timeUp L { s with playTimer := s.playTimer + dt } →
      (updatePlay L keysDown dt s).deaths = s.deaths + 1 ∧
      (updatePlay L keysDown dt s).playerDying = true) ∧
    (reachesMove L dt s → s.deathCooldown ≤ 0 →
      enemyNear (updatePlay L keysDown dt s).player.x (updatePlay L keysDown dt s).player.y
        (updatePlay L keysDown dt s).playEnemies →
      (updatePlay L keysDown dt s).deaths = s.deaths + 1 ∧
      (updatePlay L keysDown dt s).playerDying = true) ∧
    (s.playerDying = true → updatePlay L keysDown dt s = s) := by
  have contact_outcome := contact_lemmas_b.2.2.2.2.1
  have updatePlay_of_dying := contact_lemmas_b.2.2.2.2.2.1
  have updatePlay_of_timeUp := contact_lemmas_b.2.2.2.2.2.2
  have htime : s.playerDying = false → timeUp L { s with playTimer := s.playTimer + dt } →
      (updatePlay L keysDown dt s).deaths = s.deaths + 1 ∧
      (updatePlay L keysDown dt s).playerDying = true := by
    intro hd ht
    rw [updatePlay_of_timeUp L keysDown dt s hd ht]
    exact ⟨rfl, rfl⟩
  refine ⟨?_, htime, ?_, updatePlay_of_dying L keysDown dt s⟩
  · by_cases hr : reachesMove L dt s
    · obtain ⟨o1, o2, o3⟩ := contact_outcome L keysDown dt s hr
      by_cases hcd : s.deathCooldown > 0
      · exact Or.inl (o1 hcd).1
      · by_cases he : enemyNear (updatePlay L keysDown dt s).player.x
            (updatePlay L keysDown dt s).player.y (updatePlay L keysDown dt s).playEnemies
        · exact Or.inr ⟨(o2 hcd he).1, (o2 hcd he).2.1⟩
        · exact Or.inl (o3 hcd he).1
    · by_cases hd : s.playerDying = true
      · rw [updatePlay_of_dying L keysDown dt s hd]
        exact Or.inl rfl
      · have hd' : s.playerDying = false := by simpa using hd
        have ht : timeUp L { s with playTimer := s.playTimer + dt } := by
          by_contra hc
          exact hr ⟨hd', hc⟩
        exact Or.inr (htime hd' ht)
  · intro hr hcd he
    obtain ⟨-, o2, -⟩ := contact_outcome L keysDown dt s hr
    exact ⟨(o2 (not_lt.mpr hcd) he).1, (o2 (not_lt.mpr hcd) he).2.1⟩

/-! ## C16, C17, C18: respawn and manual reset -/

/-- The respawn and the manual reset, field by field.  The conjuncts, in order:
`jsOr_zero`, `respawn_eq`, `resetPlayState_eq`. -/
theorem rebuild_lemmas :
    (∀ (x : ℝ),
      jsOr x 0 = x) ∧
    (∀ (L : Level) (s : Play) (_ : s.playMode = true),
      respawn L s
        = { s with
            player := { x := (tileCenter (s.checkpointPos.getD L.playerSpawn).gx
                                (s.checkpointPos.getD L.playerSpawn).gy).px,
                        y := (tileCenter (s.checkpointPos.getD L.playerSpawn).gx
                                (s.checkpointPos.getD L.playerSpawn).gy).py },
            playerVx := 0, playerVy := 0, playerOnIce := false,
            iceLockedVx := 0, iceLockedVy := 0,
            playerDying := false, deathCooldown := 0.6,
            playCoins := L.coins, playKeys := L.keys.map buildKey,
            playDoors := L.doors.map buildDoor, collectedKeyIds := [],
            playEnemies := L.enemies.map buildEnemy, hudMsg := "" }) ∧
    (∀ (L : Level) (s : Play),
      resetPlayState L s
        = { s with
            player := { x := (tileCenter (s.checkpointPos.getD L.playerSpawn).gx
                                (s.checkpointPos.getD L.playerSpawn).gy).px,
                        y := (tileCenter (s.checkpointPos.getD L.playerSpawn).gx
                                (s.checkpointPos.getD L.playerSpawn).gy).py },
            playerVx := 0, playerVy := 0, playerOnIce := false,
            iceLockedVx := 0, iceLockedVy := 0,
            playerDying := false, deathCooldown := 0,
            playCoins := L.coins, playKeys := L.keys.map buildKey,
            playDoors := L.doors.map buildDoor, collectedKeyIds := [],
            playEnemies := L.enemies.map buildEnemy, hudMsg := "" }) := by
  have jsOr_zero : ∀ (x : ℝ),
      jsOr x 0 = x := by
    intro x
    unfold jsOr
    split_ifs with h
    · exact h.symm
    · rfl
  -- The respawn step in play mode, field by field.
  have respawn_eq : ∀ (L : Level) (s : Play) (hp : s.playMode = true),
      respawn L s
        = { s with
            player := { x := (tileCenter (s.checkpointPos.getD L.playerSpawn).gx
                                (s.checkpointPos.getD L.playerSpawn).gy).px,
                        y := (tileCenter (s.checkpointPos.getD L.playerSpawn).gx
                                (s.checkpointPos.getD L.playerSpawn).gy).py },
            playerVx := 0, playerVy := 0, playerOnIce := false,
            iceLockedVx := 0, iceLockedVy := 0,
            playerDying := false, deathCooldown := 0.6,
            playCoins := L.coins, playKeys := L.keys.map buildKey,
            playDoors := L.doors.map buildDoor, collectedKeyIds := [],
            playEnemies := L.enemies.map buildEnemy, hudMsg := "" } := by
    intro L s hp
    unfold respawn
    rw [if_neg (by simp [hp])]
    simp [buildPlayState, resetPlayerPos]
  -- The manual reset, field by field.
  have resetPlayState_eq : ∀ (L : Level) (s : Play),
      resetPlayState L s
        = { s with
            player := { x := (tileCenter (s.checkpointPos.getD L.playerSpawn).gx
                                (s.checkpointPos.getD L.playerSpawn).gy).px,
                        y := (tileCenter (s.checkpointPos.getD L.playerSpawn).gx
                                (s.checkpointPos.getD L.playerSpawn).gy).py },
            playerVx := 0, playerVy := 0, playerOnIce := false,
            iceLockedVx := 0, iceLockedVy := 0,
            playerDying := false, deathCooldown := 0,
            playCoins := L.coins, playKeys := L.keys.map buildKey,
            playDoors := L.doors.map buildDoor, collectedKeyIds := [],
            playEnemies := L.enemies.map buildEnemy, hudMsg := "" } := by
    intro L s
    unfold resetPlayState
    cases h : s.checkpointPos <;> simp [buildPlayState, resetPlayerPos, h]
  exact ⟨jsOr_zero, respawn_eq, resetPlayState_eq⟩

/-- C16: respawn preserves progress.  When the respawn step of `die()` runs in
play mode, the stored checkpoint, the death count and the timer keep their
values; the player is at the centre of the stored checkpoint cell, or of the
spawn cell of the level when none is stored; velocity and locked vector are
zero, the ice flag and the dying flag are cleared, and the invulnerability
countdown is 0.6. -/
theorem respawn_preserves_progress (L : Level) (s : Play) (hp : s.playMode = true) :
    ((respawn L s).checkpointPos = s.checkpointPos ∧ (respawn L s).deaths = s.deaths ∧
      (respawn L s).playTimer = s.playTimer) ∧
    (∀ c : Cell, s.checkpointPos = some c →
      (respawn L s).player = { x := (c.gx : ℝ) * 32 + 16, y := (c.gy : ℝ) * 32 + 16 }) ∧
    (s.checkpointPos = none →
      (respawn L s).player = { x := (L.playerSpawn.gx : ℝ) * 32 + 16,
                               y := (L.playerSpawn.gy : ℝ) * 32 + 16 }) ∧
    ((respawn L s).playerVx = 0 ∧ (respawn L s).playerVy = 0 ∧
      (respawn L s).playerOnIce = false ∧
      (respawn L s).iceLockedVx = 0 ∧ (respawn L s).iceLockedVy = 0) ∧
    (respawn L s).playerDying = false ∧ (respawn L s).deathCooldown = 0.6 := by
  have respawn_eq := rebuild_lemmas.2.1
  rw [respawn_eq L s hp]
  refine ⟨⟨rfl, rfl, rfl⟩, ?_, ?_, ⟨rfl, rfl, rfl, rfl, rfl⟩, rfl, rfl⟩
  · intro c hc
    simp only [hc, Option.getD_some, tileCenter, TILE]
    norm_num
  · intro hc
    simp only [hc, Option.getD_none, tileCenter, TILE]
    norm_num

/-- C17: respawn rebuilds the runtime sub-state from the level.  After the
respawn step in play mode, whatever the state was before: the remaining coins
are the coins of the level; the keys are the keys of the level, all
uncollected, and the set of collected ids is empty; the doors are the doors of
the level, all closed; and the enemies have the runtime state that
`buildPlayState` gives them at session start, which for a linear enemy is
`t = phase * len`, `dir` the initial direction and the position
`positionAlongPath(en, phase)`, and for an orbit enemy the start angle in
radians and the point of the circle at that angle. -/
theorem respawn_rebuilds (L : Level) (s s₀ : Play) (hp : s.playMode = true) :
    (respawn L s).playCoins = L.coins ∧
    ((respawn L s).playKeys.map (fun k => (k.id, k.gx, k.gy))
        = L.keys.map (fun k => (k.id, k.gx, k.gy)) ∧
      (∀ k ∈ (respawn L s).playKeys, k.collected = false) ∧
      (respawn L s).collectedKeyIds = []) ∧
    ((respawn L s).playDoors.map (fun d => (d.id, d.gx, d.gy, d.keyId))
        = L.doors.map (fun d => (d.id, d.gx, d.gy, d.keyId)) ∧
      ∀ d ∈ (respawn L s).playDoors, d.isOpen = false) ∧
    ((respawn L s).playEnemies = (buildPlayState L s₀).playEnemies ∧
      (respawn L s).playEnemies = L.enemies.map buildEnemy) ∧
    (∀ en : Enemy, en.isOrbit = false →
      (buildEnemy en).en = en ∧
      (buildEnemy en).len = totalPathLength en ∧
      (buildEnemy en).t = en.phase * totalPathLength en ∧
      (buildEnemy en).dir = (if en.forward = true then 1 else -1) ∧
      (buildEnemy en).px = (positionAlongPath en en.phase).px ∧
      (buildEnemy en).py = (positionAlongPath en en.phase).py) ∧
    (∀ en : Enemy, en.isOrbit = true →
      (buildEnemy en).en = en ∧
      (buildEnemy en).angle = en.startAngle * Real.pi / 180 ∧
      (buildEnemy en).px = en.cx + Real.cos (en.startAngle * Real.pi / 180) * en.radius ∧
      (buildEnemy en).py = en.cy + Real.sin (en.startAngle * Real.pi / 180) * en.radius) := by
  have jsOr_zero := rebuild_lemmas.1
  have respawn_eq := rebuild_lemmas.2.1
  rw [respawn_eq L s hp]
  refine ⟨rfl, ⟨?_, ?_, rfl⟩, ⟨?_, ?_⟩, ⟨?_, rfl⟩, ?_, ?_⟩
  · simp only [List.map_map]
    rfl
  · intro k hk
    simp only [List.mem_map] at hk
    obtain ⟨a, _, rfl⟩ := hk
    rfl
  · simp only [List.map_map]
    rfl
  · intro d hd
    simp only [List.mem_map] at hd
    obtain ⟨a, _, rfl⟩ := hd
    rfl
  · simp [buildPlayState, resetPlayerPos]
  · intro en ho
    unfold buildEnemy
    rw [if_neg (by simp [ho])]
    simp [jsOr_zero]
  · intro en ho
    unfold buildEnemy
    rw [if_pos ho]
    simp [jsOr_zero]

/-- C18 (amended): manual reset is the rebuild of a death respawn but for the
invulnerability countdown.  For every state in play mode, `resetPlayState`
gives the state that the respawn step of `die()` gives from that state (same
player, velocity, ice state, enemies, coins, keys, doors, checkpoint, timer and
death count) with the countdown 0 in place of 0.6. -/
theorem reset_is_respawn_without_countdown (L : Level) (s : Play) (hp : s.playMode = true) :
    resetPlayState L s = { respawn L s with deathCooldown := 0 } ∧
    (respawn L s).deathCooldown = 0.6 ∧ (resetPlayState L s).deathCooldown = 0 ∧
    (resetPlayState L s).deaths = s.deaths ∧ (respawn L s).deaths = s.deaths := by
  have respawn_eq := rebuild_lemmas.2.1
  have resetPlayState_eq := rebuild_lemmas.2.2
  rw [respawn_eq L s hp, resetPlayState_eq L s]
  exact ⟨rfl, rfl, rfl, rfl, rfl⟩

/-! ## Evaluation for the interaction checks -/

/-- Evaluation on open levels of 4 x 3 cells.  The conjuncts, in order:
`cornersFree_open`, `not_nowOnIce_of_grid`, `tourLevel_grid`,
`buildEnemy_stillEnemy`, `advanceEnemy_stillEnemy`, `rest_tick_demo`. -/
theorem tour_evaluation :
    (∀ (L : Level) (_ : L.COLS = 4) (_ : L.ROWS = 3) (_ : ∀ gy gx, L.grid gy gx ≠ TILE_WALL)
      (x y : ℝ) (_ : 10 ≤ x ∧ x + 10 < 128) (_ : 10 ≤ y ∧ y + 10 < 96),
      cornersFree L [] x y) ∧
    (∀ (L : Level) (p : Player) (_ : ∀ gy gx, L.grid gy gx ≠ TILE_ICE),
      ¬ nowOnIce L p) ∧
    (∀ (gy gx : ℤ),
      tourLevel.grid gy gx ≠ TILE_WALL ∧ tourLevel.grid gy gx ≠ TILE_ICE) ∧
    ((buildEnemy stillEnemy).len = 0 ∧ (buildEnemy stillEnemy).px = 48 ∧
      (buildEnemy stillEnemy).py = 80 ∧ (buildEnemy stillEnemy).en.isOrbit = false) ∧
    (∀ (dt : ℝ),
      advanceEnemy dt (buildEnemy stillEnemy) = buildEnemy stillEnemy) ∧
    (∀ (s : Play) (x y : ℝ) (_ : s.player = { x := x, y := y }) (_ : s.playerDying = false)
      (_ : s.playerOnIce = false) (_ : s.playerVx = 0) (_ : s.playerVy = 0)
      (_ : 11 ≤ x ∧ x ≤ 117) (_ : 11 ≤ y ∧ y ≤ 85),
      (updatePlay demoLevel noKeys (1 / 20) s).player = { x := x, y := y }) := by
  have hypot_zero := rest_lemmas.2.1
  have rest_tick := rest_lemmas.2.2.2.1
  have reachesMove_demo := demo_evaluation.2.2.2.1
  have noDirection_noKeys := demo_evaluation_b.2.1
  have clamp_demo := demo_evaluation_b.2.2.1
  have demo_COLS := demo_evaluation_b.2.2.2.2.2.2.2
  have demo_ROWS := demo_evaluation_c.1
  -- In a level of 4 x 3 cells without wall tiles and a state without doors, the
  -- corners are free as soon as the square is inside the 128 x 96 pixels.
  have cornersFree_open : ∀ (L : Level) (hC : L.COLS = 4) (hR : L.ROWS = 3)
      (hw : ∀ gy gx, L.grid gy gx ≠ TILE_WALL) (x y : ℝ) (hx : 10 ≤ x ∧ x + 10 < 128)
      (hy : 10 ≤ y ∧ y + 10 < 96),
      cornersFree L [] x y := by
    intro L hC hR hw x y hx hy
    have cf : ∀ px py : ℝ, 0 ≤ px → px < 128 → 0 ≤ py → py < 96 →
        cellFree L [] ⌊px / 32⌋ ⌊py / 32⌋ := by
      intro px py h0 h1 h2 h3
      refine ⟨⟨?_, ?_, ?_, ?_⟩, hw _ _, ?_⟩
      · rw [ge_iff_le, Int.floor_nonneg]; positivity
      · rw [hC, Int.floor_lt]; push_cast; linarith
      · rw [ge_iff_le, Int.floor_nonneg]; positivity
      · rw [hR, Int.floor_lt]; push_cast; linarith
      · rintro ⟨d, hd, -⟩
        exact absurd hd (List.not_mem_nil d)
    refine ⟨cf _ _ ?_ ?_ ?_ ?_, cf _ _ ?_ ?_ ?_ ?_, cf _ _ ?_ ?_ ?_ ?_, cf _ _ ?_ ?_ ?_ ?_⟩ <;>
      linarith [hx.1, hx.2, hy.1, hy.2]
  have not_nowOnIce_of_grid : ∀ (L : Level) (p : Player) (h : ∀ gy gx, L.grid gy gx ≠ TILE_ICE),
      ¬ nowOnIce L p := by
    intro L p h
    unfold nowOnIce
    dsimp only
    split_ifs
    · exact h _ _
    · decide
  have tourLevel_grid : ∀ (gy gx : ℤ),
      tourLevel.grid gy gx ≠ TILE_WALL ∧ tourLevel.grid gy gx ≠ TILE_ICE := by
    intro gy gx
    unfold tourLevel TILE_GOAL TILE_CHECKPOINT TILE_WALL TILE_ICE TILE_EMPTY
    dsimp only
    split_ifs <;> decide
  -- The runtime state of `stillEnemy`: its path has length 0 and it stands at
  -- `(48, 80)`.
  have buildEnemy_stillEnemy :
      (buildEnemy stillEnemy).len = 0 ∧ (buildEnemy stillEnemy).px = 48 ∧
      (buildEnemy stillEnemy).py = 80 ∧ (buildEnemy stillEnemy).en.isOrbit = false := by
    have hl : totalPathLength stillEnemy = 0 := by
      simp [totalPathLength, getWaypoints, pathLength, stillEnemy, hypot]
    have hp : positionAlongPath stillEnemy (jsOr stillEnemy.phase 0) = { px := 48, py := 80 } := by
      unfold positionAlongPath
      rw [hl]
      simp [stillEnemy]
    unfold buildEnemy
    rw [if_neg (by simp [stillEnemy])]
    dsimp only
    rw [hp, hl]
    exact ⟨rfl, rfl, rfl, rfl⟩
  have advanceEnemy_stillEnemy : ∀ (dt : ℝ),
      advanceEnemy dt (buildEnemy stillEnemy) = buildEnemy stillEnemy := by
    intro dt
    obtain ⟨h1, -, -, h4⟩ := buildEnemy_stillEnemy
    unfold advanceEnemy
    rw [if_neg (by simp [h4]), if_pos (by rw [h1]; norm_num)]
  -- A tick of a player at rest in the demo level, no key held: it stays where
  -- it is when it is inside the clamp bounds.
  have rest_tick_demo : ∀ (s : Play) (x y : ℝ) (hp : s.player = { x := x, y := y })
      (hd : s.playerDying = false) (hoff : s.playerOnIce = false) (hvx : s.playerVx = 0)
      (hvy : s.playerVy = 0) (hx : 11 ≤ x ∧ x ≤ 117) (hy : 11 ≤ y ∧ y ≤ 85),
      (updatePlay demoLevel noKeys (1 / 20) s).player = { x := x, y := y } := by
    intro s x y hp hd hoff hvx hvy hx hy
    have h0 : hypot s.playerVx s.playerVy ≤ 5 := by
      rw [hvx, hvy, hypot_zero]; norm_num
    rw [(rest_tick demoLevel noKeys (1 / 20) s (reachesMove_demo _ _ hd)
      noDirection_noKeys hoff h0).1, hp]
    simp only [demo_COLS, demo_ROWS]
    rw [clamp_demo 4 _ hx.1 (by norm_num; linarith [hx.2]),
      clamp_demo 3 _ hy.1 (by norm_num; linarith [hy.2])]
  exact ⟨cornersFree_open, not_nowOnIce_of_grid, tourLevel_grid, buildEnemy_stillEnemy,
    advanceEnemy_stillEnemy, rest_tick_demo⟩

/-- Evaluation on open levels of 4 x 3 cells.  The conjuncts, in order:
`distance_self`, `inputVelocity_rightKey`, `walk_right`, `no_win_off_goal`,
`not_enemyNear_of_no_enemies`. -/
theorem tour_evaluation_b :
    (∀ (x y : ℝ),
      distance x y x y = 0) ∧
    (∀ (L : Level),
      inputVelocity L rightKey = (L.currentPlayerSpeed, 0)) ∧
    (∀ (L : Level) (_ : L.COLS = 4) (_ : L.ROWS = 3)
      (_ : ∀ gy gx, L.grid gy gx ≠ TILE_WALL ∧ L.grid gy gx ≠ TILE_ICE)
      (_ : L.currentPlayerSpeed = 120) (_ : L.currentTimeLimit = 0) (s : Play) (x y : ℝ)
      (_ : s.player = { x := x, y := y }) (_ : s.playerDying = false) (_ : s.playDoors = [])
      (_ : 11 ≤ x ∧ x + 6 ≤ 117) (_ : 11 ≤ y ∧ y ≤ 85),
      (updatePlay L rightKey (1 / 20) s).player = { x := x + 6, y := y }) ∧
    (∀ (L : Level) (keysDown : String → Bool) (dt : ℝ) (s : Play) (_ : reachesMove L dt s)
      (_ : s.winOverlay = false) (_ : ¬ onTile L s.player TILE_GOAL),
      (updatePlay L keysDown dt s).winOverlay = false) ∧
    (∀ (L : Level) (keysDown : String → Bool) (dt : ℝ) (s : Play) (_ : reachesMove L dt s)
      (_ : s.playEnemies = []),
      ¬ enemyNear (updatePlay L keysDown dt s).player.x (updatePlay L keysDown dt s).player.y
        (updatePlay L keysDown dt s).playEnemies) := by
  have player_updatePlay := collision_square_lemmas_d.2.2.2.1
  have beforeMove_off_ice := ice_switch_lemmas.1
  have clamp_demo := demo_evaluation_b.2.2.1
  have moveStep_player_of_free := demo_evaluation_b.2.2.2.2.2.2.1
  have reachesMove_of_no_limit := wallSlide_evaluation.1
  have session_beforeContact := contact_lemmas.2.2.2.1
  have updatePlay_eq_contactStep := contact_lemmas.2.2.2.2.1
  have contactStep_cases := contact_lemmas_b.1
  have goalStep_win := contact_lemmas_b.2.2.1
  have playEnemies_updatePlay := contact_lemmas_b.2.2.2.1
  have cornersFree_open := tour_evaluation.1
  have not_nowOnIce_of_grid := tour_evaluation.2.1
  have distance_self : ∀ (x y : ℝ),
      distance x y x y = 0 := by
    intro x y
    unfold distance
    simp
  have inputVelocity_rightKey : ∀ (L : Level),
      inputVelocity L rightKey = (L.currentPlayerSpeed, 0) := by
    intro L
    have hx : inputX rightKey = 1 := by simp [inputX, rightKey]
    have hy : inputY rightKey = 0 := by simp [inputY, rightKey]
    unfold inputVelocity
    simp [hx, hy]
  -- One tick of 1/20 with the right arrow held, in a level of 4 x 3 cells
  -- without wall and ice tiles, speed 120, no doors: the player walks 6 to the
  -- right when its square stays inside the level.
  have walk_right : ∀ (L : Level) (hC : L.COLS = 4) (hR : L.ROWS = 3)
      (hg : ∀ gy gx, L.grid gy gx ≠ TILE_WALL ∧ L.grid gy gx ≠ TILE_ICE)
      (hv : L.currentPlayerSpeed = 120) (hl : L.currentTimeLimit = 0) (s : Play) (x y : ℝ)
      (hp : s.player = { x := x, y := y }) (hd : s.playerDying = false)
      (hdoors : s.playDoors = []) (hx : 11 ≤ x ∧ x + 6 ≤ 117) (hy : 11 ≤ y ∧ y ≤ 85),
      (updatePlay L rightKey (1 / 20) s).player = { x := x + 6, y := y } := by
    intro L hC hR hg hv hl s x y hp hd hdoors hx hy
    have hr : reachesMove L (1 / 20) s := reachesMove_of_no_limit L _ s hl hd
    have hice : ¬ nowOnIce L s.player := not_nowOnIce_of_grid L _ (fun gy gx => (hg gy gx).2)
    rw [player_updatePlay L rightKey (1 / 20) s hr,
      beforeMove_off_ice L rightKey (1 / 20) s hice, inputVelocity_rightKey, hv]
    refine (moveStep_player_of_free L (1 / 20) _ ?_ ?_ ?_).trans ?_
    · simp only [hdoors]; exact List.Pairwise.nil
    · simp only [hdoors, hp]
      exact cornersFree_open L hC hR (fun gy gx => (hg gy gx).1) _ _
        ⟨by linarith [hx.1], by linarith [hx.2]⟩ ⟨by linarith [hy.1], by linarith [hy.2]⟩
    · simp only [hdoors, hp]
      exact cornersFree_open L hC hR (fun gy gx => (hg gy gx).1) _ _
        ⟨by linarith [hx.1], by linarith [hx.2]⟩ ⟨by linarith [hy.1], by linarith [hy.2]⟩
    simp only [hp, hC, hR]
    rw [clamp_demo 4 _ (by linarith [hx.1]) (by norm_num; linarith [hx.2]),
      clamp_demo 3 _ (by linarith [hy.1]) (by norm_num; linarith [hy.2])]
    norm_num
  -- A tick that reaches the move from a tile that is no goal shows no win
  -- overlay.
  have no_win_off_goal : ∀ (L : Level) (keysDown : String → Bool) (dt : ℝ) (s : Play)
      (hr : reachesMove L dt s) (hw : s.winOverlay = false) (hg : ¬ onTile L s.player TILE_GOAL),
      (updatePlay L keysDown dt s).winOverlay = false := by
    intro L keysDown dt s hr hw hg
    have hs := (session_beforeContact L keysDown dt s).1
    have hwc : (beforeContact L keysDown dt s).winOverlay = false :=
      (congrArg (fun t => t.2.2.2.2.2.2) hs).trans hw
    have ht : TILE = 32 := rfl
    obtain ⟨c1, c2, c3⟩ := contactStep_cases L dt ⌊s.player.x / TILE⌋ ⌊s.player.y / TILE⌋
      (beforeContact L keysDown dt s)
    have nog : ∀ c : Play, c.winOverlay = false →
        (goalStep L ⌊s.player.x / TILE⌋ ⌊s.player.y / TILE⌋ c).winOverlay = false := by
      intro c hc
      by_contra hcon
      have h1 : (goalStep L ⌊s.player.x / TILE⌋ ⌊s.player.y / TILE⌋ c).winOverlay = true := by
        simpa using hcon
      have h2 := (goalStep_win L _ _ c hc).1.mp h1
      rw [ht] at h2
      exact hg ⟨h2.1, h2.2.1⟩
    rw [updatePlay_eq_contactStep L keysDown dt s hr]
    by_cases hcd : (beforeContact L keysDown dt s).deathCooldown > 0
    · rw [c1 hcd]; exact nog _ hwc
    · by_cases hh : enemyHit (beforeContact L keysDown dt s)
      · rw [c2 hcd hh]; exact hwc
      · rw [c3 hcd hh]; exact nog _ hwc
  -- A state without enemies has no enemy near after a tick.
  have not_enemyNear_of_no_enemies : ∀ (L : Level) (keysDown : String → Bool) (dt : ℝ) (s : Play)
      (hr : reachesMove L dt s) (he : s.playEnemies = []),
      ¬ enemyNear (updatePlay L keysDown dt s).player.x (updatePlay L keysDown dt s).player.y
        (updatePlay L keysDown dt s).playEnemies := by
    intro L keysDown dt s hr he
    rw [playEnemies_updatePlay L keysDown dt s hr, he]
    rintro ⟨en, hen, -⟩
    exact absurd hen (List.not_mem_nil en)
  exact ⟨distance_self, inputVelocity_rightKey, walk_right, no_win_off_goal,
    not_enemyNear_of_no_enemies⟩

/-! ## Counterexamples and witnesses for the interaction checks -/

/-- C11, witness: the player of the demo level stands on the key 7; the door
linked to the key 7 opens and the door linked to no key stays closed. -/
theorem key_opens_linked_doors_witness :
    reachesMove demoLevel (1 / 20) keyDoorPlay ∧
    (updatePlay demoLevel noKeys (1 / 20) keyDoorPlay).playDoors
      = [{ id := 1, gx := 3, gy := 2, keyId := some 7, isOpen := true },
         { id := 2, gx := 3, gy := 0, keyId := none, isOpen := false }] := by
  have reachesMove_demo := demo_evaluation.2.2.2.1
  have rest_tick_demo := tour_evaluation.2.2.2.2.2
  have distance_self := tour_evaluation_b.1
  have hr : reachesMove demoLevel (1 / 20) keyDoorPlay := reachesMove_demo _ _ rfl
  have hp : (updatePlay demoLevel noKeys (1 / 20) keyDoorPlay).player = { x := 48, y := 80 } :=
    rest_tick_demo keyDoorPlay 48 80 rfl rfl rfl rfl rfl ⟨by norm_num, by norm_num⟩
      ⟨by norm_num, by norm_num⟩
  refine ⟨hr, ?_⟩
  rw [(key_opens_linked_doors demoLevel noKeys (1 / 20) keyDoorPlay).1 hr, hp]
  simp [keyDoorPlay, demoPlay, distance_self]

/-- Evaluation of the tick of `enemyPlay`.  The conjuncts, in order:
`enemyPlay_tick`, `enemyPlay_not_near`. -/
theorem enemyPlay_evaluation :
    ((updatePlay demoLevel noKeys (1 / 20) enemyPlay).player = { x := 68, y := 80 } ∧
      (updatePlay demoLevel noKeys (1 / 20) enemyPlay).playEnemies = [buildEnemy stillEnemy]) ∧
    (¬ ∃ en ∈ (updatePlay demoLevel noKeys (1 / 20) enemyPlay).playEnemies,
        distance (updatePlay demoLevel noKeys (1 / 20) enemyPlay).player.x
          (updatePlay demoLevel noKeys (1 / 20) enemyPlay).player.y en.px en.py < 20) := by
  have reachesMove_demo := demo_evaluation.2.2.2.1
  have distance_68_48 := keyPlay_evaluation.1
  have playEnemies_updatePlay := contact_lemmas_b.2.2.2.1
  have buildEnemy_stillEnemy := tour_evaluation.2.2.2.1
  have advanceEnemy_stillEnemy := tour_evaluation.2.2.2.2.1
  have rest_tick_demo := tour_evaluation.2.2.2.2.2
  have enemyPlay_tick :
      (updatePlay demoLevel noKeys (1 / 20) enemyPlay).player = { x := 68, y := 80 } ∧
      (updatePlay demoLevel noKeys (1 / 20) enemyPlay).playEnemies = [buildEnemy stillEnemy] := by
    constructor
    · exact rest_tick_demo enemyPlay 68 80 rfl rfl rfl rfl rfl ⟨by norm_num, by norm_num⟩
        ⟨by norm_num, by norm_num⟩
    · rw [playEnemies_updatePlay demoLevel noKeys (1 / 20) enemyPlay (reachesMove_demo _ _ rfl)]
      simp [enemyPlay, demoPlay, advanceEnemy_stillEnemy]
  have enemyPlay_not_near :
      ¬ ∃ en ∈ (updatePlay demoLevel noKeys (1 / 20) enemyPlay).playEnemies,
        distance (updatePlay demoLevel noKeys (1 / 20) enemyPlay).player.x
          (updatePlay demoLevel noKeys (1 / 20) enemyPlay).player.y en.px en.py < 20 := by
    rw [enemyPlay_tick.1, enemyPlay_tick.2]
    rintro ⟨en, hen, hlt⟩
    rw [List.mem_singleton] at hen
    rw [hen, buildEnemy_stillEnemy.2.1, buildEnemy_stillEnemy.2.2.1, distance_68_48] at hlt
    exact lt_irrefl _ hlt
  exact ⟨enemyPlay_tick, enemyPlay_not_near⟩

/-- C12, counterexample: an enemy at distance exactly 20 does not kill.  The
player rests at `(68, 80)`, the enemy stands at `(48, 80)`, the countdown is 0;
after the tick the distance is `20 <= 20`, the death count is unchanged and
the player is not dying. -/
theorem enemy_collision_counterexample :
    (reachesMove demoLevel (1 / 20) enemyPlay ∧ enemyPlay.deathCooldown ≤ 0) ∧
    (∃ en ∈ (updatePlay demoLevel noKeys (1 / 20) enemyPlay).playEnemies,
      distance (updatePlay demoLevel noKeys (1 / 20) enemyPlay).player.x
        (updatePlay demoLevel noKeys (1 / 20) enemyPlay).player.y en.px en.py ≤ 20) ∧
    (updatePlay demoLevel noKeys (1 / 20) enemyPlay).deaths = enemyPlay.deaths ∧
    (updatePlay demoLevel noKeys (1 / 20) enemyPlay).playerDying = false := by
  have reachesMove_demo := demo_evaluation.2.2.2.1
  have distance_68_48 := keyPlay_evaluation.1
  have contact_outcome := contact_lemmas_b.2.2.2.2.1
  have buildEnemy_stillEnemy := tour_evaluation.2.2.2.1
  have enemyPlay_tick := enemyPlay_evaluation.1
  have enemyPlay_not_near := enemyPlay_evaluation.2
  have hr : reachesMove demoLevel (1 / 20) enemyPlay := reachesMove_demo _ _ rfl
  have hcd : enemyPlay.deathCooldown ≤ 0 := by
    show (0 : ℝ) ≤ 0
    exact le_refl _
  have ho := (contact_outcome demoLevel noKeys (1 / 20) enemyPlay hr).2.2 (not_lt.mpr hcd)
    enemyPlay_not_near
  refine ⟨⟨hr, hcd⟩, ?_, ho.1, ho.2.1⟩
  rw [enemyPlay_tick.1, enemyPlay_tick.2]
  refine ⟨buildEnemy stillEnemy, List.mem_singleton.mpr rfl, ?_⟩
  rw [buildEnemy_stillEnemy.2.1, buildEnemy_stillEnemy.2.2.1, distance_68_48]

/-- C12, witness: the player and the enemy of `enemyPlay`, 20 apart. -/
theorem enemy_collision_threshold_witness :
    (reachesMove demoLevel (1 / 20) enemyPlay ∧ enemyPlay.deathCooldown ≤ 0) ∧
    (updatePlay demoLevel noKeys (1 / 20) enemyPlay).deaths = enemyPlay.deaths ∧
    (updatePlay demoLevel noKeys (1 / 20) enemyPlay).playerDying = false := by
  have reachesMove_demo := demo_evaluation.2.2.2.1
  have enemyPlay_not_near := enemyPlay_evaluation.2
  have hr : reachesMove demoLevel (1 / 20) enemyPlay := reachesMove_demo _ _ rfl
  have hcd : enemyPlay.deathCooldown ≤ 0 := by
    show (0 : ℝ) ≤ 0
    exact le_refl _
  exact ⟨⟨hr, hcd⟩,
    (enemy_collision_threshold demoLevel noKeys (1 / 20) enemyPlay hr hcd).2.2.1
      enemyPlay_not_near⟩

theorem timeUp_timedPlay :
    timeUp timedLevel { timedPlay with playTimer := timedPlay.playTimer + 1 / 20 } := by
  unfold timeUp timedLevel timedPlay demoPlay
  norm_num

/-- C13, counterexample: a tick that the time limit ends does not count the
invulnerability window down.  In `timedLevel` the timer is at the limit 10 and
the countdown at 0.6; after the tick the countdown is still 0.6, not
`0.6 - 1/20`. -/
theorem invulnerability_window_counterexample :
    timedPlay.deathCooldown > 0 ∧
    (updatePlay timedLevel noKeys (1 / 20) timedPlay).deathCooldown = timedPlay.deathCooldown ∧
    (updatePlay timedLevel noKeys (1 / 20) timedPlay).deathCooldown
      ≠ timedPlay.deathCooldown - 1 / 20 := by
  have updatePlay_of_timeUp := contact_lemmas_b.2.2.2.2.2.2
  have e : (updatePlay timedLevel noKeys (1 / 20) timedPlay).deathCooldown
      = timedPlay.deathCooldown := by
    rw [updatePlay_of_timeUp timedLevel noKeys (1 / 20) timedPlay rfl timeUp_timedPlay]
    rfl
  refine ⟨?_, e, ?_⟩
  · show (0.6 : ℝ) > 0
    norm_num
  · rw [e]
    show ¬ (0.6 : ℝ) = 0.6 - 1 / 20
    norm_num

/-- C13, witness: the player of `shieldPlay`, inside its invulnerability
window, 20 away from an enemy. -/
theorem invulnerability_window_witness :
    (reachesMove demoLevel (1 / 20) shieldPlay ∧ shieldPlay.deathCooldown > 0) ∧
    (updatePlay demoLevel noKeys (1 / 20) shieldPlay).deaths = shieldPlay.deaths ∧
    (updatePlay demoLevel noKeys (1 / 20) shieldPlay).playerDying = false ∧
    (updatePlay demoLevel noKeys (1 / 20) shieldPlay).deathCooldown
      = shieldPlay.deathCooldown - 1 / 20 := by
  have reachesMove_demo := demo_evaluation.2.2.2.1
  have hr : reachesMove demoLevel (1 / 20) shieldPlay := reachesMove_demo _ _ rfl
  have hcd : shieldPlay.deathCooldown > 0 := by
    show (0.6 : ℝ) > 0
    norm_num
  exact ⟨⟨hr, hcd⟩, (invulnerability_window demoLevel noKeys (1 / 20) shieldPlay).1 hr hcd⟩

/-- Evaluation of the tick on `tourLevel`.  The conjuncts, in order:
`tourLevel_walk`, `tourLevel_reaches`, `tourLevel_alive`, `tourLevel_no_coins`.
-/
theorem tourLevel_evaluation :
    (∀ (x y : ℝ) (_ : 11 ≤ x ∧ x + 6 ≤ 117) (_ : 11 ≤ y ∧ y ≤ 85),
      (updatePlay tourLevel rightKey (1 / 20) (demoPlay x y)).player = { x := x + 6, y := y }) ∧
    (∀ (s : Play) (_ : s.playerDying = false),
      reachesMove tourLevel (1 / 20) s) ∧
    (∀ (x y : ℝ),
      (updatePlay tourLevel rightKey (1 / 20) (demoPlay x y)).playerDying = false) ∧
    (∀ (x y : ℝ),
      (updatePlay tourLevel rightKey (1 / 20) (demoPlay x y)).playCoins = []) := by
  have playCoins_updatePlay := coin_filter_lemmas.2.2.2.2
  have reachesMove_of_no_limit := wallSlide_evaluation.1
  have contact_outcome := contact_lemmas_b.2.2.2.2.1
  have tourLevel_grid := tour_evaluation.2.2.1
  have walk_right := tour_evaluation_b.2.2.1
  have not_enemyNear_of_no_enemies := tour_evaluation_b.2.2.2.2
  have tourLevel_walk : ∀ (x y : ℝ) (hx : 11 ≤ x ∧ x + 6 ≤ 117) (hy : 11 ≤ y ∧ y ≤ 85),
      (updatePlay tourLevel rightKey (1 / 20) (demoPlay x y)).player = { x := x + 6, y := y } :=
      fun x y hx hy =>
        walk_right tourLevel rfl rfl tourLevel_grid rfl rfl (demoPlay x y) x y rfl rfl rfl hx hy
  have tourLevel_reaches : ∀ (s : Play) (hd : s.playerDying = false),
      reachesMove tourLevel (1 / 20) s :=
      fun s hd =>
        reachesMove_of_no_limit tourLevel _ s rfl hd
  have tourLevel_alive : ∀ (x y : ℝ),
      (updatePlay tourLevel rightKey (1 / 20) (demoPlay x y)).playerDying = false :=
      fun x y =>
        ((contact_outcome tourLevel rightKey (1 / 20) (demoPlay x y)
          (tourLevel_reaches _ rfl)).2.2 (by show ¬ (0 : ℝ) > 0; norm_num)
          (not_enemyNear_of_no_enemies tourLevel rightKey (1 / 20) (demoPlay x y)
            (tourLevel_reaches _ rfl) rfl)).2.1
  have tourLevel_no_coins : ∀ (x y : ℝ),
      (updatePlay tourLevel rightKey (1 / 20) (demoPlay x y)).playCoins = [] := by
    intro x y
    rw [playCoins_updatePlay tourLevel rightKey (1 / 20) (demoPlay x y) (tourLevel_reaches _ rfl)]
    rfl
  exact ⟨tourLevel_walk, tourLevel_reaches, tourLevel_alive, tourLevel_no_coins⟩

/-- C14, the code at the failing inputs: the goal test reads the tile of the
start of the tick, not the tile of the moved player.  In `tourLevel`, no coin
left, the right arrow held, `dt = 1/20`.  The player walks from `(60, 80)`, in
the cell `(1, 2)`, to `(66, 80)`, in the goal cell `(2, 2)`: it does not die,
it stands on the goal tile, and no win fires in that tick.  The player walks
from `(93, 80)`, in the goal cell, to `(99, 80)`, in the cell `(3, 2)`: it
stands off the goal tile, and the win fires. -/
theorem goal_test_stale_tile :
    ((reachesMove tourLevel (1 / 20) (demoPlay 60 80) ∧ (demoPlay 60 80).winOverlay = false ∧
        (updatePlay tourLevel rightKey (1 / 20) (demoPlay 60 80)).playerDying = false) ∧
      (updatePlay tourLevel rightKey (1 / 20) (demoPlay 60 80)).player = { x := 66, y := 80 } ∧
      (onTile tourLevel (updatePlay tourLevel rightKey (1 / 20) (demoPlay 60 80)).player
          TILE_GOAL ∧
        (updatePlay tourLevel rightKey (1 / 20) (demoPlay 60 80)).playCoins = []) ∧
      (updatePlay tourLevel rightKey (1 / 20) (demoPlay 60 80)).winOverlay = false) ∧
    ((reachesMove tourLevel (1 / 20) (demoPlay 93 80) ∧ (demoPlay 93 80).winOverlay = false ∧
        (updatePlay tourLevel rightKey (1 / 20) (demoPlay 93 80)).playerDying = false) ∧
      (updatePlay tourLevel rightKey (1 / 20) (demoPlay 93 80)).player = { x := 99, y := 80 } ∧
      ¬ onTile tourLevel (updatePlay tourLevel rightKey (1 / 20) (demoPlay 93 80)).player
          TILE_GOAL ∧
      (updatePlay tourLevel rightKey (1 / 20) (demoPlay 93 80)).winOverlay = true) := by
  have floor_div32 := demo_evaluation.1
  have no_win_off_goal := tour_evaluation_b.2.2.2.1
  have tourLevel_walk := tourLevel_evaluation.1
  have tourLevel_reaches := tourLevel_evaluation.2.1
  have tourLevel_alive := tourLevel_evaluation.2.2.1
  have tourLevel_no_coins := tourLevel_evaluation.2.2.2
  have hr := tourLevel_reaches (demoPlay 60 80) rfl
  have hr' := tourLevel_reaches (demoPlay 93 80) rfl
  have hw := tourLevel_walk 60 80 ⟨by norm_num, by norm_num⟩ ⟨by norm_num, by norm_num⟩
  have hw' := tourLevel_walk 93 80 ⟨by norm_num, by norm_num⟩ ⟨by norm_num, by norm_num⟩
  refine ⟨⟨⟨hr, rfl, tourLevel_alive 60 80⟩, ?_, ⟨?_, tourLevel_no_coins 60 80⟩, ?_⟩,
    ⟨hr', rfl, tourLevel_alive 93 80⟩, ?_, ?_, ?_⟩
  · rw [hw]
    norm_num
  · rw [hw]
    unfold onTile
    rw [floor_div32 (60 + 6) 2 (by norm_num) (by norm_num),
      floor_div32 80 2 (by norm_num) (by norm_num)]
    exact ⟨by unfold inBounds tourLevel demoLevel; decide, by simp [tourLevel]⟩
  · apply no_win_off_goal tourLevel rightKey (1 / 20) (demoPlay 60 80) hr rfl
    unfold onTile
    have f1 : ⌊(demoPlay 60 80).player.x / 32⌋ = 1 :=
      floor_div32 _ 1 (by norm_num [demoPlay]) (by norm_num [demoPlay])
    have f2 : ⌊(demoPlay 60 80).player.y / 32⌋ = 2 :=
      floor_div32 _ 2 (by norm_num [demoPlay]) (by norm_num [demoPlay])
    rw [f1, f2]
    rintro ⟨-, h⟩
    simp [tourLevel, TILE_GOAL, TILE_EMPTY, TILE_CHECKPOINT] at h
  · rw [hw']
    norm_num
  · rw [hw']
    unfold onTile
    rw [floor_div32 (93 + 6) 3 (by norm_num) (by norm_num),
      floor_div32 80 2 (by norm_num) (by norm_num)]
    rintro ⟨-, h⟩
    simp [tourLevel, TILE_GOAL, TILE_EMPTY, TILE_CHECKPOINT] at h
  · refine (goal_test_as_run tourLevel rightKey (1 / 20) (demoPlay 93 80) hr' rfl
      (tourLevel_alive 93 80)).1.mpr ⟨?_, tourLevel_no_coins 93 80⟩
    unfold onTile
    have f1 : ⌊(demoPlay 93 80).player.x / 32⌋ = 2 :=
      floor_div32 _ 2 (by norm_num [demoPlay]) (by norm_num [demoPlay])
    have f2 : ⌊(demoPlay 93 80).player.y / 32⌋ = 2 :=
      floor_div32 _ 2 (by norm_num [demoPlay]) (by norm_num [demoPlay])
    rw [f1, f2]
    exact ⟨by unfold inBounds tourLevel demoLevel; decide, by simp [tourLevel]⟩

/-- C15, witness: in `tourLevel` the player walks from `(60, 16)` into the
checkpoint cell `(2, 0)`, which is stored. -/
theorem checkpoint_last_touched_witness :
    reachesMove tourLevel (1 / 20) (demoPlay 60 16) ∧
    (demoPlay 60 16).checkpointPos = none ∧
    (updatePlay tourLevel rightKey (1 / 20) (demoPlay 60 16)).checkpointPos
      = some { gx := 2, gy := 0 } := by
  have floor_div32 := demo_evaluation.1
  have tourLevel_walk := tourLevel_evaluation.1
  have tourLevel_reaches := tourLevel_evaluation.2.1
  have hr := tourLevel_reaches (demoPlay 60 16) rfl
  have hw := tourLevel_walk 60 16 ⟨by norm_num, by norm_num⟩ ⟨by norm_num, by norm_num⟩
  have f1 : ⌊(updatePlay tourLevel rightKey (1 / 20) (demoPlay 60 16)).player.x / 32⌋ = 2 := by
    rw [hw]; exact floor_div32 _ 2 (by norm_num) (by norm_num)
  have f2 : ⌊(updatePlay tourLevel rightKey (1 / 20) (demoPlay 60 16)).player.y / 32⌋ = 0 := by
    rw [hw]; exact floor_div32 _ 0 (by norm_num) (by norm_num)
  have h := (checkpoint_last_touched tourLevel rightKey (1 / 20) (demoPlay 60 16) hr).1 (by
    unfold onTile
    rw [f1, f2]
    exact ⟨by unfold inBounds tourLevel demoLevel; decide, by simp [tourLevel]⟩)
  rw [f1, f2] at h
  exact ⟨hr, rfl, h⟩

/-- C16, witness: the dying player of `dyingPlay` respawns at the centre
`(80, 16)` of its checkpoint cell, with its 3 deaths and its 7 seconds. -/
theorem respawn_preserves_progress_witness :
    dyingPlay.playMode = true ∧
    (respawn tourLevel dyingPlay).deaths = 3 ∧ (respawn tourLevel dyingPlay).playTimer = 7 ∧
    (respawn tourLevel dyingPlay).player = { x := 80, y := 16 } := by
  have h := respawn_preserves_progress tourLevel dyingPlay rfl
  refine ⟨rfl, h.1.2.1, h.1.2.2, ?_⟩
  rw [h.2.1 { gx := 2, gy := 0 } rfl]
  norm_num

/-- C17, witness: the respawn of `dyingPlay` in `tourLevel`, compared with the
session start from the state `demoPlay 48 80`. -/
theorem respawn_rebuilds_witness :
    dyingPlay.playMode = true ∧
    (respawn tourLevel dyingPlay).playCoins = tourLevel.coins ∧
    (respawn tourLevel dyingPlay).playEnemies
      = (buildPlayState tourLevel (demoPlay 48 80)).playEnemies := by
  have h := respawn_rebuilds tourLevel dyingPlay (demoPlay 48 80) rfl
  exact ⟨rfl, h.1, h.2.2.2.1.1⟩

/-- C18, counterexample: after a manual reset the invulnerability countdown is
0, after a death respawn from the same state it is 0.6. -/
theorem reset_is_respawn_counterexample :
    dyingPlay.playMode = true ∧
    (resetPlayState tourLevel dyingPlay).deathCooldown = 0 ∧
    (respawn tourLevel dyingPlay).deathCooldown = 0.6 ∧
    (resetPlayState tourLevel dyingPlay).deathCooldown
      ≠ (respawn tourLevel dyingPlay).deathCooldown := by
  have respawn_eq := rebuild_lemmas.2.1
  have resetPlayState_eq := rebuild_lemmas.2.2
  have e1 : (resetPlayState tourLevel dyingPlay).deathCooldown = 0 := by
    rw [resetPlayState_eq]
  have e2 : (respawn tourLevel dyingPlay).deathCooldown = 0.6 := by
    rw [respawn_eq tourLevel dyingPlay rfl]
  refine ⟨rfl, e1, e2, ?_⟩
  rw [e1, e2]
  norm_num

/-- C18, witness: the manual reset and the respawn of `dyingPlay`. -/
theorem reset_is_respawn_without_countdown_witness :
    dyingPlay.playMode = true ∧
    resetPlayState tourLevel dyingPlay
      = { respawn tourLevel dyingPlay with deathCooldown := 0 } :=
  ⟨rfl, (reset_is_respawn_without_countdown tourLevel dyingPlay rfl).1⟩

/-- C19, witness: in `timedLevel`, limit 10, the timer is at 10 and the tick
forces the second death. -/
theorem time_limit_witness :
    (timedPlay.playerDying = false ∧ timedLevel.currentTimeLimit > 0 ∧
      timedPlay.playTimer + 1 / 20 ≥ timedLevel.currentTimeLimit) ∧
    (updatePlay timedLevel rightKey (1 / 20) timedPlay).deaths = timedPlay.deaths + 1 ∧
    (updatePlay timedLevel rightKey (1 / 20) timedPlay).playerDying = true ∧
    motion (updatePlay timedLevel rightKey (1 / 20) timedPlay) = motion timedPlay := by
  have h1 : timedLevel.currentTimeLimit > 0 := by
    show (10 : ℝ) > 0
    norm_num
  have h2 : timedPlay.playTimer + 1 / 20 ≥ timedLevel.currentTimeLimit := by
    show (10 : ℝ) + 1 / 20 ≥ 10
    norm_num
  have h := (time_limit timedLevel rightKey (1 / 20) timedPlay rfl).1 h1 h2
  exact ⟨⟨rfl, h1, h2⟩, h.2.1, h.2.2.1, h.2.2.2.1⟩

/-- C20, witness: the tick of `timedPlay` that the time limit ends counts one
death, and the tick that follows, the player dying, changes nothing. -/
theorem death_counted_once_witness :
    (timedPlay.playerDying = false ∧
      timeUp timedLevel { timedPlay with playTimer := timedPlay.playTimer + 1 / 20 }) ∧
    (updatePlay timedLevel noKeys (1 / 20) timedPlay).deaths = timedPlay.deaths + 1 ∧
    updatePlay timedLevel noKeys (1 / 20) (updatePlay timedLevel noKeys (1 / 20) timedPlay)
      = updatePlay timedLevel noKeys (1 / 20) timedPlay := by
  have h := death_counted_once timedLevel noKeys (1 / 20) timedPlay
  have h1 := h.2.1 rfl timeUp_timedPlay
  exact ⟨⟨rfl, timeUp_timedPlay⟩, h1.1,
    (death_counted_once timedLevel noKeys (1 / 20)
      (updatePlay timedLevel noKeys (1 / 20) timedPlay)).2.2.2 h1.2⟩

/-! ## C21: bounce mode -/

/-- The advance of a linear enemy in bounce mode whose path is at least 1
long. -/
theorem advanceEnemy_bounce (dt : ℝ) (e : PlayEnemy) (hl : e.en.isOrbit = false)
    (hb : e.en.loopMode = false) (hlen : 1 ≤ e.len) :
    advanceEnemy dt e
      = { e with
          t := if e.t + e.speed * dt * e.dir ≥ e.len then e.len
               else if e.t + e.speed * dt * e.dir ≤ 0 then 0 else e.t + e.speed * dt * e.dir,
          dir := if e.t + e.speed * dt * e.dir ≥ e.len then -1
                 else if e.t + e.speed * dt * e.dir ≤ 0 then 1 else e.dir,
          px := (positionAlongPath e.en
                  ((if e.t + e.speed * dt * e.dir ≥ e.len then e.len
                    else if e.t + e.speed * dt * e.dir ≤ 0 then 0
                    else e.t + e.speed * dt * e.dir) / e.len)).px,
          py := (positionAlongPath e.en
                  ((if e.t + e.speed * dt * e.dir ≥ e.len then e.len
                    else if e.t + e.speed * dt * e.dir ≤ 0 then 0
                    else e.t + e.speed * dt * e.dir) / e.len)).py } := by
  unfold advanceEnemy
  rw [if_neg (by simp [hl]), if_neg (not_lt.mpr hlen)]
  simp only [hb, Bool.false_eq_true, if_false]
  by_cases h1 : e.t + e.speed * dt * e.dir ≥ e.len
  · have h2 : ¬ e.len ≤ 0 := by linarith
    simp [h1, h2]
  · by_cases h3 : e.t + e.speed * dt * e.dir ≤ 0
    · simp [h1, h3]
    · simp [h1, h3]

/-- C21: bounce mode never overshoots.  For a linear enemy in bounce mode with
path length `len >= 1`, whatever the speed and the frame time, after a tick
`0 <= t <= len`; when the advanced value `t + speed*dt*dir` is `>= len`, then
`t = len` and the direction is `-1`; when it is `<= 0`, then `t = 0` and the
direction is `+1`; otherwise `t` is the advanced value and the direction is
unchanged.  The position is read from the path at `t/len`. -/
theorem bounce_never_overshoots (dt : ℝ) (e : PlayEnemy) (hl : e.en.isOrbit = false)
    (hb : e.en.loopMode = false) (hlen : 1 ≤ e.len) :
    (0 ≤ (advanceEnemy dt e).t ∧ (advanceEnemy dt e).t ≤ e.len) ∧
    (e.t + e.speed * dt * e.dir ≥ e.len →
      (advanceEnemy dt e).t = e.len ∧ (advanceEnemy dt e).dir = -1) ∧
    (e.t + e.speed * dt * e.dir ≤ 0 →
      (advanceEnemy dt e).t = 0 ∧ (advanceEnemy dt e).dir = 1) ∧
    (0 < e.t + e.speed * dt * e.dir → e.t + e.speed * dt * e.dir < e.len →
      (advanceEnemy dt e).t = e.t + e.speed * dt * e.dir ∧
      (advanceEnemy dt e).dir = e.dir) ∧
    ((advanceEnemy dt e).len = e.len ∧
      (advanceEnemy dt e).px
        = (positionAlongPath e.en ((advanceEnemy dt e).t / e.len)).px ∧
      (advanceEnemy dt e).py
        = (positionAlongPath e.en ((advanceEnemy dt e).t / e.len)).py) := by
  rw [advanceEnemy_bounce dt e hl hb hlen]
  dsimp only
  refine ⟨?_, ?_, ?_, ?_, rfl, rfl, rfl⟩
  · split_ifs with h1 h2
    · exact ⟨by linarith, le_refl _⟩
    · exact ⟨le_refl _, by linarith⟩
    · exact ⟨by linarith, by linarith⟩
  · intro h
    rw [if_pos h, if_pos h]
    exact ⟨rfl, rfl⟩
  · intro h
    have h1 : ¬ e.t + e.speed * dt * e.dir ≥ e.len := by
      intro hc
      linarith
    rw [if_neg h1, if_pos h, if_neg h1, if_pos h]
    exact ⟨rfl, rfl⟩
  · intro h0 h1
    rw [if_neg (not_le.mpr h1), if_neg (not_le.mpr h0), if_neg (not_le.mpr h1),
      if_neg (not_le.mpr h0)]
    exact ⟨rfl, rfl⟩

/-! ## C22: loop mode -/

/-- The remainder and the loop-mode advance.  The conjuncts, in order:
`jsRem_of_nonneg`, `advanceEnemy_loop`, `advanceTicks_loop`. -/
theorem loop_mode_lemmas :
    (∀ (a b : ℝ) (_ : 0 ≤ a) (_ : 0 < b),
      jsRem a b = b * Int.fract (a / b) ∧ 0 ≤ jsRem a b ∧ jsRem a b < b) ∧
    (∀ (dt : ℝ) (e : PlayEnemy) (_ : e.en.isOrbit = false) (_ : e.en.loopMode = true)
      (_ : 1 ≤ e.len),
      advanceEnemy dt e
        = { e with
            t := jsRem (e.t + e.speed * dt) e.len,
            px := (positionAlongPath e.en (jsRem (e.t + e.speed * dt) e.len / e.len)).px,
            py := (positionAlongPath e.en (jsRem (e.t + e.speed * dt) e.len / e.len)).py }) ∧
    (∀ (dts : List ℝ) (e : PlayEnemy) (_ : e.en.isOrbit = false) (_ : e.en.loopMode = true)
      (_ : 1 ≤ e.len) (_ : 0 ≤ e.speed) (_ : 0 ≤ e.t ∧ e.t < e.len) (_ : ∀ dt ∈ dts, 0 ≤ dt),
      (advanceTicks dts e).t = e.len * Int.fract ((e.t + e.speed * dts.sum) / e.len) ∧
      (advanceTicks dts e).dir = e.dir ∧ (advanceTicks dts e).len = e.len ∧
      (advanceTicks dts e).en = e.en ∧
      (dts ≠ [] →
        (advanceTicks dts e).px
            = (positionAlongPath e.en ((advanceTicks dts e).t / e.len)).px ∧
        (advanceTicks dts e).py
            = (positionAlongPath e.en ((advanceTicks dts e).t / e.len)).py)) := by
  -- The JavaScript remainder of a non-negative number by a positive one.
  have jsRem_of_nonneg : ∀ (a b : ℝ) (ha : 0 ≤ a) (hb : 0 < b),
      jsRem a b = b * Int.fract (a / b) ∧ 0 ≤ jsRem a b ∧ jsRem a b < b := by
    intro a b ha hb
    have h : jsRem a b = b * Int.fract (a / b) := by
      unfold jsRem
      rw [if_pos (div_nonneg ha hb.le), ← Int.self_sub_floor]
      field_simp
    rw [h]
    refine ⟨rfl, mul_nonneg hb.le (Int.fract_nonneg _), ?_⟩
    calc b * Int.fract (a / b) < b * 1 := by
          exact mul_lt_mul_of_pos_left (Int.fract_lt_one _) hb
      _ = b := mul_one b
  -- The advance of a linear enemy in loop mode whose path is at least 1
  -- long.
  have advanceEnemy_loop : ∀ (dt : ℝ) (e : PlayEnemy) (hl : e.en.isOrbit = false)
      (hm : e.en.loopMode = true) (hlen : 1 ≤ e.len),
      advanceEnemy dt e
        = { e with
            t := jsRem (e.t + e.speed * dt) e.len,
            px := (positionAlongPath e.en (jsRem (e.t + e.speed * dt) e.len / e.len)).px,
            py := (positionAlongPath e.en (jsRem (e.t + e.speed * dt) e.len / e.len)).py } := by
    intro dt e hl hm hlen
    unfold advanceEnemy
    rw [if_neg (by simp [hl]), if_neg (not_lt.mpr hlen)]
    simp only [hm, if_true]
  -- In loop mode, after a run of ticks with non-negative frame times, `t` is
  -- the start value plus the distance covered, reduced modulo the path length.
  have advanceTicks_loop : ∀ (dts : List ℝ) (e : PlayEnemy) (hl : e.en.isOrbit = false)
      (hm : e.en.loopMode = true) (hlen : 1 ≤ e.len) (hv : 0 ≤ e.speed)
      (ht : 0 ≤ e.t ∧ e.t < e.len) (hd : ∀ dt ∈ dts, 0 ≤ dt),
      (advanceTicks dts e).t = e.len * Int.fract ((e.t + e.speed * dts.sum) / e.len) ∧
      (advanceTicks dts e).dir = e.dir ∧ (advanceTicks dts e).len = e.len ∧
      (advanceTicks dts e).en = e.en ∧
      (dts ≠ [] →
        (advanceTicks dts e).px
            = (positionAlongPath e.en ((advanceTicks dts e).t / e.len)).px ∧
        (advanceTicks dts e).py
            = (positionAlongPath e.en ((advanceTicks dts e).t / e.len)).py) := by
    intro dts e hl hm hlen hv ht hd
    have hpos : 0 < e.len := by linarith
    induction dts generalizing e with
    | nil =>
      refine ⟨?_, rfl, rfl, rfl, fun h => absurd rfl h⟩
      simp only [advanceTicks, List.sum_nil, mul_zero, add_zero]
      rw [Int.fract_eq_self.mpr ⟨div_nonneg ht.1 hpos.le, (div_lt_one hpos).mpr ht.2⟩]
      field_simp
    | cons dt rest ih =>
      have hdt : 0 ≤ dt := hd dt (List.mem_cons_self _ _)
      have ha : 0 ≤ e.t + e.speed * dt := add_nonneg ht.1 (mul_nonneg hv hdt)
      obtain ⟨r1, r2, r3⟩ := jsRem_of_nonneg (e.t + e.speed * dt) e.len ha hpos
      have he := advanceEnemy_loop dt e hl hm hlen
      have e_en : (advanceEnemy dt e).en = e.en := by rw [he]
      have e_len : (advanceEnemy dt e).len = e.len := by rw [he]
      have e_speed : (advanceEnemy dt e).speed = e.speed := by rw [he]
      have e_dir : (advanceEnemy dt e).dir = e.dir := by rw [he]
      have e_t : (advanceEnemy dt e).t = jsRem (e.t + e.speed * dt) e.len := by rw [he]
      obtain ⟨i1, i2, i3, i4, i5⟩ := ih (advanceEnemy dt e) (by rw [e_en]; exact hl)
        (by rw [e_en]; exact hm) (by rw [e_len]; exact hlen) (by rw [e_speed]; exact hv)
        (by rw [e_t, e_len]; exact ⟨r2, r3⟩)
        (fun d hd' => hd d (List.mem_cons_of_mem _ hd')) (by rw [e_len]; exact hpos)
      rw [e_len, e_speed, e_t] at i1
      rw [e_dir] at i2
      rw [e_len] at i3
      rw [e_en] at i4
      rw [e_len, e_en] at i5
      have key : (advanceTicks (dt :: rest) e).t
          = e.len * Int.fract ((e.t + e.speed * (dt :: rest).sum) / e.len) := by
        show (advanceTicks rest (advanceEnemy dt e)).t = _
        rw [i1, r1, List.sum_cons]
        congr 1
        have e1 : (e.len * Int.fract ((e.t + e.speed * dt) / e.len) + e.speed * rest.sum) / e.len
            = Int.fract ((e.t + e.speed * dt) / e.len) + e.speed * rest.sum / e.len := by
          field_simp
          ring
        have e2 : (e.t + e.speed * (dt + rest.sum)) / e.len
            = (e.t + e.speed * dt) / e.len + e.speed * rest.sum / e.len := by
          field_simp
          ring
        rw [e1, e2, ← Int.self_sub_floor ((e.t + e.speed * dt) / e.len)]
        have e3 : (e.t + e.speed * dt) / e.len - (⌊(e.t + e.speed * dt) / e.len⌋ : ℝ)
              + e.speed * rest.sum / e.len
            = (e.t + e.speed * dt) / e.len + e.speed * rest.sum / e.len
              - (⌊(e.t + e.speed * dt) / e.len⌋ : ℝ) := by ring
        rw [e3, Int.fract_sub_int]
      refine ⟨key, i2, i3, i4, ?_⟩
      intro _
      by_cases hr : rest = []
      · subst hr
        show (advanceEnemy dt e).px = (positionAlongPath e.en ((advanceEnemy dt e).t / e.len)).px ∧
          (advanceEnemy dt e).py = (positionAlongPath e.en ((advanceEnemy dt e).t / e.len)).py
        rw [he]
        exact ⟨rfl, rfl⟩
      · exact i5 hr
  exact ⟨jsRem_of_nonneg, advanceEnemy_loop, advanceTicks_loop⟩

/-- C22: loop mode is periodic with period `duration`.  For a linear enemy in
loop mode with path length `len >= 1`, a duration `> 0` and `0 <= t < len`:
the runtime speed that `buildPlayState` gives is `len / duration`; a tick with
`dt >= 0` sets `t` to `(t + speed*dt) mod len`, so that `0 <= t < len` again,
and leaves the direction alone; and after a run of ticks with frame times
`>= 0` whose sum is `duration`, `t`, the direction and the position are those
of before the run (the position being the point of the path at `t/len`). -/
theorem loop_mode_periodic (e : PlayEnemy) (duration : ℝ) (dts : List ℝ)
    (hl : e.en.isOrbit = false) (hm : e.en.loopMode = true) (hlen : 1 ≤ e.len)
    (hdur : 0 < duration) (hv : e.speed = e.len / duration)
    (ht : 0 ≤ e.t ∧ e.t < e.len) (hd : ∀ dt ∈ dts, 0 ≤ dt) :
    (∀ en : Enemy, en.isOrbit = false → 1 ≤ totalPathLength en → 0 < en.duration →
      (buildEnemy en).len = totalPathLength en ∧
      (buildEnemy en).speed = totalPathLength en / en.duration) ∧
    (∀ dt : ℝ, 0 ≤ dt →
      (advanceEnemy dt e).t
        = (e.t + e.speed * dt) - e.len * (⌊(e.t + e.speed * dt) / e.len⌋ : ℝ) ∧
      (0 ≤ (advanceEnemy dt e).t ∧ (advanceEnemy dt e).t < e.len) ∧
      (advanceEnemy dt e).dir = e.dir) ∧
    (dts.sum = duration →
      (advanceTicks dts e).t = e.t ∧ (advanceTicks dts e).dir = e.dir ∧
      (advanceTicks dts e).px = (positionAlongPath e.en (e.t / e.len)).px ∧
      (advanceTicks dts e).py = (positionAlongPath e.en (e.t / e.len)).py) := by
  have jsRem_of_nonneg := loop_mode_lemmas.1
  have advanceEnemy_loop := loop_mode_lemmas.2.1
  have advanceTicks_loop := loop_mode_lemmas.2.2
  have hpos : 0 < e.len := by linarith
  have hspeed : 0 ≤ e.speed := by rw [hv]; exact div_nonneg hpos.le hdur.le
  refine ⟨?_, ?_, ?_⟩
  · intro en ho hlen' hdur'
    unfold buildEnemy
    rw [if_neg (by simp [ho])]
    dsimp only
    have h1 : totalPathLength en > 0 := by linarith
    have h2 : jsOr en.duration 3 = en.duration := by
      unfold jsOr
      rw [if_neg hdur'.ne']
    rw [if_pos h1, h2]
    exact ⟨rfl, rfl⟩
  · intro dt hdt
    have ha : 0 ≤ e.t + e.speed * dt := add_nonneg ht.1 (mul_nonneg hspeed hdt)
    obtain ⟨r1, r2, r3⟩ := jsRem_of_nonneg (e.t + e.speed * dt) e.len ha hpos
    rw [advanceEnemy_loop dt e hl hm hlen]
    dsimp only
    refine ⟨?_, ⟨r2, r3⟩, rfl⟩
    unfold jsRem
    rw [if_pos (div_nonneg ha hpos.le)]
  · intro hsum
    obtain ⟨a1, a2, -, -, a5⟩ := advanceTicks_loop dts e hl hm hlen hspeed ht hd
    have hne : dts ≠ [] := by
      intro hc
      rw [hc, List.sum_nil] at hsum
      linarith
    have key : (advanceTicks dts e).t = e.t := by
      rw [a1, hsum, hv]
      have e1 : (e.t + e.len / duration * duration) / e.len = e.t / e.len + 1 := by
        field_simp
      rw [e1, Int.fract_add_one,
        Int.fract_eq_self.mpr ⟨div_nonneg ht.1 hpos.le, (div_lt_one hpos).mpr ht.2⟩]
      field_simp
    obtain ⟨p1, p2⟩ := a5 hne
    rw [key] at p1 p2
    exact ⟨key, a2, p1, p2⟩

/-! ## C25: degenerate paths -/

theorem advanceTicks_of_fixed (dts : List ℝ) (e : PlayEnemy)
    (h : ∀ dt, advanceEnemy dt e = e) : advanceTicks dts e = e := by
  induction dts with
  | nil => rfl
  | cons dt rest ih =>
    show advanceTicks rest (advanceEnemy dt e) = e
    rw [h dt, ih]

/-- C25: degenerate paths are stationary.  For a linear enemy whose total path
length is `< 1`, in bounce or in loop mode and for every phase, duration and
direction: `positionAlongPath` returns the point `A = (x1, y1)` for every
parameter, through its first branch; the runtime position at session start is
`A`; and every tick, and every run of ticks, leaves the runtime enemy as it is
(position, `t` and direction), through the `continue` of the tick, which comes
before the division by the path length. -/
theorem degenerate_path_stationary (en : Enemy) (hl : en.isOrbit = false)
    (hlen : totalPathLength en < 1) :
    (∀ t : ℝ, positionAlongPath en t = { px := en.x1, py := en.y1 }) ∧
    ((buildEnemy en).px = en.x1 ∧ (buildEnemy en).py = en.y1 ∧
      (buildEnemy en).len = totalPathLength en) ∧
    (∀ dt : ℝ, advanceEnemy dt (buildEnemy en) = buildEnemy en) ∧
    (∀ dts : List ℝ, advanceTicks dts (buildEnemy en) = buildEnemy en) := by
  have hpos : ∀ t : ℝ, positionAlongPath en t = { px := en.x1, py := en.y1 } := by
    intro t
    unfold positionAlongPath
    dsimp only
    rw [if_pos hlen]
  have hb : buildEnemy en
      = { en := en, px := en.x1, py := en.y1, t := jsOr en.phase 0 * totalPathLength en,
          dir := if en.forward = true then 1 else -1,
          speed := if totalPathLength en > 0 then totalPathLength en / jsOr en.duration 3 else 60,
          len := totalPathLength en, angle := 0, angularSpeed := 0 } := by
    unfold buildEnemy
    rw [if_neg (by simp [hl])]
    dsimp only
    rw [hpos]
  have hadv : ∀ dt : ℝ, advanceEnemy dt (buildEnemy en) = buildEnemy en := by
    intro dt
    rw [hb]
    unfold advanceEnemy
    rw [if_neg (by simp [hl]), if_pos hlen]
  refine ⟨hpos, ?_, hadv, fun dts => advanceTicks_of_fixed dts _ hadv⟩
  rw [hb]
  exact ⟨rfl, rfl, rfl⟩

/-! ## C26: orbit enemies -/

/-- Points of a circle and the orbit advance.  The conjuncts, in order:
`circle_point`, `onCircle_buildEnemy`, `onCircle_advanceEnemy`,
`advanceEnemy_en`, `playEnemies_updatePlay_cases`. -/
theorem orbit_lemmas :
    (∀ (cx cy r a : ℝ),
      (cx + Real.cos a * r - cx) ^ 2 + (cy + Real.sin a * r - cy) ^ 2 = r ^ 2) ∧
    (∀ (en : Enemy) (_ : en.isOrbit = true),
      onCircle (buildEnemy en)) ∧
    (∀ (dt : ℝ) (e : PlayEnemy) (_ : e.en.isOrbit = true),
      onCircle (advanceEnemy dt e) ∧ (advanceEnemy dt e).en = e.en) ∧
    (∀ (dt : ℝ) (e : PlayEnemy),
      (advanceEnemy dt e).en = e.en) ∧
    (∀ (L : Level) (keysDown : String → Bool) (dt : ℝ) (s : Play),
      (updatePlay L keysDown dt s).playEnemies = s.playEnemies.map (advanceEnemy dt) ∨
      (updatePlay L keysDown dt s).playEnemies = s.playEnemies) := by
  have playEnemies_updatePlay := contact_lemmas_b.2.2.2.1
  have updatePlay_of_dying := contact_lemmas_b.2.2.2.2.2.1
  have updatePlay_of_timeUp := contact_lemmas_b.2.2.2.2.2.2
  have circle_point : ∀ (cx cy r a : ℝ),
      (cx + Real.cos a * r - cx) ^ 2 + (cy + Real.sin a * r - cy) ^ 2 = r ^ 2 := by
    intro cx cy r a
    have h := Real.cos_sq_add_sin_sq a
    have e : (cx + Real.cos a * r - cx) ^ 2 + (cy + Real.sin a * r - cy) ^ 2
        = (Real.cos a ^ 2 + Real.sin a ^ 2) * r ^ 2 := by ring
    rw [e, h, one_mul]
  have onCircle_buildEnemy : ∀ (en : Enemy) (ho : en.isOrbit = true),
      onCircle (buildEnemy en) := by
    intro en ho
    unfold onCircle buildEnemy
    rw [if_pos ho]
    exact circle_point _ _ _ _
  have onCircle_advanceEnemy : ∀ (dt : ℝ) (e : PlayEnemy) (ho : e.en.isOrbit = true),
      onCircle (advanceEnemy dt e) ∧ (advanceEnemy dt e).en = e.en := by
    intro dt e ho
    unfold onCircle advanceEnemy
    rw [if_pos ho]
    exact ⟨circle_point _ _ _ _, rfl⟩
  have advanceEnemy_en : ∀ (dt : ℝ) (e : PlayEnemy),
      (advanceEnemy dt e).en = e.en := by
    intro dt e
    unfold advanceEnemy
    split_ifs <;> rfl
  -- The enemies after any tick: advanced when the tick reaches the move, as
  -- before when it does not.
  have playEnemies_updatePlay_cases : ∀ (L : Level) (keysDown : String → Bool) (dt : ℝ) (s : Play),
      (updatePlay L keysDown dt s).playEnemies = s.playEnemies.map (advanceEnemy dt) ∨
      (updatePlay L keysDown dt s).playEnemies = s.playEnemies := by
    intro L keysDown dt s
    by_cases hr : reachesMove L dt s
    · exact Or.inl (playEnemies_updatePlay L keysDown dt s hr)
    · right
      by_cases hd : s.playerDying = true
      · rw [updatePlay_of_dying L keysDown dt s hd]
      · have hd' : s.playerDying = false := by simpa using hd
        have ht : timeUp L { s with playTimer := s.playTimer + dt } := by
          by_contra hc
          exact hr ⟨hd', hc⟩
        rw [updatePlay_of_timeUp L keysDown dt s hd' ht]
        rfl
  exact ⟨circle_point, onCircle_buildEnemy, onCircle_advanceEnemy, advanceEnemy_en,
    playEnemies_updatePlay_cases⟩

/-- C26: orbit enemies stay on their circle.  For every orbit enemy, whatever
its centre, radius, period, start angle and rotation sense: the runtime
position that `buildPlayState` gives it satisfies
`(px - cx)^2 + (py - cy)^2 = radius^2`; so does its position after the advance
of a tick with any `dt`; and so, after `updatePlay` and after any run of ticks,
do all the orbit enemies of a session built by `buildPlayState`. -/
theorem orbit_stays_on_circle (L : Level) (s₀ : Play) (ticks : List ((String → Bool) × ℝ)) :
    (∀ en : Enemy, en.isOrbit = true → onCircle (buildEnemy en)) ∧
    (∀ (dt : ℝ) (e : PlayEnemy), e.en.isOrbit = true → onCircle (advanceEnemy dt e)) ∧
    (∀ e ∈ (buildPlayState L s₀).playEnemies, e.en.isOrbit = true → onCircle e) ∧
    (∀ e ∈ (runTicks L ticks (buildPlayState L s₀)).playEnemies,
      e.en.isOrbit = true → onCircle e) := by
  have onCircle_buildEnemy := orbit_lemmas.2.1
  have onCircle_advanceEnemy := orbit_lemmas.2.2.1
  have advanceEnemy_en := orbit_lemmas.2.2.2.1
  have playEnemies_updatePlay_cases := orbit_lemmas.2.2.2.2
  have hbuild : ∀ e ∈ (buildPlayState L s₀).playEnemies, e.en.isOrbit = true → onCircle e := by
    intro e he ho
    have he' : e ∈ L.enemies.map buildEnemy := he
    rw [List.mem_map] at he'
    obtain ⟨en, -, rfl⟩ := he'
    have hen : (buildEnemy en).en = en := by
      unfold buildEnemy
      split_ifs <;> rfl
    rw [hen] at ho
    exact onCircle_buildEnemy en ho
  have hstep : ∀ (k : String → Bool) (dt : ℝ) (s : Play),
      (∀ e ∈ s.playEnemies, e.en.isOrbit = true → onCircle e) →
      ∀ e ∈ (updatePlay L k dt s).playEnemies, e.en.isOrbit = true → onCircle e := by
    intro k dt s hs e he ho
    rcases playEnemies_updatePlay_cases L k dt s with h | h
    · rw [h, List.mem_map] at he
      obtain ⟨e', -, rfl⟩ := he
      rw [advanceEnemy_en] at ho
      exact (onCircle_advanceEnemy dt e' ho).1
    · rw [h] at he
      exact hs e he ho
  have hrun : ∀ (ts : List ((String → Bool) × ℝ)) (s : Play),
      (∀ e ∈ s.playEnemies, e.en.isOrbit = true → onCircle e) →
      ∀ e ∈ (runTicks L ts s).playEnemies, e.en.isOrbit = true → onCircle e := by
    intro ts
    induction ts with
    | nil => intro s hs; exact hs
    | cons t rest ih =>
      intro s hs
      exact ih (updatePlay L t.1 t.2 s) (hstep t.1 t.2 s hs)
  exact ⟨onCircle_buildEnemy, fun dt e ho => (onCircle_advanceEnemy dt e ho).1, hbuild,
    hrun ticks _ hbuild⟩

/-! ## C23, C24: the path walk -/

/-- The sign of `hypot`.  The conjuncts, in order: `hypot_nonneg`,
`hypot_eq_zero`. -/
theorem hypot_lemmas :
    (∀ (a b : ℝ),
      0 ≤ hypot a b) ∧
    (∀ (a b : ℝ) (_ : hypot a b = 0),
      a = 0 ∧ b = 0) := by
  have hypot_nonneg : ∀ (a b : ℝ),
      0 ≤ hypot a b :=
      fun a b =>
        Real.sqrt_nonneg _
  have hypot_eq_zero : ∀ (a b : ℝ) (h : hypot a b = 0),
      a = 0 ∧ b = 0 := by
    intro a b h
    unfold hypot at h
    have h0 : a ^ 2 + b ^ 2 = 0 := by
      have := (Real.sqrt_eq_zero (by positivity)).1 h
      exact this
    constructor <;> nlinarith [sq_nonneg a, sq_nonneg b]
  exact ⟨hypot_nonneg, hypot_eq_zero⟩

theorem pathLength_nonneg : ∀ l : List Pt, 0 ≤ pathLength l
  | [] => le_refl _
  | [_] => le_refl _
  | a :: b :: rest => by
    show 0 ≤ hypot (b.px - a.px) (b.py - a.py) + pathLength (b :: rest)
    exact add_nonneg ((hypot_lemmas.1) _ _) (pathLength_nonneg (b :: rest))

theorem Pt_eq (p q : Pt) (hx : p.px = q.px) (hy : p.py = q.py) : p = q := by
  cases p; cases q; simp at hx hy; simp [hx, hy]

/-- A path of length zero ends where it starts. -/
theorem pathLength_eq_zero (B : Pt) : ∀ (pts : List Pt) (a : Pt),
    pathLength (a :: (pts ++ [B])) = 0 → B = a
  | [], a, h => by
    have h1 : hypot (B.px - a.px) (B.py - a.py) + 0 = 0 := h
    rw [add_zero] at h1
    obtain ⟨hx, hy⟩ := (hypot_lemmas.2) _ _ h1
    exact Pt_eq _ _ (by linarith) (by linarith)
  | p :: ps, a, h => by
    have h1 : hypot (p.px - a.px) (p.py - a.py) + pathLength (p :: (ps ++ [B])) = 0 := h
    have n1 := (hypot_lemmas.1) (p.px - a.px) (p.py - a.py)
    have n2 := pathLength_nonneg (p :: (ps ++ [B]))
    have z1 : hypot (p.px - a.px) (p.py - a.py) = 0 := by linarith
    have z2 : pathLength (p :: (ps ++ [B])) = 0 := by linarith
    obtain ⟨hx, hy⟩ := (hypot_lemmas.2) _ _ z1
    have e1 : B = p := pathLength_eq_zero B ps p z2
    have e2 : p = a := Pt_eq _ _ (by linarith) (by linarith)
    rw [e1, e2]

/-- One segment of the path walk.  The conjuncts, in order: `factor_bounds`,
`walkPath_zero`, `segment_end`. -/
theorem segment_lemmas :
    (∀ (dist seg : ℝ) (_ : 0 ≤ dist) (_ : 0 ≤ seg),
      0 ≤ (if seg > 0 then min (dist / seg) 1 else 0) ∧
      (if seg > 0 then min (dist / seg) 1 else 0) ≤ 1) ∧
    (∀ (fb a b : Pt) (rest : List Pt),
      walkPath fb (a :: b :: rest) 0 = a) ∧
    (∀ (a b : Pt),
      ({ px := a.px + (b.px - a.px) *
            (if hypot (b.px - a.px) (b.py - a.py) > 0
              then min (hypot (b.px - a.px) (b.py - a.py) / hypot (b.px - a.px) (b.py - a.py)) 1
              else 0),
         py := a.py + (b.py - a.py) *
            (if hypot (b.px - a.px) (b.py - a.py) > 0
              then min (hypot (b.px - a.px) (b.py - a.py) / hypot (b.px - a.px) (b.py - a.py)) 1
              else 0) } : Pt) = b) := by
  have hypot_nonneg := hypot_lemmas.1
  have hypot_eq_zero := hypot_lemmas.2
  -- The interpolation factor of a segment of length `seg` at distance `dist`.
  have factor_bounds : ∀ (dist seg : ℝ) (hd : 0 ≤ dist) (hs : 0 ≤ seg),
      0 ≤ (if seg > 0 then min (dist / seg) 1 else 0) ∧
      (if seg > 0 then min (dist / seg) 1 else 0) ≤ 1 := by
    intro dist seg hd hs
    split_ifs with h
    · exact ⟨le_min (div_nonneg hd hs) zero_le_one, min_le_right _ _⟩
    · exact ⟨le_refl _, zero_le_one⟩
  -- The walk of distance zero stays at the first waypoint.
  have walkPath_zero : ∀ (fb a b : Pt) (rest : List Pt),
      walkPath fb (a :: b :: rest) 0 = a := by
    intro fb a b rest
    unfold walkPath
    dsimp only
    rw [if_pos (Or.inl (hypot_nonneg _ _))]
    apply Pt_eq
    · show a.px + (b.px - a.px) * _ = a.px
      split_ifs <;> simp
    · show a.py + (b.py - a.py) * _ = a.py
      split_ifs <;> simp
  -- The value of a segment at its own length is its end point.
  have segment_end : ∀ (a b : Pt),
      ({ px := a.px + (b.px - a.px) *
            (if hypot (b.px - a.px) (b.py - a.py) > 0
              then min (hypot (b.px - a.px) (b.py - a.py) / hypot (b.px - a.px) (b.py - a.py)) 1
              else 0),
         py := a.py + (b.py - a.py) *
            (if hypot (b.px - a.px) (b.py - a.py) > 0
              then min (hypot (b.px - a.px) (b.py - a.py) / hypot (b.px - a.px) (b.py - a.py)) 1
              else 0) } : Pt) = b := by
    intro a b
    by_cases h : hypot (b.px - a.px) (b.py - a.py) > 0
    · rw [if_pos h, div_self (ne_of_gt h), min_self]
      apply Pt_eq
      · show a.px + (b.px - a.px) * 1 = b.px
        ring
      · show a.py + (b.py - a.py) * 1 = b.py
        ring
    · rw [if_neg h]
      have hz : hypot (b.px - a.px) (b.py - a.py) = 0 :=
        le_antisymm (not_lt.1 h) (hypot_nonneg _ _)
      obtain ⟨hx, hy⟩ := hypot_eq_zero _ _ hz
      apply Pt_eq
      · show a.px + (b.px - a.px) * 0 = b.px
        linarith
      · show a.py + (b.py - a.py) * 0 = b.py
        linarith
  exact ⟨factor_bounds, walkPath_zero, segment_end⟩

/-- Walking the whole length of the path, or more, ends at the last
waypoint. -/
theorem walkPath_end (fb B : Pt) : ∀ (pts : List Pt) (a : Pt) (c : ℝ), 0 ≤ c →
    walkPath fb (a :: (pts ++ [B])) (c + pathLength (a :: (pts ++ [B]))) = B
  | [], a, c, hc => by
    show walkPath fb (a :: B :: []) (c + (hypot (B.px - a.px) (B.py - a.py) + 0)) = B
    rw [add_zero]
    unfold walkPath
    dsimp only
    rw [if_pos (show _ ∨ ([] : List Pt).isEmpty = true from Or.inr rfl)]
    by_cases h : hypot (B.px - a.px) (B.py - a.py) > 0
    · have hm : min ((c + hypot (B.px - a.px) (B.py - a.py)) / hypot (B.px - a.px) (B.py - a.py)) 1
          = 1 := by
        apply min_eq_right
        rw [le_div_iff₀ h]
        linarith
      rw [if_pos h, hm]
      apply Pt_eq
      · show a.px + (B.px - a.px) * 1 = B.px
        ring
      · show a.py + (B.py - a.py) * 1 = B.py
        ring
    · rw [if_neg h]
      have hz : hypot (B.px - a.px) (B.py - a.py) = 0 :=
        le_antisymm (not_lt.1 h) ((hypot_lemmas.1) _ _)
      obtain ⟨hx, hy⟩ := (hypot_lemmas.2) _ _ hz
      apply Pt_eq
      · show a.px + (B.px - a.px) * 0 = B.px
        linarith
      · show a.py + (B.py - a.py) * 0 = B.py
        linarith
  | p :: ps, a, c, hc => by
    have n2 := pathLength_nonneg (p :: (ps ++ [B]))
    have hpl : pathLength (a :: (p :: ps ++ [B]))
        = hypot (p.px - a.px) (p.py - a.py) + pathLength (p :: (ps ++ [B])) := rfl
    rw [hpl]
    show walkPath fb (a :: p :: (ps ++ [B])) _ = B
    unfold walkPath
    dsimp only
    have hne : ¬ ((ps ++ [B]).isEmpty = true) := by simp
    by_cases hle : c + (hypot (p.px - a.px) (p.py - a.py) + pathLength (p :: (ps ++ [B])))
        ≤ hypot (p.px - a.px) (p.py - a.py)
    · rw [if_pos (Or.inl hle)]
      have hc0 : c = 0 := by linarith
      have hz : pathLength (p :: (ps ++ [B])) = 0 := by linarith
      have eB : B = p := pathLength_eq_zero B ps p hz
      rw [hc0, hz, zero_add, add_zero, eB]
      exact (segment_lemmas.2.2) a p
    · rw [if_neg (by
        intro h
        rcases h with h | h
        · exact hle h
        · exact hne h)]
      have e : c + (hypot (p.px - a.px) (p.py - a.py) + pathLength (p :: (ps ++ [B])))
          - hypot (p.px - a.px) (p.py - a.py) = c + pathLength (p :: (ps ++ [B])) := by ring
      rw [e]
      exact walkPath_end fb B ps p c hc

/-- C23: path endpoints and clamping.  For every linear enemy whose waypoint
path `[A, keyframes..., B]` has total length `>= 1`, zero-length segments
allowed: `positionAlongPath(en, 0)` is the point `A`, `positionAlongPath(en, 1)`
is the point `B`, and `positionAlongPath(en, t)` is the point `B` for every
`t >= 1`. -/
theorem path_endpoints (en : Enemy) (hlen : 1 ≤ totalPathLength en) :
    positionAlongPath en 0 = { px := en.x1, py := en.y1 } ∧
    positionAlongPath en 1 = { px := en.x2, py := en.y2 } ∧
    (∀ t : ℝ, 1 ≤ t → positionAlongPath en t = { px := en.x2, py := en.y2 }) := by
  have walkPath_zero := segment_lemmas.2.1
  have hn : ¬ totalPathLength en < 1 := not_lt.2 hlen
  have hend : ∀ t : ℝ, 1 ≤ t → positionAlongPath en t = { px := en.x2, py := en.y2 } := by
    intro t ht
    unfold positionAlongPath
    dsimp only
    rw [if_neg hn]
    have e : t * totalPathLength en
        = (t - 1) * totalPathLength en + pathLength (getWaypoints en) := by
      unfold totalPathLength
      ring
    rw [e]
    exact walkPath_end _ _ en.keyframes _ _
      (mul_nonneg (by linarith) (by linarith))
  refine ⟨?_, hend 1 (le_refl _), hend⟩
  unfold positionAlongPath
  dsimp only
  rw [if_neg hn, zero_mul]
  cases hk : en.keyframes with
  | nil =>
    unfold getWaypoints
    rw [hk]
    exact walkPath_zero _ _ _ _
  | cons k ks =>
    unfold getWaypoints
    rw [hk]
    exact walkPath_zero _ _ _ _

/-- The start of the walk and the continuity of one segment.  The conjuncts, in
order: `walkPath_start`, `factor_continuous`. -/
theorem walk_start_lemmas :
    (∀ (fb B : Pt) (pts : List Pt) (a : Pt),
      walkPath fb (a :: (pts ++ [B])) 0 = a) ∧
    (∀ (u v seg : ℝ),
      Continuous (fun d : ℝ => u + (v - u) * (if seg > 0 then min (d / seg) 1 else 0))) := by
  have walkPath_zero := segment_lemmas.2.1
  have walkPath_start : ∀ (fb B : Pt) (pts : List Pt) (a : Pt),
      walkPath fb (a :: (pts ++ [B])) 0 = a := by
    intro fb B pts a
    cases pts with
    | nil => exact walkPath_zero fb a B []
    | cons p ps => exact walkPath_zero fb a p (ps ++ [B])
  have factor_continuous : ∀ (u v seg : ℝ),
      Continuous (fun d : ℝ => u + (v - u) * (if seg > 0 then min (d / seg) 1 else 0)) := by
    intro u v seg
    by_cases h : seg > 0
    · simp only [if_pos h]
      exact continuous_const.add
        (continuous_const.mul ((continuous_id.div_const _).min continuous_const))
    · simp only [if_neg h]
      exact continuous_const
  exact ⟨walkPath_start, factor_continuous⟩

/-- Both coordinates of the walk are continuous in the distance walked. -/
theorem walkPath_continuous (fb B : Pt) : ∀ (pts : List Pt) (a : Pt),
    Continuous (fun d : ℝ => (walkPath fb (a :: (pts ++ [B])) d).px) ∧
    Continuous (fun d : ℝ => (walkPath fb (a :: (pts ++ [B])) d).py)
  | [], a => by
    have e : ∀ d : ℝ, walkPath fb (a :: ([] ++ [B])) d
        = { px := a.px + (B.px - a.px) *
              (if hypot (B.px - a.px) (B.py - a.py) > 0
                then min (d / hypot (B.px - a.px) (B.py - a.py)) 1 else 0),
            py := a.py + (B.py - a.py) *
              (if hypot (B.px - a.px) (B.py - a.py) > 0
                then min (d / hypot (B.px - a.px) (B.py - a.py)) 1 else 0) } := by
      intro d
      show walkPath fb (a :: B :: []) d = _
      unfold walkPath
      dsimp only
      rw [if_pos (show _ ∨ ([] : List Pt).isEmpty = true from Or.inr rfl)]
    simp only [e]
    exact ⟨(walk_start_lemmas.2) _ _ _, (walk_start_lemmas.2) _ _ _⟩
  | p :: ps, a => by
    obtain ⟨ihx, ihy⟩ := walkPath_continuous fb B ps p
    have hne : ¬ ((ps ++ [B]).isEmpty = true) := by simp
    have e : ∀ d : ℝ, walkPath fb (a :: (p :: ps ++ [B])) d
        = if d ≤ hypot (p.px - a.px) (p.py - a.py) then
            { px := a.px + (p.px - a.px) *
                (if hypot (p.px - a.px) (p.py - a.py) > 0
                  then min (d / hypot (p.px - a.px) (p.py - a.py)) 1 else 0),
              py := a.py + (p.py - a.py) *
                (if hypot (p.px - a.px) (p.py - a.py) > 0
                  then min (d / hypot (p.px - a.px) (p.py - a.py)) 1 else 0) }
          else walkPath fb (p :: (ps ++ [B])) (d - hypot (p.px - a.px) (p.py - a.py)) := by
      intro d
      show walkPath fb (a :: p :: (ps ++ [B])) d = _
      conv_lhs => unfold walkPath
      dsimp only
      by_cases hle : d ≤ hypot (p.px - a.px) (p.py - a.py)
      · rw [if_pos (Or.inl hle), if_pos hle]
      · rw [if_neg (by
          intro h
          rcases h with h | h
          · exact hle h
          · exact hne h), if_neg hle]
    have ex : ∀ d : ℝ, (walkPath fb (a :: (p :: ps ++ [B])) d).px
        = if d ≤ hypot (p.px - a.px) (p.py - a.py) then
            a.px + (p.px - a.px) *
                (if hypot (p.px - a.px) (p.py - a.py) > 0
                  then min (d / hypot (p.px - a.px) (p.py - a.py)) 1 else 0)
          else (walkPath fb (p :: (ps ++ [B])) (d - hypot (p.px - a.px) (p.py - a.py))).px := by
      intro d
      rw [e d]
      split_ifs <;> rfl
    have ey : ∀ d : ℝ, (walkPath fb (a :: (p :: ps ++ [B])) d).py
        = if d ≤ hypot (p.px - a.px) (p.py - a.py) then
            a.py + (p.py - a.py) *
                (if hypot (p.px - a.px) (p.py - a.py) > 0
                  then min (d / hypot (p.px - a.px) (p.py - a.py)) 1 else 0)
          else (walkPath fb (p :: (ps ++ [B])) (d - hypot (p.px - a.px) (p.py - a.py))).py := by
      intro d
      rw [e d]
      split_ifs <;> rfl
    have hjoin := (segment_lemmas.2.2) a p
    have hstart := (walk_start_lemmas.1) fb B ps p
    constructor
    · simp only [ex]
      refine Continuous.if_le ((walk_start_lemmas.2) _ _ _)
        (ihx.comp (continuous_id.sub continuous_const)) continuous_id continuous_const ?_
      intro d hd
      have hd' : d = hypot (p.px - a.px) (p.py - a.py) := hd
      rw [hd']
      show _ = (walkPath fb (p :: (ps ++ [B]))
        (hypot (p.px - a.px) (p.py - a.py) - hypot (p.px - a.px) (p.py - a.py))).px
      rw [sub_self, hstart]
      exact congrArg Pt.px hjoin
    · simp only [ey]
      refine Continuous.if_le ((walk_start_lemmas.2) _ _ _)
        (ihy.comp (continuous_id.sub continuous_const)) continuous_id continuous_const ?_
      intro d hd
      have hd' : d = hypot (p.px - a.px) (p.py - a.py) := hd
      rw [hd']
      show _ = (walkPath fb (p :: (ps ++ [B]))
        (hypot (p.px - a.px) (p.py - a.py) - hypot (p.px - a.px) (p.py - a.py))).py
      rw [sub_self, hstart]
      exact congrArg Pt.py hjoin

/-- Every value of the walk lies on one of the segments of the path. -/
theorem walkPath_onPath (fb B : Pt) : ∀ (pts : List Pt) (a : Pt) (d : ℝ), 0 ≤ d →
    onPath (a :: (pts ++ [B])) (walkPath fb (a :: (pts ++ [B])) d)
  | [], a, d, hd => by
    show onPath (a :: B :: []) (walkPath fb (a :: B :: []) d)
    unfold walkPath
    dsimp only
    rw [if_pos (show _ ∨ ([] : List Pt).isEmpty = true from Or.inr rfl)]
    obtain ⟨f0, f1⟩ := (segment_lemmas.1) d (hypot (B.px - a.px) (B.py - a.py)) hd ((hypot_lemmas.1) _ _)
    exact ⟨a, B, _, by simp, f0, f1, rfl, rfl⟩
  | p :: ps, a, d, hd => by
    have hne : ¬ ((ps ++ [B]).isEmpty = true) := by simp
    show onPath (a :: p :: (ps ++ [B])) (walkPath fb (a :: p :: (ps ++ [B])) d)
    conv => arg 2; unfold walkPath
    dsimp only
    by_cases hle : d ≤ hypot (p.px - a.px) (p.py - a.py)
    · rw [if_pos (Or.inl hle)]
      obtain ⟨f0, f1⟩ := (segment_lemmas.1) d (hypot (p.px - a.px) (p.py - a.py)) hd ((hypot_lemmas.1) _ _)
      exact ⟨a, p, _, by simp, f0, f1, rfl, rfl⟩
    · rw [if_neg (by
        intro h
        rcases h with h | h
        · exact hle h
        · exact hne h)]
      obtain ⟨u, v, f, hm, f0, f1, hx, hy⟩ :=
        walkPath_onPath fb B ps p (d - hypot (p.px - a.px) (p.py - a.py))
          (by linarith [not_le.1 hle])
      refine ⟨u, v, f, ?_, f0, f1, hx, hy⟩
      show (u, v) ∈ (a, p) :: (p :: (ps ++ [B])).zip (ps ++ [B])
      exact List.mem_cons_of_mem _ hm

/-- C24: the path position is continuous.  For every linear enemy whose path
has total length `>= 1`, both coordinates of `t -> positionAlongPath(en, t)`
are continuous functions of the real `t`, on the whole line and so on `[0,1]`
(no jump at a waypoint, zero-length segments allowed), and for every `t` in
`[0,1]` the value lies on one of the segments of the path: it is
`u + f (v - u)` for consecutive waypoints `u`, `v` and some `f` in `[0,1]`. -/
theorem path_position_continuous (en : Enemy) (hlen : 1 ≤ totalPathLength en) :
    (Continuous (fun t : ℝ => (positionAlongPath en t).px) ∧
      Continuous (fun t : ℝ => (positionAlongPath en t).py)) ∧
    (ContinuousOn (fun t : ℝ => (positionAlongPath en t).px) (Set.Icc 0 1) ∧
      ContinuousOn (fun t : ℝ => (positionAlongPath en t).py) (Set.Icc 0 1)) ∧
    (∀ t : ℝ, 0 ≤ t → t ≤ 1 → onPath (getWaypoints en) (positionAlongPath en t)) := by
  have hn : ¬ totalPathLength en < 1 := not_lt.2 hlen
  have e : ∀ t : ℝ, positionAlongPath en t
      = walkPath { px := en.x2, py := en.y2 } (getWaypoints en) (t * totalPathLength en) := by
    intro t
    unfold positionAlongPath
    dsimp only
    rw [if_neg hn]
  obtain ⟨cx, cy⟩ := walkPath_continuous { px := en.x2, py := en.y2 } { px := en.x2, py := en.y2 }
    en.keyframes { px := en.x1, py := en.y1 }
  have hx : Continuous (fun t : ℝ => (positionAlongPath en t).px) := by
    simp only [e]
    exact cx.comp (continuous_id.mul continuous_const)
  have hy : Continuous (fun t : ℝ => (positionAlongPath en t).py) := by
    simp only [e]
    exact cy.comp (continuous_id.mul continuous_const)
  refine ⟨⟨hx, hy⟩, ⟨hx.continuousOn, hy.continuousOn⟩, ?_⟩
  intro t h0 _
  rw [e t]
  exact walkPath_onPath _ _ en.keyframes _ _ (mul_nonneg h0 (by linarith))

/-! ## Concrete enemies -/

/-- Evaluation on the concrete enemies.  The conjuncts, in order: `hypot_left`,
`totalPathLength_patrolEnemy`, `totalPathLength_stillEnemy`,
`buildEnemy_patrolEnemy`. -/
theorem patrol_evaluation :
    (∀ (a : ℝ) (_ : 0 ≤ a),
      hypot a 0 = a) ∧
    (totalPathLength patrolEnemy = 96) ∧
    (totalPathLength stillEnemy = 0) ∧
    (buildEnemy patrolEnemy = patrolRun) := by
  have walkPath_zero := segment_lemmas.2.1
  have hypot_left : ∀ (a : ℝ) (h : 0 ≤ a),
      hypot a 0 = a := by
    intro a h
    unfold hypot
    rw [show a ^ 2 + (0 : ℝ) ^ 2 = a ^ 2 by ring]
    exact Real.sqrt_sq h
  have totalPathLength_patrolEnemy :
      totalPathLength patrolEnemy = 96 := by
    show hypot (112 - 16) (16 - 16) + 0 = 96
    rw [add_zero, sub_self, hypot_left _ (by norm_num)]
    norm_num
  have totalPathLength_stillEnemy :
      totalPathLength stillEnemy = 0 := by
    simp [totalPathLength, getWaypoints, pathLength, stillEnemy, hypot]
  -- The runtime state that `buildPlayState` gives `patrolEnemy`.
  have buildEnemy_patrolEnemy :
      buildEnemy patrolEnemy = patrolRun := by
    have hp : positionAlongPath patrolEnemy 0 = { px := 16, py := 16 } := by
      unfold positionAlongPath
      dsimp only
      rw [if_neg (by rw [totalPathLength_patrolEnemy]; norm_num), zero_mul]
      exact walkPath_zero _ _ _ _
    unfold buildEnemy
    rw [if_neg (by simp [patrolEnemy])]
    dsimp only
    rw [totalPathLength_patrolEnemy]
    have hj : jsOr patrolEnemy.phase 0 = 0 := by
      unfold jsOr
      simp [patrolEnemy]
    have hd : jsOr patrolEnemy.duration 3 = 3 := by
      show jsOr 3 3 = 3
      unfold jsOr
      simp
    rw [hj, hd, hp, zero_mul, if_pos (show patrolEnemy.forward = true from rfl),
      if_pos (show (96 : ℝ) > 0 by norm_num)]
    rfl
  exact ⟨hypot_left, totalPathLength_patrolEnemy, totalPathLength_stillEnemy,
    buildEnemy_patrolEnemy⟩

theorem bounce_never_overshoots_witness :
    (advanceEnemy 4 patrolRun).t = 96 ∧ (advanceEnemy 4 patrolRun).dir = -1 :=
  (bounce_never_overshoots 4 patrolRun rfl rfl
    (by show (1 : ℝ) ≤ 96; norm_num)).2.1
    (by show (0 : ℝ) + 96 / 3 * 4 * 1 ≥ 96; norm_num)

theorem loop_mode_periodic_witness :
    (advanceTicks [1, 2] loopRun).t = loopRun.t ∧ (advanceTicks [1, 2] loopRun).dir = loopRun.dir :=
  have h := (loop_mode_periodic loopRun 3 [1, 2] rfl rfl
    (by show (1 : ℝ) ≤ 96; norm_num) (by norm_num) rfl
    ⟨by show (0 : ℝ) ≤ 0; norm_num, by show (0 : ℝ) < 96; norm_num⟩
    (by
      intro dt hdt
      simp at hdt
      rcases hdt with h | h <;> rw [h] <;> norm_num)).2.2
    (by norm_num)
  ⟨h.1, h.2.1⟩

theorem path_endpoints_witness :
    positionAlongPath patrolEnemy 0 = { px := 16, py := 16 } ∧
    positionAlongPath patrolEnemy 1 = { px := 112, py := 16 } ∧
    positionAlongPath patrolEnemy 2 = { px := 112, py := 16 } :=
  have totalPathLength_patrolEnemy := patrol_evaluation.2.1
  have h := path_endpoints patrolEnemy (by rw [totalPathLength_patrolEnemy]; norm_num)
  ⟨h.1, h.2.1, h.2.2 2 (by norm_num)⟩

theorem path_position_continuous_witness :
    Continuous (fun t : ℝ => (positionAlongPath patrolEnemy t).px) ∧
    onPath (getWaypoints patrolEnemy) (positionAlongPath patrolEnemy (1 / 2)) :=
  have totalPathLength_patrolEnemy := patrol_evaluation.2.1
  have h := path_position_continuous patrolEnemy (by rw [totalPathLength_patrolEnemy]; norm_num)
  ⟨h.1.1, h.2.2 (1 / 2) (by norm_num) (by norm_num)⟩

theorem degenerate_path_stationary_witness :
    (buildEnemy stillEnemy).px = 48 ∧ (buildEnemy stillEnemy).py = 80 ∧
    advanceTicks [1 / 20, 1 / 20] (buildEnemy stillEnemy) = buildEnemy stillEnemy :=
  have totalPathLength_stillEnemy := patrol_evaluation.2.2.1
  have h := degenerate_path_stationary stillEnemy rfl
    (by rw [totalPathLength_stillEnemy]; norm_num)
  ⟨h.2.1.1, h.2.1.2.1, h.2.2.2 _⟩

/-! ## C28: the axis-separated move -/

/-- The final clamp and the position before it.  The conjuncts, in order:
`clampPlayer_of_inside`, `player_updatePlay_clamp`, `preClamp_slide_y`,
`preClamp_slide_x`. -/
theorem clamp_lemmas :
    (∀ (L : Level) (p : Player) (_ : insideClamp L p),
      clampPlayer L p = p) ∧
    (∀ (L : Level) (keysDown : String → Bool) (dt : ℝ) (s : Play) (_ : reachesMove L dt s),
      (updatePlay L keysDown dt s).player
        = clampPlayer L (preClamp L dt (beforeMove L keysDown dt s))) ∧
    (∀ (L : Level) (dt : ℝ) (m : Play) (_ : xRejected L dt m) (_ : yAdmissible L dt m),
      preClamp L dt m = { x := m.player.x, y := m.player.y + m.playerVy * dt }) ∧
    (∀ (L : Level) (dt : ℝ) (m : Play) (_ : ¬ xRejected L dt m) (_ : yRejected L dt m),
      preClamp L dt m = { x := m.player.x + m.playerVx * dt, y := m.player.y }) := by
  have player_updatePlay := collision_square_lemmas_d.2.2.2.1
  have moveAxis_of_blocked := ice_switch_lemmas.2.2.2.2.2.2.1
  have moveAxis_of_not_blocked := ice_switch_lemmas.2.2.2.2.2.2.2
  have newX_cases := ice_switch_lemmas_b.2.1
  have newY_cases := ice_switch_lemmas_b.2.2.1
  have clampPlayer_of_inside : ∀ (L : Level) (p : Player) (h : insideClamp L p),
      clampPlayer L p = p := by
    intro L p h
    obtain ⟨⟨h1, h2⟩, h3, h4⟩ := h
    unfold clampPlayer
    rw [min_eq_right h2, max_eq_right h1, min_eq_right h4, max_eq_right h3]
  -- The player after a tick that reaches the move: the clamp of the position
  -- that the two axis moves give.
  have player_updatePlay_clamp : ∀ (L : Level) (keysDown : String → Bool) (dt : ℝ) (s : Play)
      (h : reachesMove L dt s),
      (updatePlay L keysDown dt s).player
        = clampPlayer L (preClamp L dt (beforeMove L keysDown dt s)) := by
    intro L keysDown dt s h
    rw [player_updatePlay L keysDown dt s h]
    rfl
  -- The X move rejected, the Y move from `(x, y)` admissible: before the clamp
  -- `X` is as before and `Y` is advanced by `vy*dt`.
  have preClamp_slide_y : ∀ (L : Level) (dt : ℝ) (m : Play) (hx : xRejected L dt m)
      (hy : yAdmissible L dt m),
      preClamp L dt m = { x := m.player.x, y := m.player.y + m.playerVy * dt } := by
    intro L dt m hx hy
    unfold preClamp
    dsimp only
    rw [moveAxis_of_blocked _ _ _ _ _ _ hx]
    dsimp only
    rw [moveAxis_of_not_blocked _ _ _ _ _ _ hy]
  -- The X move accepted, the Y move rejected: before the clamp `X` is advanced
  -- by `vx*dt` and `Y` is as before.
  have preClamp_slide_x : ∀ (L : Level) (dt : ℝ) (m : Play) (hx : ¬ xRejected L dt m)
      (hy : yRejected L dt m),
      preClamp L dt m = { x := m.player.x + m.playerVx * dt, y := m.player.y } := by
    intro L dt m hx hy
    unfold preClamp
    dsimp only
    rw [(newY_cases L dt m).1 hy, (newX_cases L dt m).2 hx]
  exact ⟨clampPlayer_of_inside, player_updatePlay_clamp, preClamp_slide_y, preClamp_slide_x⟩

/-- C28, amended: the axis-separated move.  In every tick that reaches the
move, with `m` the state before the move (position `(x, y)`, velocity
`(vx, vy)` of the tick): the position before the final clamp is `(X', Y')` with
`X' = moveAxis(x, y, vx*dt, 0).x` and `Y' = moveAxis(X', y, 0, vy*dt).y`, and
the player ends the tick on the clamp of `(X', Y')`.  When the X displacement is
rejected and the Y displacement from `(x, y)` is admissible, `(X', Y')` is
`(x, y + vy*dt)`, and the player ends the tick there when that point lies
inside the clamp bounds; when the X displacement is accepted and the Y
displacement is rejected, `(X', Y')` is `(x + vx*dt, y)`, and the player ends
the tick there when that point lies inside the clamp bounds. -/
theorem axis_separated_move (L : Level) (keysDown : String → Bool) (dt : ℝ) (s m : Play)
    (h : reachesMove L dt s) (hm : m = beforeMove L keysDown dt s) :
    (m.player = s.player ∧
      (preClamp L dt m).x = (moveAxis L m.playDoors m.player.x m.player.y (m.playerVx * dt) 0).x ∧
      (preClamp L dt m).y
        = (moveAxis L m.playDoors (preClamp L dt m).x m.player.y 0 (m.playerVy * dt)).y ∧
      (updatePlay L keysDown dt s).player = clampPlayer L (preClamp L dt m)) ∧
    (xRejected L dt m → yAdmissible L dt m →
      preClamp L dt m = { x := m.player.x, y := m.player.y + m.playerVy * dt } ∧
      (insideClamp L { x := m.player.x, y := m.player.y + m.playerVy * dt } →
        (updatePlay L keysDown dt s).player
          = { x := m.player.x, y := m.player.y + m.playerVy * dt })) ∧
    (¬ xRejected L dt m → yRejected L dt m →
      preClamp L dt m = { x := m.player.x + m.playerVx * dt, y := m.player.y } ∧
      (insideClamp L { x := m.player.x + m.playerVx * dt, y := m.player.y } →
        (updatePlay L keysDown dt s).player
          = { x := m.player.x + m.playerVx * dt, y := m.player.y })) := by
  have player_beforeMove := collision_square_lemmas_d.2.1
  have clampPlayer_of_inside := clamp_lemmas.1
  have player_updatePlay_clamp := clamp_lemmas.2.1
  have preClamp_slide_y := clamp_lemmas.2.2.1
  have preClamp_slide_x := clamp_lemmas.2.2.2
  have hfin : (updatePlay L keysDown dt s).player = clampPlayer L (preClamp L dt m) := by
    rw [hm]
    exact player_updatePlay_clamp L keysDown dt s h
  refine ⟨⟨?_, rfl, rfl, hfin⟩, ?_, ?_⟩
  · rw [hm]
    exact player_beforeMove L keysDown dt s
  · intro hx hy
    have e := preClamp_slide_y L dt m hx hy
    refine ⟨e, fun hi => ?_⟩
    rw [hfin, e]
    exact clampPlayer_of_inside L _ hi
  · intro hx hy
    have e := preClamp_slide_x L dt m hx hy
    refine ⟨e, fun hi => ?_⟩
    rw [hfin, e]
    exact clampPlayer_of_inside L _ hi

/-! ### Evaluation in `slideLevel` -/

/-- Evaluation of the tick on `slideLevel`.  The conjuncts, in order:
`sqrt_two_bounds`, `diagonal_bounds`, `inputVelocity_upRight`,
`slideLevel_no_ice`, `beforeMove_slide`. -/
theorem slideLevel_evaluation :
    (1 ≤ Real.sqrt 2 ∧ Real.sqrt 2 ≤ 2) ∧
    (60 ≤ 120 / Real.sqrt 2 ∧ 120 / Real.sqrt 2 ≤ 120) ∧
    (∀ (L : Level),
      inputVelocity L upRightKey
        = (L.currentPlayerSpeed / Real.sqrt 2, -(L.currentPlayerSpeed / Real.sqrt 2))) ∧
    (∀ (gy gx : ℤ),
      slideLevel.grid gy gx ≠ TILE_ICE) ∧
    (∀ (dt : ℝ) (s : Play),
      beforeMove slideLevel upRightKey dt s
        = { s with playTimer := s.playTimer + dt, playerOnIce := false,
                   playerVx := 120 / Real.sqrt 2, playerVy := -(120 / Real.sqrt 2) }) := by
  have beforeMove_off_ice := ice_switch_lemmas.1
  have not_nowOnIce_of_grid := tour_evaluation.2.1
  have sqrt_two_bounds :
      1 ≤ Real.sqrt 2 ∧ Real.sqrt 2 ≤ 2 := by
    constructor
    · rw [Real.le_sqrt' (by norm_num)]
      norm_num
    · rw [Real.sqrt_le_iff]
      constructor <;> norm_num
  -- The diagonal speed component of a level of speed 120: `120 / sqrt 2` lies
  -- between 60 and 120.
  have diagonal_bounds :
      60 ≤ 120 / Real.sqrt 2 ∧ 120 / Real.sqrt 2 ≤ 120 := by
    obtain ⟨h1, h2⟩ := sqrt_two_bounds
    have hp : 0 < Real.sqrt 2 := by linarith
    constructor
    · rw [le_div_iff₀ hp]
      linarith
    · rw [div_le_iff₀ hp]
      linarith
  have inputVelocity_upRight : ∀ (L : Level),
      inputVelocity L upRightKey
        = (L.currentPlayerSpeed / Real.sqrt 2, -(L.currentPlayerSpeed / Real.sqrt 2)) := by
    intro L
    have hx : inputX upRightKey = 1 := by simp [inputX, upRightKey]
    have hy : inputY upRightKey = -1 := by simp [inputY, upRightKey]
    unfold inputVelocity
    dsimp only
    rw [hx, hy, if_pos (by norm_num)]
    refine Prod.ext ?_ ?_ <;> dsimp only <;> ring
  have slideLevel_no_ice : ∀ (gy gx : ℤ),
      slideLevel.grid gy gx ≠ TILE_ICE := by
    intro gy gx
    unfold slideLevel TILE_WALL TILE_ICE TILE_EMPTY
    dsimp only
    split_ifs <;> decide
  -- The state before the move of a `slideLevel` tick with up and right held.
  have beforeMove_slide : ∀ (dt : ℝ) (s : Play),
      beforeMove slideLevel upRightKey dt s
        = { s with playTimer := s.playTimer + dt, playerOnIce := false,
                   playerVx := 120 / Real.sqrt 2, playerVy := -(120 / Real.sqrt 2) } := by
    intro dt s
    rw [beforeMove_off_ice slideLevel upRightKey dt s
      (not_nowOnIce_of_grid slideLevel _ slideLevel_no_ice), inputVelocity_upRight]
    rfl
  exact ⟨sqrt_two_bounds, diagonal_bounds, inputVelocity_upRight, slideLevel_no_ice,
    beforeMove_slide⟩

/-- Evaluation of the tick on `slideLevel`.  The conjuncts, in order:
`cellFree_slide`, `slide_x_rejected`, `slide_y_free`, `slide_y_admissible`. -/
theorem slideLevel_evaluation_b :
    (∀ (gx gy : ℤ) (_ : gx = 0 ∨ gx = 1) (_ : 0 ≤ gy ∧ gy < 3),
      cellFree slideLevel [] gx gy) ∧
    (∀ (y : ℝ) (_ : 10 ≤ y ∧ y < 42),
      xRejected slideLevel (1 / 100)
        (beforeMove slideLevel upRightKey (1 / 100) (demoPlay (107 / 2) y))) ∧
    (∀ (y : ℝ) (_ : 10 ≤ y ∧ y + 10 < 96),
      cornersFree slideLevel [] (107 / 2 + 0) y) ∧
    (∀ (y : ℝ) (_ : 23 / 2 ≤ y ∧ y < 80),
      yAdmissible slideLevel (1 / 100)
        (beforeMove slideLevel upRightKey (1 / 100) (demoPlay (107 / 2) y))) := by
  have exists_corner_blocked_iff := phase_frames_b.2.2.2.2.1
  have floor_div32 := demo_evaluation.1
  have cornerBlocked_of_wall := wallSlide_evaluation.2.2.1
  have diagonal_bounds := slideLevel_evaluation.2.1
  have beforeMove_slide := slideLevel_evaluation.2.2.2.2
  have cellFree_slide : ∀ (gx gy : ℤ) (hx : gx = 0 ∨ gx = 1) (hy : 0 ≤ gy ∧ gy < 3),
      cellFree slideLevel [] gx gy := by
    intro gx gy hx hy
    refine ⟨⟨?_, ?_, hy.1, hy.2⟩, ?_, ?_⟩
    · rcases hx with rfl | rfl <;> decide
    · rcases hx with rfl | rfl <;> decide
    · have h2 : gx ≠ 2 := by rcases hx with rfl | rfl <;> decide
      unfold slideLevel TILE_WALL TILE_EMPTY
      dsimp only
      rw [if_neg (fun hc => h2 hc.1)]
      decide
    · rintro ⟨d, hd, -⟩
      exact absurd hd (List.not_mem_nil d)
  -- In `slideLevel` the square of centre `(107/2 + dx, y)` with `dx` between
  -- `3/5` and `6/5` reaches the wall column.
  have slide_x_rejected : ∀ (y : ℝ) (hy : 10 ≤ y ∧ y < 42),
      xRejected slideLevel (1 / 100)
        (beforeMove slideLevel upRightKey (1 / 100) (demoPlay (107 / 2) y)) := by
    intro y hy
    obtain ⟨d1, d2⟩ := diagonal_bounds
    rw [beforeMove_slide]
    have e : PLAYER_SIZE / 2 - 1 = 10 := by unfold PLAYER_SIZE; norm_num
    refine ⟨{ px := 107 / 2 + 120 / Real.sqrt 2 * (1 / 100) + 10, py := y + 0 - 10 }, ?_, ?_⟩
    · simp [corners, e, demoPlay]
    · have hgy : ⌊(y + 0 - 10) / 32⌋ = 0 := floor_div32 _ 0 (by norm_num; linarith) (by norm_num; linarith)
      refine cornerBlocked_of_wall slideLevel _ _ 2 0
        (floor_div32 _ 2 (by norm_num; linarith) (by norm_num; linarith)) hgy ?_
      unfold slideLevel
      simp
  -- In `slideLevel` the square of centre `(107/2, y')` is free when it stays
  -- inside the rows of the level.
  have slide_y_free : ∀ (y : ℝ) (hy : 10 ≤ y ∧ y + 10 < 96),
      cornersFree slideLevel [] (107 / 2 + 0) y := by
    intro y hy
    have fy : ∀ py : ℝ, 0 ≤ py → py < 96 → 0 ≤ ⌊py / 32⌋ ∧ ⌊py / 32⌋ < 3 := by
      intro py h0 h1
      constructor
      · rw [Int.floor_nonneg]; positivity
      · rw [Int.floor_lt]; push_cast; linarith
    have fx1 : ⌊((107 : ℝ) / 2 + 0 - 10) / 32⌋ = 1 := floor_div32 _ 1 (by norm_num) (by norm_num)
    have fx2 : ⌊((107 : ℝ) / 2 + 0 + 10) / 32⌋ = 1 := floor_div32 _ 1 (by norm_num) (by norm_num)
    unfold cornersFree
    rw [fx1, fx2]
    exact ⟨cellFree_slide 1 _ (Or.inr rfl) (fy _ (by linarith) (by linarith)),
      cellFree_slide 1 _ (Or.inr rfl) (fy _ (by linarith) (by linarith)),
      cellFree_slide 1 _ (Or.inr rfl) (fy _ (by linarith) (by linarith)),
      cellFree_slide 1 _ (Or.inr rfl) (fy _ (by linarith) (by linarith))⟩
  have slide_y_admissible : ∀ (y : ℝ) (hy : 23 / 2 ≤ y ∧ y < 80),
      yAdmissible slideLevel (1 / 100)
        (beforeMove slideLevel upRightKey (1 / 100) (demoPlay (107 / 2) y)) := by
    intro y hy
    obtain ⟨d1, d2⟩ := diagonal_bounds
    rw [beforeMove_slide]
    unfold yAdmissible
    show ¬ ∃ c ∈ corners ((107 : ℝ) / 2 + 0) (y + -(120 / Real.sqrt 2) * (1 / 100)),
      cornerBlocked slideLevel [] c
    rw [exists_corner_blocked_iff slideLevel _ List.Pairwise.nil, not_not]
    exact slide_y_free _ ⟨by show (10 : ℝ) ≤ y + -(120 / Real.sqrt 2) * (1 / 100); linarith,
      by show y + -(120 / Real.sqrt 2) * (1 / 100) + 10 < 96; linarith⟩
  exact ⟨cellFree_slide, slide_x_rejected, slide_y_free, slide_y_admissible⟩

theorem axis_separated_move_witness :
    (updatePlay slideLevel upRightKey (1 / 100) (demoPlay (107 / 2) 40)).player
      = { x := (beforeMove slideLevel upRightKey (1 / 100) (demoPlay (107 / 2) 40)).player.x,
          y := (beforeMove slideLevel upRightKey (1 / 100) (demoPlay (107 / 2) 40)).player.y +
            (beforeMove slideLevel upRightKey (1 / 100) (demoPlay (107 / 2) 40)).playerVy
              * (1 / 100) } :=
  have reachesMove_of_no_limit := wallSlide_evaluation.1
  have diagonal_bounds := slideLevel_evaluation.2.1
  have beforeMove_slide := slideLevel_evaluation.2.2.2.2
  have slide_x_rejected := slideLevel_evaluation_b.2.1
  have slide_y_admissible := slideLevel_evaluation_b.2.2.2
  ((axis_separated_move slideLevel upRightKey (1 / 100) (demoPlay (107 / 2) 40)
    (beforeMove slideLevel upRightKey (1 / 100) (demoPlay (107 / 2) 40))
    (reachesMove_of_no_limit slideLevel _ _ rfl rfl) rfl).2.1
    (slide_x_rejected 40 (by norm_num)) (slide_y_admissible 40 (by norm_num))).2
    (by
      obtain ⟨d1, d2⟩ := diagonal_bounds
      rw [beforeMove_slide]
      unfold insideClamp PLAYER_SIZE TILE slideLevel demoLevel demoPlay
      dsimp only
      norm_num
      constructor <;> linarith)

/-- The counterexample to C28 as worded: in `slideLevel`, the player at
`(107/2, 23/2)` with up and right held and `dt = 1/100`.  The X displacement is
rejected by the wall, the Y displacement from `(x, y)` is admissible, and the
player ends the tick at `y = 11`, which is not `y + vy*dt`: the final clamp has
moved it. -/
theorem axis_separated_move_counterexample :
    reachesMove slideLevel (1 / 100) (demoPlay (107 / 2) (23 / 2)) ∧
    xRejected slideLevel (1 / 100)
      (beforeMove slideLevel upRightKey (1 / 100) (demoPlay (107 / 2) (23 / 2))) ∧
    yAdmissible slideLevel (1 / 100)
      (beforeMove slideLevel upRightKey (1 / 100) (demoPlay (107 / 2) (23 / 2))) ∧
    (updatePlay slideLevel upRightKey (1 / 100) (demoPlay (107 / 2) (23 / 2))).player
      = { x := 107 / 2, y := 11 } ∧
    (updatePlay slideLevel upRightKey (1 / 100) (demoPlay (107 / 2) (23 / 2))).player.y
      ≠ 23 / 2 + (beforeMove slideLevel upRightKey (1 / 100)
          (demoPlay (107 / 2) (23 / 2))).playerVy * (1 / 100) := by
  have reachesMove_of_no_limit := wallSlide_evaluation.1
  have player_updatePlay_clamp := clamp_lemmas.2.1
  have preClamp_slide_y := clamp_lemmas.2.2.1
  have diagonal_bounds := slideLevel_evaluation.2.1
  have beforeMove_slide := slideLevel_evaluation.2.2.2.2
  have slide_x_rejected := slideLevel_evaluation_b.2.1
  have slide_y_admissible := slideLevel_evaluation_b.2.2.2
  obtain ⟨d1, d2⟩ := diagonal_bounds
  have hr : reachesMove slideLevel (1 / 100) (demoPlay (107 / 2) (23 / 2)) :=
    reachesMove_of_no_limit slideLevel _ _ rfl rfl
  have hx := slide_x_rejected (23 / 2) (by norm_num)
  have hy := slide_y_admissible (23 / 2) (by norm_num)
  have hfin : (updatePlay slideLevel upRightKey (1 / 100) (demoPlay (107 / 2) (23 / 2))).player
      = { x := 107 / 2, y := 11 } := by
    rw [player_updatePlay_clamp slideLevel upRightKey (1 / 100) _ hr,
      preClamp_slide_y slideLevel (1 / 100) _ hx hy, beforeMove_slide]
    unfold clampPlayer PLAYER_SIZE TILE slideLevel demoLevel demoPlay
    dsimp only
    have h1 : max (22 / 2 : ℝ) (min (((4 : ℕ) : ℝ) * 32 - 22 / 2) (107 / 2)) = 107 / 2 := by
      rw [min_eq_right (by norm_num), max_eq_right (by norm_num)]
    have h2 : max (22 / 2 : ℝ) (min (((3 : ℕ) : ℝ) * 32 - 22 / 2)
        (23 / 2 + -(120 / Real.sqrt 2) * (1 / 100))) = 11 := by
      rw [min_eq_right (by norm_num; linarith), max_eq_left (by linarith)]
      norm_num
    rw [h1, h2]
  refine ⟨hr, hx, hy, hfin, ?_⟩
  rw [hfin, beforeMove_slide]
  show (11 : ℝ) ≠ 23 / 2 + -(120 / Real.sqrt 2) * (1 / 100)
  intro hc
  linarith

/-! ## C30: the time limit after it is hit -/

/-- A tick, a respawn and a reset with the time limit used up.  The conjuncts,
in order: `updatePlay_past_limit`, `respawn_frame`, `deathCycle_past_limit`. -/
theorem past_limit_lemmas :
    (∀ (L : Level) (keysDown : String → Bool) (dt : ℝ) (s : Play) (_ : L.currentTimeLimit > 0)
      (_ : s.playTimer ≥ L.currentTimeLimit) (_ : s.playerDying = false) (_ : 0 ≤ dt),
      updatePlay L keysDown dt s = die { s with playTimer := s.playTimer + dt }) ∧
    (∀ (L : Level) (u : Play) (_ : u.playMode = true),
      ((respawn L u).playTimer = u.playTimer ∧ (respawn L u).deaths = u.deaths ∧
        (respawn L u).checkpointPos = u.checkpointPos ∧ (respawn L u).playMode = true ∧
        (respawn L u).playerDying = false ∧ (respawn L u).player = respawnPoint L u) ∧
      ((resetPlayState L u).playTimer = u.playTimer ∧ (resetPlayState L u).deaths = u.deaths ∧
        (resetPlayState L u).checkpointPos = u.checkpointPos ∧
        (resetPlayState L u).playMode = true ∧
        (resetPlayState L u).playerDying = false ∧
        (resetPlayState L u).player = respawnPoint L u)) ∧
    (∀ (L : Level) (c : (String → Bool) × ℝ) (s : Play) (_ : L.currentTimeLimit > 0)
      (_ : s.playTimer ≥ L.currentTimeLimit) (_ : s.playMode = true)
      (_ : s.playerDying = false) (_ : 0 ≤ c.2),
      (deathCycle L c s).deaths = s.deaths + 1 ∧
      (deathCycle L c s).playTimer ≥ L.currentTimeLimit ∧
      (deathCycle L c s).playMode = true ∧
      (deathCycle L c s).playerDying = false ∧
      (deathCycle L c s).checkpointPos = s.checkpointPos ∧
      (deathCycle L c s).player = respawnPoint L s) := by
  have updatePlay_of_timeUp := contact_lemmas_b.2.2.2.2.2.2
  have respawn_eq := rebuild_lemmas.2.1
  have resetPlayState_eq := rebuild_lemmas.2.2
  -- A tick that starts with the timer at the limit or beyond it, the player not
  -- dying: the time limit ends it with a death.
  have updatePlay_past_limit : ∀ (L : Level) (keysDown : String → Bool) (dt : ℝ) (s : Play)
      (hL : L.currentTimeLimit > 0) (ht : s.playTimer ≥ L.currentTimeLimit)
      (hd : s.playerDying = false) (hdt : 0 ≤ dt),
      updatePlay L keysDown dt s = die { s with playTimer := s.playTimer + dt } := by
    intro L keysDown dt s hL ht hd hdt
    refine updatePlay_of_timeUp L keysDown dt s hd ⟨hL, ?_⟩
    show L.currentTimeLimit - (s.playTimer + dt) ≤ 0
    linarith
  -- The respawn and the manual reset keep the timer, the death count, the
  -- checkpoint and the play mode, put the player on the respawn point and clear the
  -- dying flag.
  have respawn_frame : ∀ (L : Level) (u : Play) (hp : u.playMode = true),
      ((respawn L u).playTimer = u.playTimer ∧ (respawn L u).deaths = u.deaths ∧
        (respawn L u).checkpointPos = u.checkpointPos ∧ (respawn L u).playMode = true ∧
        (respawn L u).playerDying = false ∧ (respawn L u).player = respawnPoint L u) ∧
      ((resetPlayState L u).playTimer = u.playTimer ∧ (resetPlayState L u).deaths = u.deaths ∧
        (resetPlayState L u).checkpointPos = u.checkpointPos ∧
        (resetPlayState L u).playMode = true ∧
        (resetPlayState L u).playerDying = false ∧
        (resetPlayState L u).player = respawnPoint L u) := by
    intro L u hp
    rw [respawn_eq L u hp, resetPlayState_eq L u]
    exact ⟨⟨rfl, rfl, rfl, hp, rfl, rfl⟩, rfl, rfl, rfl, hp, rfl, rfl⟩
  -- One death cycle past the limit.
  have deathCycle_past_limit : ∀ (L : Level) (c : (String → Bool) × ℝ) (s : Play)
      (hL : L.currentTimeLimit > 0) (ht : s.playTimer ≥ L.currentTimeLimit)
      (hm : s.playMode = true) (hd : s.playerDying = false) (hdt : 0 ≤ c.2),
      (deathCycle L c s).deaths = s.deaths + 1 ∧
      (deathCycle L c s).playTimer ≥ L.currentTimeLimit ∧
      (deathCycle L c s).playMode = true ∧
      (deathCycle L c s).playerDying = false ∧
      (deathCycle L c s).checkpointPos = s.checkpointPos ∧
      (deathCycle L c s).player = respawnPoint L s := by
    intro L c s hL ht hm hd hdt
    unfold deathCycle
    rw [updatePlay_past_limit L c.1 c.2 s hL ht hd hdt]
    obtain ⟨⟨h1, h2, h3, h4, h5, h6⟩, -⟩ :=
      respawn_frame L (die { s with playTimer := s.playTimer + c.2 }) hm
    rw [h1, h2, h3, h4, h5, h6]
    refine ⟨rfl, ?_, rfl, rfl, rfl, rfl⟩
    show s.playTimer + c.2 ≥ L.currentTimeLimit
    linarith
  exact ⟨updatePlay_past_limit, respawn_frame, deathCycle_past_limit⟩

theorem deathCycles_past_limit (L : Level) :
    ∀ (cycles : List ((String → Bool) × ℝ)) (s : Play),
    L.currentTimeLimit > 0 → s.playTimer ≥ L.currentTimeLimit →
    s.playMode = true → s.playerDying = false → (∀ c ∈ cycles, 0 ≤ c.2) →
    (deathCycles L cycles s).deaths = s.deaths + cycles.length ∧
    (deathCycles L cycles s).playTimer ≥ L.currentTimeLimit ∧
    (deathCycles L cycles s).playMode = true ∧
    (deathCycles L cycles s).playerDying = false ∧
    (deathCycles L cycles s).checkpointPos = s.checkpointPos ∧
    (cycles ≠ [] → (deathCycles L cycles s).player = respawnPoint L s)
  | [], s, _, ht, hm, hd, _ => ⟨by simp [deathCycles], ht, hm, hd, rfl, fun h => absurd rfl h⟩
  | c :: rest, s, hL, ht, hm, hd, hdt => by
    obtain ⟨c1, c2, c3, c4, c5, c6⟩ :=
      (past_limit_lemmas.2.2) L c s hL ht hm hd (hdt c (List.mem_cons_self _ _))
    obtain ⟨r1, r2, r3, r4, r5, r6⟩ :=
      deathCycles_past_limit L rest (deathCycle L c s) hL c2 c3 c4
        (fun d hd' => hdt d (List.mem_cons_of_mem _ hd'))
    show (deathCycles L rest (deathCycle L c s)).deaths = _ ∧ _
    refine ⟨?_, r2, r3, r4, r5.trans c5, fun _ => ?_⟩
    · rw [r1, c1, List.length_cons]
      ring
    · show (deathCycles L rest (deathCycle L c s)).player = respawnPoint L s
      cases rest with
      | nil => exact c6
      | cons d rest' =>
        rw [r6 (List.cons_ne_nil _ _)]
        unfold respawnPoint
        rw [c5]

/-- C30: the time-limit death repeats.  In a session with a time limit `> 0`,
in play mode, the player not dying, the timer at the limit or beyond it: every
tick, for any `dt >= 0` and any keys, is ended by the death before the move
(the death count goes up by one, the dying flag is set, the player and its
motion state stay as they are); the respawn and the manual reset keep the
timer, the death count and the checkpoint; so after any run of death cycles
(a tick, then the respawn) the death count has grown by the number of cycles,
the timer is still at the limit or beyond it, and the player stands on the same
respawn point after every cycle.  The same holds when the manual reset takes
the place of the respawn. -/
theorem time_limit_death_repeats (L : Level) (s : Play) (cycles : List ((String → Bool) × ℝ))
    (hL : L.currentTimeLimit > 0) (ht : s.playTimer ≥ L.currentTimeLimit)
    (hm : s.playMode = true) (hd : s.playerDying = false) (hdt : ∀ c ∈ cycles, 0 ≤ c.2) :
    (∀ (keysDown : String → Bool) (dt : ℝ), 0 ≤ dt →
      updatePlay L keysDown dt s = die { s with playTimer := s.playTimer + dt } ∧
      (updatePlay L keysDown dt s).deaths = s.deaths + 1 ∧
      (updatePlay L keysDown dt s).playerDying = true ∧
      motion (updatePlay L keysDown dt s) = motion s ∧
      (resetPlayState L (updatePlay L keysDown dt s)).deaths = s.deaths + 1 ∧
      (resetPlayState L (updatePlay L keysDown dt s)).playTimer ≥ L.currentTimeLimit ∧
      (resetPlayState L (updatePlay L keysDown dt s)).playerDying = false ∧
      (resetPlayState L (updatePlay L keysDown dt s)).player = respawnPoint L s) ∧
    (∀ u : Play, u.playMode = true →
      (respawn L u).playTimer = u.playTimer ∧ (respawn L u).checkpointPos = u.checkpointPos ∧
      (resetPlayState L u).playTimer = u.playTimer ∧
      (resetPlayState L u).checkpointPos = u.checkpointPos) ∧
    ((deathCycles L cycles s).deaths = s.deaths + cycles.length ∧
      (deathCycles L cycles s).playTimer ≥ L.currentTimeLimit ∧
      (deathCycles L cycles s).playMode = true ∧
      (deathCycles L cycles s).playerDying = false ∧
      (deathCycles L cycles s).checkpointPos = s.checkpointPos ∧
      (cycles ≠ [] → (deathCycles L cycles s).player = respawnPoint L s)) := by
  have updatePlay_past_limit := past_limit_lemmas.1
  have respawn_frame := past_limit_lemmas.2.1
  refine ⟨?_, ?_, deathCycles_past_limit L cycles s hL ht hm hd hdt⟩
  · intro keysDown dt h0
    have e := updatePlay_past_limit L keysDown dt s hL ht hd h0
    obtain ⟨-, r1, r2, r3, -, r5, r6⟩ :=
      respawn_frame L (die { s with playTimer := s.playTimer + dt }) hm
    rw [e, r1, r2, r5, r6]
    refine ⟨rfl, rfl, rfl, rfl, rfl, ?_, rfl, rfl⟩
    show s.playTimer + dt ≥ L.currentTimeLimit
    linarith
  · intro u hu
    obtain ⟨⟨a1, -, a3, -⟩, b1, -, b3, -⟩ := respawn_frame L u hu
    exact ⟨a1, a3, b1, b3⟩

theorem time_limit_death_repeats_witness :
    (deathCycles timedLevel [(rightKey, 1 / 20), (noKeys, 1 / 50)] timedPlay).deaths = 3 ∧
    (deathCycles timedLevel [(rightKey, 1 / 20), (noKeys, 1 / 50)] timedPlay).player
      = { x := 16, y := 16 } := by
  have h := (time_limit_death_repeats timedLevel timedPlay [(rightKey, 1 / 20), (noKeys, 1 / 50)]
    (by show (10 : ℝ) > 0; norm_num) (by show (10 : ℝ) ≥ 10; norm_num) rfl rfl
    (by
      intro c hc
      simp at hc
      rcases hc with h | h <;> rw [h] <;> norm_num)).2.2
  refine ⟨h.1, ?_⟩
  rw [h.2.2.2.2.2 (by simp)]
  unfold respawnPoint tileCenter TILE timedLevel timedPlay demoLevel demoPlay
  simp
  norm_num

/-! ## C27: the retry after a win -/

/-- Evaluation of the frame scheduler at the win of `goalHost`.  The conjuncts,
in order: `win_on_goal`, `goalHost_tick`, `gameLoop_of_idle`,
`gameLoop_of_win`, `wonHost_eq`, `idleHost_eq`. -/
theorem scheduler_evaluation :
    (∀ (L : Level) (keysDown : String → Bool) (dt : ℝ) (s : Play) (_ : reachesMove L dt s)
      (_ : s.winOverlay = false) (_ : (updatePlay L keysDown dt s).playerDying = false)
      (_ : onTile L s.player TILE_GOAL) (_ : (updatePlay L keysDown dt s).playCoins = []),
      (updatePlay L keysDown dt s).winOverlay = true ∧
      (updatePlay L keysDown dt s).playMode = false ∧
      (updatePlay L keysDown dt s).animFrameId = none) ∧
    ((updatePlay tourLevel rightKey (1 / 20) (demoPlay 70 80)).winOverlay = true ∧
      (updatePlay tourLevel rightKey (1 / 20) (demoPlay 70 80)).playMode = false ∧
      (updatePlay tourLevel rightKey (1 / 20) (demoPlay 70 80)).animFrameId = none) ∧
    (∀ (L : Level) (ts : ℝ) (h : Host) (_ : h.play.playMode = false),
      gameLoop L ts h = h) ∧
    (∀ (L : Level) (ts : ℝ) (h : Host) (_ : h.play.playMode = true)
      (_ : (updatePlay L h.keysDown (min ((ts - h.lastTime) / 1000) 0.05) h.play).playMode = false),
      gameLoop L ts h
        = requestFrame FrameCallback.loop
            (cancelFrame h.play.animFrameId
              { h with lastTime := ts,
                       play := updatePlay L h.keysDown (min ((ts - h.lastTime) / 1000) 0.05)
                         h.play })) ∧
    (wonHost
        = { play := { updatePlay tourLevel rightKey (1 / 20) (demoPlay 70 80) with
                        animFrameId := some 2 },
            keysDown := rightKey, lastTime := 50,
            frames := [(2, FrameCallback.loop)], lastId := 2 }) ∧
    (idleHost
        = { play := { updatePlay tourLevel rightKey (1 / 20) (demoPlay 70 80) with
                        animFrameId := some 2 },
            keysDown := rightKey, lastTime := 50, frames := [], lastId := 2 }) := by
  have floor_div32 := demo_evaluation.1
  have session_beforeContact := contact_lemmas.2.2.2.1
  have updatePlay_eq_contactStep := contact_lemmas.2.2.2.2.1
  have beforeContact_frame := contact_lemmas.2.2.2.2.2.1
  have contactStep_cases := contact_lemmas_b.1
  have goalStep_win := contact_lemmas_b.2.2.1
  have tourLevel_reaches := tourLevel_evaluation.2.1
  have tourLevel_alive := tourLevel_evaluation.2.2.1
  have tourLevel_no_coins := tourLevel_evaluation.2.2.2
  -- A tick that reaches the move and starts on a goal tile, the player alive
  -- and no coin left after it: the win fires.
  have win_on_goal : ∀ (L : Level) (keysDown : String → Bool) (dt : ℝ) (s : Play)
      (hr : reachesMove L dt s) (hw : s.winOverlay = false)
      (hlive : (updatePlay L keysDown dt s).playerDying = false)
      (hg : onTile L s.player TILE_GOAL) (hc : (updatePlay L keysDown dt s).playCoins = []),
      (updatePlay L keysDown dt s).winOverlay = true ∧
      (updatePlay L keysDown dt s).playMode = false ∧
      (updatePlay L keysDown dt s).animFrameId = none := by
    intro L keysDown dt s hr hw hlive hg hc
    have hs := (session_beforeContact L keysDown dt s).1
    have hwc : (beforeContact L keysDown dt s).winOverlay = false :=
      (congrArg (fun t => t.2.2.2.2.2.2) hs).trans hw
    have hcoins := (beforeContact_frame L keysDown dt s hr).2
    obtain ⟨c1, c2, c3⟩ := contactStep_cases L dt ⌊s.player.x / TILE⌋ ⌊s.player.y / TILE⌋
      (beforeContact L keysDown dt s)
    have e := updatePlay_eq_contactStep L keysDown dt s hr
    have ht : TILE = 32 := rfl
    by_cases hcd : (beforeContact L keysDown dt s).deathCooldown > 0
    · obtain ⟨g1, g2⟩ := goalStep_win L ⌊s.player.x / TILE⌋ ⌊s.player.y / TILE⌋
        { beforeContact L keysDown dt s with
          deathCooldown := (beforeContact L keysDown dt s).deathCooldown - dt } hwc
      rw [← c1 hcd, ← e] at g1 g2
      have hwin : (updatePlay L keysDown dt s).winOverlay = true := by
        rw [g1, ht]
        exact ⟨hg.1, hg.2, hcoins.trans hc⟩
      exact ⟨hwin, g2 hwin⟩
    · by_cases hh : enemyHit (beforeContact L keysDown dt s)
      · have hdie := c2 hcd hh
        rw [← e] at hdie
        rw [hdie] at hlive
        exact absurd hlive (by simp [die])
      · obtain ⟨g1, g2⟩ := goalStep_win L ⌊s.player.x / TILE⌋ ⌊s.player.y / TILE⌋
          (beforeContact L keysDown dt s) hwc
        rw [← c3 hcd hh, ← e] at g1 g2
        have hwin : (updatePlay L keysDown dt s).winOverlay = true := by
          rw [g1, ht]
          exact ⟨hg.1, hg.2, hcoins.trans hc⟩
        exact ⟨hwin, g2 hwin⟩
  -- The tick of `goalHost`: the win fires.
  have goalHost_tick :
      (updatePlay tourLevel rightKey (1 / 20) (demoPlay 70 80)).winOverlay = true ∧
      (updatePlay tourLevel rightKey (1 / 20) (demoPlay 70 80)).playMode = false ∧
      (updatePlay tourLevel rightKey (1 / 20) (demoPlay 70 80)).animFrameId = none := by
    refine win_on_goal tourLevel rightKey (1 / 20) (demoPlay 70 80) (tourLevel_reaches _ rfl) rfl
      (tourLevel_alive 70 80) ?_ (tourLevel_no_coins 70 80)
    unfold onTile
    have f1 : ⌊(demoPlay 70 80).player.x / 32⌋ = 2 :=
      floor_div32 _ 2 (by norm_num [demoPlay]) (by norm_num [demoPlay])
    have f2 : ⌊(demoPlay 70 80).player.y / 32⌋ = 2 :=
      floor_div32 _ 2 (by norm_num [demoPlay]) (by norm_num [demoPlay])
    rw [f1, f2]
    exact ⟨by unfold inBounds tourLevel demoLevel; decide, by simp [tourLevel]⟩
  have gameLoop_of_idle : ∀ (L : Level) (ts : ℝ) (h : Host) (hm : h.play.playMode = false),
      gameLoop L ts h = h := by
    intro L ts h hm
    unfold gameLoop
    rw [if_pos hm]
  -- A `gameLoop` call whose tick leaves play mode (a win): the frame stored in
  -- `animFrameId` is cancelled, and then a new frame is requested all the same and
  -- its id stored in `animFrameId`.
  have gameLoop_of_win : ∀ (L : Level) (ts : ℝ) (h : Host) (hm : h.play.playMode = true)
      (hp : (updatePlay L h.keysDown (min ((ts - h.lastTime) / 1000) 0.05) h.play).playMode = false),
      gameLoop L ts h
        = requestFrame FrameCallback.loop
            (cancelFrame h.play.animFrameId
              { h with lastTime := ts,
                       play := updatePlay L h.keysDown (min ((ts - h.lastTime) / 1000) 0.05)
                         h.play }) := by
    intro L ts h hm hp
    unfold gameLoop
    rw [if_neg (by simp [hm])]
    dsimp only
    rw [if_pos hp]
  -- The host after the win frame.
  have wonHost_eq :
      wonHost
        = { play := { updatePlay tourLevel rightKey (1 / 20) (demoPlay 70 80) with
                        animFrameId := some 2 },
            keysDown := rightKey, lastTime := 50,
            frames := [(2, FrameCallback.loop)], lastId := 2 } := by
    have hdt : min (((50 : ℝ) - 0) / 1000) 0.05 = 1 / 20 := by
      rw [min_eq_left (by norm_num)]
      norm_num
    have hq : (updatePlay tourLevel rightKey (min (((50 : ℝ) - 0) / 1000) 0.05)
        (demoPlay 70 80)).playMode = false := by
      rw [hdt]
      exact goalHost_tick.2.1
    have hg : gameLoop tourLevel 50
        { play := demoPlay 70 80, keysDown := rightKey, lastTime := 0, frames := [], lastId := 1 }
        = requestFrame FrameCallback.loop
            (cancelFrame (demoPlay 70 80).animFrameId
              { play := updatePlay tourLevel rightKey (min (((50 : ℝ) - 0) / 1000) 0.05)
                  (demoPlay 70 80),
                keysDown := rightKey, lastTime := 50, frames := [], lastId := 1 }) :=
      gameLoop_of_win tourLevel 50 _ rfl hq
    have hrun : wonHost = gameLoop tourLevel 50
        { play := demoPlay 70 80, keysDown := rightKey, lastTime := 0, frames := [],
          lastId := 1 } := by
      unfold wonHost runFrame goalHost
      simp [runCallback]
    rw [hrun, hg, hdt]
    simp [requestFrame, cancelFrame, demoPlay]
  -- The host one frame after the win frame: the frame 2 has run, `gameLoop` has
  -- returned at once, and `animFrameId` still holds the id 2.
  have idleHost_eq :
      idleHost
        = { play := { updatePlay tourLevel rightKey (1 / 20) (demoPlay 70 80) with
                        animFrameId := some 2 },
            keysDown := rightKey, lastTime := 50, frames := [], lastId := 2 } := by
    unfold idleHost
    rw [wonHost_eq]
    unfold runFrame
    rw [List.foldl_cons, List.foldl_nil, if_pos (List.mem_singleton.2 rfl)]
    exact gameLoop_of_idle tourLevel 66 _ goalHost_tick.2.1
  exact ⟨win_on_goal, goalHost_tick, gameLoop_of_idle, gameLoop_of_win, wonHost_eq, idleHost_eq⟩

/-- C27, the code at the failing input.  In `tourLevel` the frame at `ts = 50`
detects the win: play mode is left and the overlay is shown, but `gameLoop`
goes on after `updatePlay` and requests the frame 2, whose id it stores in
`animFrameId`, which `win()` had set to `null`.  Clicked now, the retry handler
would find that frame still queued.  One frame later the frame 2 has run and
returned at once, and `animFrameId` still holds 2.  The retry handler then sets
play mode, zeroes deaths and timer and builds the session, but requests no
frame, since `animFrameId` is not `null`: no frame is queued, and every later
animation frame leaves the host as it is, so no tick runs again. -/
theorem retry_after_win_frozen :
    (wonHost.play.winOverlay = true ∧ wonHost.play.playMode = false ∧
      wonHost.play.animFrameId = some 2 ∧ wonHost.frames = [(2, FrameCallback.loop)] ∧
      (winRetry tourLevel wonHost).frames = [(2, FrameCallback.loop)]) ∧
    (idleHost.play.winOverlay = true ∧ idleHost.play.playMode = false ∧
      idleHost.play.animFrameId = some 2 ∧ idleHost.frames = []) ∧
    (retryHost.play.playMode = true ∧ retryHost.play.deaths = 0 ∧
      retryHost.play.playTimer = 0 ∧ retryHost.play.winOverlay = false ∧
      retryHost.play.player = { x := 16, y := 16 } ∧
      retryHost.play.animFrameId = some 2 ∧ retryHost.frames = [] ∧
      ∀ ts : ℝ, runFrame tourLevel ts retryHost = retryHost) := by
  have goalHost_tick := scheduler_evaluation.2.1
  have wonHost_eq := scheduler_evaluation.2.2.2.2.1
  have idleHost_eq := scheduler_evaluation.2.2.2.2.2
  obtain ⟨t1, t2, -⟩ := goalHost_tick
  have hretry : retryHost.frames = [] ∧ retryHost.play.animFrameId = some 2 ∧
      retryHost.play.playMode = true ∧ retryHost.play.deaths = 0 ∧
      retryHost.play.playTimer = 0 ∧ retryHost.play.winOverlay = false ∧
      retryHost.play.player = { x := 16, y := 16 } := by
    unfold retryHost winRetry
    rw [idleHost_eq]
    simp [buildPlayState, resetPlayerPos, tileCenter, TILE, tourLevel, demoLevel]
    norm_num
  obtain ⟨r1, r2, r3, r4, r5, r6, r7⟩ := hretry
  refine ⟨⟨?_, ?_, ?_, ?_, ?_⟩, ⟨?_, ?_, ?_, ?_⟩, r3, r4, r5, r6, r7, r2, r1, ?_⟩
  · rw [wonHost_eq]; exact t1
  · rw [wonHost_eq]; exact t2
  · rw [wonHost_eq]
  · rw [wonHost_eq]
  · unfold winRetry
    rw [wonHost_eq]
    simp [buildPlayState, resetPlayerPos]
  · rw [idleHost_eq]; exact t1
  · rw [idleHost_eq]; exact t2
  · rw [idleHost_eq]
  · rw [idleHost_eq]
  · intro ts
    unfold runFrame
    rw [r1]
    rfl

/-! ## C29: the lock after the ice effect is exhausted -/

/-- A fast slide on ice through one tick.  The conjuncts, in order:
`hypot_gt_of_fast`, `updatePlay_of_beforeMove_eq`, `beforeMove_relock`,
`beforeMove_of_fastSlide`, `fastSlide_moveStep`, `fastSlide_of_motion`,
`fastSlide_tick`. -/
theorem fast_slide_lemmas :
    (∀ (a b : ℝ) (_ : fastComponents a b),
      hypot a b > 5) ∧
    (∀ (L : Level) (k k' : String → Bool) (dt : ℝ) (s : Play)
      (_ : beforeMove L k dt s = beforeMove L k' dt s),
      updatePlay L k dt s = updatePlay L k' dt s) ∧
    (∀ (L : Level) (keysDown : String → Bool) (dt : ℝ) (s : Play) (_ : nowOnIce L s.player)
      (_ : s.playerOnIce = false) (_ : hypot s.playerVx s.playerVy > 5),
      beforeMove L keysDown dt s
        = { s with playTimer := s.playTimer + dt, playerOnIce := true,
                   iceLockedVx := s.playerVx, iceLockedVy := s.playerVy }) ∧
    (∀ (L : Level) (dt : ℝ) (s : Play) (_ : nowOnIce L s.player) (_ : fastSlide s),
      (∀ k k' : String → Bool, beforeMove L k dt s = beforeMove L k' dt s) ∧
      (∀ k : String → Bool, (beforeMove L k dt s).playerOnIce = true ∧
        (beforeMove L k dt s).playerVx = (beforeMove L k dt s).iceLockedVx ∧
        (beforeMove L k dt s).playerVy = (beforeMove L k dt s).iceLockedVy ∧
        fastComponents (beforeMove L k dt s).iceLockedVx (beforeMove L k dt s).iceLockedVy)) ∧
    (∀ (L : Level) (dt : ℝ) (m : Play) (_ : m.playerOnIce = true)
      (_ : m.playerVx = m.iceLockedVx) (_ : m.playerVy = m.iceLockedVy)
      (_ : fastComponents m.iceLockedVx m.iceLockedVy),
      fastSlide (moveStep L dt m)) ∧
    (∀ (s t : Play) (_ : motion s = motion t) (_ : fastSlide t),
      fastSlide s) ∧
    (∀ (L : Level) (dt : ℝ) (s : Play) (_ : nowOnIce L s.player) (_ : fastSlide s),
      (∀ k k' : String → Bool, updatePlay L k dt s = updatePlay L k' dt s) ∧
      (∀ k : String → Bool, fastSlide (updatePlay L k dt s))) := by
  have motion_updatePlay := phase_frames_b.2.1
  have updatePlay_of_not_reachesMove := collision_square_lemmas_d.2.2.2.2.2.1
  have beforeMove_locked := ice_switch_lemmas.2.1
  have beforeMove_entry := ice_switch_lemmas.2.2.1
  have moveStep_decay := ice_switch_lemmas_b.2.2.2.1
  have hypot_gt_of_fast : ∀ (a b : ℝ) (h : fastComponents a b),
      hypot a b > 5 := by
    intro a b h
    obtain ⟨hne, ha, hb⟩ := h
    unfold hypot
    rw [gt_iff_lt, Real.lt_sqrt (by norm_num)]
    rcases hne with h0 | h0
    · have h1 := ha h0
      have h2 : (5 : ℝ) ^ 2 < |a| ^ 2 := by nlinarith [abs_nonneg a]
      rw [sq_abs] at h2
      nlinarith [sq_nonneg b]
    · have h1 := hb h0
      have h2 : (5 : ℝ) ^ 2 < |b| ^ 2 := by nlinarith [abs_nonneg b]
      rw [sq_abs] at h2
      nlinarith [sq_nonneg a]
  -- The tick depends on the held keys through the state before the move
  -- only.
  have updatePlay_of_beforeMove_eq : ∀ (L : Level) (k k' : String → Bool) (dt : ℝ) (s : Play)
      (e : beforeMove L k dt s = beforeMove L k' dt s),
      updatePlay L k dt s = updatePlay L k' dt s := by
    intro L k k' dt s e
    unfold beforeMove at e
    unfold updatePlay playStep
    simp only [e]
  -- On an ice tile with the lock off and a carried speed above 5, the tick
  -- locks the carried velocity and moves with it.
  have beforeMove_relock : ∀ (L : Level) (keysDown : String → Bool) (dt : ℝ) (s : Play)
      (h : nowOnIce L s.player) (ho : s.playerOnIce = false)
      (hv : hypot s.playerVx s.playerVy > 5),
      beforeMove L keysDown dt s
        = { s with playTimer := s.playTimer + dt, playerOnIce := true,
                   iceLockedVx := s.playerVx, iceLockedVy := s.playerVy } := by
    intro L keysDown dt s h ho hv
    rw [beforeMove_entry L keysDown dt s h ho]
    unfold entryLock
    rw [if_pos hv]
  -- On an ice tile a fast slide leaves the held keys no say in the state before
  -- the move, whose ice flag is on and whose velocity is its locked vector, fast in
  -- each component.
  have beforeMove_of_fastSlide : ∀ (L : Level) (dt : ℝ) (s : Play) (h : nowOnIce L s.player)
      (hf : fastSlide s),
      (∀ k k' : String → Bool, beforeMove L k dt s = beforeMove L k' dt s) ∧
      (∀ k : String → Bool, (beforeMove L k dt s).playerOnIce = true ∧
        (beforeMove L k dt s).playerVx = (beforeMove L k dt s).iceLockedVx ∧
        (beforeMove L k dt s).playerVy = (beforeMove L k dt s).iceLockedVy ∧
        fastComponents (beforeMove L k dt s).iceLockedVx (beforeMove L k dt s).iceLockedVy) := by
    intro L dt s h hf
    rcases hf with ⟨ho, hc⟩ | ⟨ho, hc⟩
    · refine ⟨fun k k' => by rw [beforeMove_locked L k dt s h ho, beforeMove_locked L k' dt s h ho],
        fun k => ?_⟩
      rw [beforeMove_locked L k dt s h ho]
      exact ⟨ho, rfl, rfl, hc⟩
    · have hv := hypot_gt_of_fast _ _ hc
      refine ⟨fun k k' => by
        rw [beforeMove_relock L k dt s h ho hv, beforeMove_relock L k' dt s h ho hv], fun k => ?_⟩
      rw [beforeMove_relock L k dt s h ho hv]
      exact ⟨rfl, rfl, rfl, hc⟩
  -- The move keeps a slide fast: a locked component is kept or zeroed, and when
  -- both are zeroed the velocity of the tick is the vector that was locked.
  have fastSlide_moveStep : ∀ (L : Level) (dt : ℝ) (m : Play) (hi : m.playerOnIce = true)
      (hx : m.playerVx = m.iceLockedVx) (hy : m.playerVy = m.iceLockedVy)
      (hc : fastComponents m.iceLockedVx m.iceLockedVy),
      fastSlide (moveStep L dt m) := by
    intro L dt m hi hx hy hc
    obtain ⟨-, -, -, -, d5⟩ := moveStep_decay L dt m hi
    have hvx : (moveStep L dt m).playerVx = m.playerVx := rfl
    have hvy : (moveStep L dt m).playerVy = m.playerVy := rfl
    have cx : (moveStep L dt m).iceLockedVx = 0 ∨ (moveStep L dt m).iceLockedVx = m.iceLockedVx := by
      simp only [moveStep]
      split_ifs
      · exact Or.inl rfl
      · exact Or.inr rfl
    have cy : (moveStep L dt m).iceLockedVy = 0 ∨ (moveStep L dt m).iceLockedVy = m.iceLockedVy := by
      simp only [moveStep]
      split_ifs
      · exact Or.inl rfl
      · exact Or.inr rfl
    cases hflag : (moveStep L dt m).playerOnIce
    · right
      refine ⟨hflag, ?_⟩
      rw [hvx, hvy, hx, hy]
      exact hc
    · left
      refine ⟨hflag, ?_, ?_, ?_⟩
      · by_contra hn
        push_neg at hn
        have := d5.mpr hn
        rw [hflag] at this
        exact Bool.noConfusion this
      · intro hne
        rcases cx with h0 | h0
        · exact absurd h0 hne
        · rw [h0] at hne ⊢
          exact hc.2.1 hne
      · intro hne
        rcases cy with h0 | h0
        · exact absurd h0 hne
        · rw [h0] at hne ⊢
          exact hc.2.2 hne
  have fastSlide_of_motion : ∀ (s t : Play) (h : motion s = motion t) (hf : fastSlide t),
      fastSlide s := by
    intro s t h hf
    have e1 : s.playerVx = t.playerVx := congrArg (fun u => u.2.1) h
    have e2 : s.playerVy = t.playerVy := congrArg (fun u => u.2.2.1) h
    have e3 : s.playerOnIce = t.playerOnIce := congrArg (fun u => u.2.2.2.1) h
    have e4 : s.iceLockedVx = t.iceLockedVx := congrArg (fun u => u.2.2.2.2.1) h
    have e5 : s.iceLockedVy = t.iceLockedVy := congrArg (fun u => u.2.2.2.2.2) h
    unfold fastSlide
    rw [e1, e2, e3, e4, e5]
    exact hf
  -- One tick that starts on an ice tile with a fast slide: the held keys have
  -- no say in it, and the slide is fast after it.
  have fastSlide_tick : ∀ (L : Level) (dt : ℝ) (s : Play) (h : nowOnIce L s.player)
      (hf : fastSlide s),
      (∀ k k' : String → Bool, updatePlay L k dt s = updatePlay L k' dt s) ∧
      (∀ k : String → Bool, fastSlide (updatePlay L k dt s)) := by
    intro L dt s h hf
    obtain ⟨b1, b2⟩ := beforeMove_of_fastSlide L dt s h hf
    refine ⟨fun k k' => updatePlay_of_beforeMove_eq L k k' dt s (b1 k k'), fun k => ?_⟩
    by_cases hr : reachesMove L dt s
    · obtain ⟨m1, m2, m3, m4⟩ := b2 k
      exact fastSlide_of_motion _ _ (motion_updatePlay L k dt s hr)
        (fastSlide_moveStep L dt _ m1 m2 m3 m4)
    · exact fastSlide_of_motion _ _ (updatePlay_of_not_reachesMove L k dt s hr).1 hf
  exact ⟨hypot_gt_of_fast, updatePlay_of_beforeMove_eq, beforeMove_relock,
    beforeMove_of_fastSlide, fastSlide_moveStep, fastSlide_of_motion, fastSlide_tick⟩

/-- A run of ticks that all start on an ice tile, from a fast slide: two runs
with the same frame times end in the same state, whatever keys are held. -/
theorem fastSlide_run (L : Level) :
    ∀ (ticks ticks' : List ((String → Bool) × ℝ)) (s : Play),
    fastSlide s → staysOnIce L ticks s → ticks.map Prod.snd = ticks'.map Prod.snd →
    runTicks L ticks s = runTicks L ticks' s ∧ fastSlide (runTicks L ticks s)
  | [], [], s, hf, _, _ => ⟨rfl, hf⟩
  | [], _ :: _, _, _, _, he => by simp at he
  | _ :: _, [], _, _, _, he => by simp at he
  | t :: rest, t' :: rest', s, hf, hs, he => by
    obtain ⟨hice, hrest⟩ := hs
    simp only [List.map_cons, List.cons.injEq] at he
    obtain ⟨k1, k2⟩ := (fast_slide_lemmas.2.2.2.2.2.2) L t.2 s hice hf
    have e1 : updatePlay L t'.1 t'.2 s = updatePlay L t.1 t.2 s := by
      rw [← he.1]
      exact k1 t'.1 t.1
    show runTicks L rest (updatePlay L t.1 t.2 s) = runTicks L rest' (updatePlay L t'.1 t'.2 s) ∧
      fastSlide (runTicks L rest (updatePlay L t.1 t.2 s))
    rw [e1]
    exact fastSlide_run L rest rest' _ (k2 t.1) hrest he.2

/-- C29, amended: the lock after the ice effect is exhausted.  Let a tick start
on an ice tile.  When the ice flag is off and the velocity `v` applied in the
tick before has a magnitude `> 5`, the tick turns the lock on with the locked
vector exactly `v` and applies `v`, whatever keys are held, and so the whole
state after the tick is the same for any two key tables.  When moreover the
slide is fast in each component (the vector is not zero and each of its
non-zero components exceeds 5 in absolute value: the locked vector while the
flag is on, `v` while it is off), it is so again after the tick; hence in any
run of ticks that all start on an ice tile, the held keys have no say: two runs
with the same frame times end in the same state. -/
theorem relock_after_exhaustion (L : Level) (dt : ℝ) (s : Play) (hice : nowOnIce L s.player) :
    (s.playerOnIce = false → hypot s.playerVx s.playerVy > 5 →
      ∀ k k' : String → Bool,
        (beforeMove L k dt s).playerOnIce = true ∧
        ((beforeMove L k dt s).iceLockedVx = s.playerVx ∧
          (beforeMove L k dt s).iceLockedVy = s.playerVy) ∧
        ((beforeMove L k dt s).playerVx = s.playerVx ∧
          (beforeMove L k dt s).playerVy = s.playerVy) ∧
        updatePlay L k dt s = updatePlay L k' dt s) ∧
    (∀ (p : Play) (k₀ : String → Bool) (dt₀ : ℝ), reachesMove L dt₀ p →
      s = updatePlay L k₀ dt₀ p →
      s.playerVx = (beforeMove L k₀ dt₀ p).playerVx ∧
      s.playerVy = (beforeMove L k₀ dt₀ p).playerVy) ∧
    (fastSlide s →
      (∀ k k' : String → Bool, updatePlay L k dt s = updatePlay L k' dt s) ∧
      (∀ k : String → Bool, fastSlide (updatePlay L k dt s)) ∧
      (∀ ticks ticks' : List ((String → Bool) × ℝ), staysOnIce L ticks s →
        ticks.map Prod.snd = ticks'.map Prod.snd →
        runTicks L ticks s = runTicks L ticks' s)) := by
  have velocity_updatePlay := ice_switch_lemmas.2.2.2.2.2.1
  have updatePlay_of_beforeMove_eq := fast_slide_lemmas.2.1
  have beforeMove_relock := fast_slide_lemmas.2.2.1
  have fastSlide_tick := fast_slide_lemmas.2.2.2.2.2.2
  refine ⟨?_, ?_, ?_⟩
  · intro ho hv k k'
    have e : ∀ q, beforeMove L q dt s
        = { s with playTimer := s.playTimer + dt, playerOnIce := true,
                   iceLockedVx := s.playerVx, iceLockedVy := s.playerVy } :=
      fun q => beforeMove_relock L q dt s hice ho hv
    refine ⟨?_, ?_, ?_, updatePlay_of_beforeMove_eq L k k' dt s (by rw [e k, e k'])⟩
    · rw [e k]
    · rw [e k]; exact ⟨rfl, rfl⟩
    · rw [e k]; exact ⟨rfl, rfl⟩
  · intro p k₀ dt₀ hr hs
    rw [hs]
    exact velocity_updatePlay L k₀ dt₀ p hr
  · intro hf
    obtain ⟨t1, t2⟩ := fastSlide_tick L dt s hice hf
    exact ⟨t1, t2, fun ticks ticks' hs he => (fastSlide_run L ticks ticks' s hf hs he).1⟩

/-! ### Evaluation in `cornerLevel` -/

/-- Evaluation of the slide into the corner of `cornerLevel`.  The conjuncts,
in order: `sqrt_two_narrow`, `corner_bounds`, `cornerLevel_grid`, `quiet_tick`,
`cellFree_corner`, `cornersFree_corner`, `nowOnIce_corner`. -/
theorem cornerLevel_evaluation :
    (7 / 5 ≤ Real.sqrt 2 ∧ Real.sqrt 2 ≤ 71 / 50) ∧
    (21 / 5 ≤ 6 / Real.sqrt 2 ∧ 6 / Real.sqrt 2 ≤ 43 / 10) ∧
    (∀ (gy gx : ℤ),
      cornerLevel.grid gy gx ≠ TILE_GOAL ∧ cornerLevel.grid gy gx ≠ TILE_CHECKPOINT) ∧
    (∀ (L : Level) (_ : ∀ gy gx, L.grid gy gx ≠ TILE_GOAL ∧ L.grid gy gx ≠ TILE_CHECKPOINT)
      (_ : L.currentTimeLimit = 0) (keysDown : String → Bool) (dt : ℝ) (s : Play)
      (_ : s.playerDying = false ∧ s.playEnemies = [] ∧ s.playKeys = [] ∧ s.playCoins = [] ∧ s.deathCooldown = 0 ∧ s.playDoors = []),
      updatePlay L keysDown dt s = moveStep L dt (beforeMove L keysDown dt s) ∧
      ((updatePlay L keysDown dt s).playerDying = false ∧
        (updatePlay L keysDown dt s).playEnemies = [] ∧
        (updatePlay L keysDown dt s).playKeys = [] ∧
        (updatePlay L keysDown dt s).playCoins = [] ∧
        (updatePlay L keysDown dt s).deathCooldown = 0 ∧
        (updatePlay L keysDown dt s).playDoors = [])) ∧
    (cellFree cornerLevel [] 1 1) ∧
    (∀ (x y : ℝ) (_ : 42 ≤ x ∧ x < 54) (_ : 42 ≤ y ∧ y < 54),
      cornersFree cornerLevel [] x y) ∧
    (∀ (p : Player) (_ : 32 ≤ p.x ∧ p.x < 64) (_ : 32 ≤ p.y ∧ p.y < 64),
      nowOnIce cornerLevel p) := by
  have updatePlay_of_reachesMove := phase_frames_b.1
  have items_beforeMove := collision_square_lemmas_c.2.2.2.2.2.1
  have floor_div32 := demo_evaluation.1
  have playStep_quiet := demo_evaluation.2.1
  have reachesMove_of_no_limit := wallSlide_evaluation.1
  have nowOnIce_of_floor := wallSlide_evaluation.2.1
  have session_beforeMove := contact_lemmas.2.1
  have sqrt_two_narrow :
      7 / 5 ≤ Real.sqrt 2 ∧ Real.sqrt 2 ≤ 71 / 50 := by
    constructor
    · rw [Real.le_sqrt' (by norm_num)]
      norm_num
    · rw [Real.sqrt_le_iff]
      constructor <;> norm_num
  -- The diagonal speed component of a level of speed 6: `6 / sqrt 2` lies
  -- between 4.2 and 4.3.
  have corner_bounds :
      21 / 5 ≤ 6 / Real.sqrt 2 ∧ 6 / Real.sqrt 2 ≤ 43 / 10 := by
    obtain ⟨h1, h2⟩ := sqrt_two_narrow
    have hp : 0 < Real.sqrt 2 := by linarith
    constructor
    · rw [le_div_iff₀ hp]
      linarith
    · rw [div_le_iff₀ hp]
      linarith
  have cornerLevel_grid : ∀ (gy gx : ℤ),
      cornerLevel.grid gy gx ≠ TILE_GOAL ∧ cornerLevel.grid gy gx ≠ TILE_CHECKPOINT := by
    intro gy gx
    unfold cornerLevel TILE_GOAL TILE_CHECKPOINT TILE_WALL TILE_ICE TILE_EMPTY
    dsimp only
    split_ifs <;> decide
  -- A tick of a quiet state (alive, no enemies, keys, coins, doors, countdown)
  -- in a level without goal and checkpoint tiles and without a time limit is the
  -- move alone, and the state stays quiet.
  have quiet_tick : ∀ (L : Level)
      (hg : ∀ gy gx, L.grid gy gx ≠ TILE_GOAL ∧ L.grid gy gx ≠ TILE_CHECKPOINT)
      (hl : L.currentTimeLimit = 0) (keysDown : String → Bool) (dt : ℝ) (s : Play)
      (hq : s.playerDying = false ∧ s.playEnemies = [] ∧ s.playKeys = [] ∧ s.playCoins = [] ∧ s.deathCooldown = 0 ∧ s.playDoors = []),
      updatePlay L keysDown dt s = moveStep L dt (beforeMove L keysDown dt s) ∧
      ((updatePlay L keysDown dt s).playerDying = false ∧
        (updatePlay L keysDown dt s).playEnemies = [] ∧
        (updatePlay L keysDown dt s).playKeys = [] ∧
        (updatePlay L keysDown dt s).playCoins = [] ∧
        (updatePlay L keysDown dt s).deathCooldown = 0 ∧
        (updatePlay L keysDown dt s).playDoors = []) := by
    intro L hg hl keysDown dt s hq
    obtain ⟨q1, q2, q3, q4, q5, q6⟩ := hq
    have he : updatePlay L keysDown dt s = moveStep L dt (beforeMove L keysDown dt s) := by
      rw [updatePlay_of_reachesMove L keysDown dt s (reachesMove_of_no_limit L dt s hl q1),
        playStep_quiet L keysDown dt { s with playTimer := s.playTimer + dt } hg q2 q3 q4 q5]
      rfl
    refine ⟨he, ?_⟩
    rw [he]
    have hs := session_beforeMove L keysDown dt s
    have hi := items_beforeMove L keysDown dt s
    have b1 : (beforeMove L keysDown dt s).playerDying = s.playerDying :=
      congrArg (fun t => t.2.1) hs.1
    have b5 : (beforeMove L keysDown dt s).deathCooldown = s.deathCooldown :=
      congrArg (fun t => t.2.2.1) hs.1
    have b3 : (beforeMove L keysDown dt s).playKeys = s.playKeys := congrArg (fun t => t.2.1) hi
    have b4 : (beforeMove L keysDown dt s).playCoins = s.playCoins := congrArg (fun t => t.1) hi
    have b6 : (beforeMove L keysDown dt s).playDoors = s.playDoors :=
      congrArg (fun t => t.2.2.1) hi
    exact ⟨b1.trans q1, hs.2.1.trans q2, b3.trans q3, b4.trans q4, b5.trans q5, b6.trans q6⟩
  have cellFree_corner :
      cellFree cornerLevel [] 1 1 := by
    refine ⟨by unfold inBounds cornerLevel demoLevel; decide, ?_, ?_⟩
    · simp [cornerLevel, TILE_ICE, TILE_WALL]
    · rintro ⟨d, hd, -⟩
      exact absurd hd (List.not_mem_nil d)
  -- In `cornerLevel` the collision square of a centre `(x, y)` with
  -- `42 <= x, y < 54` lies in the ice cell.
  have cornersFree_corner : ∀ (x y : ℝ) (hx : 42 ≤ x ∧ x < 54) (hy : 42 ≤ y ∧ y < 54),
      cornersFree cornerLevel [] x y := by
    intro x y hx hy
    have f1 : ⌊(x - 10) / 32⌋ = 1 := floor_div32 _ 1 (by norm_num; linarith) (by norm_num; linarith)
    have f2 : ⌊(x + 10) / 32⌋ = 1 := floor_div32 _ 1 (by norm_num; linarith) (by norm_num; linarith)
    have f3 : ⌊(y - 10) / 32⌋ = 1 := floor_div32 _ 1 (by norm_num; linarith) (by norm_num; linarith)
    have f4 : ⌊(y + 10) / 32⌋ = 1 := floor_div32 _ 1 (by norm_num; linarith) (by norm_num; linarith)
    unfold cornersFree
    rw [f1, f2, f3, f4]
    exact ⟨cellFree_corner, cellFree_corner, cellFree_corner, cellFree_corner⟩
  have nowOnIce_corner : ∀ (p : Player) (hx : 32 ≤ p.x ∧ p.x < 64) (hy : 32 ≤ p.y ∧ p.y < 64),
      nowOnIce cornerLevel p :=
      fun p hx hy =>
        nowOnIce_of_floor cornerLevel p 1 1
          (floor_div32 _ 1 (by norm_num; linarith) (by norm_num; linarith))
          (floor_div32 _ 1 (by norm_num; linarith) (by norm_num; linarith))
          (by unfold inBounds cornerLevel demoLevel; decide)
          (by simp [cornerLevel])
  exact ⟨sqrt_two_narrow, corner_bounds, cornerLevel_grid, quiet_tick, cellFree_corner,
    cornersFree_corner, nowOnIce_corner⟩

/-- Evaluation of the slide into the corner of `cornerLevel`.  The conjuncts,
in order: `hypot_right`, `clamp_corner`, `entryLock_cornerStart`,
`cornerSlid_facts`, `cornerStopped_facts`, `cornerStopped_left`,
`cornerStopped_idle`. -/
theorem cornerLevel_evaluation_b :
    (∀ (b : ℝ) (_ : 0 ≤ b),
      hypot 0 b = b) ∧
    (∀ (x y : ℝ) (_ : 11 ≤ x ∧ x ≤ 117) (_ : 11 ≤ y ∧ y ≤ 85),
      max (PLAYER_SIZE / 2) (min ((cornerLevel.COLS : ℝ) * TILE - PLAYER_SIZE / 2) x) = x ∧
      max (PLAYER_SIZE / 2) (min ((cornerLevel.ROWS : ℝ) * TILE - PLAYER_SIZE / 2) y) = y) ∧
    (entryLock cornerLevel downRightKey cornerStart = (6 / Real.sqrt 2, 6 / Real.sqrt 2)) ∧
    (cornerSlid.player = { x := 539 / 10, y := 537 / 10 + 6 / Real.sqrt 2 * (1 / 20) } ∧
      cornerSlid.playerOnIce = true ∧
      (cornerSlid.iceLockedVx = 0 ∧ cornerSlid.iceLockedVy = 6 / Real.sqrt 2) ∧
      (cornerSlid.playerVx = 6 / Real.sqrt 2 ∧ cornerSlid.playerVy = 6 / Real.sqrt 2) ∧
      (cornerSlid.playerDying = false ∧ cornerSlid.playEnemies = [] ∧ cornerSlid.playKeys = [] ∧
        cornerSlid.playCoins = [] ∧ cornerSlid.deathCooldown = 0 ∧ cornerSlid.playDoors = [])) ∧
    (cornerStopped.player = { x := 539 / 10, y := 537 / 10 + 6 / Real.sqrt 2 * (1 / 20) } ∧
      cornerStopped.playerOnIce = false ∧
      (cornerStopped.iceLockedVx = 0 ∧ cornerStopped.iceLockedVy = 0) ∧
      (cornerStopped.playerVx = 0 ∧ cornerStopped.playerVy = 6 / Real.sqrt 2) ∧
      (cornerStopped.playerDying = false ∧ cornerStopped.playEnemies = [] ∧
        cornerStopped.playKeys = [] ∧ cornerStopped.playCoins = [] ∧
        cornerStopped.deathCooldown = 0 ∧ cornerStopped.playDoors = [])) ∧
    ((updatePlay cornerLevel leftKey (1 / 20) cornerStopped).player
        = { x := 268 / 5, y := 537 / 10 + 6 / Real.sqrt 2 * (1 / 20) }) ∧
    ((updatePlay cornerLevel noKeys (1 / 20) cornerStopped).player
        = { x := 539 / 10, y := 537 / 10 + 6 / Real.sqrt 2 * (1 / 20) }) := by
  have exists_corner_blocked_iff := phase_frames_b.2.2.2.2.1
  have player_updatePlay := collision_square_lemmas_d.2.2.2.1
  have beforeMove_locked := ice_switch_lemmas.2.1
  have beforeMove_entry := ice_switch_lemmas.2.2.1
  have newX_cases := ice_switch_lemmas_b.2.1
  have newY_cases := ice_switch_lemmas_b.2.2.1
  have moveStep_decay := ice_switch_lemmas_b.2.2.2.1
  have hypot_zero := rest_lemmas.2.1
  have rest_tick := rest_lemmas.2.2.2.1
  have floor_div32 := demo_evaluation.1
  have noDirection_noKeys := demo_evaluation_b.2.1
  have clamp_demo := demo_evaluation_b.2.2.1
  have moveStep_player := demo_evaluation_b.2.2.2.1
  have moveStep_player_of_free := demo_evaluation_b.2.2.2.2.2.2.1
  have reachesMove_of_no_limit := wallSlide_evaluation.1
  have cornerBlocked_of_wall := wallSlide_evaluation.2.2.1
  have corner_bounds := cornerLevel_evaluation.2.1
  have cornerLevel_grid := cornerLevel_evaluation.2.2.1
  have quiet_tick := cornerLevel_evaluation.2.2.2.1
  have cornersFree_corner := cornerLevel_evaluation.2.2.2.2.2.1
  have nowOnIce_corner := cornerLevel_evaluation.2.2.2.2.2.2
  have hypot_right : ∀ (b : ℝ) (h : 0 ≤ b),
      hypot 0 b = b := by
    intro b h
    unfold hypot
    rw [show (0 : ℝ) ^ 2 + b ^ 2 = b ^ 2 by ring]
    exact Real.sqrt_sq h
  have clamp_corner : ∀ (x y : ℝ) (hx : 11 ≤ x ∧ x ≤ 117) (hy : 11 ≤ y ∧ y ≤ 85),
      max (PLAYER_SIZE / 2) (min ((cornerLevel.COLS : ℝ) * TILE - PLAYER_SIZE / 2) x) = x ∧
      max (PLAYER_SIZE / 2) (min ((cornerLevel.ROWS : ℝ) * TILE - PLAYER_SIZE / 2) y) = y := by
    intro x y hx hy
    have e4 : ((cornerLevel.COLS : ℕ) : ℝ) = ((4 : ℕ) : ℝ) := rfl
    have e3 : ((cornerLevel.ROWS : ℕ) : ℝ) = ((3 : ℕ) : ℝ) := rfl
    rw [e4, e3]
    exact ⟨clamp_demo 4 x hx.1 (by norm_num; linarith [hx.2]),
      clamp_demo 3 y hy.1 (by norm_num; linarith [hy.2])⟩
  have entryLock_cornerStart :
      entryLock cornerLevel downRightKey cornerStart = (6 / Real.sqrt 2, 6 / Real.sqrt 2) := by
    have hx : inputX downRightKey = 1 := by simp [inputX, downRightKey]
    have hy : inputY downRightKey = 1 := by simp [inputY, downRightKey]
    have h0 : ¬ hypot cornerStart.playerVx cornerStart.playerVy > 5 := by
      show ¬ hypot 0 0 > 5
      rw [hypot_zero]
      norm_num
    unfold entryLock
    rw [if_neg h0, hx, hy, if_pos (Or.inl one_ne_zero)]
    unfold inputVelocity
    dsimp only
    rw [hx, hy, if_pos ⟨one_ne_zero, one_ne_zero⟩]
    refine Prod.ext ?_ ?_
    · show 1 * (1 / Real.sqrt 2) * 6 = 6 / Real.sqrt 2
      ring
    · show 1 * (1 / Real.sqrt 2) * 6 = 6 / Real.sqrt 2
      ring
  -- The first tick of the slide: the X move is rejected by the wall on the
  -- right, the Y move is accepted; the lock keeps its Y component only.
  have cornerSlid_facts :
      cornerSlid.player = { x := 539 / 10, y := 537 / 10 + 6 / Real.sqrt 2 * (1 / 20) } ∧
      cornerSlid.playerOnIce = true ∧
      (cornerSlid.iceLockedVx = 0 ∧ cornerSlid.iceLockedVy = 6 / Real.sqrt 2) ∧
      (cornerSlid.playerVx = 6 / Real.sqrt 2 ∧ cornerSlid.playerVy = 6 / Real.sqrt 2) ∧
      (cornerSlid.playerDying = false ∧ cornerSlid.playEnemies = [] ∧ cornerSlid.playKeys = [] ∧
        cornerSlid.playCoins = [] ∧ cornerSlid.deathCooldown = 0 ∧ cornerSlid.playDoors = []) := by
    obtain ⟨c1, c2⟩ := corner_bounds
    have hice : nowOnIce cornerLevel cornerStart.player :=
      nowOnIce_corner _ ⟨by norm_num [cornerStart, demoPlay], by norm_num [cornerStart, demoPlay]⟩
        ⟨by norm_num [cornerStart, demoPlay], by norm_num [cornerStart, demoPlay]⟩
    obtain ⟨he, hq⟩ := quiet_tick cornerLevel cornerLevel_grid rfl downRightKey (1 / 20) cornerStart
      ⟨rfl, rfl, rfl, rfl, rfl, rfl⟩
    have hm : beforeMove cornerLevel downRightKey (1 / 20) cornerStart
        = { cornerStart with playTimer := cornerStart.playTimer + 1 / 20, playerOnIce := true,
                             iceLockedVx := 6 / Real.sqrt 2, iceLockedVy := 6 / Real.sqrt 2,
                             playerVx := 6 / Real.sqrt 2, playerVy := 6 / Real.sqrt 2 } := by
      rw [beforeMove_entry cornerLevel downRightKey (1 / 20) cornerStart hice rfl,
        entryLock_cornerStart]
    have mp : (beforeMove cornerLevel downRightKey (1 / 20) cornerStart).player
        = { x := 539 / 10, y := 537 / 10 } := by rw [hm]; rfl
    have mvx : (beforeMove cornerLevel downRightKey (1 / 20) cornerStart).playerVx
        = 6 / Real.sqrt 2 := by rw [hm]
    have mvy : (beforeMove cornerLevel downRightKey (1 / 20) cornerStart).playerVy
        = 6 / Real.sqrt 2 := by rw [hm]
    have mly : (beforeMove cornerLevel downRightKey (1 / 20) cornerStart).iceLockedVy
        = 6 / Real.sqrt 2 := by rw [hm]
    have mice : (beforeMove cornerLevel downRightKey (1 / 20) cornerStart).playerOnIce = true := by
      rw [hm]
    have md : (beforeMove cornerLevel downRightKey (1 / 20) cornerStart).playDoors = [] := by
      rw [hm]; rfl
    have e10 : PLAYER_SIZE / 2 - 1 = 10 := by unfold PLAYER_SIZE; norm_num
    have hx : xRejected cornerLevel (1 / 20)
        (beforeMove cornerLevel downRightKey (1 / 20) cornerStart) := by
      unfold xRejected
      rw [mp, mvx, md]
      refine ⟨{ px := 539 / 10 + 6 / Real.sqrt 2 * (1 / 20) + 10, py := 537 / 10 + 0 - 10 }, ?_, ?_⟩
      · simp [corners, e10]
      · refine cornerBlocked_of_wall cornerLevel _ _ 2 1
          (floor_div32 _ 2 (by norm_num; linarith) (by norm_num; linarith))
          (floor_div32 _ 1 (by norm_num) (by norm_num)) ?_
        simp [cornerLevel, TILE_ICE, TILE_WALL]
    have hy : ¬ yRejected cornerLevel (1 / 20)
        (beforeMove cornerLevel downRightKey (1 / 20) cornerStart) := by
      unfold yRejected
      rw [(newX_cases cornerLevel (1 / 20) _).1 hx, mp, mvy, md,
        exists_corner_blocked_iff cornerLevel _ List.Pairwise.nil, not_not]
      exact cornersFree_corner _ _ ⟨by norm_num, by norm_num⟩ ⟨by linarith, by linarith⟩
    obtain ⟨d1, -, -, d4, d5⟩ := moveStep_decay cornerLevel (1 / 20) _ mice
    have lx : (moveStep cornerLevel (1 / 20)
        (beforeMove cornerLevel downRightKey (1 / 20) cornerStart)).iceLockedVx = 0 :=
      d1 hx (by rw [mvx]; intro h0; linarith)
    have ly : (moveStep cornerLevel (1 / 20)
        (beforeMove cornerLevel downRightKey (1 / 20) cornerStart)).iceLockedVy = 6 / Real.sqrt 2 :=
      (d4 hy).trans mly
    have hflag : (moveStep cornerLevel (1 / 20)
        (beforeMove cornerLevel downRightKey (1 / 20) cornerStart)).playerOnIce = true := by
      by_contra hc
      have hf : (moveStep cornerLevel (1 / 20)
          (beforeMove cornerLevel downRightKey (1 / 20) cornerStart)).playerOnIce = false := by
        simpa using hc
      have hz := (d5.mp hf).2
      rw [ly] at hz
      linarith
    have hp : (moveStep cornerLevel (1 / 20)
        (beforeMove cornerLevel downRightKey (1 / 20) cornerStart)).player
        = { x := 539 / 10, y := 537 / 10 + 6 / Real.sqrt 2 * (1 / 20) } := by
      rw [moveStep_player, (newY_cases cornerLevel (1 / 20) _).2 hy,
        (newX_cases cornerLevel (1 / 20) _).1 hx, mp, mvy]
      obtain ⟨k1, k2⟩ := clamp_corner (539 / 10) (537 / 10 + 6 / Real.sqrt 2 * (1 / 20))
        ⟨by norm_num, by norm_num⟩ ⟨by linarith, by linarith⟩
      show ({ x := max (PLAYER_SIZE / 2)
                (min ((cornerLevel.COLS : ℝ) * TILE - PLAYER_SIZE / 2) (539 / 10)),
              y := max (PLAYER_SIZE / 2)
                (min ((cornerLevel.ROWS : ℝ) * TILE - PLAYER_SIZE / 2)
                  (537 / 10 + 6 / Real.sqrt 2 * (1 / 20))) } : Player) = _
      rw [k1, k2]
    have hvx : (moveStep cornerLevel (1 / 20)
        (beforeMove cornerLevel downRightKey (1 / 20) cornerStart)).playerVx = 6 / Real.sqrt 2 := mvx
    have hvy : (moveStep cornerLevel (1 / 20)
        (beforeMove cornerLevel downRightKey (1 / 20) cornerStart)).playerVy = 6 / Real.sqrt 2 := mvy
    unfold cornerSlid
    refine ⟨?_, ?_, ⟨?_, ?_⟩, ⟨?_, ?_⟩, hq⟩
    · rw [he]; exact hp
    · rw [he]; exact hflag
    · rw [he]; exact lx
    · rw [he]; exact ly
    · rw [he]; exact hvx
    · rw [he]; exact hvy
  -- The second tick of the slide: the Y move is rejected by the wall below, the
  -- lock is exhausted and the ice flag is cleared; the velocity applied is
  -- `(0, 6 / sqrt 2)`.
  have cornerStopped_facts :
      cornerStopped.player = { x := 539 / 10, y := 537 / 10 + 6 / Real.sqrt 2 * (1 / 20) } ∧
      cornerStopped.playerOnIce = false ∧
      (cornerStopped.iceLockedVx = 0 ∧ cornerStopped.iceLockedVy = 0) ∧
      (cornerStopped.playerVx = 0 ∧ cornerStopped.playerVy = 6 / Real.sqrt 2) ∧
      (cornerStopped.playerDying = false ∧ cornerStopped.playEnemies = [] ∧
        cornerStopped.playKeys = [] ∧ cornerStopped.playCoins = [] ∧
        cornerStopped.deathCooldown = 0 ∧ cornerStopped.playDoors = []) := by
    obtain ⟨c1, c2⟩ := corner_bounds
    obtain ⟨sp, so, ⟨slx, sly⟩, -, sq⟩ := cornerSlid_facts
    have hice : nowOnIce cornerLevel cornerSlid.player := by
      refine nowOnIce_corner _ ?_ ?_
      · rw [sp]; exact ⟨by norm_num, by norm_num⟩
      · rw [sp]; exact ⟨by show (32 : ℝ) ≤ 537 / 10 + 6 / Real.sqrt 2 * (1 / 20); linarith,
          by show 537 / 10 + 6 / Real.sqrt 2 * (1 / 20) < (64 : ℝ); linarith⟩
    obtain ⟨he, hq⟩ := quiet_tick cornerLevel cornerLevel_grid rfl noKeys (1 / 20) cornerSlid sq
    have hm := beforeMove_locked cornerLevel noKeys (1 / 20) cornerSlid hice so
    have mp : (beforeMove cornerLevel noKeys (1 / 20) cornerSlid).player
        = { x := 539 / 10, y := 537 / 10 + 6 / Real.sqrt 2 * (1 / 20) } := by rw [hm]; exact sp
    have mvx : (beforeMove cornerLevel noKeys (1 / 20) cornerSlid).playerVx = 0 := by
      rw [hm]; exact slx
    have mvy : (beforeMove cornerLevel noKeys (1 / 20) cornerSlid).playerVy = 6 / Real.sqrt 2 := by
      rw [hm]; exact sly
    have mlx : (beforeMove cornerLevel noKeys (1 / 20) cornerSlid).iceLockedVx = 0 := by
      rw [hm]; exact slx
    have mice : (beforeMove cornerLevel noKeys (1 / 20) cornerSlid).playerOnIce = true := by
      rw [hm]; exact so
    have md : (beforeMove cornerLevel noKeys (1 / 20) cornerSlid).playDoors = [] := by
      rw [hm]; exact sq.2.2.2.2.2
    have e10 : PLAYER_SIZE / 2 - 1 = 10 := by unfold PLAYER_SIZE; norm_num
    have hx : ¬ xRejected cornerLevel (1 / 20) (beforeMove cornerLevel noKeys (1 / 20) cornerSlid) := by
      unfold xRejected
      rw [mp, mvx, md, exists_corner_blocked_iff cornerLevel _ List.Pairwise.nil, not_not]
      exact cornersFree_corner _ _ ⟨by norm_num, by norm_num⟩
        ⟨by show (42 : ℝ) ≤ 537 / 10 + 6 / Real.sqrt 2 * (1 / 20) + 0; linarith,
          by show 537 / 10 + 6 / Real.sqrt 2 * (1 / 20) + 0 < (54 : ℝ); linarith⟩
    have hy : yRejected cornerLevel (1 / 20) (beforeMove cornerLevel noKeys (1 / 20) cornerSlid) := by
      unfold yRejected
      rw [(newX_cases cornerLevel (1 / 20) _).2 hx, mp, mvx, mvy, md]
      refine ⟨{ px := 539 / 10 + 0 * (1 / 20) + 0 - 10,
                py := 537 / 10 + 6 / Real.sqrt 2 * (1 / 20) + 6 / Real.sqrt 2 * (1 / 20) + 10 }, ?_, ?_⟩
      · simp [corners, e10]
      · refine cornerBlocked_of_wall cornerLevel _ _ 1 2
          (floor_div32 _ 1 (by norm_num) (by norm_num))
          (floor_div32 _ 2 (by norm_num; linarith) (by norm_num; linarith)) ?_
        simp [cornerLevel, TILE_ICE, TILE_WALL]
    obtain ⟨-, d2, d3, -, d5⟩ := moveStep_decay cornerLevel (1 / 20) _ mice
    have lx : (moveStep cornerLevel (1 / 20)
        (beforeMove cornerLevel noKeys (1 / 20) cornerSlid)).iceLockedVx = 0 := (d2 hx).trans mlx
    have ly : (moveStep cornerLevel (1 / 20)
        (beforeMove cornerLevel noKeys (1 / 20) cornerSlid)).iceLockedVy = 0 :=
      d3 hy (by rw [mvy]; intro h0; linarith)
    have hflag : (moveStep cornerLevel (1 / 20)
        (beforeMove cornerLevel noKeys (1 / 20) cornerSlid)).playerOnIce = false := d5.mpr ⟨lx, ly⟩
    have hp : (moveStep cornerLevel (1 / 20)
        (beforeMove cornerLevel noKeys (1 / 20) cornerSlid)).player
        = { x := 539 / 10, y := 537 / 10 + 6 / Real.sqrt 2 * (1 / 20) } := by
      rw [moveStep_player, (newY_cases cornerLevel (1 / 20) _).1 hy,
        (newX_cases cornerLevel (1 / 20) _).2 hx, mp, mvx]
      obtain ⟨k1, k2⟩ := clamp_corner (539 / 10 + 0 * (1 / 20))
        (537 / 10 + 6 / Real.sqrt 2 * (1 / 20))
        ⟨by norm_num, by norm_num⟩ ⟨by linarith, by linarith⟩
      show ({ x := max (PLAYER_SIZE / 2)
                (min ((cornerLevel.COLS : ℝ) * TILE - PLAYER_SIZE / 2) (539 / 10 + 0 * (1 / 20))),
              y := max (PLAYER_SIZE / 2)
                (min ((cornerLevel.ROWS : ℝ) * TILE - PLAYER_SIZE / 2)
                  (537 / 10 + 6 / Real.sqrt 2 * (1 / 20))) } : Player) = _
      rw [k1, k2]
      norm_num
    have hvx : (moveStep cornerLevel (1 / 20)
        (beforeMove cornerLevel noKeys (1 / 20) cornerSlid)).playerVx = 0 := mvx
    have hvy : (moveStep cornerLevel (1 / 20)
        (beforeMove cornerLevel noKeys (1 / 20) cornerSlid)).playerVy = 6 / Real.sqrt 2 := mvy
    unfold cornerStopped
    refine ⟨?_, ?_, ⟨?_, ?_⟩, ⟨?_, ?_⟩, hq⟩
    · rw [he]; exact hp
    · rw [he]; exact hflag
    · rw [he]; exact lx
    · rw [he]; exact ly
    · rw [he]; exact hvx
    · rw [he]; exact hvy
  -- The tick after the exhaustion with the left arrow held: the player moves
  -- left.
  have cornerStopped_left :
      (updatePlay cornerLevel leftKey (1 / 20) cornerStopped).player
        = { x := 268 / 5, y := 537 / 10 + 6 / Real.sqrt 2 * (1 / 20) } := by
    obtain ⟨c1, c2⟩ := corner_bounds
    obtain ⟨sp, so, -, ⟨svx, svy⟩, sq⟩ := cornerStopped_facts
    have hice : nowOnIce cornerLevel cornerStopped.player := by
      refine nowOnIce_corner _ ?_ ?_
      · rw [sp]; exact ⟨by norm_num, by norm_num⟩
      · rw [sp]; exact ⟨by show (32 : ℝ) ≤ 537 / 10 + 6 / Real.sqrt 2 * (1 / 20); linarith,
          by show 537 / 10 + 6 / Real.sqrt 2 * (1 / 20) < (64 : ℝ); linarith⟩
    have hx : inputX leftKey = -1 := by simp [inputX, leftKey]
    have hy : inputY leftKey = 0 := by simp [inputY, leftKey]
    have hlock : entryLock cornerLevel leftKey cornerStopped = (-6, 0) := by
      unfold entryLock
      rw [svx, svy, hypot_right _ (by linarith), if_neg (by intro h; linarith), hx, hy,
        if_pos (Or.inl (by norm_num))]
      unfold inputVelocity
      dsimp only
      rw [hx, hy, if_neg (by simp)]
      refine Prod.ext ?_ ?_
      · show (-1 : ℝ) * 1 * 6 = -6
        norm_num
      · show (0 : ℝ) * 1 * 6 = 0
        norm_num
    have hr : reachesMove cornerLevel (1 / 20) cornerStopped :=
      reachesMove_of_no_limit cornerLevel _ _ rfl sq.1
    have hm := beforeMove_entry cornerLevel leftKey (1 / 20) cornerStopped hice so
    rw [hlock] at hm
    have mp : (beforeMove cornerLevel leftKey (1 / 20) cornerStopped).player
        = { x := 539 / 10, y := 537 / 10 + 6 / Real.sqrt 2 * (1 / 20) } := by rw [hm]; exact sp
    have mvx : (beforeMove cornerLevel leftKey (1 / 20) cornerStopped).playerVx = -6 := by rw [hm]
    have mvy : (beforeMove cornerLevel leftKey (1 / 20) cornerStopped).playerVy = 0 := by rw [hm]
    have md : (beforeMove cornerLevel leftKey (1 / 20) cornerStopped).playDoors = [] := by
      rw [hm]; exact sq.2.2.2.2.2
    rw [player_updatePlay cornerLevel leftKey (1 / 20) cornerStopped hr]
    refine (moveStep_player_of_free cornerLevel (1 / 20) _ ?_ ?_ ?_).trans ?_
    · rw [md]; exact List.Pairwise.nil
    · rw [mp, mvx, md]
      exact cornersFree_corner _ _ ⟨by norm_num, by norm_num⟩
        ⟨by show (42 : ℝ) ≤ 537 / 10 + 6 / Real.sqrt 2 * (1 / 20) + 0; linarith,
          by show 537 / 10 + 6 / Real.sqrt 2 * (1 / 20) + 0 < (54 : ℝ); linarith⟩
    · rw [mp, mvx, mvy, md]
      exact cornersFree_corner _ _ ⟨by norm_num, by norm_num⟩
        ⟨by show (42 : ℝ) ≤ 537 / 10 + 6 / Real.sqrt 2 * (1 / 20) + 0 * (1 / 20); linarith,
          by show 537 / 10 + 6 / Real.sqrt 2 * (1 / 20) + 0 * (1 / 20) < (54 : ℝ); linarith⟩
    · rw [mp, mvx, mvy]
      obtain ⟨k1, k2⟩ := clamp_corner (539 / 10 + -6 * (1 / 20))
        (537 / 10 + 6 / Real.sqrt 2 * (1 / 20) + 0 * (1 / 20))
        ⟨by norm_num, by norm_num⟩ ⟨by linarith, by linarith⟩
      show ({ x := max (PLAYER_SIZE / 2)
                (min ((cornerLevel.COLS : ℝ) * TILE - PLAYER_SIZE / 2) (539 / 10 + -6 * (1 / 20))),
              y := max (PLAYER_SIZE / 2)
                (min ((cornerLevel.ROWS : ℝ) * TILE - PLAYER_SIZE / 2)
                  (537 / 10 + 6 / Real.sqrt 2 * (1 / 20) + 0 * (1 / 20))) } : Player) = _
      rw [k1, k2]
      norm_num
  -- The tick after the exhaustion with no key held: the player stays.
  have cornerStopped_idle :
      (updatePlay cornerLevel noKeys (1 / 20) cornerStopped).player
        = { x := 539 / 10, y := 537 / 10 + 6 / Real.sqrt 2 * (1 / 20) } := by
    obtain ⟨c1, c2⟩ := corner_bounds
    obtain ⟨sp, so, -, ⟨svx, svy⟩, sq⟩ := cornerStopped_facts
    have hr : reachesMove cornerLevel (1 / 20) cornerStopped :=
      reachesMove_of_no_limit cornerLevel _ _ rfl sq.1
    have hslow : hypot cornerStopped.playerVx cornerStopped.playerVy ≤ 5 := by
      rw [svx, svy, hypot_right _ (by linarith)]
      linarith
    rw [(rest_tick cornerLevel noKeys (1 / 20) cornerStopped hr noDirection_noKeys so hslow).1, sp]
    obtain ⟨k1, k2⟩ := clamp_corner (539 / 10) (537 / 10 + 6 / Real.sqrt 2 * (1 / 20))
      ⟨by norm_num, by norm_num⟩ ⟨by linarith, by linarith⟩
    show ({ x := max (PLAYER_SIZE / 2)
              (min ((cornerLevel.COLS : ℝ) * TILE - PLAYER_SIZE / 2) (539 / 10)),
            y := max (PLAYER_SIZE / 2)
              (min ((cornerLevel.ROWS : ℝ) * TILE - PLAYER_SIZE / 2)
                (537 / 10 + 6 / Real.sqrt 2 * (1 / 20))) } : Player) = _
    rw [k1, k2]
  exact ⟨hypot_right, clamp_corner, entryLock_cornerStart, cornerSlid_facts, cornerStopped_facts,
    cornerStopped_left, cornerStopped_idle⟩

/-- The counterexample to C29 as worded: in `cornerLevel`, speed 6, the player
on the ice tile slides down and right with the velocity `(6/sqrt 2, 6/sqrt 2)`,
of magnitude `> 5`, into the wall on its right (the locked X component is
zeroed, the lock stays on), then into the wall below it (the locked Y component
is zeroed, the flag is cleared).  The velocity applied in that last tick is
`(0, 6/sqrt 2)`, of magnitude `<= 5`, so the next tick, still on the ice tile,
reads the keys: with the left arrow held the player moves left, with no key
held it stays.  The player has slid into a wall on ice, has stayed on the ice
tile, and has input control again. -/
theorem relock_after_exhaustion_counterexample :
    (nowOnIce cornerLevel cornerStart.player ∧ nowOnIce cornerLevel cornerSlid.player ∧
      cornerSlid.playerOnIce = true ∧ hypot cornerSlid.playerVx cornerSlid.playerVy > 5 ∧
      cornerSlid.iceLockedVx = 0 ∧ cornerSlid.iceLockedVy ≠ 0) ∧
    (nowOnIce cornerLevel cornerStopped.player ∧ cornerStopped.playerOnIce = false ∧
      cornerStopped.iceLockedVx = 0 ∧ cornerStopped.iceLockedVy = 0) ∧
    (nowOnIce cornerLevel (updatePlay cornerLevel leftKey (1 / 20) cornerStopped).player ∧
      nowOnIce cornerLevel (updatePlay cornerLevel noKeys (1 / 20) cornerStopped).player ∧
      updatePlay cornerLevel leftKey (1 / 20) cornerStopped
        ≠ updatePlay cornerLevel noKeys (1 / 20) cornerStopped) := by
  have corner_bounds := cornerLevel_evaluation.2.1
  have nowOnIce_corner := cornerLevel_evaluation.2.2.2.2.2.2
  have cornerSlid_facts := cornerLevel_evaluation_b.2.2.2.1
  have cornerStopped_facts := cornerLevel_evaluation_b.2.2.2.2.1
  have cornerStopped_left := cornerLevel_evaluation_b.2.2.2.2.2.1
  have cornerStopped_idle := cornerLevel_evaluation_b.2.2.2.2.2.2
  obtain ⟨c1, c2⟩ := corner_bounds
  obtain ⟨ap, ao, ⟨alx, aly⟩, ⟨avx, avy⟩, -⟩ := cornerSlid_facts
  obtain ⟨bp, bo, ⟨blx, bly⟩, -, -⟩ := cornerStopped_facts
  have hyb : (32 : ℝ) ≤ 537 / 10 + 6 / Real.sqrt 2 * (1 / 20) ∧
      537 / 10 + 6 / Real.sqrt 2 * (1 / 20) < (64 : ℝ) := ⟨by linarith, by linarith⟩
  refine ⟨⟨?_, ?_, ao, ?_, alx, ?_⟩, ⟨?_, bo, blx, bly⟩, ?_, ?_, ?_⟩
  · exact nowOnIce_corner _ ⟨by norm_num [cornerStart, demoPlay], by norm_num [cornerStart, demoPlay]⟩
      ⟨by norm_num [cornerStart, demoPlay], by norm_num [cornerStart, demoPlay]⟩
  · refine nowOnIce_corner _ ?_ ?_
    · rw [ap]; exact ⟨by norm_num, by norm_num⟩
    · rw [ap]; exact hyb
  · rw [avx, avy]
    unfold hypot
    rw [gt_iff_lt, Real.lt_sqrt (by norm_num)]
    nlinarith
  · rw [aly]
    intro h0
    linarith
  · refine nowOnIce_corner _ ?_ ?_
    · rw [bp]; exact ⟨by norm_num, by norm_num⟩
    · rw [bp]; exact hyb
  · rw [cornerStopped_left]
    exact nowOnIce_corner _ ⟨by norm_num, by norm_num⟩ hyb
  · rw [cornerStopped_idle]
    exact nowOnIce_corner _ ⟨by norm_num, by norm_num⟩ hyb
  · intro h
    have hx := congrArg (fun s => s.player.x) h
    dsimp only at hx
    rw [cornerStopped_left, cornerStopped_idle] at hx
    norm_num at hx

theorem fastSlide_wallSlide : fastSlide wallSlidePlay := by
  left
  refine ⟨rfl, Or.inl ?_, fun _ => ?_, fun h => ?_⟩
  · show (120 : ℝ) ≠ 0
    norm_num
  · show (5 : ℝ) < |120|
    rw [abs_of_pos (by norm_num)]
    norm_num
  · exact absurd rfl h

theorem relock_after_exhaustion_witness :
    nowOnIce wallLevel wallSlidePlay.player ∧ fastSlide wallSlidePlay ∧
    updatePlay wallLevel rightKey (1 / 20) wallSlidePlay
      = updatePlay wallLevel leftKey (1 / 20) wallSlidePlay ∧
    fastSlide (updatePlay wallLevel rightKey (1 / 20) wallSlidePlay) :=
  have nowOnIce_wallSlide := wallSlide_evaluation.2.2.2.1
  have h := (relock_after_exhaustion wallLevel (1 / 20) wallSlidePlay nowOnIce_wallSlide).2.2
    fastSlide_wallSlide
  ⟨nowOnIce_wallSlide, fastSlide_wallSlide, h.1 rightKey leftKey, h.2.1 rightKey⟩

theorem buildEnemy_orbit_en : (buildEnemy orbitEnemy).en.isOrbit = true := by
  unfold buildEnemy
  rw [if_pos (show orbitEnemy.isOrbit = true from rfl)]
  rfl

theorem orbit_stays_on_circle_witness :
    onCircle (buildEnemy orbitEnemy) ∧ onCircle (advanceEnemy (1 / 20) (buildEnemy orbitEnemy)) :=
  have h := orbit_stays_on_circle demoLevel (demoPlay 16 16) []
  ⟨h.1 orbitEnemy rfl, h.2.1 (1 / 20) (buildEnemy orbitEnemy) buildEnemy_orbit_en⟩

end TWHG
